import Mathlib

/-!
# avr_net: a shallow embedding of the protocol core

The target is an 8-bit AVR: `unsigned int` is 16 bits wide, `int` is 16-bit two's
complement.  Unsigned machine integers are natural numbers reduced `% 65536` wherever the
C arithmetic can wrap.  Bytes are natural numbers below 256: every `char` buffer is read
as unsigned bytes.  A region of memory reached through a C pointer is a function from the
offset to the byte stored there.

What tcp.c emits is recorded as the list of the calls of `ip_send` that `tcp_send` makes;
what `ip_send` does with a segment belongs to ip.c.  Code whose behaviour C leaves
undefined (a remainder by zero) or that waits for another context for ever (reading an
empty fifo) has no result: the functions concerned return an `Option`.
-/

namespace AvrNet

/-! ## Machine integers and memory -/

/-- A region of memory seen through a pointer: offset to byte. -/
abbrev Mem := Nat → Nat

/-- The memory region holding the bytes of a list (zero beyond its end). -/
def memOfList (l : List Nat) : Mem := fun i => l.getD i 0

/-- The first `n` bytes of a memory region. -/
def bytesAt (m : Mem) (n : Nat) : List Nat := (List.range n).map m

/-- Conversion of a C `int` value to the 16-bit `unsigned int`. -/
def toU16 (x : Int) : Nat := (x % 65536).toNat

/-- Conversion of a 16-bit `unsigned int` to `int` (two's complement). -/
def toI16 (u : Nat) : Int := if u % 65536 < 32768 then (u % 65536 : Nat) else (u % 65536 : Nat) - 65536

/-! ## ip.c: the checksum -/

/-- The body of the `for` loop of `ip_calculateChecksum`, run for the `n` remaining
iterations starting at index `cnt` with the running value `checksum`. -/
def ip_calculateChecksum_loop (ptr : Mem) : Nat → Nat → Nat → Nat
  | 0, _, checksum => checksum
  | n + 1, cnt, checksum =>
    let operand := (if cnt % 2 ≠ 0 then ptr cnt else ptr cnt <<< 8) % 65536
    let newChecksum := (checksum + 65536 - operand) % 65536
    let newChecksum := if newChecksum > checksum then newChecksum - 1 else newChecksum
    ip_calculateChecksum_loop ptr n (cnt + 1) newChecksum

/-- The function `ip_calculateChecksum(ptr, len)` of ip.c. -/
def ip_calculateChecksum (ptr : Mem) (len : Nat) : Nat :=
  ip_calculateChecksum_loop ptr len 0 0xFFFF

/-! ### The RFC 1071 checksum, written from its definition -/

/-- The big-endian 16-bit words of a byte sequence; an odd trailing byte is padded with a
zero low byte. -/
def words16 : List Nat → List Nat
  | [] => []
  | [a] => [a * 256]
  | a :: b :: rest => (a * 256 + b) :: words16 rest

/-- One's complement addition of two 16-bit values: the carry out of bit 15 is added back
in at bit 0. -/
def onesAdd (a b : Nat) : Nat :=
  if a + b ≥ 65536 then a + b - 65536 + 1 else a + b

/-- The end-around-carry sum of a list of 16-bit words. -/
def onesSum (ws : List Nat) : Nat := ws.foldl onesAdd 0

/-- The RFC 1071 Internet checksum: the 16-bit one's complement of the end-around-carry
sum of the 16-bit words. -/
def rfc1071 (p : List Nat) : Nat := 0xFFFF - onesSum (words16 p)

/-- Writing a 16-bit checksum big-endian into the two bytes at offset `k`. -/
def writeChecksum (s : List Nat) (k c : Nat) : List Nat :=
  (s.set k (c >>> 8)).set (k + 1) (c &&& 0xFF)

/-! ### Auxiliary notions for the checksum proofs -/

/-- The weight a byte carries in the 16-bit word sum: high byte at even index. -/
def byteWeight (i b : Nat) : Nat := if i % 2 ≠ 0 then b else b * 256

/-- The weighted sum of the bytes of a list whose first element sits at index `i`. -/
def weightedSum : List Nat → Nat → Nat
  | [], _ => 0
  | b :: rest, i => byteWeight i b + weightedSum rest (i + 1)

/-- The representative in `0 .. 65535` of a sum in one's complement arithmetic: zero only
for zero, `65535` for the other multiples of `65535`. -/
def onesNorm (n : Nat) : Nat := if n = 0 then 0 else (n - 1) % 65535 + 1

/-! ## fifo.c -/

/-- The `fifo` structure of fifo.h.  `addr` is the storage the fifo points at; the `int`
fields hold non-negative values and are natural numbers. -/
structure fifo where
  addr : Mem
  lock : Nat
  readPtr : Nat
  writePtr : Nat
  size : Nat

/-- The function `fifo_initialize(fout, fsize, faddr)`: every field is overwritten. -/
def fifo_initialize (fsize : Nat) (faddr : Mem) : fifo :=
  { addr := faddr, size := fsize, writePtr := 0, readPtr := 0, lock := 0 }

/-- The function `fifo_reset(fout)`. -/
def fifo_reset (fout : fifo) : fifo :=
  { fout with writePtr := 0, readPtr := 0, lock := 0 }

/-- The function `fifo_putc(fout, chr)`: the returned `int` and the fifo afterwards.  The
remainder by a `size` of zero is undefined in C: no result. -/
def fifo_putc (fout : fifo) (chr : Nat) : Option (Int × fifo) :=
  if fout.size = 0 then none
  else
    let newWritePtr := (fout.writePtr + 1) % fout.size
    if newWritePtr ≠ fout.readPtr then
      some (0, { fout with addr := Function.update fout.addr fout.writePtr chr,
                           writePtr := newWritePtr })
    else some (-1, fout)

/-- The function `fifo_getc(fin)`: the byte read and the fifo afterwards.  On an empty fifo
the C function spins until another context writes; taken alone it never returns: no
result.  The remainder by a `size` of zero is undefined: no result. -/
def fifo_getc (fin : fifo) : Option (Nat × fifo) :=
  if fin.writePtr = fin.readPtr then none
  else if fin.size = 0 then none
  else some (fin.addr fin.readPtr, { fin with readPtr := (fin.readPtr + 1) % fin.size })

/-- The function `fifo_length(fin)`: an `int` difference returned as `unsigned int`. -/
def fifo_length (fin : fifo) : Nat :=
  let bytesAvailable : Int := (fin.writePtr : Int) - (fin.readPtr : Int)
  if bytesAvailable ≥ 0 then toU16 bytesAvailable else toU16 (bytesAvailable + (fin.size : Int))

/-- The function `fifo_size(fin)`: the `int` size returned as `unsigned int`. -/
def fifo_size (fin : fifo) : Nat := fin.size % 65536

/-- The indices of a fifo lie within its storage (and the size is an `int`). -/
def fifo_wf (f : fifo) : Prop :=
  f.readPtr < f.size ∧ f.writePtr < f.size ∧ f.size ≤ 32767

instance (f : fifo) : Decidable (fifo_wf f) := by unfold fifo_wf; infer_instance

/-- The bytes stored from `readPtr` up to `writePtr`, cyclically. -/
def fifo_contents (f : fifo) : List Nat :=
  (List.range (fifo_length f)).map (fun i => f.addr ((f.readPtr + i) % f.size))

/-- Consecutive calls of `fifo_putc`, one per byte: the returned values and the fifo. -/
def fifo_putc_all (f : fifo) : List Nat → Option (List Int × fifo)
  | [] => some ([], f)
  | c :: cs =>
    match fifo_putc f c with
    | none => none
    | some (r, f1) =>
      match fifo_putc_all f1 cs with
      | none => none
      | some (rs, f2) => some (r :: rs, f2)

/-- The result of `n` consecutive calls of `fifo_getc`: the bytes read and the fifo. -/
def fifo_getc_n (f : fifo) : Nat → Option (List Nat × fifo)
  | 0 => some ([], f)
  | n + 1 =>
    match fifo_getc f with
    | none => none
    | some (c, f1) =>
      match fifo_getc_n f1 n with
      | none => none
      | some (cs, f2) => some (c :: cs, f2)

/-! ## tcp.c -/

/-- The `stream` structure of fifo.h (`in` is a reserved word: the fields are `in_`, `out`). -/
structure stream where
  in_ : fifo
  out : fifo

/-- The `tcpSocket` structure of tcp.h, without the `FILE stdio` handle.  The 4-byte arrays
are lists of bytes. -/
structure tcpSocket where
  state : Nat
  localPort : Nat
  remotePort : Nat
  destIP : List Nat
  ackNum : List Nat
  seqNum : List Nat
  ackState : Nat
  retryCounter : Nat
  strm : stream
  streamTimeout : Nat
  lastWindowSize : Nat
  fsBuf : fifo

def MAX_TCP_SOCKETS : Nat := 4
def TCP_TX_BUF_SIZE : Nat := 220
def TCP_TOTAL_RETRIES : Nat := 2
def TCP_RETRY_INTERVAL : Nat := 1000

def TCPSOCKETSTATE_UNUSED : Nat := 0
def TCPSOCKETSTATE_LISTEN : Nat := 1
def TCPSOCKETSTATE_SYN_SENT : Nat := 2
def TCPSOCKETSTATE_ESTABLISHED : Nat := 4
def TCPSOCKETSTATE_FIN_WAIT_1 : Nat := 5
def TCPSOCKETSTATE_UNKNOWN : Nat := 12

def TCPFLAGS_ACK : Nat := 0x10
def TCPFLAGS_PSH : Nat := 0x08
def TCPFLAGS_SYN : Nat := 0x02
def TCPFLAGS_FIN : Nat := 0x01

def IPPACKETTYPE_TCP : Nat := 0x06

/-- The length of the payload area `payloadBuf = packetBuf + 32`, as `tcp_initialise` sets
it: `sizeof(packetBuf) - 32`. -/
def payloadBufLen : Nat := TCP_TX_BUF_SIZE - 32

/-- The four bytes of a 4-byte array. -/
def take4 (l : List Nat) : List Nat := [l.getD 0 0, l.getD 1 0, l.getD 2 0, l.getD 3 0]

/-- The four bytes of a memory region from offset `off`. -/
def read4 (m : Mem) (off : Nat) : List Nat := [m off, m (off + 1), m (off + 2), m (off + 3)]

/-- The call `memcpy(dst + off, src, n)` for a source array given as a list. -/
def memcpy (dst : Mem) (off : Nat) (src : List Nat) (n : Nat) : Mem :=
  fun i => if off ≤ i ∧ i < off + n then src.getD (i - off) 0 else dst i

/-- The common body of `increaseSeqNum` and `increaseAckNum`: the 4-byte big-endian counter
is read as two 16-bit halves, `len` (an `int`) is added to the low half in `unsigned int`
arithmetic and a carry increments the high half. -/
def increaseNum (num : List Nat) (len : Int) : List Nat :=
  let oldCnt0 := ((num.getD 2 0 <<< 8) ||| num.getD 3 0) % 65536
  let oldCnt1 := ((num.getD 0 0 <<< 8) ||| num.getD 1 0) % 65536
  let oldCnt1 := if (oldCnt0 + toU16 len) % 65536 < oldCnt0 then (oldCnt1 + 1) % 65536 else oldCnt1
  let oldCnt0 := (oldCnt0 + toU16 len) % 65536
  [(oldCnt1 >>> 8) % 256, (oldCnt1 &&& 0xFF) % 256, (oldCnt0 >>> 8) % 256, (oldCnt0 &&& 0xFF) % 256]

/-- The function `increaseSeqNum(socket, len)`. -/
def increaseSeqNum (socket : tcpSocket) (len : Int) : tcpSocket :=
  { socket with seqNum := increaseNum socket.seqNum len }

/-- The function `increaseAckNum(socket, len)`. -/
def increaseAckNum (socket : tcpSocket) (len : Int) : tcpSocket :=
  { socket with ackNum := increaseNum socket.ackNum len }

/-- The value of a 4-byte big-endian counter. -/
def be32 (l : List Nat) : Nat :=
  ((l.getD 0 0 * 256 + l.getD 1 0) * 256 + l.getD 2 0) * 256 + l.getD 3 0

/-- The 4 big-endian bytes of a 32-bit value. -/
def bytes32 (v : Nat) : List Nat :=
  [v / 16777216 % 256, v / 65536 % 256, v / 256 % 256, v % 256]

/-- One call `ip_send(ip, protocol, message, msgLen)` made by `tcp_send`; `sock` is the
index of the socket `tcp_send` was called for, `message` the `msgLen` bytes passed. -/
structure ipSendCall where
  sock : Nat
  ip : List Nat
  protocol : Nat
  message : List Nat
  msgLen : Nat
deriving DecidableEq

/-- The flags byte of an emitted TCP segment. -/
def ipSendCall.flags (c : ipSendCall) : Nat := c.message.getD 13 0

/-- The sequence number field of an emitted TCP segment. -/
def ipSendCall.seqField (c : ipSendCall) : List Nat := (c.message.drop 4).take 4

/-- The acknowledgement number field of an emitted TCP segment. -/
def ipSendCall.ackField (c : ipSendCall) : List Nat := (c.message.drop 8).take 4

/-- The payload of an emitted TCP segment: what follows the 20 header bytes. -/
def ipSendCall.payload (c : ipSendCall) : List Nat := c.message.drop 20

/-- The module state of tcp.c: the socket table, the packet buffer, the re-entrancy flag;
with it the local IP address of ip.c and the calls of `ip_send` made so far. -/
structure tcpState where
  sockets : Nat → tcpSocket
  packetBuf : Mem
  sustainer_running : Nat
  localIP : List Nat
  sent : List ipSendCall

/-- Assignment to `sockets[cnt]`. -/
def setSocket (st : tcpState) (cnt : Nat) (s : tcpSocket) : tcpState :=
  { st with sockets := Function.update st.sockets cnt s }

/-- The receive window `tcp_send` advertises: `strm.in.size - fifo_length(&strm.in)` in
`unsigned int` arithmetic, replaced by 0 when below `TCP_RX_BUF_MIN_SIZE * fifo_size(out)`.
The comparison with half the size is exact in integers as `2 * windowSize < fifo_size(out)`. -/
def tcp_windowSize (socket : tcpSocket) : Nat :=
  let windowSize := (socket.strm.in_.size % 65536 + 65536 - fifo_length socket.strm.in_) % 65536
  if 2 * windowSize < fifo_size socket.strm.out then 0 else windowSize

/-- The stores of `tcp_send` into `packetBuf` up to the flags byte, in source order: pseudo
header at offset 0, TCP header at offset 12, checksum field zero. -/
def tcp_buildHeader (pb : Mem) (localIP : List Nat) (socket : tcpSocket) (flags len : Nat) :
    Mem :=
  let pb := memcpy pb 0 localIP 4
  let pb := memcpy pb 4 socket.destIP 4
  let pb := Function.update pb 9 IPPACKETTYPE_TCP
  let pb := Function.update pb 8 0x00
  let pb := Function.update pb 10 ((((len + 20) % 65536) >>> 8) % 256)
  let pb := Function.update pb 11 (((len + 20) % 65536) &&& 0xFF)
  let pb := Function.update pb 12 ((socket.localPort >>> 8) % 256)
  let pb := Function.update pb 13 (socket.localPort &&& 0xFF)
  let pb := Function.update pb 14 ((socket.remotePort >>> 8) % 256)
  let pb := Function.update pb 15 (socket.remotePort &&& 0xFF)
  let pb := Function.update pb 24 (5 <<< 4)
  let pb := Function.update (Function.update pb 29 0x00) 28 0x00
  let pb := memcpy pb 20 socket.ackNum 4
  let pb := memcpy pb 16 socket.seqNum 4
  let pb := Function.update pb 26 ((tcp_windowSize socket >>> 8) % 256)
  let pb := Function.update pb 27 (tcp_windowSize socket &&& 0xFF)
  let pb := Function.update (Function.update pb 31 0x00) 30 0x00
  Function.update pb 25 (flags % 256)

/-- The function `tcp_send(socket, flags, len)` for `socket = &sockets[cnt]`: the header is
built in `packetBuf` in front of the payload at offset 32, the window is stored in the
socket, the checksum over pseudo header, header and payload is inserted, and the segment
at `packetBuf + 12` is handed to `ip_send`. -/
def tcp_send (st : tcpState) (cnt : Nat) (flags : Nat) (len : Nat) : tcpState :=
  let socket := st.sockets cnt
  let pb := tcp_buildHeader st.packetBuf st.localIP socket flags len
  let socket := { socket with lastWindowSize := tcp_windowSize socket }
  let checksum := ip_calculateChecksum pb ((len + 12 + 20) % 65536)
  let pb := Function.update pb 28 ((checksum >>> 8) % 256)
  let pb := Function.update pb 29 (checksum &&& 0xFF)
  { st with
    sockets := Function.update st.sockets cnt socket
    packetBuf := pb
    sent := st.sent ++ [{ sock := cnt, ip := socket.destIP, protocol := IPPACKETTYPE_TCP,
                          message := (List.range ((len + 20) % 65536)).map (fun i => pb (12 + i)),
                          msgLen := (len + 20) % 65536 }] }

/-- The retransmission loop of `tcp_sustain`: `payloadBuf[i] = fifo_getc(&fsBuf)` for the
`n` remaining iterations from index `i`. -/
def tcp_drain (fs : fifo) (pb : Mem) : Nat → Nat → Option (fifo × Mem)
  | 0, _ => some (fs, pb)
  | n + 1, i =>
    match fifo_getc fs with
    | none => none
    | some (c, fs1) => tcp_drain fs1 (Function.update pb (32 + i) c) n (i + 1)

/-- The new-data loop of `tcp_sustain`: `payloadBuf[i] = fifo_getc(&strm.out)` and, when
the holding fifo has a size, `fifo_putc(&fsBuf, payloadBuf[i])`, for the `n` remaining
iterations from index `i`. -/
def tcp_fill (out fs : fifo) (pb : Mem) : Nat → Nat → Option (fifo × fifo × Mem)
  | 0, _ => some (out, fs, pb)
  | n + 1, i =>
    match fifo_getc out with
    | none => none
    | some (c, out1) =>
      let pb1 := Function.update pb (32 + i) c
      if fifo_size fs ≠ 0 then
        match fifo_putc fs (pb1 (32 + i)) with
        | none => none
        | some (_, fs1) => tcp_fill out1 fs1 pb1 n (i + 1)
      else tcp_fill out1 fs pb1 n (i + 1)

/-- The body of the `for` loop of `tcp_sustain` for the socket of index `cnt`. -/
def tcp_sustain_socket (st : tcpState) (cnt : Nat) : Option tcpState :=
  let s := st.sockets cnt
  let s := if s.ackState ≠ 0 then { s with ackState := s.ackState - 1 } else s
  let st := setSocket st cnt s
  if s.state = TCPSOCKETSTATE_SYN_SENT then
    if s.ackState = 0 then
      if s.retryCounter ≠ 0 then
        let st := tcp_send st cnt TCPFLAGS_SYN 0
        let s := st.sockets cnt
        some (setSocket st cnt
          { s with ackState := TCP_RETRY_INTERVAL, retryCounter := s.retryCounter - 1 })
      else some (setSocket st cnt { s with state := TCPSOCKETSTATE_UNKNOWN })
    else some st
  else if s.state = TCPSOCKETSTATE_ESTABLISHED then
    if fifo_size s.fsBuf ≠ 0 ∧ fifo_length s.fsBuf ≠ 0 ∧ s.ackState = 0 then
      if s.retryCounter ≠ 0 then
        let len := toU16 (toI16 (fifo_length s.fsBuf))
        let i := min len payloadBufLen
        match tcp_drain s.fsBuf st.packetBuf i 0 with
        | none => none
        | some (fs, pb) =>
          let st := { setSocket st cnt { s with fsBuf := fs } with packetBuf := pb }
          let st := tcp_send st cnt (TCPFLAGS_ACK ||| TCPFLAGS_PSH) i
          let s := st.sockets cnt
          some (setSocket st cnt { s with retryCounter := s.retryCounter - 1 })
      else some (setSocket st cnt { s with state := TCPSOCKETSTATE_UNKNOWN })
    else if fifo_length s.strm.out ≠ 0 then
      let fcount := fifo_length s.strm.out
      let i := min fcount payloadBufLen
      match tcp_fill s.strm.out s.fsBuf st.packetBuf i 0 with
      | none => none
      | some (out, fs, pb) =>
        let st := { setSocket st cnt { s with strm := { s.strm with out := out }, fsBuf := fs }
                    with packetBuf := pb }
        let st := tcp_send st cnt (TCPFLAGS_ACK ||| TCPFLAGS_PSH) i
        let s := increaseSeqNum (st.sockets cnt) (toI16 i)
        some (setSocket st cnt
          { s with ackState := TCP_RETRY_INTERVAL, retryCounter := TCP_TOTAL_RETRIES })
    else some st
  else some st

/-- The `for` loop of `tcp_sustain`: the `n` remaining sockets from index `cnt`. -/
def tcp_sustain_loop : Nat → Nat → tcpState → Option tcpState
  | 0, _, st => some st
  | n + 1, cnt, st =>
    match tcp_sustain_socket st cnt with
    | none => none
    | some st1 => tcp_sustain_loop n (cnt + 1) st1

/-- The function `tcp_sustain()`. -/
def tcp_sustain (st : tcpState) : Option tcpState :=
  if st.sustainer_running ≠ 0 then some st
  else
    match tcp_sustain_loop MAX_TCP_SOCKETS 0 { st with sustainer_running := 1 } with
    | none => none
    | some st1 => some { st1 with sustainer_running := 0 }

/-- Consecutive calls of `tcp_sustain()` with nothing happening in between. -/
def tcp_sustain_n : Nat → tcpState → Option tcpState
  | 0, st => some st
  | n + 1, st =>
    match tcp_sustain st with
    | none => none
    | some st1 => tcp_sustain_n n st1

/-- The data loop of `tcp_handle`: `fifo_putc(&strm.in, packet[i + base])` for the `n`
remaining iterations from index `i`; the returned value is ignored. -/
def tcp_copyData (f : fifo) (packet : Mem) (base : Nat) : Nat → Nat → Option fifo
  | 0, _ => some f
  | n + 1, i =>
    match fifo_putc f (packet (i + base)) with
    | none => none
    | some (_, f1) => tcp_copyData f1 packet base n (i + 1)

/-- The offset of the TCP header in a received IP packet: `(header->verHLen & 0x0F) * 4`. -/
def tcpOffset (packetData : Mem) : Nat := (packetData 0 &&& 0x0F) * 4

/-- The value `(packet->headerSize >> 4) * 4` of a received packet. -/
def tcpHeaderLen (packetData : Mem) : Nat := (packetData (tcpOffset packetData + 12) >>> 4) * 4

/-- The `dataCount` of `tcp_handle`: total length minus the two header lengths, an `int`
expression stored in an `unsigned int`. -/
def dataCount (packetData : Mem) : Nat :=
  toU16 ((((packetData 2 <<< 8) ||| packetData 3 : Nat) : Int) - (tcpOffset packetData : Nat)
    - (tcpHeaderLen packetData : Nat))

/-- The `remotePort` of `tcp_handle`: the source port of the received segment. -/
def pktRemotePort (packetData : Mem) : Nat :=
  ((packetData (tcpOffset packetData) <<< 8) ||| packetData (tcpOffset packetData + 1)) % 65536

/-- The `localPort` of `tcp_handle`: the destination port of the received segment. -/
def pktLocalPort (packetData : Mem) : Nat :=
  ((packetData (tcpOffset packetData + 2) <<< 8) ||| packetData (tcpOffset packetData + 3)) % 65536

/-- The `codeBits` of the received segment. -/
def pktCodeBits (packetData : Mem) : Nat := packetData (tcpOffset packetData + 13)

/-- The `seqNum` bytes of the received segment. -/
def pktSeqNum (packetData : Mem) : List Nat := read4 packetData (tcpOffset packetData + 4)

/-- The `ackNum` bytes of the received segment. -/
def pktAckNum (packetData : Mem) : List Nat := read4 packetData (tcpOffset packetData + 8)

/-- The `sourceIP` bytes of the received IP header. -/
def pktSourceIP (packetData : Mem) : List Nat := read4 packetData 12

/-- The processing of a segment by an ESTABLISHED socket whose addresses match
(tcp.c, the block that ends with `break`); `send` is the local flag of `tcp_handle`. -/
def tcp_handle_established (st : tcpState) (cnt : Nat) (packetData : Mem) : Option tcpState :=
  let s := st.sockets cnt
  let s :=
    if pktCodeBits packetData &&& TCPFLAGS_ACK ≠ 0 then
      if take4 s.seqNum = pktAckNum packetData then
        { s with ackState := 0, retryCounter := 0, fsBuf := fifo_reset s.fsBuf }
      else s
    else s
  let send : Nat := 0
  let (s, send) :=
    if pktCodeBits packetData &&& TCPFLAGS_SYN ≠ 0 then
      (increaseAckNum { s with ackNum := pktSeqNum packetData }
        (toI16 (1 + dataCount packetData)), 1)
    else (s, send)
  let r : Option (tcpSocket × Nat) :=
    if dataCount packetData ≠ 0 then
      let s := increaseAckNum { s with ackNum := pktSeqNum packetData }
        (toI16 (dataCount packetData))
      match tcp_copyData s.strm.in_ (fun i => packetData (tcpOffset packetData + i))
          (tcpHeaderLen packetData) (dataCount packetData) 0 with
      | none => none
      | some f => some ({ s with strm := { s.strm with in_ := f } }, 1)
    else some (s, send)
  match r with
  | none => none
  | some (s, send) =>
    let st := setSocket st cnt s
    let st :=
      if pktCodeBits packetData &&& TCPFLAGS_FIN ≠ 0 then
        let s := increaseAckNum { s with ackNum := pktSeqNum packetData }
          (toI16 (1 + dataCount packetData))
        let st := tcp_send (setSocket st cnt s) cnt (TCPFLAGS_ACK ||| TCPFLAGS_FIN) 0
        setSocket st cnt { st.sockets cnt with state := TCPSOCKETSTATE_UNKNOWN }
      else st
    if send ≠ 0 then some (tcp_send st cnt TCPFLAGS_ACK 0) else some st

/-- The `for` loop of `tcp_handle`: the `n` remaining sockets from index `cnt`; each block
that ends with `break` ends the loop. -/
def tcp_handle_loop (packetData : Mem) : Nat → Nat → tcpState → Option tcpState
  | 0, _, st => some st
  | n + 1, cnt, st =>
    let s := st.sockets cnt
    if s.state = TCPSOCKETSTATE_SYN_SENT ∧ s.localPort = pktLocalPort packetData then
      if pktCodeBits packetData &&& TCPFLAGS_SYN ≠ 0 ∧
          pktCodeBits packetData &&& TCPFLAGS_ACK ≠ 0 then
        let s := increaseAckNum { s with ackNum := pktSeqNum packetData }
          (toI16 (1 + dataCount packetData))
        let s := { s with state := TCPSOCKETSTATE_ESTABLISHED }
        let st := tcp_send (setSocket st cnt s) cnt TCPFLAGS_ACK 0
        let s := st.sockets cnt
        some (setSocket st cnt
          { s with strm := { in_ := fifo_reset s.strm.in_, out := fifo_reset s.strm.out },
                   fsBuf := fifo_reset s.fsBuf })
      else some st
    else if s.state = TCPSOCKETSTATE_LISTEN ∧ s.localPort = pktLocalPort packetData then
      if pktCodeBits packetData &&& TCPFLAGS_SYN ≠ 0 then
        let s := { s with remotePort := pktRemotePort packetData }
        let s := { s with destIP := pktSourceIP packetData }
        let s := increaseAckNum { s with ackNum := pktSeqNum packetData }
          (toI16 (1 + dataCount packetData))
        let st := tcp_send (setSocket st cnt s) cnt (TCPFLAGS_SYN ||| TCPFLAGS_ACK) 0
        let s := increaseSeqNum (st.sockets cnt) (toI16 (1 + dataCount packetData))
        let s := { s with state := TCPSOCKETSTATE_ESTABLISHED }
        some (setSocket st cnt
          { s with strm := { in_ := fifo_reset s.strm.in_, out := fifo_reset s.strm.out },
                   fsBuf := fifo_reset s.fsBuf })
      else some st
    else if take4 s.destIP = pktSourceIP packetData ∧ s.localPort = pktLocalPort packetData ∧
        s.remotePort = pktRemotePort packetData then
      if s.state = TCPSOCKETSTATE_ESTABLISHED then
        tcp_handle_established st cnt packetData
      else if s.state = TCPSOCKETSTATE_FIN_WAIT_1 ∧
          pktCodeBits packetData &&& TCPFLAGS_FIN ≠ 0 then
        let s := increaseAckNum { s with ackNum := pktSeqNum packetData }
          (toI16 (1 + dataCount packetData))
        let st := tcp_send (setSocket st cnt s) cnt TCPFLAGS_ACK 0
        some (setSocket st cnt { st.sockets cnt with state := TCPSOCKETSTATE_UNKNOWN })
      else tcp_handle_loop packetData n (cnt + 1) st
    else tcp_handle_loop packetData n (cnt + 1) st

/-- The function `tcp_handle(packetData)`. -/
def tcp_handle (st : tcpState) (packetData : Mem) : Option tcpState :=
  tcp_handle_loop packetData MAX_TCP_SOCKETS 0 st

/-- A 4-byte array holding bytes. -/
def isBytes4 (l : List Nat) : Prop := l.length = 4 ∧ ∀ b ∈ l, b < 256

instance (l : List Nat) : Decidable (isBytes4 l) := by unfold isBytes4; infer_instance

/-- The conditions under which the socket `s` ends the loop of `tcp_handle` for the packet:
the guards of the four blocks that end with `break`. -/
def captures (s : tcpSocket) (packetData : Mem) : Prop :=
  (s.state = TCPSOCKETSTATE_SYN_SENT ∧ s.localPort = pktLocalPort packetData) ∨
  (s.state = TCPSOCKETSTATE_LISTEN ∧ s.localPort = pktLocalPort packetData) ∨
  (take4 s.destIP = pktSourceIP packetData ∧ s.localPort = pktLocalPort packetData ∧
    s.remotePort = pktRemotePort packetData ∧
    (s.state = TCPSOCKETSTATE_ESTABLISHED ∨
      (s.state = TCPSOCKETSTATE_FIN_WAIT_1 ∧ pktCodeBits packetData &&& TCPFLAGS_FIN ≠ 0)))

instance (s : tcpSocket) (packetData : Mem) : Decidable (captures s packetData) := by
  unfold captures; infer_instance

/-- A fifo over zeroed storage, as `fifo_initialize` leaves it. -/
def fifo0 (size : Nat) : fifo := fifo_initialize size (fun _ => 0)

/-- A socket with every field zero (state UNUSED) and fifos of the given sizes. -/
def socket0 (inSize outSize fsSize : Nat) : tcpSocket :=
  { state := TCPSOCKETSTATE_UNUSED, localPort := 0, remotePort := 0, destIP := [0, 0, 0, 0],
    ackNum := [0, 0, 0, 0], seqNum := [0, 0, 0, 0], ackState := 0, retryCounter := 0,
    strm := { in_ := fifo0 inSize, out := fifo0 outSize }, streamTimeout := 0,
    lastWindowSize := 0, fsBuf := fifo0 fsSize }

/-- The data bytes of a received segment: the `dataCount` bytes after the two headers. -/
def pktPayload (packetData : Mem) : List Nat :=
  (List.range (dataCount packetData)).map
    (fun i => packetData (tcpOffset packetData + tcpHeaderLen packetData + i))

/-- An IPv4 packet from 192.168.2.50 to 192.168.2.156 carrying a TCP segment with 20-byte
headers; the checksum fields, which `tcp_handle` does not read, are zero. -/
def ipTcpPacket (srcPort dstPort : Nat) (seq ack : List Nat) (flags : Nat)
    (payload : List Nat) : Mem :=
  memOfList ([0x45, 0x00, (40 + payload.length) / 256, (40 + payload.length) % 256,
      0x00, 0x00, 0x40, 0x00, 0x40, 0x06, 0x00, 0x00, 192, 168, 2, 50, 192, 168, 2, 156]
    ++ [srcPort / 256, srcPort % 256, dstPort / 256, dstPort % 256] ++ seq ++ ack
    ++ [0x50, flags, 0x10, 0x00, 0x00, 0x00, 0x00, 0x00] ++ payload)

/-- A table with the given sockets at indices 0 and 1 and unused sockets elsewhere, an
empty packet buffer, local address 192.168.2.156 and nothing sent. -/
def tableOf (s0 s1 : tcpSocket) : tcpState :=
  { sockets := fun i => if i = 0 then s0 else if i = 1 then s1 else socket0 16 16 16,
    packetBuf := fun _ => 0, sustainer_running := 0, localIP := [192, 168, 2, 156], sent := [] }

/-- A socket listening on port 80 (scenario 4 of the specification). -/
def listenSocket : tcpSocket :=
  { socket0 16 16 16 with state := TCPSOCKETSTATE_LISTEN, localPort := 80 }

/-- A socket on port 80 connected to 192.168.2.50 port 1024, with the given sequence and
acknowledgement bytes. -/
def establishedSocket (seq ack : List Nat) : tcpSocket :=
  { socket0 16 16 16 with state := TCPSOCKETSTATE_ESTABLISHED, localPort := 80,
                          remotePort := 1024, destIP := [192, 168, 2, 50],
                          seqNum := seq, ackNum := ack }

/-- The segment PSH|ACK carrying the 5 bytes "hello" with sequence number 1. -/
def helloPacket : Mem :=
  ipTcpPacket 1024 80 [0, 0, 0, 1] [0, 0, 0, 1] 0x18 [104, 101, 108, 108, 111]

/-- The fifos `tcp_sustain` works on are usable: the send fifo has its indices within the
storage, and so has the holding fifo unless its size is 0 (retransmission disabled). -/
def socket_wf (s : tcpSocket) : Prop :=
  fifo_wf s.strm.out ∧ (fifo_size s.fsBuf ≠ 0 → fifo_wf s.fsBuf)

instance (s : tcpSocket) : Decidable (socket_wf s) := by unfold socket_wf; infer_instance

/-- What a step taken for the socket of index `cnt` leaves alone: the other sockets, the
re-entrancy flag, the local address; and every call of `ip_send` it adds is for `cnt`. -/
def only_socket (cnt : Nat) (st st1 : tcpState) : Prop :=
  (∀ i, i ≠ cnt → st1.sockets i = st.sockets i) ∧
  st1.sustainer_running = st.sustainer_running ∧ st1.localIP = st.localIP ∧
  ∃ new, st1.sent = st.sent ++ new ∧ ∀ e ∈ new, e.sock = cnt

/-- A fifo of the given size holding the given bytes from index 0. -/
def fifoOf (size : Nat) (bytes : List Nat) : fifo :=
  { addr := memOfList bytes, lock := 0, readPtr := 0, writePtr := bytes.length, size := size }

/-- The socket of scenario 6 of the specification: ESTABLISHED, sequence number 1, the
application has written 10 bytes, the holding fifo is empty. -/
def sendingSocket : tcpSocket :=
  { establishedSocket [0, 0, 0, 1] [0, 0, 0, 1] with
    strm := { in_ := fifo0 16, out := fifoOf 16 [1, 2, 3, 4, 5, 6, 7, 8, 9, 10] } }

/-- A socket `tcp_sustain` passes over: neither SYN_SENT nor ESTABLISHED, no countdown. -/
def socket_idle (s : tcpSocket) : Prop :=
  s.state ≠ TCPSOCKETSTATE_SYN_SENT ∧ s.state ≠ TCPSOCKETSTATE_ESTABLISHED ∧ s.ackState = 0

instance (s : tcpSocket) : Decidable (socket_idle s) := by unfold socket_idle; infer_instance

/-- The situation of the socket `j` between a data transmission and its acknowledgement:
ESTABLISHED with countdown `a`, `r` retries left, nothing to send, the bytes `bs` in the
holding fifo, sequence bytes `seq`; every other socket idle, `sent` handed to `ip_send`. -/
def awaiting_ack (j a r : Nat) (seq bs : List Nat) (sent : List ipSendCall) (st : tcpState) :
    Prop :=
  st.sustainer_running = 0 ∧
  (∀ i, i < MAX_TCP_SOCKETS → i ≠ j → socket_idle (st.sockets i)) ∧
  (st.sockets j).state = TCPSOCKETSTATE_ESTABLISHED ∧
  (st.sockets j).ackState = a ∧ (st.sockets j).retryCounter = r ∧
  fifo_length (st.sockets j).strm.out = 0 ∧ fifo_wf (st.sockets j).fsBuf ∧
  fifo_contents (st.sockets j).fsBuf = bs ∧ (st.sockets j).seqNum = seq ∧ st.sent = sent

/-- The function `tcp_initialise()`: every socket of the table becomes UNUSED and the
re-entrancy flag is cleared (the payload pointer and length it sets are `packetBuf + 32`
and `payloadBufLen`). -/
def tcp_initialise (st : tcpState) : tcpState :=
  { st with
    sockets := fun i =>
      if i < MAX_TCP_SOCKETS then { st.sockets i with state := TCPSOCKETSTATE_UNUSED }
      else st.sockets i
    sustainer_running := 0 }

/-- The search loop of `tcp_reserveSocket`: the first index from `i`, among the `n`
remaining ones, whose socket is UNUSED; `i + n` when there is none. -/
def tcp_findUnused (sockets : Nat → tcpSocket) : Nat → Nat → Nat
  | 0, i => i
  | n + 1, i =>
    if (sockets i).state = TCPSOCKETSTATE_UNUSED then i else tcp_findUnused sockets n (i + 1)

/-- The function `tcp_reserveSocket(inBuf, outBuf, fsBuf, inBufSize, outBufSize)`: the
returned handle (the index of the socket, `none` for the null pointer) and the state
afterwards.  `fsBuf` is `none` for a null pointer.  The sizes are taken within the range
of `int`, the type of the size parameter of `fifo_initialize`. -/
def tcp_reserveSocket (st : tcpState) (inBuf outBuf : Mem) (fsBuf : Option Mem)
    (inBufSize outBufSize : Nat) : Option Nat × tcpState :=
  let i := tcp_findUnused st.sockets MAX_TCP_SOCKETS 0
  if i ≥ MAX_TCP_SOCKETS then (none, st)
  else
    let s := st.sockets i
    let s := { s with state := TCPSOCKETSTATE_UNKNOWN, ackState := 0, streamTimeout := 0 }
    let s := { s with ackNum := [0, 0, 0, 0], seqNum := [0, 0, 0, 0], destIP := [0, 0, 0, 0] }
    let s := { s with strm := { in_ := fifo_initialize inBufSize inBuf,
                                out := fifo_initialize outBufSize outBuf } }
    let s := { s with fsBuf := fifo_initialize (if fsBuf.isSome then outBufSize else 0)
                                 (fsBuf.getD (fun _ => 0)) }
    (some i, setSocket st i s)

/-- The arguments of one call of `tcp_reserveSocket`. -/
structure reserveArgs where
  inBuf : Mem
  outBuf : Mem
  fsBuf : Option Mem
  inBufSize : Nat
  outBufSize : Nat

/-- Consecutive calls of `tcp_reserveSocket`: the handles returned and the state. -/
def tcp_reserveSockets (st : tcpState) : List reserveArgs → List (Option Nat) × tcpState
  | [] => ([], st)
  | a :: rest =>
    let r := tcp_reserveSocket st a.inBuf a.outBuf a.fsBuf a.inBufSize a.outBufSize
    let rs := tcp_reserveSockets r.2 rest
    (r.1 :: rs.1, rs.2)

/-- The function `tcp_putchar(c, stream)`: the returned `int` and the state afterwards.
`stream` is the index of the socket whose `stdio` the stream is; an index outside the
table stands for a stream of no socket (`stdio2socket` returns the null pointer).  The
loop `while(fifo_putc(...))` repeats while the send fifo is full; taken alone it then never
ends: no result. -/
def tcp_putchar (st : tcpState) (c : Nat) (stream : Nat) : Option (Int × tcpState) :=
  if stream ≥ MAX_TCP_SOCKETS then some (0, st)
  else if (st.sockets stream).state ≠ TCPSOCKETSTATE_ESTABLISHED then some (0, st)
  else
    match fifo_putc (st.sockets stream).strm.out c with
    | none => none
    | some (r, f) =>
      if r ≠ 0 then none
      else some (0, setSocket st stream
        { st.sockets stream with strm := { (st.sockets stream).strm with out := f } })

/-- The window field of an emitted TCP segment, big-endian. -/
def ipSendCall.window (c : ipSendCall) : Nat := c.message.getD 14 0 * 256 + c.message.getD 15 0

/-- The socket after the ACK check of the ESTABLISHED block of `tcp_handle`: when the
segment has the ACK flag and its acknowledgement number is the socket's sequence number,
countdown and retries are cleared and the holding fifo is reset. -/
def ackChecked (s : tcpSocket) (packetData : Mem) : tcpSocket :=
  if pktCodeBits packetData &&& TCPFLAGS_ACK ≠ 0 then
    if take4 s.seqNum = pktAckNum packetData then
      { s with ackState := 0, retryCounter := 0, fsBuf := fifo_reset s.fsBuf }
    else s
  else s

/-- Between the states `st` and `st1` exactly the segments with the flags bytes `fl` were
handed to `ip_send`, in that order, all for the socket `j` and without payload. -/
def emitted (j : Nat) (st st1 : tcpState) (fl : List Nat) : Prop :=
  ∃ new, st1.sent = st.sent ++ new ∧ new.map ipSendCall.flags = fl ∧
    ∀ c ∈ new, c.sock = j ∧ c.payload = []

/-- The socket of scenario 6 after its first transmission: the 10 bytes are in the holding
fifo, the sequence number is 11, the countdown is running with both retries left. -/
def unackedSocket : tcpSocket :=
  { establishedSocket [0, 0, 0, 11] [0, 0, 0, 1] with
    ackState := 500, retryCounter := 2,
    fsBuf := fifoOf 16 [1, 2, 3, 4, 5, 6, 7, 8, 9, 10] }

/-- A bare ACK from the peer of `establishedSocket` with the given sequence and
acknowledgement numbers. -/
def ackPacket (seq ack : List Nat) : Mem := ipTcpPacket 1024 80 seq ack 0x10 []

/-- The peer's FIN|ACK without data, with the given sequence and acknowledgement numbers. -/
def finPacket (seq ack : List Nat) : Mem := ipTcpPacket 1024 80 seq ack 0x11 []

/-- The segment FIN|PSH|ACK carrying the 5 bytes "hello" with sequence number 1. -/
def finHelloPacket : Mem :=
  ipTcpPacket 1024 80 [0, 0, 0, 1] [0, 0, 0, 1] 0x19 [104, 101, 108, 108, 111]

/-- An ESTABLISHED socket (ack number 1) whose receive fifo of size 16 already holds 12
bytes, so that 3 more fit. -/
def crowdedSocket : tcpSocket :=
  { establishedSocket [0, 0, 0, 1] [0, 0, 0, 1] with
    strm := { in_ := fifoOf 16 [1, 2, 3, 4, 5, 6, 7, 8, 9, 10, 11, 12], out := fifo0 16 } }

/-- A socket in SYN_SENT on local port 80 (an active open towards some other peer). -/
def synSentSocket : tcpSocket :=
  { socket0 16 16 16 with state := TCPSOCKETSTATE_SYN_SENT, localPort := 80,
                          remotePort := 7, destIP := [192, 168, 2, 99] }

/-- The socket of scenario 6 after its first transmission (see `unackedSocket`), the
application having written the two further bytes 11 and 12 meanwhile. -/
def pipelinedSocket : tcpSocket :=
  { unackedSocket with strm := { in_ := fifo0 16, out := fifoOf 16 [11, 12] } }

/-! ## ip.c: ARP -/

def MAX_ARP_ENTRIES : Nat := 16
def PACKETTYPE_ARP : Nat := 0x806
def PACKETTYPE_IP : Nat := 0x800
def ARPSTATE_DISABLED : Nat := 0x00
def ARPSTATE_WAITING : Nat := 0x01
def ARPSTATE_ENABLED : Nat := 0x02

/-- The six bytes of a 6-byte array. -/
def take6 (l : List Nat) : List Nat :=
  [l.getD 0 0, l.getD 1 0, l.getD 2 0, l.getD 3 0, l.getD 4 0, l.getD 5 0]

/-- The six bytes of a memory region from offset `off`. -/
def read6 (m : Mem) (off : Nat) : List Nat :=
  [m off, m (off + 1), m (off + 2), m (off + 3), m (off + 4), m (off + 5)]

/-- The `struct addrCL` of ip.h: an entry of the ARP table. -/
structure addrCL where
  state : Nat
  IP : List Nat
  MAC : List Nat
  lifeTime : Nat
deriving DecidableEq

/-- One call `ne2k_send(net_addr, msg, length, type, intstatus)`: `net_addr` holds the 6
bytes at the address passed, `msg` the `length` bytes of the message. -/
structure ne2kSendCall where
  net_addr : List Nat
  msg : List Nat
  length : Nat
  type : Nat
  intstatus : Nat
deriving DecidableEq

/-- The bytes `ne2k_send` writes to the data port of the controller for a call: destination
address, `localMAC`, the two bytes of the type, the message, and zeros up to 46 data bytes. -/
def ne2k_frame (localMAC : List Nat) (c : ne2kSendCall) : List Nat :=
  take6 c.net_addr ++ take6 localMAC ++ [(c.type >>> 8) % 256, (c.type &&& 0xFF) % 256]
    ++ (List.range c.length).map (fun i => c.msg.getD i 0)
    ++ (if c.length < 46 then List.replicate (46 - c.length) 0 else [])

/-- The module state of ip.c: the ARP table and the address configuration; with it the
`localMAC` of ne2k.c and the calls of `ne2k_send` made so far. -/
structure ipState where
  arpTable : Nat → addrCL
  localIP : List Nat
  gatewayIP : List Nat
  netmask : List Nat
  localMAC : List Nat
  frames : List ne2kSendCall

/-- The search loop of the response branch of `arp_handle`: the first index from `cnt`,
among the `n` remaining ones, whose entry has the IP address `ip`; `cnt + n` when there is
none. -/
def arp_findEntry (arpTable : Nat → addrCL) (ip : List Nat) : Nat → Nat → Nat
  | 0, cnt => cnt
  | n + 1, cnt =>
    if ip ≠ take4 (arpTable cnt).IP then arp_findEntry arpTable ip n (cnt + 1) else cnt

/-- The function `arp_handle(packetData)`.  `packetData` is the Ethernet frame; the ARP
packet starts at offset 14: `hOPER` at 20, `lOPER` at 21, `senderHWA` at 22, `senderIP` at
28, `receiverHWA` at 32, `receiverIP` at 38. -/
def arp_handle (st : ipState) (packetData : Mem) : ipState :=
  let st :=
    if packetData 20 = 0 ∧ packetData 21 = 1 ∧ read4 packetData 38 = take4 st.localIP then
      let newPacket : List Nat :=
        [0, 1, 0x08, 0x00, 6, 4, 0, 2] ++ take6 st.localMAC ++ take4 st.localIP
          ++ read6 packetData 22 ++ read4 packetData 28
      { st with frames := st.frames ++
          [{ net_addr := (newPacket.drop 18).take 6, msg := newPacket, length := 28,
             type := PACKETTYPE_ARP, intstatus := 0 }] }
    else st
  if packetData 20 = 0 ∧ packetData 21 = 2 ∧ read4 packetData 38 = take4 st.localIP ∧
      read6 packetData 32 = take6 st.localMAC then
    let cnt := arp_findEntry st.arpTable (read4 packetData 28) MAX_ARP_ENTRIES 0
    if cnt < MAX_ARP_ENTRIES ∧ (st.arpTable cnt).state ≠ ARPSTATE_ENABLED then
      let e : addrCL :=
        { (st.arpTable cnt) with MAC := read6 packetData 22, state := ARPSTATE_ENABLED }
      { st with arpTable := Function.update st.arpTable cnt e }
    else st
  else st

/-- An Ethernet frame carrying an ARP packet (HTYPE 1, PTYPE 0x0800, HLEN 6, PLEN 4) with
the given operation and addresses. -/
def arpFrame (dst src : List Nat) (oper : Nat) (sha spa tha tpa : List Nat) : Mem :=
  memOfList (dst ++ src ++ [0x08, 0x06] ++ [0, 1, 0x08, 0x00, 6, 4, oper / 256, oper % 256]
    ++ sha ++ spa ++ tha ++ tpa)

/-- The configuration of scenario 1 of the specification: local IP 192.168.2.156, local MAC
4E:45:58:54:4F:4E, every ARP entry disabled, nothing sent. -/
def ipState0 : ipState :=
  { arpTable := fun _ => { state := ARPSTATE_DISABLED, IP := [0, 0, 0, 0],
                           MAC := [0, 0, 0, 0, 0, 0], lifeTime := 0 },
    localIP := [192, 168, 2, 156], gatewayIP := [192, 168, 2, 1], netmask := [255, 255, 255, 0],
    localMAC := [0x4E, 0x45, 0x58, 0x54, 0x4F, 0x4E], frames := [] }

/-- The ARP request of scenario 1: 192.168.2.1 / AA:BB:CC:DD:EE:FF asks for the given IP. -/
def arpRequest (target : List Nat) : Mem :=
  arpFrame [0xFF, 0xFF, 0xFF, 0xFF, 0xFF, 0xFF] [0xAA, 0xBB, 0xCC, 0xDD, 0xEE, 0xFF] 1
    [0xAA, 0xBB, 0xCC, 0xDD, 0xEE, 0xFF] [192, 168, 2, 1] [0, 0, 0, 0, 0, 0] target

/-! ## ip.c: `ip_send` and the ARP table -/

/-- The array `broadcastMAC` of ip.c. -/
def broadcastMAC : List Nat := [0xFF, 0xFF, 0xFF, 0xFF, 0xFF, 0xFF]

/-- The array `broadcastIP` of ip.c. -/
def broadcastIP : List Nat := [255, 255, 255, 255]

/-- The size of the local array `ipBuf` of `ip_send`: `char ipBuf[160]`. -/
def ipBufSize : Nat := 160

/-- The constant `IP_TX_BUF_SIZE` of config.h; no source file uses it. -/
def IP_TX_BUF_SIZE : Nat := 256

/-- The function `ip_initialise(ip, gateway, nmask)`: every ARP entry is disabled (its other
fields stay as they are) and the three addresses are copied. -/
def ip_initialise (st : ipState) (ip gateway nmask : List Nat) : ipState :=
  { st with
    arpTable := fun i =>
      if i < MAX_ARP_ENTRIES then { (st.arpTable i) with state := ARPSTATE_DISABLED }
      else st.arpTable i
    localIP := take4 ip, gatewayIP := take4 gateway, netmask := take4 nmask }

/-- The search for a free entry in `arp_sendquery` and `ip_handle`: the first index from
`cnt`, among the `n` remaining ones, whose entry is DISABLED; `cnt + n` when there is none. -/
def arp_findFree (arpTable : Nat → addrCL) : Nat → Nat → Nat
  | 0, cnt => cnt
  | n + 1, cnt =>
    if (arpTable cnt).state ≠ ARPSTATE_DISABLED then arp_findFree arpTable n (cnt + 1) else cnt

/-- The search loop of `ip_send` for a destination on the local network: the first index
from `cnt`, among the `n` remaining ones, whose entry has the IP address `ip` and is
ENABLED; `cnt + n` when there is none. -/
def arp_findEnabled (arpTable : Nat → addrCL) (ip : List Nat) : Nat → Nat → Nat
  | 0, cnt => cnt
  | n + 1, cnt =>
    if ip ≠ take4 (arpTable cnt).IP ∨ (arpTable cnt).state ≠ ARPSTATE_ENABLED then
      arp_findEnabled arpTable ip n (cnt + 1)
    else cnt

/-- The function `arp_sendquery(ip)`: the returned index and the state afterwards. -/
def arp_sendquery (st : ipState) (ip : List Nat) : Nat × ipState :=
  let cnt := arp_findFree st.arpTable MAX_ARP_ENTRIES 0
  if cnt < MAX_ARP_ENTRIES then
    let newPacket : List Nat :=
      [0, 1, 0x08, 0x00, 6, 4, 0, 1] ++ take6 st.localMAC ++ take4 st.localIP
        ++ [0xFF, 0xFF, 0xFF, 0xFF, 0xFF, 0xFF] ++ take4 ip
    let e : addrCL := { (st.arpTable cnt) with state := ARPSTATE_WAITING, IP := take4 ip }
    (cnt, { st with
      arpTable := Function.update st.arpTable cnt e
      frames := st.frames ++
        [{ net_addr := (newPacket.drop 18).take 6, msg := newPacket, length := 28,
           type := 0x806, intstatus := 1 }] })
  else (MAX_ARP_ENTRIES, st)

/-- The 20 bytes of the local `header` of `ip_send` before the checksum is stored, in the
layout of `ipHeader`. -/
def ip_header0 (localIP ip : List Nat) (protocol msgLen : Nat) : List Nat :=
  [(0x05 ||| (20 <<< 4)) % 256, 0x00, (((msgLen + 20) % 65536) >>> 8) % 256,
   ((msgLen + 20) % 65536 &&& 0xFF) % 256, 0x04, 0x00, 0x40, 0x00, 0x80, protocol, 0x00, 0x00]
  ++ take4 localIP ++ take4 ip

/-- The 20 bytes of `header` as `ip_send` copies them to `ipBuf`: with the checksum over
them stored in the bytes 10 and 11. -/
def ip_header (localIP ip : List Nat) (protocol msgLen : Nat) : List Nat :=
  let header := ip_header0 localIP ip protocol msgLen
  let checksum := ip_calculateChecksum (memOfList header) 20
  (header.set 10 ((checksum >>> 8) % 256)).set 11 ((checksum &&& 0xFF) % 256)

/-- The last two statements of the ARP part of `ip_send`: `arpTable[cnt].lifeTime = 600` and
the call of `ne2k_send` with the MAC address of that entry. -/
def ip_transmit (st : ipState) (cnt : Nat) (ipBuf : List Nat) (msgLen : Nat) : ipState :=
  let e : addrCL := { (st.arpTable cnt) with lifeTime := 600 }
  { st with
    arpTable := Function.update st.arpTable cnt e
    frames := st.frames ++
      [{ net_addr := take6 (st.arpTable cnt).MAC, msg := ipBuf, length := (msgLen + 20) % 65536,
         type := PACKETTYPE_IP, intstatus := 0 }] }

/-- The test of `ip_send` that sends a datagram to the gateway: under the netmask, some
byte of the destination differs from the byte of the source (the local address). -/
def ip_useGW (netmask destIP sourceIP : List Nat) : Prop :=
  netmask.getD 0 0 &&& destIP.getD 0 0 ≠ netmask.getD 0 0 &&& sourceIP.getD 0 0 ∨
  netmask.getD 1 0 &&& destIP.getD 1 0 ≠ netmask.getD 1 0 &&& sourceIP.getD 1 0 ∨
  netmask.getD 2 0 &&& destIP.getD 2 0 ≠ netmask.getD 2 0 &&& sourceIP.getD 2 0 ∨
  netmask.getD 3 0 &&& destIP.getD 3 0 ≠ netmask.getD 3 0 &&& sourceIP.getD 3 0

instance (netmask destIP sourceIP : List Nat) : Decidable (ip_useGW netmask destIP sourceIP) := by
  unfold ip_useGW; infer_instance

/-- The two search loops of `ip_send`: the index `cnt` they end with.  For the gateway the
loop is the search `arp_findEntry` by address alone (it tests the address before the index,
which does not change the index it ends with); for a destination on the local network the
entry must be ENABLED too. -/
def ip_lookup (st : ipState) (ip : List Nat) : Nat :=
  if ip_useGW st.netmask (take4 ip) (take4 st.localIP) then
    arp_findEntry st.arpTable (take4 st.gatewayIP) MAX_ARP_ENTRIES 0
  else arp_findEnabled st.arpTable (take4 ip) MAX_ARP_ENTRIES 0

/-- The contents of `ipBuf` in `ip_send`: the header and the `msgLen` bytes of the message. -/
def ip_buffer (st : ipState) (ip : List Nat) (protocol : Nat) (message : Mem) (msgLen : Nat) :
    List Nat :=
  ip_header st.localIP ip protocol msgLen ++ (List.range msgLen).map message

/-- The function `ip_send(ip, protocol, message, msgLen)`.  `wait` stands for the busy wait
on the ARP answer: it gives the state of ip.c, as the interrupt handlers have left it, at
the moment the loop ends.  A `msgLen` that passes the size check by wrapping around in 16
bits makes `memcpy` write beyond `ipBuf`: no result. -/
def ip_send (wait : ipState → ipState) (st : ipState) (ip : List Nat) (protocol : Nat)
    (message : Mem) (msgLen : Nat) : Option ipState :=
  if (msgLen + 20) % 65536 > ipBufSize then some st
  else if msgLen + 20 > ipBufSize then none
  else
    let ipBuf := ip_buffer st ip protocol message msgLen
    if broadcastIP ≠ take4 ip then
      let cnt := ip_lookup st ip
      if cnt ≥ MAX_ARP_ENTRIES then
        let q := arp_sendquery st
          (if ip_useGW st.netmask (take4 ip) (take4 st.localIP) then st.gatewayIP else take4 ip)
        if q.1 < MAX_ARP_ENTRIES then
          let st2 := wait q.2
          if (st2.arpTable q.1).state ≠ ARPSTATE_ENABLED then some st2
          else some (ip_transmit st2 q.1 ipBuf msgLen)
        else some q.2
      else some (ip_transmit st cnt ipBuf msgLen)
    else
      some { st with frames := st.frames ++
        [{ net_addr := take6 broadcastMAC, msg := ipBuf, length := (msgLen + 20) % 65536,
           type := PACKETTYPE_IP, intstatus := 0 }] }

/-- The loop over the ARP table in the timer interrupt `TIMER0_OVF_vect` for the `n`
remaining entries from index `i`: the lifetime of an ENABLED entry is decremented (an
`unsigned int`) and the entry is disabled when it reaches 0. -/
def arp_tick_loop : Nat → Nat → (Nat → addrCL) → (Nat → addrCL)
  | 0, _, t => t
  | n + 1, i, t =>
    let t :=
      if (t i).state = ARPSTATE_ENABLED then
        let l := ((t i).lifeTime + 65535) % 65536
        let e : addrCL :=
          { (t i) with lifeTime := l,
                       state := if l = 0 then ARPSTATE_DISABLED else (t i).state }
        Function.update t i e
      else t
    arp_tick_loop n (i + 1) t

/-- The ARP part of the timer interrupt `TIMER0_OVF_vect`. -/
def arp_tick (st : ipState) : ipState :=
  { st with arpTable := arp_tick_loop MAX_ARP_ENTRIES 0 st.arpTable }

/-- An ARP entry with the given state and addresses and lifetime 0. -/
def arpEntry (state : Nat) (ip mac : List Nat) : addrCL :=
  { state := state, IP := ip, MAC := mac, lifeTime := 0 }

/-- The configuration `ipState0` with the given entries at the start of the ARP table. -/
def ipStateOf (es : List addrCL) : ipState :=
  { ipState0 with arpTable := fun i => es.getD i (arpEntry ARPSTATE_DISABLED [0, 0, 0, 0]
      [0, 0, 0, 0, 0, 0]) }

/-- The first 16 entries of the ARP table, as a list. -/
def arpEntries (st : ipState) : List addrCL := (List.range MAX_ARP_ENTRIES).map st.arpTable

/-- The ARP reply of 192.168.2.1 / AA:BB:CC:DD:EE:FF to the local station of `ipState0`. -/
def arpReply : Mem :=
  arpFrame [0x4E, 0x45, 0x58, 0x54, 0x4F, 0x4E] [0xAA, 0xBB, 0xCC, 0xDD, 0xEE, 0xFF] 2
    [0xAA, 0xBB, 0xCC, 0xDD, 0xEE, 0xFF] [192, 168, 2, 1] [0x4E, 0x45, 0x58, 0x54, 0x4F, 0x4E]
    [192, 168, 2, 156]

/-- The destination is on the local network, in the words of the specification:
`(dst & netmask) == (local & netmask)`, byte by byte. -/
def onSubnet (st : ipState) (dst : List Nat) : Prop :=
  ∀ i, i < 4 → dst.getD i 0 &&& st.netmask.getD i 0 = st.localIP.getD i 0 &&& st.netmask.getD i 0

instance (st : ipState) (dst : List Nat) : Decidable (onSubnet st dst) := by
  unfold onSubnet; infer_instance

/-- The next hop, in the words of the specification: the destination when it is on the
local network, the gateway otherwise. -/
def nextHop (st : ipState) (dst : List Nat) : List Nat :=
  if onSubnet st dst then take4 dst else take4 st.gatewayIP

/-- An ARP table as it is after some traffic: entry 0 ENABLED for the gateway 192.168.2.1,
entry 1 ENABLED for the host 192.168.2.50. -/
def ipStateKnown : ipState :=
  ipStateOf [arpEntry ARPSTATE_ENABLED [192, 168, 2, 1] [0xAA, 0xBB, 0xCC, 0xDD, 0xEE, 0xFF],
             arpEntry ARPSTATE_ENABLED [192, 168, 2, 50] [2, 0, 0, 0, 0, 0x50]]

/-- The environment in which no interrupt handler changes the state of ip.c while `ip_send`
waits for an ARP answer: the wait ends by its timeout. -/
def noAnswer : ipState → ipState := fun st => st

/-! ## udp.c -/

def MAX_UDP_SOCKETS : Nat := 16
def SOCKETSTATE_UNUSED : Nat := 0
def SOCKETSTATE_WAITING : Nat := 1
def SOCKETSTATE_ESTABLISHED : Nat := 2
def IPPACKETTYPE_ICMP : Nat := 0x01
def IPPACKETTYPE_UDP : Nat := 17

/-- The `udpSocket` structure of udp.h; `dbuf` is the memory the socket's buffer pointer
points at. -/
structure udpSocket where
  state : Nat
  localPort : Nat
  sourceIP : List Nat
  dbuf : Mem
  dLen : Nat
  dMaxLen : Nat

/-- The destination port of a received UDP datagram: `(packet->dPort[0] << 8) |
packet->dPort[1]`, as it compares with an `unsigned int`. -/
def udpDestPort (packetData : Mem) : Nat :=
  ((packetData (tcpOffset packetData + 2) <<< 8) ||| packetData (tcpOffset packetData + 3))
    % 65536

/-- The payload length of a received UDP datagram: `((packet->len[0] << 8) |
packet->len[1]) - 8`, as it compares with, and is stored in, an `unsigned int`. -/
def udpDataLen (packetData : Mem) : Nat :=
  toU16 ((((packetData (tcpOffset packetData + 4) <<< 8)
    ||| packetData (tcpOffset packetData + 5) : Nat) : Int) - 8)

/-- The body of the `for` loop of `udp_handle` for the socket `s`. -/
def udp_handle_socket (s : udpSocket) (packetData : Mem) : udpSocket :=
  if s.state = SOCKETSTATE_WAITING ∧ s.localPort = udpDestPort packetData then
    if udpDataLen packetData < s.dMaxLen then
      { s with
        state := SOCKETSTATE_ESTABLISHED
        dLen := udpDataLen packetData
        dbuf := fun k =>
          if k < udpDataLen packetData then packetData (tcpOffset packetData + 8 + k)
          else s.dbuf k
        sourceIP := read4 packetData 12 }
    else s
  else s

/-- The `for` loop of `udp_handle`: the `n` remaining sockets from index `i`. -/
def udp_handle_loop (packetData : Mem) : Nat → Nat → (Nat → udpSocket) → (Nat → udpSocket)
  | 0, _, sockets => sockets
  | n + 1, i, sockets =>
    udp_handle_loop packetData n (i + 1)
      (Function.update sockets i (udp_handle_socket (sockets i) packetData))

/-- The function `udp_handle(packetData)`; `packetData` points at the IP header. -/
def udp_handle (sockets : Nat → udpSocket) (packetData : Mem) : Nat → udpSocket :=
  udp_handle_loop packetData MAX_UDP_SOCKETS 0 sockets

/-! ## icmp.c -/

/-- Modelled from the spec: the header icmp.h is not among the sources.  The type of an
echo request, which the specification gives as 8. -/
def ICMPPACKET_ECHO_REQUEST : Nat := 8

/-- Modelled from the spec: the header icmp.h is not among the sources.  The type of an
echo reply, which the specification gives as 0. -/
def ICMPPACKET_ECHO_REPLY : Nat := 0

/-- Modelled from the spec: the header icmp.h is not among the sources.  The offset of the
field `checksum` in `icmpPacket`, after the bytes `type` and `code` (ICMP per RFC 792). -/
def icmpChecksumOffset : Nat := 2

/-- The `packetLen` of `icmp_handle`: the total length minus the header length, in
`unsigned int` arithmetic. -/
def icmpPacketLen (packetData : Mem) : Nat :=
  (((packetData 2 <<< 8) ||| packetData 3) % 65536 + 65536 - tcpOffset packetData % 65536)
    % 65536

/-- The received buffer as `icmp_handle` leaves it when it answers an echo request: type
and checksum of the ICMP message rewritten, then the destination address of the IP header
overwritten with its source address and the source address with the local address. -/
def icmp_reply (localIP : List Nat) (packetData : Mem) : Mem :=
  let hl := tcpOffset packetData
  let p := Function.update packetData hl ICMPPACKET_ECHO_REPLY
  let p := Function.update p (hl + icmpChecksumOffset) 0x00
  let p := Function.update p (hl + icmpChecksumOffset + 1) 0x00
  let checksum := ip_calculateChecksum (fun i => p (hl + i)) (icmpPacketLen packetData)
  let p := Function.update p (hl + icmpChecksumOffset) ((checksum >>> 8) % 256)
  let p := Function.update p (hl + icmpChecksumOffset + 1) ((checksum &&& 0xFF) % 256)
  let p := memcpy p 16 (read4 p 12) 4
  memcpy p 12 localIP 4

/-- The function `icmp_handle(packetData)`: the state of ip.c and the received buffer
afterwards; `packetData` points at the IP header. -/
def icmp_handle (wait : ipState → ipState) (st : ipState) (packetData : Mem) :
    Option (ipState × Mem) :=
  if packetData (tcpOffset packetData) = ICMPPACKET_ECHO_REQUEST then
    let p := icmp_reply st.localIP packetData
    (ip_send wait st (read4 p 16) IPPACKETTYPE_ICMP (fun i => p (tcpOffset packetData + i))
      (icmpPacketLen packetData)).map (fun st1 => (st1, p))
  else some (st, packetData)

/-! ## ip.c: `ip_handle` and `packet_receive` -/

/-- The state of the stack: the module states of ip.c, udp.c and tcp.c. -/
structure stackState where
  ip : ipState
  udp : Nat → udpSocket
  tcp : tcpState

/-- The calls of `ip_send` that tcp.c has made, run on the state of ip.c in their order
(tcp.c does not read that state). -/
def ip_send_calls (wait : ipState → ipState) : ipState → List ipSendCall → Option ipState
  | st, [] => some st
  | st, c :: rest =>
    match ip_send wait st c.ip c.protocol (memOfList c.message) c.msgLen with
    | none => none
    | some st1 => ip_send_calls wait st1 rest

/-- The test of `ip_handle` that makes it ignore a datagram: the two bytes of the field
`flgFrgOffset` are not both zero and the first has neither of its two top bits. -/
def ip_fragmentDropped (packetData : Mem) : Prop :=
  (packetData 20 ≠ 0x00 ∨ packetData 21 ≠ 0x00) ∧ packetData 20 &&& 0xC0 = 0

instance (packetData : Mem) : Decidable (ip_fragmentDropped packetData) := by
  unfold ip_fragmentDropped; infer_instance

/-- The index `cnt` of the ARP entry `ip_handle` writes the sender into: the entry found by
the sender's IP address when it is ENABLED, the first free entry otherwise;
`MAX_ARP_ENTRIES` when there is none.  (With no entry found the code reads the state of
`arpTable[MAX_ARP_ENTRIES]`; the index test next to it decides alone.) -/
def ip_learnIndex (arpTable : Nat → addrCL) (sourceIP : List Nat) : Nat :=
  let cnt := arp_findEntry arpTable sourceIP MAX_ARP_ENTRIES 0
  if cnt ≥ MAX_ARP_ENTRIES ∨ (arpTable cnt).state ≠ ARPSTATE_ENABLED then
    arp_findFree arpTable MAX_ARP_ENTRIES 0
  else cnt

/-- The ARP table after `ip_handle` has written the sender of the frame into the entry of
index `cnt`: MAC address from the Ethernet header, IP address from the IP header, state
ENABLED, lifetime 600. -/
def ip_learn (st : ipState) (packetData : Mem) (cnt : Nat) : ipState :=
  let e : addrCL :=
    { MAC := read6 packetData 6, IP := read4 packetData 26, state := ARPSTATE_ENABLED,
      lifeTime := 600 }
  { st with arpTable := Function.update st.arpTable cnt e }

/-- The `originalChecksum` of `ip_handle`: `header->checksum[0] << 8 | header->checksum[1]`
stored in an `unsigned int`. -/
def ip_originalChecksum (packetData : Mem) : Nat :=
  ((packetData 24 <<< 8) ||| packetData 25) % 65536

/-- The received frame after `header->checksum[0] = header->checksum[1] = 0x00`. -/
def ip_zeroChecksum (packetData : Mem) : Mem :=
  Function.update (Function.update packetData 25 0x00) 24 0x00

/-- The `checksum` of `ip_handle`: `ip_calculateChecksum` over the `(verHLen & 0x0F) * 4`
bytes of the header, its checksum field zeroed. -/
def ip_headerChecksum (packetData : Mem) : Nat :=
  ip_calculateChecksum (fun i => ip_zeroChecksum packetData (14 + i))
    ((packetData 14 &&& 0x0F) * 4)

/-- The function `ip_handle(packetData)`: the state of the stack and the received frame
afterwards (the frame is written to: the checksum field is zeroed, and `icmp_handle` builds
its answer in place).  `packetData` is the Ethernet frame, the IP header starts at offset
14. -/
def ip_handle (wait : ipState → ipState) (st : stackState) (packetData : Mem) :
    Option (stackState × Mem) :=
  if ip_fragmentDropped packetData then some (st, packetData)
  else
    let cnt := ip_learnIndex st.ip.arpTable (read4 packetData 26)
    if cnt < MAX_ARP_ENTRIES then
      let st := { st with ip := ip_learn st.ip packetData cnt }
      let originalChecksum := ip_originalChecksum packetData
      let checksum := ip_headerChecksum packetData
      let packetData := ip_zeroChecksum packetData
      let header : Mem := fun i => packetData (14 + i)
      if originalChecksum ≠ checksum then some (st, packetData)
      else if packetData 23 = IPPACKETTYPE_ICMP then
        (icmp_handle wait st.ip header).map
          (fun r => ({ st with ip := r.1 }, fun i => if i < 14 then packetData i else r.2 (i - 14)))
      else if packetData 23 = IPPACKETTYPE_UDP then
        some ({ st with udp := udp_handle st.udp header }, packetData)
      else if packetData 23 = IPPACKETTYPE_TCP then
        match tcp_handle st.tcp header with
        | none => none
        | some tcp1 =>
          (ip_send_calls wait st.ip (tcp1.sent.drop st.tcp.sent.length)).map
            (fun ip2 => ({ st with ip := ip2, tcp := tcp1 }, packetData))
      else some (st, packetData)
    else some (st, packetData)

/-- The function `packet_receive(packetData)`. -/
def packet_receive (wait : ipState → ipState) (st : stackState) (packetData : Mem) :
    Option (stackState × Mem) :=
  let packetType := ((packetData 12 <<< 8) ||| (packetData 13 &&& 0xFF)) % 65536
  if packetType = PACKETTYPE_ARP then some ({ st with ip := arp_handle st.ip packetData }, packetData)
  else if packetType = PACKETTYPE_IP then ip_handle wait st packetData
  else some (st, packetData)

/-- The conditions under which `ip_send` reaches one of its two calls of `ne2k_send`: the
datagram passes the size check, and the destination is the broadcast address, or a search
loop finds an entry, or the entry of the query sent is ENABLED when the wait ends. -/
def ip_transmits (wait : ipState → ipState) (st : ipState) (ip : List Nat) (msgLen : Nat) :
    Prop :=
  msgLen + 20 ≤ ipBufSize ∧
  (take4 ip = broadcastIP ∨ ip_lookup st ip < MAX_ARP_ENTRIES ∨
    ((arp_sendquery st
        (if ip_useGW st.netmask (take4 ip) (take4 st.localIP) then st.gatewayIP
         else take4 ip)).1 < MAX_ARP_ENTRIES ∧
     ((wait (arp_sendquery st
        (if ip_useGW st.netmask (take4 ip) (take4 st.localIP) then st.gatewayIP
         else take4 ip)).2).arpTable
       (arp_sendquery st
        (if ip_useGW st.netmask (take4 ip) (take4 st.localIP) then st.gatewayIP
         else take4 ip)).1).state = ARPSTATE_ENABLED))

instance (wait : ipState → ipState) (st : ipState) (ip : List Nat) (msgLen : Nat) :
    Decidable (ip_transmits wait st ip msgLen) := by
  unfold ip_transmits; infer_instance

/-- The unused UDP socket of a zeroed table. -/
def udpSocket0 : udpSocket :=
  { state := SOCKETSTATE_UNUSED, localPort := 0, sourceIP := [0, 0, 0, 0], dbuf := fun _ => 0,
    dLen := 0, dMaxLen := 0 }

/-- The memory of ip.c and ne2k.c at program start: everything zero, `localMAC` as its
initialiser 'N','E','X','T','O','N' gives it. -/
def ipBlank : ipState :=
  { arpTable := fun _ => { state := 0, IP := [0, 0, 0, 0], MAC := [0, 0, 0, 0, 0, 0],
                           lifeTime := 0 },
    localIP := [0, 0, 0, 0], gatewayIP := [0, 0, 0, 0], netmask := [0, 0, 0, 0],
    localMAC := [0x4E, 0x45, 0x58, 0x54, 0x4F, 0x4E], frames := [] }

/-- The state of ip.c after `ip_initialise` with the addresses of the specification's
scenarios: 192.168.2.156, gateway 192.168.2.1, netmask 255.255.255.0. -/
def ipStart : ipState :=
  ip_initialise ipBlank [192, 168, 2, 156] [192, 168, 2, 1] [255, 255, 255, 0]

/-- The stack with the given state of ip.c, no UDP socket and no TCP socket in use. -/
def stackOf (ip : ipState) : stackState :=
  { ip := ip, udp := fun _ => udpSocket0, tcp := tableOf (socket0 16 16 16) (socket0 16 16 16) }

/-- A byte sequence with the checksum over it stored in its two bytes at offset `k`. -/
def withChecksum (l : List Nat) (k : Nat) : List Nat :=
  (l.set k (ip_calculateChecksum (memOfList l) l.length / 256)).set (k + 1)
    (ip_calculateChecksum (memOfList l) l.length % 256)

/-- An Ethernet frame from 02:00:00:00:00:50 to the local station of `ipState0` carrying an
IPv4 datagram (IHL 5, TTL 64, valid header checksum) with the given bytes of the
flags/fragment-offset field, protocol, addresses and payload. -/
def ipFrame (frag0 frag1 protocol : Nat) (src dst payload : List Nat) : Mem :=
  memOfList ([0x4E, 0x45, 0x58, 0x54, 0x4F, 0x4E, 2, 0, 0, 0, 0, 0x50, 0x08, 0x00]
    ++ withChecksum ([0x45, 0x00, (payload.length + 20) / 256, (payload.length + 20) % 256,
        0x00, 0x01, frag0, frag1, 64, protocol, 0x00, 0x00] ++ src ++ dst) 10
    ++ payload)

/-- An ICMP message with the given type, code 0, identifier 0x1234, sequence number 1, the
given payload and a valid checksum. -/
def icmpMessage (type : Nat) (payload : List Nat) : List Nat :=
  withChecksum ([type, 0x00, 0x00, 0x00, 0x12, 0x34, 0x00, 0x01] ++ payload) 2

/-- The echo request of scenario 2 of the specification, 32 payload bytes 1..32 from
192.168.2.50 to 192.168.2.156, with the given bytes of the flags/fragment-offset field. -/
def echoRequest (frag0 frag1 : Nat) : Mem :=
  ipFrame frag0 frag1 1 [192, 168, 2, 50] [192, 168, 2, 156]
    (icmpMessage 8 ((List.range 32).map (fun i => i + 1)))

/-- The stack after `ip_handle` has entered the sender of the frame in the ARP table. -/
def ip_learned (st : stackState) (packetData : Mem) : stackState :=
  { st with ip := ip_learn st.ip packetData (ip_learnIndex st.ip.arpTable (read4 packetData 26)) }

/-- The datagram `ip_handle` passes to the protocol handlers: the frame from offset 14 on,
its header checksum field zeroed. -/
def ip_datagram (packetData : Mem) : Mem := fun i => ip_zeroChecksum packetData (14 + i)

/-- The echo request of scenario 2 with the flags/fragment-offset field 0x4000 and its
header checksum field overwritten with 0x0000. -/
def badChecksumRequest : Mem := ip_zeroChecksum (echoRequest 0x40 0x00)

/-- The datagram of the echo request of scenario 2, as `ip_handle` passes it on: the frame
from offset 14. -/
def echoDatagram : Mem := fun i => echoRequest 0x40 0x00 (14 + i)

/-- A UDP socket registered on the given port with a zeroed buffer of the given size, as
`udp_register` sets it up. -/
def udpWaiting (port dMaxLen : Nat) : udpSocket :=
  { udpSocket0 with state := SOCKETSTATE_WAITING, localPort := port, dMaxLen := dMaxLen }

/-- A UDP socket table with the given sockets at its start and unused sockets elsewhere. -/
def udpTableOf (l : List udpSocket) : Nat → udpSocket := fun i => l.getD i udpSocket0

/-- The IP datagram from 192.168.2.50 to 192.168.2.156 that carries a UDP datagram with the
given ports and payload (checksum field 0, which `udp_handle` does not read). -/
def udpDatagram (sport dport : Nat) (payload : List Nat) : Mem :=
  fun i => ipFrame 0x40 0x00 17 [192, 168, 2, 50] [192, 168, 2, 156]
    ([sport / 256, sport % 256, dport / 256, dport % 256, (payload.length + 8) / 256,
      (payload.length + 8) % 256, 0, 0] ++ payload) (14 + i)

/-! ## udp.c: the socket interface -/

/-- The length field of a received UDP datagram: `(packet->len[0] << 8) | packet->len[1]`. -/
def udpLen (packetData : Mem) : Nat :=
  (packetData (tcpOffset packetData + 4) <<< 8) ||| packetData (tcpOffset packetData + 5)

/-- The function `udp_initialise()`: every socket of the table becomes UNUSED. -/
def udp_initialise (sockets : Nat → udpSocket) : Nat → udpSocket :=
  fun i =>
    if i < MAX_UDP_SOCKETS then { sockets i with state := SOCKETSTATE_UNUSED } else sockets i

/-- The search loop of `udp_register`: the first index from `i`, among the `n` remaining
ones, whose socket is UNUSED; `i + n` when there is none. -/
def udp_findUnused (sockets : Nat → udpSocket) : Nat → Nat → Nat
  | 0, i => i
  | n + 1, i =>
    if (sockets i).state ≠ SOCKETSTATE_UNUSED then udp_findUnused sockets n (i + 1) else i

/-- The function `udp_register(port, dbuf, dMaxLen)`: the returned handle (the index of the
socket, `none` for the null pointer) and the socket table afterwards. -/
def udp_register (sockets : Nat → udpSocket) (port : Nat) (dbuf : Mem) (dMaxLen : Nat) :
    Option Nat × (Nat → udpSocket) :=
  let i := udp_findUnused sockets MAX_UDP_SOCKETS 0
  if i < MAX_UDP_SOCKETS then
    (some i, Function.update sockets i
      { sockets i with state := SOCKETSTATE_WAITING, localPort := port, dbuf := dbuf,
                       dMaxLen := dMaxLen })
  else (none, sockets)

/-- The function `udp_reregister(socket)` for `socket = &sockets[i]`. -/
def udp_reregister (sockets : Nat → udpSocket) (i : Nat) : Nat → udpSocket :=
  if (sockets i).state = SOCKETSTATE_ESTABLISHED then
    Function.update sockets i { sockets i with state := SOCKETSTATE_WAITING }
  else sockets

/-- The function `udp_disconnect(socket)` for `socket = &sockets[i]`. -/
def udp_disconnect (sockets : Nat → udpSocket) (i : Nat) : Nat → udpSocket :=
  Function.update sockets i { sockets i with state := SOCKETSTATE_UNUSED }

/-- A UDP socket that holds a received datagram of the 4 bytes 9, 9, 9, 9 for port 68. -/
def udpHolding : udpSocket :=
  { udpWaiting 68 16 with state := SOCKETSTATE_ESTABLISHED, dLen := 4,
                          sourceIP := [192, 168, 2, 50], dbuf := memOfList [9, 9, 9, 9] }

/-- A socket connected to 192.168.2.50 port 1024 as `establishedSocket`, with fifos of size
256: the application has written the 150 bytes 0..149, the holding fifo is empty. -/
def bulkSocket : tcpSocket :=
  { establishedSocket [0, 0, 0, 1] [0, 0, 0, 1] with
    strm := { in_ := fifo0 256, out := fifoOf 256 (List.range 150) }, fsBuf := fifo0 256 }

/-- The function `tcp_connect(socket)` for a non-null `socket = &sockets[cnt]`. -/
def tcp_connect (st : tcpState) (cnt : Nat) : tcpState :=
  let s := st.sockets cnt
  let st := setSocket st cnt
    { s with state := TCPSOCKETSTATE_SYN_SENT, ackState := TCP_RETRY_INTERVAL,
             retryCounter := TCP_TOTAL_RETRIES }
  let st := tcp_send st cnt TCPFLAGS_SYN 0
  setSocket st cnt (increaseSeqNum (st.sockets cnt) 1)

/-- The two port fields of an emitted TCP segment: its first four bytes. -/
def ipSendCall.ports (c : ipSendCall) : List Nat := c.message.take 4

/-- The situation of the socket `j` between a SYN and its answer: SYN_SENT with countdown
`a`, `r` retries left, sequence bytes `seq`, local and remote port `p.1` and `p.2`; every
other socket idle, `sent` handed to `ip_send`. -/
def awaiting_synack (j a r : Nat) (seq : List Nat) (p : Nat × Nat) (sent : List ipSendCall)
    (st : tcpState) : Prop :=
  st.sustainer_running = 0 ∧
  (∀ i, i < MAX_TCP_SOCKETS → i ≠ j → socket_idle (st.sockets i)) ∧
  (st.sockets j).state = TCPSOCKETSTATE_SYN_SENT ∧
  (st.sockets j).ackState = a ∧ (st.sockets j).retryCounter = r ∧
  (st.sockets j).seqNum = seq ∧ st.sent = sent ∧
  (st.sockets j).localPort = p.1 ∧ (st.sockets j).remotePort = p.2

/-- A freshly reserved socket (state UNKNOWN, sequence number 0) set up by the application
for a connection from port 1025 to 192.168.2.50 port 80. -/
def connectingSocket : tcpSocket :=
  { socket0 16 16 16 with state := TCPSOCKETSTATE_UNKNOWN, localPort := 1025, remotePort := 80,
                          destIP := [192, 168, 2, 50] }

/-- The value `_FDEV_EOF` of the `stdio.h` of avr-libc, which tcp.c includes. -/
def FDEV_EOF : Int := -2

/-- The function `tcp_getchar(stream)`: the returned `int` and the state afterwards.
`stream` is the index of the socket whose `stdio` the stream is; an index outside the
table stands for a stream of no socket.  The comparison `len < fifo_size(&strm.in) * (1.0 -
TCP_RX_BUF_MIN_SIZE)` with `TCP_RX_BUF_MIN_SIZE` 0.5 is exact in integers as `2 * len <
fifo_size(&strm.in)`.  With an empty receive fifo the loop waits for the interrupt handlers
(data, a change of state, or the timer reaching the timeout); taken alone it does not end:
no result. -/
def tcp_getchar (st : tcpState) (stream : Nat) : Option (Int × tcpState) :=
  if stream ≥ MAX_TCP_SOCKETS then some (0, st)
  else if (st.sockets stream).state ≠ TCPSOCKETSTATE_ESTABLISHED then some (FDEV_EOF, st)
  else
    let len : Int := toI16 (fifo_length (st.sockets stream).strm.in_)
    if len ≠ 0 then
      let st :=
        if (st.sockets stream).lastWindowSize = 0 ∧
            2 * len < (fifo_size (st.sockets stream).strm.in_ : Int) then
          tcp_send st stream TCPFLAGS_ACK 0
        else st
      match fifo_getc (st.sockets stream).strm.in_ with
      | none => none
      | some (c, f) =>
        some ((c : Int), setSocket st stream
          { st.sockets stream with strm := { (st.sockets stream).strm with in_ := f } })
    else none

/-- An ESTABLISHED socket (fifos of size 16) whose receive fifo holds the given bytes and
whose last advertised window was 0. -/
def closedWindowSocket (bytes : List Nat) : tcpSocket :=
  { establishedSocket [0, 0, 0, 1] [0, 0, 0, 1] with
    strm := { in_ := fifoOf 16 bytes, out := fifo0 16 }, lastWindowSize := 0 }

/-- The holding fifo of a socket reserved without a retransmit buffer, as
`fifo_initialize(&fsBuf, 0, fsBuf)` and `fifo_reset` leave it: size 0 and both indices 0. -/
def holding_disabled (s : tcpSocket) : Prop :=
  s.fsBuf.size = 0 ∧ s.fsBuf.readPtr = 0 ∧ s.fsBuf.writePtr = 0

instance (s : tcpSocket) : Decidable (holding_disabled s) := by
  unfold holding_disabled; infer_instance

/-- The socket of scenario 6 (`sendingSocket`) reserved without a retransmit buffer. -/
def unbufferedSocket : tcpSocket := { sendingSocket with fsBuf := fifo0 0 }

/-- The frame is an ARP reply addressed to the local IP and MAC address whose sender IP is
the IP of the ARP entry `i`: the guards of `packet_receive` and of the response branch of
`arp_handle`, and the comparison of its search loop for the entry `i`. -/
def arp_releases (st : ipState) (i : Nat) (packetData : Mem) : Prop :=
  ((packetData 12 <<< 8) ||| (packetData 13 &&& 0xFF)) % 65536 = PACKETTYPE_ARP ∧
  packetData 20 = 0 ∧ packetData 21 = 2 ∧ read4 packetData 38 = take4 st.localIP ∧
  read6 packetData 32 = take6 st.localMAC ∧
  read4 packetData 28 = take4 (st.arpTable i).IP

instance (st : ipState) (i : Nat) (packetData : Mem) : Decidable (arp_releases st i packetData) := by
  unfold arp_releases; infer_instance

/-- The ARP table after `ip_send` has given up waiting for the gateway's reply: entry 0 is
WAITING for 192.168.2.1, its MAC address still zero. -/
def ipStateWaiting : ipState :=
  ipStateOf [arpEntry ARPSTATE_WAITING [192, 168, 2, 1] [0, 0, 0, 0, 0, 0]]

/-! ## Proofs -/

theorem onesNorm_le (n : Nat) : onesNorm n ≤ 65535 := by
  unfold onesNorm; split <;> omega

theorem onesAdd_onesNorm (a b : Nat) (hb : b ≤ 65535) :
    onesAdd (onesNorm a) b = onesNorm (a + b) := by
  unfold onesAdd onesNorm
  split <;> split <;> split <;> omega

theorem checksum_step (s v : Nat) (hv : v ≤ 65535) :
    (let newChecksum := ((65535 - onesNorm s) + 65536 - v % 65536) % 65536
     if newChecksum > 65535 - onesNorm s then newChecksum - 1 else newChecksum)
      = 65535 - onesNorm (s + v) := by
  have h1 := onesNorm_le s
  rw [← onesAdd_onesNorm s v hv]
  unfold onesAdd
  simp only []
  split <;> split <;> omega

theorem weightedSum_shift (l : List Nat) (i : Nat) :
    weightedSum l (i + 2) = weightedSum l i := by
  induction l generalizing i with
  | nil => rfl
  | cons b rest ih =>
    simp only [weightedSum, byteWeight, ih (i + 1)]
    have : (i + 2) % 2 = i % 2 := by omega
    rw [this]

theorem checksum_loop_eq (ptr : Mem) (l : List Nat) :
    ∀ (cnt s : Nat), (∀ b ∈ l, b < 256) →
      (∀ i, i < l.length → ptr (cnt + i) = l.getD i 0) →
      ip_calculateChecksum_loop ptr l.length cnt (65535 - onesNorm s)
        = 65535 - onesNorm (s + weightedSum l cnt) := by
  induction l with
  | nil => intro cnt s _ _; simp [ip_calculateChecksum_loop, weightedSum]
  | cons b rest ih =>
    intro cnt s hb hp
    have hb0 : b < 256 := hb b (List.mem_cons_self _ _)
    have h0 : ptr cnt = b := by simpa using hp 0 (by simp)
    have hop : (if cnt % 2 ≠ 0 then ptr cnt else ptr cnt <<< 8) % 65536 = byteWeight cnt b := by
      rw [h0, Nat.shiftLeft_eq]
      unfold byteWeight
      split <;> omega
    have hw : byteWeight cnt b ≤ 65535 := by
      unfold byteWeight; split <;> omega
    simp only [List.length_cons, ip_calculateChecksum_loop, hop]
    have hstep := checksum_step s (byteWeight cnt b) hw
    simp only [Nat.mod_eq_of_lt (Nat.lt_succ_of_le hw)] at hstep
    rw [hstep]
    rw [ih (cnt + 1) (s + byteWeight cnt b) (fun x hx => hb x (List.mem_cons_of_mem _ hx))]
    · simp only [weightedSum, Nat.add_assoc]
    · intro i hi
      have := hp (i + 1) (by simpa using hi)
      simpa [Nat.add_assoc, Nat.add_comm 1 i] using this

theorem onesSum_words16 (l : List Nat) :
    ∀ (s : Nat), (∀ b ∈ l, b < 256) →
      List.foldl onesAdd (onesNorm s) (words16 l) = onesNorm (s + weightedSum l 0) := by
  induction l using words16.induct with
  | case1 => intro s _; simp [words16, weightedSum]
  | case2 a =>
    intro s hb
    have ha : a < 256 := hb a (by simp)
    simp only [words16, List.foldl, weightedSum, byteWeight]
    rw [onesAdd_onesNorm _ _ (by omega)]
    simp
  | case3 a b rest ih =>
    intro s hb
    have ha : a < 256 := hb a (by simp)
    have hb1 : b < 256 := hb b (by simp)
    simp only [words16, List.foldl, weightedSum, byteWeight]
    rw [onesAdd_onesNorm _ _ (by omega), ih _ (fun x hx => hb x (by simp [hx]))]
    rw [weightedSum_shift rest 0]
    congr 1
    simp
    omega

theorem checksum_eq_weightedSum (p : List Nat) (len : Nat) (hb : ∀ b ∈ p, b < 256)
    (hlen : len ≤ p.length) :
    ip_calculateChecksum (memOfList p) len = 65535 - onesNorm (weightedSum (p.take len) 0) := by
  have hl : (p.take len).length = len := by simp [hlen]
  have h := checksum_loop_eq (memOfList p) (p.take len) 0 0
    (fun b hx => hb b (List.mem_of_mem_take hx))
    (by
      intro i hi
      rw [hl] at hi
      simp [memOfList, List.getD_eq_getElem?_getD, List.getElem?_take, hi])
  rw [hl] at h
  simpa [ip_calculateChecksum, onesNorm] using h

theorem rfc1071_eq_weightedSum (p : List Nat) (hb : ∀ b ∈ p, b < 256) :
    rfc1071 p = 65535 - onesNorm (weightedSum p 0) := by
  have h := onesSum_words16 p 0 hb
  simp only [onesNorm, if_true, Nat.zero_add] at h
  simp [rfc1071, onesSum, h, onesNorm]

/-- C1: on unsigned bytes and a 16-bit length, `ip_calculateChecksum` is the RFC 1071
Internet checksum of the first `len` bytes (one's complement of the end-around-carry sum of
the big-endian 16-bit words, an odd trailing byte padded with a zero low byte); the 20
header bytes of the specification's scenario give 0xB861. -/
theorem ip_calculateChecksum_is_rfc1071 :
    (∀ (p : List Nat) (len : Nat), (∀ b ∈ p, b < 256) → len ≤ p.length → len < 65536 →
      ip_calculateChecksum (memOfList p) len = rfc1071 (p.take len)) ∧
    ip_calculateChecksum (memOfList [0x45, 0x00, 0x00, 0x73, 0x00, 0x00, 0x40, 0x00, 0x40, 0x11,
      0x00, 0x00, 0xC0, 0xA8, 0x00, 0x01, 0xC0, 0xA8, 0x00, 0xC7]) 20 = 0xB861 := by
  refine ⟨?_, by decide⟩
  intro p len hb hlen _
  rw [checksum_eq_weightedSum p len hb hlen,
    rfc1071_eq_weightedSum (p.take len) (fun b hx => hb b (List.mem_of_mem_take hx))]

/-- The witness of `ip_calculateChecksum_is_rfc1071`: three bytes, the odd trailing one
padded; code and RFC 1071 both give 0xFBFD. -/
theorem ip_calculateChecksum_is_rfc1071_witness :
    ip_calculateChecksum (memOfList [1, 2, 3]) 3 = rfc1071 ([1, 2, 3].take 3) ∧
    rfc1071 ([1, 2, 3].take 3) = 0xFBFD :=
  ⟨ip_calculateChecksum_is_rfc1071.1 [1, 2, 3] 3 (by decide) (by decide) (by decide), by decide⟩

theorem shiftRight_eight (c : Nat) : c >>> 8 = c / 256 := by
  rw [Nat.shiftRight_eq_div_pow]

theorem and_255 (c : Nat) : c &&& 0xFF = c % 256 := by
  have h := Nat.and_pow_two_sub_one_eq_mod c 8
  simpa using h

theorem shiftLeft_eight_or (a b : Nat) (hb : b < 256) : (a <<< 8) ||| b = a * 256 + b := by
  have h := Nat.mul_add_lt_is_or (i := 8) (b := b) (by simpa using hb) a
  rw [Nat.shiftLeft_eq, Nat.mul_comm a]
  simpa using h.symm

theorem getD_set_ne (l : List Nat) (j i x : Nat) (h : j ≠ i) :
    (l.set j x).getD i 0 = l.getD i 0 := by
  simp [List.getD_eq_getElem?_getD, List.getElem?_set, h]

theorem getD_set_zero (l : List Nat) (j : Nat) : (l.set j 0).getD j 0 = 0 := by
  simp only [List.getD_eq_getElem?_getD, List.getElem?_set, if_true]
  split <;> rfl

theorem weightedSum_set (l : List Nat) :
    ∀ (i k x : Nat), k < l.length →
      weightedSum (l.set k x) i + byteWeight (i + k) (l.getD k 0)
        = weightedSum l i + byteWeight (i + k) x := by
  induction l with
  | nil => intro i k x hk; simp at hk
  | cons b rest ih =>
    intro i k x hk
    cases k with
    | zero => simp [weightedSum]; omega
    | succ k =>
      have h := ih (i + 1) k x (by simpa using hk)
      have e : i + 1 + k = i + (k + 1) := by omega
      rw [e] at h
      simp only [List.set_cons_succ, weightedSum, List.getD_cons_succ]
      omega

theorem checksum_total (p : List Nat) (hb : ∀ b ∈ p, b < 256) :
    ip_calculateChecksum (memOfList p) p.length = 65535 - onesNorm (weightedSum p 0) := by
  have h := checksum_eq_weightedSum p p.length hb (Nat.le_refl _)
  simpa using h

theorem onesNorm_round_trip (w : Nat) : onesNorm (w + (65535 - onesNorm w)) = 65535 := by
  unfold onesNorm
  split <;> split <;> omega

/-- C2: checksum round trip.  For a byte sequence with a two-byte checksum field at an even
offset `k`, zeroing the field, computing the checksum over the whole sequence and writing
it big-endian into the field gives a sequence whose checksum is 0. -/
theorem checksum_round_trip (s : List Nat) (k : Nat) (hb : ∀ b ∈ s, b < 256)
    (hk : k % 2 = 0) (hk1 : k + 1 < s.length) :
    ip_calculateChecksum
      (memOfList (writeChecksum ((s.set k 0).set (k + 1) 0) k
        (ip_calculateChecksum (memOfList ((s.set k 0).set (k + 1) 0))
          ((s.set k 0).set (k + 1) 0).length)))
      (writeChecksum ((s.set k 0).set (k + 1) 0) k
        (ip_calculateChecksum (memOfList ((s.set k 0).set (k + 1) 0))
          ((s.set k 0).set (k + 1) 0).length)).length = 0 := by
  have hset : ∀ (l : List Nat) (j x : Nat), (∀ b ∈ l, b < 256) → x < 256 →
      ∀ b ∈ l.set j x, b < 256 := by
    intro l j x hl hx b hmem
    rcases List.mem_or_eq_of_mem_set hmem with h | h
    · exact hl b h
    · exact h ▸ hx
  generalize hs0 : (s.set k 0).set (k + 1) 0 = s0
  have hb0 : ∀ b ∈ s0, b < 256 := by
    rw [← hs0]
    exact hset _ _ _ (hset _ _ _ hb (by decide)) (by decide)
  have hl0 : s0.length = s.length := by rw [← hs0]; simp
  have hg0 : s0.getD k 0 = 0 := by
    rw [← hs0, getD_set_ne _ _ _ _ (by omega), getD_set_zero]
  have hg1 : s0.getD (k + 1) 0 = 0 := by
    rw [← hs0, getD_set_zero]
  rw [checksum_total s0 hb0]
  generalize hc : 65535 - onesNorm (weightedSum s0 0) = c
  have hc' : c ≤ 65535 := by omega
  have hb1 : ∀ b ∈ writeChecksum s0 k c, b < 256 := by
    unfold writeChecksum
    refine hset _ _ _ (hset _ _ _ hb0 ?_) ?_
    · rw [shiftRight_eight]; omega
    · rw [and_255]; omega
  rw [checksum_total _ hb1]
  have hw : weightedSum (writeChecksum s0 k c) 0 = weightedSum s0 0 + c := by
    unfold writeChecksum
    have h1 := weightedSum_set s0 0 k (c >>> 8) (by omega)
    have h2 := weightedSum_set (s0.set k (c >>> 8)) 0 (k + 1) (c &&& 0xFF) (by simp; omega)
    have hg1' : (s0.set k (c >>> 8)).getD (k + 1) 0 = 0 := by
      rw [getD_set_ne _ _ _ _ (by omega), hg1]
    rw [hg1'] at h2
    rw [hg0] at h1
    rw [shiftRight_eight, and_255] at *
    simp only [byteWeight, Nat.zero_add] at h1 h2
    have hk2 : (k + 1) % 2 ≠ 0 := by omega
    simp only [hk, hk2, ne_eq, not_true_eq_false, not_false_eq_true, if_true, if_false] at h1 h2
    omega
  rw [hw, ← hc, onesNorm_round_trip]

/-- The witness of `checksum_round_trip`: the 20-byte IPv4 header of the specification's
scenario, checksum field at offset 10. -/
theorem checksum_round_trip_witness :
    ip_calculateChecksum
      (memOfList (writeChecksum [0x45, 0x00, 0x00, 0x73, 0x00, 0x00, 0x40, 0x00, 0x40, 0x11,
        0x00, 0x00, 0xC0, 0xA8, 0x00, 0x01, 0xC0, 0xA8, 0x00, 0xC7] 10 0xB861)) 20 = 0 :=
  checksum_round_trip [0x45, 0x00, 0x00, 0x73, 0x00, 0x00, 0x40, 0x00, 0x40, 0x11,
    0x12, 0x34, 0xC0, 0xA8, 0x00, 0x01, 0xC0, 0xA8, 0x00, 0xC7] 10
    (by decide) (by decide) (by decide)

/-! ### fifo.c -/

theorem mod_lt_two_mul (a n : Nat) (h : a < 2 * n) :
    a % n = if a < n then a else a - n := by
  split
  · exact Nat.mod_eq_of_lt (by assumption)
  · rw [Nat.mod_eq_sub_mod (by omega), Nat.mod_eq_of_lt (by omega)]

theorem fifo_length_wf (f : fifo) (h : fifo_wf f) :
    fifo_length f = if f.readPtr ≤ f.writePtr then f.writePtr - f.readPtr
      else f.writePtr + f.size - f.readPtr := by
  obtain ⟨h1, h2, h3⟩ := h
  unfold fifo_length toU16
  simp only []
  split <;> split <;> omega

theorem fifo_length_le (f : fifo) (h : fifo_wf f) : fifo_length f ≤ f.size - 1 := by
  rw [fifo_length_wf f h]
  obtain ⟨h1, h2, h3⟩ := h
  split <;> omega

theorem fifo_slot_last (f : fifo) (h : fifo_wf f) :
    (f.readPtr + fifo_length f) % f.size = f.writePtr := by
  rw [fifo_length_wf f h]
  obtain ⟨h1, h2, h3⟩ := h
  rw [mod_lt_two_mul _ _ (by split <;> omega)]
  split <;> split <;> omega

theorem fifo_slot_ne (f : fifo) (h : fifo_wf f) (i : Nat) (hi : i < fifo_length f) :
    (f.readPtr + i) % f.size ≠ f.writePtr := by
  rw [fifo_length_wf f h] at hi
  obtain ⟨h1, h2, h3⟩ := h
  rw [mod_lt_two_mul _ _ (by split at hi <;> omega)]
  split at hi <;> split <;> omega

theorem fifo_putc_ok (f : fifo) (c : Nat) (h : fifo_wf f) (hroom : fifo_length f < f.size - 1) :
    fifo_putc f c = some (0, { f with addr := Function.update f.addr f.writePtr c,
                                      writePtr := (f.writePtr + 1) % f.size }) := by
  rw [fifo_length_wf f h] at hroom
  obtain ⟨h1, h2, h3⟩ := h
  unfold fifo_putc
  have hs : f.size ≠ 0 := by omega
  have hne : (f.writePtr + 1) % f.size ≠ f.readPtr := by
    rw [mod_lt_two_mul _ _ (by omega)]
    split at hroom <;> split <;> omega
  simp [hs, hne]

theorem fifo_putc_full (f : fifo) (c : Nat) (h : fifo_wf f)
    (hfull : ¬ fifo_length f < f.size - 1) : fifo_putc f c = some (-1, f) := by
  rw [fifo_length_wf f h] at hfull
  obtain ⟨h1, h2, h3⟩ := h
  unfold fifo_putc
  have hs : f.size ≠ 0 := by omega
  have hne : (f.writePtr + 1) % f.size = f.readPtr := by
    rw [mod_lt_two_mul _ _ (by omega)]
    split at hfull <;> split <;> omega
  simp [hs, hne]

theorem fifo_wf_put (f : fifo) (c : Nat) (h : fifo_wf f) :
    fifo_wf { f with addr := Function.update f.addr f.writePtr c,
                     writePtr := (f.writePtr + 1) % f.size } := by
  obtain ⟨h1, h2, h3⟩ := h
  exact ⟨h1, Nat.mod_lt _ (by omega), h3⟩

theorem fifo_length_put (f : fifo) (c : Nat) (h : fifo_wf f) (hroom : fifo_length f < f.size - 1) :
    fifo_length { f with addr := Function.update f.addr f.writePtr c,
                         writePtr := (f.writePtr + 1) % f.size } = fifo_length f + 1 := by
  rw [fifo_length_wf _ (fifo_wf_put f c h)]
  rw [fifo_length_wf f h] at hroom ⊢
  obtain ⟨h1, h2, h3⟩ := h
  simp only []
  rw [mod_lt_two_mul _ _ (by omega)]
  split at hroom <;> split <;> split <;> omega

theorem fifo_contents_put (f : fifo) (c : Nat) (h : fifo_wf f)
    (hroom : fifo_length f < f.size - 1) :
    fifo_contents { f with addr := Function.update f.addr f.writePtr c,
                           writePtr := (f.writePtr + 1) % f.size } = fifo_contents f ++ [c] := by
  unfold fifo_contents
  rw [fifo_length_put f c h hroom, List.range_succ, List.map_append]
  congr 1
  · apply List.map_congr_left
    intro i hi
    have hi' : i < fifo_length f := List.mem_range.mp hi
    exact Function.update_noteq (fifo_slot_ne f h i hi') _ _
  · simp only [List.map_cons, List.map_nil]
    rw [fifo_slot_last f h, Function.update_same]

theorem fifo_getc_ok (f : fifo) (h : fifo_wf f) (hne : f.writePtr ≠ f.readPtr) :
    fifo_getc f = some (f.addr f.readPtr, { f with readPtr := (f.readPtr + 1) % f.size }) := by
  obtain ⟨h1, h2, h3⟩ := h
  unfold fifo_getc
  have hs : f.size ≠ 0 := by omega
  simp [hs, hne]

theorem fifo_wf_get (f : fifo) (h : fifo_wf f) :
    fifo_wf { f with readPtr := (f.readPtr + 1) % f.size } := by
  obtain ⟨h1, h2, h3⟩ := h
  exact ⟨Nat.mod_lt _ (by omega), h2, h3⟩

theorem fifo_length_get (f : fifo) (h : fifo_wf f) (hne : f.writePtr ≠ f.readPtr) :
    fifo_length f = fifo_length { f with readPtr := (f.readPtr + 1) % f.size } + 1 := by
  rw [fifo_length_wf _ (fifo_wf_get f h), fifo_length_wf f h]
  obtain ⟨h1, h2, h3⟩ := h
  simp only []
  rw [mod_lt_two_mul _ _ (by omega)]
  split <;> split <;> split <;> omega

theorem fifo_contents_get (f : fifo) (h : fifo_wf f) (hne : f.writePtr ≠ f.readPtr) :
    fifo_contents f
      = f.addr f.readPtr :: fifo_contents { f with readPtr := (f.readPtr + 1) % f.size } := by
  unfold fifo_contents
  rw [fifo_length_get f h hne, List.range_succ_eq_map, List.map_cons, List.map_map]
  congr 1
  · simp only [Nat.add_zero]
    rw [Nat.mod_eq_of_lt h.1]
  · apply List.map_congr_left
    intro i _
    simp only [Function.comp_apply, Nat.mod_add_mod]
    congr 2
    omega

theorem fifo_nonempty_iff (f : fifo) (h : fifo_wf f) :
    f.writePtr ≠ f.readPtr ↔ 0 < fifo_length f := by
  rw [fifo_length_wf f h]
  obtain ⟨h1, h2, h3⟩ := h
  split <;> omega

theorem fifo_putc_all_ok (bs : List Nat) :
    ∀ (f : fifo), fifo_wf f → fifo_length f + bs.length ≤ f.size - 1 →
      ∃ f1, fifo_putc_all f bs = some (List.replicate bs.length 0, f1) ∧ fifo_wf f1 ∧
        fifo_contents f1 = fifo_contents f ++ bs ∧
        fifo_length f1 = fifo_length f + bs.length ∧ f1.size = f.size ∧
        f1.readPtr = f.readPtr := by
  induction bs with
  | nil => intro f h _; exact ⟨f, rfl, h, by simp, by simp, rfl, rfl⟩
  | cons c cs ih =>
    intro f h hroom
    simp only [List.length_cons] at hroom
    have hr : fifo_length f < f.size - 1 := by omega
    obtain ⟨f1, h1, h2, h3, h4, h5, h6⟩ := ih _ (fifo_wf_put f c h)
      (by rw [fifo_length_put f c h hr]; simp only []; omega)
    refine ⟨f1, ?_, h2, ?_, ?_, h5, h6⟩
    · simp only [fifo_putc_all, fifo_putc_ok f c h hr, h1, List.length_cons, List.replicate_succ]
    · rw [h3, fifo_contents_put f c h hr]; simp
    · rw [h4, fifo_length_put f c h hr]; simp only [List.length_cons]; omega

theorem fifo_putc_all_append (bs : List Nat) (c : Nat) :
    ∀ (f f1 f2 : fifo) (rs : List Int) (r : Int), fifo_putc_all f bs = some (rs, f1) →
      fifo_putc f1 c = some (r, f2) → fifo_putc_all f (bs ++ [c]) = some (rs ++ [r], f2) := by
  induction bs with
  | nil =>
    intro f f1 f2 rs r h1 h2
    simp only [fifo_putc_all, Option.some.injEq, Prod.mk.injEq] at h1
    obtain ⟨rfl, rfl⟩ := h1
    simp [fifo_putc_all, h2]
  | cons b bs ih =>
    intro f f1 f2 rs r h1 h2
    simp only [fifo_putc_all] at h1
    cases hp : fifo_putc f b with
    | none => simp [hp] at h1
    | some v =>
      obtain ⟨r0, g⟩ := v
      simp only [hp] at h1
      cases hq : fifo_putc_all g bs with
      | none => simp [hq] at h1
      | some w =>
        obtain ⟨rs0, g1⟩ := w
        simp only [hq, Option.some.injEq, Prod.mk.injEq] at h1
        obtain ⟨rfl, rfl⟩ := h1
        have := ih g g1 f2 rs0 r hq h2
        simp [fifo_putc_all, hp, this]

theorem fifo_getc_n_ok (n : Nat) :
    ∀ (f : fifo), fifo_wf f → n ≤ fifo_length f →
      ∃ f2, fifo_getc_n f n = some ((fifo_contents f).take n, f2) ∧ fifo_wf f2 ∧
        fifo_contents f2 = (fifo_contents f).drop n ∧
        fifo_length f2 = fifo_length f - n ∧ f2.size = f.size ∧
        f2.writePtr = f.writePtr ∧ f2.addr = f.addr := by
  induction n with
  | zero => intro f h _; exact ⟨f, rfl, h, by simp, by simp, rfl, rfl, rfl⟩
  | succ n ih =>
    intro f h hn
    have hne : f.writePtr ≠ f.readPtr := (fifo_nonempty_iff f h).mpr (by omega)
    have hl := fifo_length_get f h hne
    obtain ⟨f2, h1, h2, h3, h4, h5, h6, h7⟩ := ih _ (fifo_wf_get f h) (by omega)
    refine ⟨f2, ?_, h2, ?_, ?_, h5, h6, h7⟩
    · simp only [fifo_getc_n, fifo_getc_ok f h hne, h1, fifo_contents_get f h hne,
        List.take_succ_cons]
    · rw [h3, fifo_contents_get f h hne]; simp
    · rw [h4]; omega

theorem fifo_contents_length (f : fifo) : (fifo_contents f).length = fifo_length f := by
  simp [fifo_contents]

theorem fifo_wf_init (s : Nat) (buf : Mem) (h1 : 1 ≤ s) (h2 : s ≤ 32767) :
    fifo_wf ( fifo_initialize s buf) := by
  unfold fifo_wf fifo_initialize
  simp only []
  omega

theorem fifo_length_init (s : Nat) (buf : Mem) :
    fifo_length ( fifo_initialize s buf) = 0 := by
  simp [fifo_length, fifo_initialize, toU16]

/-- C3: the byte fifo is a first-in-first-out queue.  With `fifo_contents` the bytes stored
from `readPtr` up to `writePtr`, a `fifo_putc` that returns 0 appends its byte, a
`fifo_getc` on a non-empty fifo returns the head and leaves the tail, and on a freshly
initialised fifo of size `s >= 2` pushing at most `s - 1` bytes and reading as many returns
the bytes in order and leaves the fifo empty. -/
theorem fifo_is_queue :
    (∀ (f f' : fifo) (c : Nat), fifo_wf f → fifo_putc f c = some (0, f') →
      fifo_contents f' = fifo_contents f ++ [c]) ∧
    (∀ (f : fifo), fifo_wf f → 0 < fifo_length f →
      ∃ c f', fifo_getc f = some (c, f') ∧ fifo_contents f = c :: fifo_contents f') ∧
    (∀ (s : Nat) (buf : Mem) (bs : List Nat), 2 ≤ s → s ≤ 32767 → bs.length ≤ s - 1 →
      ∃ f1 f2, fifo_putc_all ( fifo_initialize s buf) bs = some (List.replicate bs.length 0, f1) ∧
        fifo_getc_n f1 bs.length = some (bs, f2) ∧ fifo_length f2 = 0 ∧
        f2.readPtr = f2.writePtr) := by
  refine ⟨?_, ?_, ?_⟩
  · intro f f' c h hp
    by_cases hroom : fifo_length f < f.size - 1
    · rw [fifo_putc_ok f c h hroom] at hp
      simp only [Option.some.injEq, Prod.mk.injEq, true_and] at hp
      rw [← hp]
      exact fifo_contents_put f c h hroom
    · rw [fifo_putc_full f c h hroom] at hp
      simp at hp
  · intro f h hlen
    have hne := (fifo_nonempty_iff f h).mpr hlen
    exact ⟨_, _, fifo_getc_ok f h hne, fifo_contents_get f h hne⟩
  · intro s buf bs hs hs' hbs
    have hwf := fifo_wf_init s buf (by omega) hs'
    have hl0 := fifo_length_init s buf
    obtain ⟨f1, h1, h2, h3, h4, _, _⟩ := fifo_putc_all_ok bs ( fifo_initialize s buf) hwf
      (by rw [hl0]; simpa [ fifo_initialize] using hbs)
    obtain ⟨f2, g1, g2, _, g4, _, _, _⟩ := fifo_getc_n_ok bs.length f1 h2 (by omega)
    have hc : fifo_contents ( fifo_initialize s buf) = [] := by
      simp [fifo_contents, hl0]
    rw [h3, hc, List.nil_append, List.take_length] at g1
    have hz : fifo_length f2 = 0 := by omega
    refine ⟨f1, f2, h1, g1, hz, ?_⟩
    by_contra hne
    have := (fifo_nonempty_iff f2 g2).mp (fun e => hne e.symm)
    omega

/-- The witness of `fifo_is_queue`: a fifo of size 4 over zeroed storage; the three bytes
7, 8, 9 are accepted and come back in that order. -/
theorem fifo_is_queue_witness :
    ∃ f1 f2, fifo_putc_all ( fifo_initialize 4 (fun _ => 0)) [7, 8, 9] = some ([0, 0, 0], f1) ∧
      fifo_getc_n f1 3 = some ([7, 8, 9], f2) ∧ fifo_length f2 = 0 ∧
      f2.readPtr = f2.writePtr :=
  fifo_is_queue.2.2 4 (fun _ => 0) [7, 8, 9] (by decide) (by decide) (by decide)

/-- C4: the capacity of a fifo is `size - 1`.  On a well-formed fifo `fifo_putc` returns 0
exactly when `fifo_length` is below `size - 1`; otherwise it returns -1 and leaves the fifo
as it was.  From an empty fifo `size - 1` pushes succeed and the next one fails. -/
theorem fifo_capacity :
    (∀ (f : fifo) (c : Nat), fifo_wf f →
      ∃ r f', fifo_putc f c = some (r, f') ∧ (r = 0 ↔ fifo_length f < f.size - 1) ∧
        (r ≠ 0 → r = -1 ∧ f' = f)) ∧
    (∀ (f : fifo) (bs : List Nat) (c : Nat), fifo_wf f → fifo_length f = 0 →
      bs.length = f.size - 1 →
      ∃ f1, fifo_putc_all f (bs ++ [c]) = some (List.replicate (f.size - 1) 0 ++ [-1], f1)) := by
  refine ⟨?_, ?_⟩
  · intro f c h
    by_cases hroom : fifo_length f < f.size - 1
    · exact ⟨_, _, fifo_putc_ok f c h hroom, by simp [hroom], by simp⟩
    · exact ⟨_, _, fifo_putc_full f c h hroom, by simp [hroom], by simp⟩
  · intro f bs c h hl hbs
    obtain ⟨f1, h1, h2, _, h4, h5, _⟩ := fifo_putc_all_ok bs f h (by omega)
    have hfull : ¬ fifo_length f1 < f1.size - 1 := by omega
    have := fifo_putc_all_append bs c f f1 f1 _ (-1) h1 (fifo_putc_full f1 c h2 hfull)
    rw [hbs] at this
    exact ⟨f1, this⟩

/-- The witness of `fifo_capacity`: an empty fifo of size 3 takes two bytes and refuses the
third. -/
theorem fifo_capacity_witness :
    ∃ f1, fifo_putc_all ( fifo_initialize 3 (fun _ => 0)) ([1, 2] ++ [3])
      = some (List.replicate (3 - 1) 0 ++ [-1], f1) :=
  fifo_capacity.2 ( fifo_initialize 3 (fun _ => 0)) [1, 2] 3 (by decide) (by decide) (by decide)

/-! ### tcp.c: sequence and acknowledgement numbers -/

theorem toU16_toI16 (u : Nat) : toU16 (toI16 u) = u % 65536 := by
  unfold toU16 toI16
  split <;> omega

theorem increaseNum_eq (b0 b1 b2 b3 u : Nat) (_h0 : b0 < 256) (h1 : b1 < 256) (h2 : b2 < 256)
    (h3 : b3 < 256) :
    increaseNum [b0, b1, b2, b3] (toI16 u)
      = bytes32 ((be32 [b0, b1, b2, b3] + u % 65536) % 4294967296) := by
  simp only [increaseNum, be32, bytes32, List.getD_cons_zero, List.getD_cons_succ,
    shiftLeft_eight_or _ _ h1, shiftLeft_eight_or _ _ h3, shiftRight_eight, and_255,
    toU16_toI16, List.cons.injEq, and_true]
  refine ⟨?_, ?_, ?_, ?_⟩ <;> first | omega | (split <;> omega)

theorem be32_bytes32 (v : Nat) (h : v < 4294967296) : be32 (bytes32 v) = v := by
  simp only [be32, bytes32, List.getD_cons_zero, List.getD_cons_succ]
  omega

theorem increaseNum_twice (b0 b1 b2 b3 a b : Nat) (h0 : b0 < 256) (h1 : b1 < 256)
    (h2 : b2 < 256) (h3 : b3 < 256) (hab : a + b < 65536) :
    increaseNum (increaseNum [b0, b1, b2, b3] (toI16 a)) (toI16 b)
        = increaseNum [b0, b1, b2, b3] (toI16 (a + b)) ∧
      be32 (increaseNum [b0, b1, b2, b3] (toI16 (a + b)))
        = (be32 [b0, b1, b2, b3] + a + b) % 4294967296 := by
  rw [increaseNum_eq b0 b1 b2 b3 a h0 h1 h2 h3, increaseNum_eq b0 b1 b2 b3 (a + b) h0 h1 h2 h3]
  generalize be32 [b0, b1, b2, b3] = v
  constructor
  · unfold bytes32
    rw [increaseNum_eq _ _ _ _ b (by omega) (by omega) (by omega) (by omega)]
    have := be32_bytes32 ((v + a % 65536) % 4294967296) (by omega)
    unfold bytes32 at this
    rw [this]
    congr 1
    omega
  · rw [be32_bytes32 _ (by omega)]
    congr 1
    omega

/-- C5: sequence and acknowledgement counters are advanced by 32-bit modular addition on
their 4 big-endian bytes.  With 16-bit `unsigned int`, advancing by `a` and then by `b`
(`a + b < 2^16`) leaves the same bytes as advancing once by `a + b`, the result is
`(v + a + b) mod 2^32`, and 0x0000FFFF advanced by 2 is 0x00010001; the same for
`increaseAckNum`. -/
theorem seq_ack_advance (s : tcpSocket) (b0 b1 b2 b3 a b : Nat) (h0 : b0 < 256)
    (h1 : b1 < 256) (h2 : b2 < 256) (h3 : b3 < 256) (hab : a + b < 65536) :
    (s.seqNum = [b0, b1, b2, b3] →
      (increaseSeqNum (increaseSeqNum s (toI16 a)) (toI16 b)).seqNum
          = (increaseSeqNum s (toI16 (a + b))).seqNum ∧
        be32 (increaseSeqNum s (toI16 (a + b))).seqNum
          = (be32 s.seqNum + a + b) % 4294967296) ∧
    (s.ackNum = [b0, b1, b2, b3] →
      (increaseAckNum (increaseAckNum s (toI16 a)) (toI16 b)).ackNum
          = (increaseAckNum s (toI16 (a + b))).ackNum ∧
        be32 (increaseAckNum s (toI16 (a + b))).ackNum
          = (be32 s.ackNum + a + b) % 4294967296) ∧
    (s.seqNum = [0x00, 0x00, 0xFF, 0xFF] →
      (increaseSeqNum s (toI16 2)).seqNum = [0x00, 0x01, 0x00, 0x01]) ∧
    (s.ackNum = [0x00, 0x00, 0xFF, 0xFF] →
      (increaseAckNum s (toI16 2)).ackNum = [0x00, 0x01, 0x00, 0x01]) := by
  refine ⟨?_, ?_, ?_, ?_⟩
  · intro hs
    simp only [increaseSeqNum, hs]
    exact increaseNum_twice b0 b1 b2 b3 a b h0 h1 h2 h3 hab
  · intro hs
    simp only [increaseAckNum, hs]
    exact increaseNum_twice b0 b1 b2 b3 a b h0 h1 h2 h3 hab
  · intro hs
    simp only [increaseSeqNum, hs]
    decide
  · intro hs
    simp only [increaseAckNum, hs]
    decide

/-- The witness of `seq_ack_advance`: the counter 0x0000FFFF advanced by 1 and by 1. -/
theorem seq_ack_advance_witness :
    (increaseSeqNum (increaseSeqNum { socket0 8 8 8 with seqNum := [0, 0, 255, 255] } (toI16 1))
        (toI16 1)).seqNum
      = (increaseSeqNum { socket0 8 8 8 with seqNum := [0, 0, 255, 255] } (toI16 (1 + 1))).seqNum ∧
    be32 (increaseSeqNum { socket0 8 8 8 with seqNum := [0, 0, 255, 255] } (toI16 (1 + 1))).seqNum
      = (be32 [0, 0, 255, 255] + 1 + 1) % 4294967296 :=
  (seq_ack_advance { socket0 8 8 8 with seqNum := [0, 0, 255, 255] } 0 0 255 255 1 1
    (by decide) (by decide) (by decide) (by decide) (by decide)).1 rfl

/-! ### tcp.c: `tcp_send` -/

theorem map_range_slice (f : Nat → Nat) (n a b : Nat) (h : a + b ≤ n) :
    (((List.range n).map f).drop a).take b = (List.range b).map (fun i => f (a + i)) := by
  apply List.ext_getElem
  · simp; omega
  · intro i h1 h2
    simp [List.getElem_take, List.getElem_drop]

theorem map_range_drop (f : Nat → Nat) (a b : Nat) :
    ((List.range (b + a)).map f).drop a = (List.range b).map (fun i => f (a + i)) := by
  have h := map_range_slice f (b + a) a b (by omega)
  rw [List.take_of_length_le (by simp)] at h
  exact h

theorem isBytes4_take4 (l : List Nat) (h : isBytes4 l) : take4 l = l := by
  obtain ⟨hl, _⟩ := h
  match l, hl with
  | [a, b, c, d], _ => rfl

theorem isBytes4_increaseNum (l : List Nat) (len : Int) : isBytes4 (increaseNum l len) := by
  refine ⟨rfl, ?_⟩
  intro b hb
  simp only [increaseNum, List.mem_cons, List.mem_singleton, List.not_mem_nil, or_false] at hb
  rcases hb with h | h | h | h <;> rw [h] <;> exact Nat.mod_lt _ (by decide)

theorem increaseNum_isBytes4 (l : List Nat) (u : Nat) (h : isBytes4 l) :
    increaseNum l (toI16 u) = bytes32 ((be32 l + u % 65536) % 4294967296) := by
  obtain ⟨hl, hb⟩ := h
  match l, hl, hb with
  | [a, b, c, d], _, hb =>
    exact increaseNum_eq a b c d u (hb a (by simp)) (hb b (by simp)) (hb c (by simp))
      (hb d (by simp))

theorem tcp_buildHeader_payload (pb : Mem) (ip : List Nat) (socket : tcpSocket)
    (flags len i : Nat) (hi : 32 ≤ i) : tcp_buildHeader pb ip socket flags len i = pb i := by
  simp only [tcp_buildHeader, memcpy, Function.update_apply]
  repeat rw [if_neg (by omega)]

theorem tcp_buildHeader_flags (pb : Mem) (ip : List Nat) (socket : tcpSocket)
    (flags len : Nat) : tcp_buildHeader pb ip socket flags len 25 = flags % 256 := by
  simp [tcp_buildHeader]

theorem tcp_buildHeader_seq (pb : Mem) (ip : List Nat) (socket : tcpSocket)
    (flags len : Nat) :
    read4 (tcp_buildHeader pb ip socket flags len) 16 = take4 socket.seqNum := by
  simp [tcp_buildHeader, read4, take4, memcpy, Function.update_apply]

theorem tcp_buildHeader_ack (pb : Mem) (ip : List Nat) (socket : tcpSocket)
    (flags len : Nat) :
    read4 (tcp_buildHeader pb ip socket flags len) 20 = take4 socket.ackNum := by
  simp [tcp_buildHeader, read4, take4, memcpy, Function.update_apply]

theorem tcp_send_sockets (st : tcpState) (cnt j flags len : Nat) (h : j ≠ cnt) :
    (tcp_send st cnt flags len).sockets j = st.sockets j := by
  simp [tcp_send, Function.update_noteq h]

theorem tcp_send_socket (st : tcpState) (cnt flags len : Nat) :
    (tcp_send st cnt flags len).sockets cnt
      = { st.sockets cnt with lastWindowSize := tcp_windowSize (st.sockets cnt) } := by
  simp [tcp_send]

theorem tcp_send_running (st : tcpState) (cnt flags len : Nat) :
    (tcp_send st cnt flags len).sustainer_running = st.sustainer_running := rfl

theorem tcp_send_localIP (st : tcpState) (cnt flags len : Nat) :
    (tcp_send st cnt flags len).localIP = st.localIP := rfl

theorem tcp_send_payloadBuf (st : tcpState) (cnt flags len i : Nat) (hi : 32 ≤ i) :
    (tcp_send st cnt flags len).packetBuf i = st.packetBuf i := by
  simp only [tcp_send, Function.update_apply]
  rw [if_neg (by omega), if_neg (by omega)]
  exact tcp_buildHeader_payload _ _ _ _ _ _ hi

/-- What `tcp_send` hands to `ip_send`: one call, for the socket of index `cnt`, with the
flags, the socket's sequence and acknowledgement bytes and the payload found at offset 32 of
the packet buffer. -/
theorem tcp_send_sent (st : tcpState) (cnt flags len : Nat) (hlen : len + 20 < 65536) :
    ∃ c, (tcp_send st cnt flags len).sent = st.sent ++ [c] ∧ c.sock = cnt ∧
      c.ip = (st.sockets cnt).destIP ∧
      c.flags = flags % 256 ∧ c.seqField = take4 (st.sockets cnt).seqNum ∧
      c.ackField = take4 (st.sockets cnt).ackNum ∧
      c.payload = (List.range len).map (fun i => st.packetBuf (32 + i)) := by
  refine ⟨_, rfl, rfl, rfl, ?_, ?_, ?_, ?_⟩
  · simp only [ipSendCall.flags, Nat.mod_eq_of_lt hlen]
    rw [List.getD_eq_getElem?_getD, List.getElem?_map, List.getElem?_range (by omega)]
    simp [Function.update_apply, tcp_buildHeader_flags]
  · simp only [ipSendCall.seqField, Nat.mod_eq_of_lt hlen]
    rw [map_range_slice _ _ 4 4 (by omega), ← tcp_buildHeader_seq st.packetBuf st.localIP _ flags len]
    simp [read4, List.range, List.range.loop, Function.update_apply]
  · simp only [ipSendCall.ackField, Nat.mod_eq_of_lt hlen]
    rw [map_range_slice _ _ 8 4 (by omega), ← tcp_buildHeader_ack st.packetBuf st.localIP _ flags len]
    simp [read4, List.range, List.range.loop, Function.update_apply]
  · simp only [ipSendCall.payload, Nat.mod_eq_of_lt hlen]
    rw [map_range_drop]
    apply List.map_congr_left
    intro i _
    simp only [Function.update_apply]
    rw [if_neg (by omega), if_neg (by omega)]
    have : 12 + (20 + i) = 32 + i := by omega
    rw [this]
    exact tcp_buildHeader_payload _ _ _ _ _ _ (by omega)

/-! ### tcp.c: `tcp_handle` -/

theorem setSocket_same (st : tcpState) (cnt : Nat) (s : tcpSocket) :
    (setSocket st cnt s).sockets cnt = s := by
  simp [setSocket]

theorem setSocket_ne (st : tcpState) (cnt j : Nat) (s : tcpSocket) (h : j ≠ cnt) :
    (setSocket st cnt s).sockets j = st.sockets j := by
  simp [setSocket, Function.update_noteq h]

theorem setSocket_sent (st : tcpState) (cnt : Nat) (s : tcpSocket) :
    (setSocket st cnt s).sent = st.sent := rfl

theorem setSocket_packetBuf (st : tcpState) (cnt : Nat) (s : tcpSocket) :
    (setSocket st cnt s).packetBuf = st.packetBuf := rfl

theorem setSocket_running (st : tcpState) (cnt : Nat) (s : tcpSocket) :
    (setSocket st cnt s).sustainer_running = st.sustainer_running := rfl

theorem setSocket_localIP (st : tcpState) (cnt : Nat) (s : tcpSocket) :
    (setSocket st cnt s).localIP = st.localIP := rfl

theorem tcp_handle_loop_next (pkt : Mem) (st : tcpState) (n cnt : Nat)
    (h : ¬ captures (st.sockets cnt) pkt) :
    tcp_handle_loop pkt (n + 1) cnt st = tcp_handle_loop pkt n (cnt + 1) st := by
  unfold captures at h
  simp only [not_or, not_and] at h
  obtain ⟨hA, hB, hC⟩ := h
  rw [tcp_handle_loop]
  simp only []
  rw [if_neg (fun hx => hA hx.1 hx.2), if_neg (fun hx => hB hx.1 hx.2)]
  by_cases hc : take4 (st.sockets cnt).destIP = pktSourceIP pkt ∧
      (st.sockets cnt).localPort = pktLocalPort pkt ∧
      (st.sockets cnt).remotePort = pktRemotePort pkt
  · have hC' := hC hc.1 hc.2.1 hc.2.2
    simp only [not_or, not_and] at hC'
    rw [if_pos hc, if_neg hC'.1, if_neg (fun hx => hC'.2 hx.1 hx.2)]
  · rw [if_neg hc]

theorem tcp_handle_loop_skip (pkt : Mem) (st : tcpState) :
    ∀ (k n cnt : Nat), (∀ i, cnt ≤ i → i < cnt + k → ¬ captures (st.sockets i) pkt) →
      tcp_handle_loop pkt (k + n) cnt st = tcp_handle_loop pkt n (cnt + k) st := by
  intro k
  induction k with
  | zero => intro n cnt _; simp
  | succ k ih =>
    intro n cnt h
    have e : k + 1 + n = (k + n) + 1 := by omega
    rw [e, tcp_handle_loop_next pkt st (k + n) cnt (h cnt (Nat.le_refl _) (by omega)),
      ih n (cnt + 1) (fun i h1 h2 => h i (by omega) (by omega))]
    congr 1
    omega

theorem tcp_handle_first (pkt : Mem) (st : tcpState) (j : Nat) (hj : j < MAX_TCP_SOCKETS)
    (hfirst : ∀ i, i < j → ¬ captures (st.sockets i) pkt) :
    tcp_handle st pkt = tcp_handle_loop pkt (MAX_TCP_SOCKETS - 1 - j + 1) j st := by
  unfold tcp_handle
  have h := tcp_handle_loop_skip pkt st j (MAX_TCP_SOCKETS - 1 - j + 1) 0
    (fun i _ h2 => hfirst i (by omega))
  have e : j + (MAX_TCP_SOCKETS - 1 - j + 1) = MAX_TCP_SOCKETS := by
    unfold MAX_TCP_SOCKETS at hj ⊢; omega
  rw [e] at h
  rw [h, Nat.zero_add]

theorem fifo_length_reset (f : fifo) : fifo_length (fifo_reset f) = 0 := by
  simp [fifo_length, fifo_reset, toU16]

theorem be32_increaseNum (l : List Nat) (u : Nat) (h : isBytes4 l) (hu : u < 65536) :
    be32 (increaseNum l (toI16 u)) = (be32 l + u) % 4294967296 := by
  rw [increaseNum_isBytes4 l u h, be32_bytes32 _ (Nat.mod_lt _ (by decide)),
    Nat.mod_eq_of_lt hu]

theorem isBytes4_read4 (m : Mem) (off : Nat) (h : ∀ i, m i < 256) : isBytes4 (read4 m off) := by
  refine ⟨rfl, ?_⟩
  intro b hb
  simp only [read4, List.mem_cons, List.mem_singleton, List.not_mem_nil, or_false] at hb
  rcases hb with e | e | e | e <;> rw [e] <;> exact h _

theorem isBytes4_pktSeqNum (pkt : Mem) (h : ∀ i, pkt i < 256) : isBytes4 (pktSeqNum pkt) :=
  isBytes4_read4 pkt _ h

/-- C6: passive open.  When the first socket of the table that the segment matches is in
LISTEN on the destination port, a segment with SYN makes it ESTABLISHED with the
segment's source port and IP, ack number `q + 1 + d`, exactly one emitted segment
SYN|ACK carrying that ack number and the previous sequence number, the sequence number
advanced by `1 + d` and the three fifos empty; a segment without SYN changes nothing and
emits nothing. -/
theorem passive_open (st : tcpState) (pkt : Mem) (j : Nat) (hj : j < MAX_TCP_SOCKETS)
    (hbytes : ∀ i, pkt i < 256)
    (hstate : (st.sockets j).state = TCPSOCKETSTATE_LISTEN)
    (hport : (st.sockets j).localPort = pktLocalPort pkt)
    (hfirst : ∀ i, i < j → ¬ captures (st.sockets i) pkt)
    (hd : dataCount pkt < 65535)
    (hseq : isBytes4 (st.sockets j).seqNum) :
    (pktCodeBits pkt &&& TCPFLAGS_SYN ≠ 0 →
      ∃ st' c, tcp_handle st pkt = some st' ∧
        (st'.sockets j).state = TCPSOCKETSTATE_ESTABLISHED ∧
        (st'.sockets j).remotePort = pktRemotePort pkt ∧
        (st'.sockets j).destIP = pktSourceIP pkt ∧
        be32 (st'.sockets j).ackNum = (be32 (pktSeqNum pkt) + 1 + dataCount pkt) % 4294967296 ∧
        st'.sent = st.sent ++ [c] ∧ c.sock = j ∧ c.flags = TCPFLAGS_SYN ||| TCPFLAGS_ACK ∧
        c.ackField = (st'.sockets j).ackNum ∧ c.seqField = (st.sockets j).seqNum ∧
        be32 (st'.sockets j).seqNum
          = (be32 (st.sockets j).seqNum + 1 + dataCount pkt) % 4294967296 ∧
        fifo_length (st'.sockets j).strm.in_ = 0 ∧ fifo_length (st'.sockets j).strm.out = 0 ∧
        fifo_length (st'.sockets j).fsBuf = 0) ∧
    (pktCodeBits pkt &&& TCPFLAGS_SYN = 0 → tcp_handle st pkt = some st) := by
  have hne : ¬ ((st.sockets j).state = TCPSOCKETSTATE_SYN_SENT ∧
      (st.sockets j).localPort = pktLocalPort pkt) := by
    rw [hstate]; intro h; exact absurd h.1 (by decide)
  rw [tcp_handle_first pkt st j hj hfirst, tcp_handle_loop]
  simp only []
  rw [if_neg hne, if_pos ⟨hstate, hport⟩]
  constructor
  · intro hsyn
    rw [if_pos hsyn]
    obtain ⟨c, hc1, hc2, _, hc3, hc4, hc5, _⟩ := tcp_send_sent
      (setSocket st j (increaseAckNum
        { ({ ({ st.sockets j with remotePort := pktRemotePort pkt } : tcpSocket) with
              destIP := pktSourceIP pkt } : tcpSocket) with ackNum := pktSeqNum pkt }
        (toI16 (1 + dataCount pkt))))
      j (TCPFLAGS_SYN ||| TCPFLAGS_ACK) 0 (by decide)
    refine ⟨_, c, rfl, ?_, ?_, ?_, ?_, ?_, hc2, ?_, ?_, ?_, ?_, ?_, ?_, ?_⟩
    · simp [setSocket_same, increaseSeqNum]
    · simp [setSocket_same, increaseSeqNum, tcp_send_socket, increaseAckNum]
    · simp [setSocket_same, increaseSeqNum, tcp_send_socket, increaseAckNum]
    · simp only [setSocket_same, increaseSeqNum, tcp_send_socket, increaseAckNum]
      rw [be32_increaseNum _ _ (isBytes4_pktSeqNum pkt hbytes) (by omega), Nat.add_assoc]
    · rw [setSocket_sent, hc1, setSocket_sent]
    · rw [hc3]; decide
    · rw [hc5]
      simp only [setSocket_same, increaseSeqNum, tcp_send_socket, increaseAckNum]
      exact isBytes4_take4 _ (isBytes4_increaseNum _ _)
    · rw [hc4]
      simp only [setSocket_same, increaseAckNum]
      exact isBytes4_take4 _ hseq
    · simp only [setSocket_same, increaseSeqNum, tcp_send_socket, increaseAckNum]
      rw [be32_increaseNum _ _ hseq (by omega), Nat.add_assoc]
    · simp [setSocket_same, fifo_length_reset]
    · simp [setSocket_same, fifo_length_reset]
    · simp [setSocket_same, fifo_length_reset]
  · intro hsyn
    rw [if_neg (by simpa using hsyn)]

theorem memOfList_lt (l : List Nat) (h : ∀ b ∈ l, b < 256) (i : Nat) : memOfList l i < 256 := by
  unfold memOfList
  rw [List.getD_eq_getElem?_getD]
  cases hi : l[i]? with
  | none => simp
  | some b => simpa using h b (List.getElem?_mem hi)

/-- The witness of `passive_open`: a SYN with sequence number 0 and no data to the socket
listening on port 80 (scenario 4 of the specification). -/
theorem passive_open_witness :
    ∃ st' c, tcp_handle (tableOf listenSocket (socket0 16 16 16))
        (ipTcpPacket 1024 80 [0, 0, 0, 0] [0, 0, 0, 0] 0x02 []) = some st' ∧
      (st'.sockets 0).state = TCPSOCKETSTATE_ESTABLISHED ∧
      (st'.sockets 0).remotePort = pktRemotePort (ipTcpPacket 1024 80 [0, 0, 0, 0] [0, 0, 0, 0] 0x02 []) ∧
      (st'.sockets 0).destIP = pktSourceIP (ipTcpPacket 1024 80 [0, 0, 0, 0] [0, 0, 0, 0] 0x02 []) ∧
      be32 (st'.sockets 0).ackNum
        = (be32 (pktSeqNum (ipTcpPacket 1024 80 [0, 0, 0, 0] [0, 0, 0, 0] 0x02 [])) + 1
            + dataCount (ipTcpPacket 1024 80 [0, 0, 0, 0] [0, 0, 0, 0] 0x02 [])) % 4294967296 ∧
      st'.sent = (tableOf listenSocket (socket0 16 16 16)).sent ++ [c] ∧ c.sock = 0 ∧
      c.flags = TCPFLAGS_SYN ||| TCPFLAGS_ACK ∧
      c.ackField = (st'.sockets 0).ackNum ∧
      c.seqField = ((tableOf listenSocket (socket0 16 16 16)).sockets 0).seqNum ∧
      be32 (st'.sockets 0).seqNum
        = (be32 ((tableOf listenSocket (socket0 16 16 16)).sockets 0).seqNum + 1
            + dataCount (ipTcpPacket 1024 80 [0, 0, 0, 0] [0, 0, 0, 0] 0x02 [])) % 4294967296 ∧
      fifo_length (st'.sockets 0).strm.in_ = 0 ∧ fifo_length (st'.sockets 0).strm.out = 0 ∧
      fifo_length (st'.sockets 0).fsBuf = 0 :=
  (passive_open (tableOf listenSocket (socket0 16 16 16))
    (ipTcpPacket 1024 80 [0, 0, 0, 0] [0, 0, 0, 0] 0x02 []) 0 (by decide)
    (memOfList_lt _ (by decide)) (by decide) (by decide)
    (fun i h => absurd h (Nat.not_lt_zero i)) (by decide) (by decide)).1 (by decide)

theorem tcp_copyData_ok (packet : Mem) (base : Nat) :
    ∀ (n i : Nat) (f : fifo), fifo_wf f →
      ∃ f1, tcp_copyData f packet base n i = some f1 ∧ fifo_wf f1 ∧ f1.size = f.size ∧
        fifo_contents f1 = fifo_contents f ++
          ((List.range' i n).map (fun k => packet (k + base))).take
            (f.size - 1 - fifo_length f) := by
  intro n
  induction n with
  | zero => intro i f h; exact ⟨f, rfl, h, rfl, by simp⟩
  | succ n ih =>
    intro i f h
    by_cases hroom : fifo_length f < f.size - 1
    · obtain ⟨f1, h1, h2, h3, h4⟩ := ih (i + 1) _ (fifo_wf_put f (packet (i + base)) h)
      refine ⟨f1, ?_, h2, h3, ?_⟩
      · simp only [tcp_copyData, fifo_putc_ok f _ h hroom, h1]
      · rw [h4, fifo_contents_put f _ h hroom, fifo_length_put f _ h hroom]
        simp only [List.range', List.map_cons]
        have e : f.size - 1 - fifo_length f = (f.size - 1 - (fifo_length f + 1)) + 1 := by omega
        rw [e, List.take_succ_cons]
        simp
    · obtain ⟨f1, h1, h2, h3, h4⟩ := ih (i + 1) f h
      refine ⟨f1, ?_, h2, h3, ?_⟩
      · simp only [tcp_copyData, fifo_putc_full f _ h hroom, h1]
      · have e : f.size - 1 - fifo_length f = 0 := by omega
        rw [h4, e]
        simp

theorem pktPayload_eq (pkt : Mem) :
    (List.range' 0 (dataCount pkt)).map
        (fun k => (fun i => pkt (tcpOffset pkt + i)) (k + tcpHeaderLen pkt))
      = pktPayload pkt := by
  unfold pktPayload
  rw [← List.range_eq_range']
  apply List.map_congr_left
  intro i _
  simp only []
  congr 1
  omega

/-- C7, as the code has it: when the first socket of the table that the segment matches is
ESTABLISHED with the segment's addresses, and the segment carries `n > 0` data bytes and
neither SYN nor FIN, then after `tcp_handle` the socket's ack number is the segment's
sequence number plus `n` (the previous ack number plus `n` when the segment is in
sequence), the payload bytes are appended to the receive fifo in order as far as there is
room, and exactly one segment, an ACK carrying the new ack number, is emitted. -/
theorem data_acceptance (st : tcpState) (pkt : Mem) (j : Nat) (hj : j < MAX_TCP_SOCKETS)
    (hbytes : ∀ i, pkt i < 256)
    (hstate : (st.sockets j).state = TCPSOCKETSTATE_ESTABLISHED)
    (hip : take4 (st.sockets j).destIP = pktSourceIP pkt)
    (hlport : (st.sockets j).localPort = pktLocalPort pkt)
    (hrport : (st.sockets j).remotePort = pktRemotePort pkt)
    (hfirst : ∀ i, i < j → ¬ captures (st.sockets i) pkt)
    (hn : dataCount pkt ≠ 0)
    (hsyn : pktCodeBits pkt &&& TCPFLAGS_SYN = 0)
    (hfin : pktCodeBits pkt &&& TCPFLAGS_FIN = 0)
    (hwf : fifo_wf (st.sockets j).strm.in_) :
    ∃ st' c, tcp_handle st pkt = some st' ∧
      (st'.sockets j).state = TCPSOCKETSTATE_ESTABLISHED ∧
      be32 (st'.sockets j).ackNum = (be32 (pktSeqNum pkt) + dataCount pkt) % 4294967296 ∧
      (pktSeqNum pkt = (st.sockets j).ackNum →
        be32 (st'.sockets j).ackNum
          = (be32 (st.sockets j).ackNum + dataCount pkt) % 4294967296) ∧
      fifo_contents (st'.sockets j).strm.in_
        = fifo_contents (st.sockets j).strm.in_ ++
          (pktPayload pkt).take
            ((st.sockets j).strm.in_.size - 1 - fifo_length (st.sockets j).strm.in_) ∧
      st'.sent = st.sent ++ [c] ∧ c.sock = j ∧ c.flags = TCPFLAGS_ACK ∧
      c.ackField = (st'.sockets j).ackNum ∧ c.payload = [] := by
  have hne1 : ¬ ((st.sockets j).state = TCPSOCKETSTATE_SYN_SENT ∧
      (st.sockets j).localPort = pktLocalPort pkt) := by
    rw [hstate]; intro h; exact absurd h.1 (by decide)
  have hne2 : ¬ ((st.sockets j).state = TCPSOCKETSTATE_LISTEN ∧
      (st.sockets j).localPort = pktLocalPort pkt) := by
    rw [hstate]; intro h; exact absurd h.1 (by decide)
  have hdc : dataCount pkt < 65536 := by
    unfold dataCount toU16; omega
  rw [tcp_handle_first pkt st j hj hfirst, tcp_handle_loop]
  simp only []
  rw [if_neg hne1, if_neg hne2, if_pos ⟨hip, hlport, hrport⟩, if_pos hstate]
  unfold tcp_handle_established
  simp only [hsyn, hfin, ne_eq, not_true_eq_false, if_false, hn, not_false_eq_true, if_true]
  generalize hs1 : (if ¬ pktCodeBits pkt &&& TCPFLAGS_ACK = 0 then
      if take4 (st.sockets j).seqNum = pktAckNum pkt then
        ({ st.sockets j with ackState := 0, retryCounter := 0,
                             fsBuf := fifo_reset (st.sockets j).fsBuf } : tcpSocket)
      else st.sockets j
    else st.sockets j) = s1
  have hin : s1.strm = (st.sockets j).strm := by
    rw [← hs1]; split
    · split <;> rfl
    · rfl
  have hst1 : s1.state = (st.sockets j).state := by
    rw [← hs1]; split
    · split <;> rfl
    · rfl
  obtain ⟨f1, hf1, _, _, hf4⟩ := tcp_copyData_ok (fun i => pkt (tcpOffset pkt + i))
    (tcpHeaderLen pkt) (dataCount pkt) 0 (st.sockets j).strm.in_ hwf
  rw [pktPayload_eq] at hf4
  simp only [increaseAckNum, hin, hf1]
  obtain ⟨c, hc1, hc2, _, hc3, _, hc5, hc6⟩ := tcp_send_sent
    (setSocket st j
      { ({ s1 with ackNum := increaseNum (pktSeqNum pkt) (toI16 (dataCount pkt)) } : tcpSocket)
        with strm := { (st.sockets j).strm with in_ := f1 } })
    j TCPFLAGS_ACK 0 (by decide)
  have hack : be32 (increaseNum (pktSeqNum pkt) (toI16 (dataCount pkt)))
      = (be32 (pktSeqNum pkt) + dataCount pkt) % 4294967296 :=
    be32_increaseNum _ _ (isBytes4_pktSeqNum pkt hbytes) hdc
  refine ⟨_, c, rfl, ?_, ?_, ?_, ?_, ?_, hc2, ?_, ?_, ?_⟩
  · simp [tcp_send_socket, setSocket_same, hst1, hstate]
  · simp only [tcp_send_socket, setSocket_same]
    exact hack
  · intro he
    simp only [tcp_send_socket, setSocket_same]
    rw [hack, he]
  · simp only [tcp_send_socket, setSocket_same]
    exact hf4
  · rw [hc1, setSocket_sent]
  · rw [hc3]; decide
  · rw [hc5]
    simp only [tcp_send_socket, setSocket_same]
    exact isBytes4_take4 _ (isBytes4_increaseNum _ _)
  · rw [hc6]; rfl

/-- The witness of `data_acceptance` (scenario 5 of the specification): the segment PSH|ACK
with the 5 bytes "hello", in sequence, advances the ack number from 1 to 6, one ACK is
emitted, and the next five reads return 'h', 'e', 'l', 'l', 'o'. -/
theorem data_acceptance_witness :
    (∃ st' c, tcp_handle (tableOf (establishedSocket [0, 0, 0, 1] [0, 0, 0, 1]) (socket0 16 16 16))
        helloPacket = some st' ∧
      be32 (st'.sockets 0).ackNum = 6 ∧
      fifo_contents (st'.sockets 0).strm.in_ = [104, 101, 108, 108, 111] ∧
      st'.sent = [c] ∧ c.flags = TCPFLAGS_ACK ∧ c.ackField = (st'.sockets 0).ackNum) ∧
    (tcp_handle (tableOf (establishedSocket [0, 0, 0, 1] [0, 0, 0, 1]) (socket0 16 16 16))
        helloPacket).bind (fun st' => (fifo_getc_n (st'.sockets 0).strm.in_ 5).map Prod.fst)
      = some [104, 101, 108, 108, 111] := by
  constructor
  · obtain ⟨st', c, h1, _, _, h3, h4, h5, _, h6, h7, _⟩ :=
      data_acceptance (tableOf (establishedSocket [0, 0, 0, 1] [0, 0, 0, 1]) (socket0 16 16 16))
        helloPacket 0 (by decide) (memOfList_lt _ (by decide)) (by decide) (by decide)
        (by decide) (by decide) (fun i h => absurd h (Nat.not_lt_zero i)) (by decide)
        (by decide) (by decide) (by decide)
    refine ⟨st', c, h1, ?_, ?_, h5, h6, h7⟩
    · rw [h3 (by decide)]; decide
    · rw [h4]; decide
  · decide

/-- C7 as stated fails in two ways.  A matching data segment whose sequence number (1) is
not the socket's ack number (100) sets the ack number to 6, not to 105; and an
ESTABLISHED socket that stands in the table behind a socket listening on the same port
does not get the segment at all: ack number, receive fifo and output are unchanged. -/
theorem data_acceptance_counterexample :
    ((tcp_handle (tableOf (establishedSocket [0, 0, 0, 1] [0, 0, 0, 100]) (socket0 16 16 16))
          helloPacket).map (fun st' => be32 (st'.sockets 0).ackNum) = some 6 ∧
      (be32 (establishedSocket [0, 0, 0, 1] [0, 0, 0, 100]).ackNum + dataCount helloPacket)
        % 4294967296 = 105) ∧
    (tcp_handle (tableOf listenSocket (establishedSocket [0, 0, 0, 1] [0, 0, 0, 1]))
        helloPacket).map
      (fun st' => (be32 (st'.sockets 1).ackNum, fifo_contents (st'.sockets 1).strm.in_, st'.sent))
      = some (1, [], []) := by
  decide

/-! ### tcp.c: `tcp_sustain` -/

theorem tcp_drain_ok :
    ∀ (n i : Nat) (fs : fifo) (pb : Mem), fifo_wf fs → n ≤ fifo_length fs →
      ∃ fs1 pb1, tcp_drain fs pb n i = some (fs1, pb1) ∧ fifo_wf fs1 ∧ fs1.size = fs.size ∧
        fifo_contents fs1 = (fifo_contents fs).drop n ∧
        fifo_length fs1 = fifo_length fs - n ∧
        (∀ m, m < 32 + i → pb1 m = pb m) ∧
        (List.range' i n).map (fun k => pb1 (32 + k)) = (fifo_contents fs).take n := by
  intro n
  induction n with
  | zero => intro i fs pb h _; exact ⟨fs, pb, rfl, h, rfl, by simp, by simp, fun _ _ => rfl, by simp⟩
  | succ n ih =>
    intro i fs pb h hn
    have hne : fs.writePtr ≠ fs.readPtr := (fifo_nonempty_iff fs h).mpr (by omega)
    have hl := fifo_length_get fs h hne
    obtain ⟨fs1, pb1, h1, h2, h3, h4, h5, h6, h7⟩ := ih (i + 1) _
      (Function.update pb (32 + i) (fs.addr fs.readPtr)) (fifo_wf_get fs h) (by omega)
    refine ⟨fs1, pb1, ?_, h2, h3, ?_, ?_, ?_, ?_⟩
    · simp only [tcp_drain, fifo_getc_ok fs h hne, h1]
    · rw [h4, fifo_contents_get fs h hne]; simp
    · rw [h5]; omega
    · intro m hm
      rw [h6 m (by omega), Function.update_noteq (by omega)]
    · rw [fifo_contents_get fs h hne, List.take_succ_cons, ← h7]
      simp only [List.range', List.map_cons, List.cons.injEq, and_true]
      rw [h6 (32 + i) (by omega), Function.update_same]

theorem tcp_fill_ok :
    ∀ (n i : Nat) (out fs : fifo) (pb : Mem), fifo_wf out → n ≤ fifo_length out →
      (fifo_size fs ≠ 0 → fifo_wf fs) →
      ∃ out1 fs1 pb1, tcp_fill out fs pb n i = some (out1, fs1, pb1) ∧ fifo_wf out1 ∧
        out1.size = out.size ∧
        fifo_contents out1 = (fifo_contents out).drop n ∧
        fifo_length out1 = fifo_length out - n ∧
        (∀ m, m < 32 + i → pb1 m = pb m) ∧
        (List.range' i n).map (fun k => pb1 (32 + k)) = (fifo_contents out).take n ∧
        fs1.size = fs.size ∧
        (fifo_size fs = 0 → fs1 = fs) ∧
        (fifo_size fs ≠ 0 → fifo_wf fs1) ∧
        (fifo_size fs ≠ 0 → fifo_length fs + n ≤ fs.size - 1 →
          fifo_contents fs1 = fifo_contents fs ++ (fifo_contents out).take n ∧
          fifo_length fs1 = fifo_length fs + n) := by
  intro n
  induction n with
  | zero =>
    intro i out fs pb h _ hfs
    exact ⟨out, fs, pb, rfl, h, rfl, by simp, by simp, fun _ _ => rfl, by simp, rfl,
      fun _ => rfl, hfs, fun _ _ => by simp⟩
  | succ n ih =>
    intro i out fs pb h hn hfs
    have hne : out.writePtr ≠ out.readPtr := (fifo_nonempty_iff out h).mpr (by omega)
    have hl := fifo_length_get out h hne
    have hc := fifo_contents_get out h hne
    by_cases hz : fifo_size fs = 0
    · obtain ⟨out1, fs1, pb1, h1, h2, h3, h4, h5, h6, h7, h8, h9, _, _⟩ := ih (i + 1) _ fs
        (Function.update pb (32 + i) (out.addr out.readPtr)) (fifo_wf_get out h) (by omega) hfs
      refine ⟨out1, fs1, pb1, ?_, h2, h3, ?_, ?_, ?_, ?_, h8, h9, fun hx => absurd hz hx,
        fun hx => absurd hz hx⟩
      · simp only [tcp_fill, fifo_getc_ok out h hne, hz, ne_eq, not_true_eq_false, if_false, h1]
      · rw [h4, hc]; simp
      · rw [h5]; omega
      · intro m hm
        rw [h6 m (by omega), Function.update_noteq (by omega)]
      · rw [hc, List.take_succ_cons, ← h7]
        simp only [List.range', List.map_cons, List.cons.injEq, and_true]
        rw [h6 (32 + i) (by omega), Function.update_same]
    · have hwfs := hfs hz
      by_cases hroom : fifo_length fs < fs.size - 1
      · have hz1 : fifo_size
            { fs with addr := Function.update fs.addr fs.writePtr (out.addr out.readPtr),
                      writePtr := (fs.writePtr + 1) % fs.size } ≠ 0 := hz
        obtain ⟨out1, fs1, pb1, h1, h2, h3, h4, h5, h6, h7, h8, _, h10, h11⟩ := ih (i + 1) _
          { fs with addr := Function.update fs.addr fs.writePtr (out.addr out.readPtr),
                    writePtr := (fs.writePtr + 1) % fs.size }
          (Function.update pb (32 + i) (out.addr out.readPtr)) (fifo_wf_get out h) (by omega)
          (fun _ => fifo_wf_put fs _ hwfs)
        refine ⟨out1, fs1, pb1, ?_, h2, h3, ?_, ?_, ?_, ?_, h8, fun hx => absurd hx hz,
          fun _ => h10 hz1, ?_⟩
        · simp only [tcp_fill, fifo_getc_ok out h hne, hz, ne_eq, not_false_eq_true, if_true,
            Function.update_same, fifo_putc_ok fs _ hwfs hroom, h1]
        · rw [h4, hc]; simp
        · rw [h5]; omega
        · intro m hm
          rw [h6 m (by omega), Function.update_noteq (by omega)]
        · rw [hc, List.take_succ_cons, ← h7]
          simp only [List.range', List.map_cons, List.cons.injEq, and_true]
          rw [h6 (32 + i) (by omega), Function.update_same]
        · intro _ hr
          have hlp := fifo_length_put fs (out.addr out.readPtr) hwfs hroom
          obtain ⟨g1, g2⟩ := h11 hz1 (by rw [hlp]; simp only []; omega)
          rw [g1, g2, hlp, fifo_contents_put fs _ hwfs hroom, hc]
          constructor
          · simp
          · omega
      · obtain ⟨out1, fs1, pb1, h1, h2, h3, h4, h5, h6, h7, h8, _, h10, _⟩ := ih (i + 1) _ fs
          (Function.update pb (32 + i) (out.addr out.readPtr)) (fifo_wf_get out h) (by omega) hfs
        refine ⟨out1, fs1, pb1, ?_, h2, h3, ?_, ?_, ?_, ?_, h8, fun hx => absurd hx hz,
          h10, ?_⟩
        · simp only [tcp_fill, fifo_getc_ok out h hne, hz, ne_eq, not_false_eq_true, if_true,
            Function.update_same, fifo_putc_full fs _ hwfs hroom, h1]
        · rw [h4, hc]; simp
        · rw [h5]; omega
        · intro m hm
          rw [h6 m (by omega), Function.update_noteq (by omega)]
        · rw [hc, List.take_succ_cons, ← h7]
          simp only [List.range', List.map_cons, List.cons.injEq, and_true]
          rw [h6 (32 + i) (by omega), Function.update_same]
        · intro _ hr
          omega

theorem only_socket_refl (cnt : Nat) (st : tcpState) : only_socket cnt st st :=
  ⟨fun _ _ => rfl, rfl, rfl, [], by simp, by simp⟩

theorem only_socket_trans (cnt : Nat) (a b c : tcpState) (h1 : only_socket cnt a b)
    (h2 : only_socket cnt b c) : only_socket cnt a c := by
  obtain ⟨a1, a2, a3, n1, a4, a5⟩ := h1
  obtain ⟨b1, b2, b3, n2, b4, b5⟩ := h2
  refine ⟨fun i hi => (b1 i hi).trans (a1 i hi), b2.trans a2, b3.trans a3, n1 ++ n2, ?_, ?_⟩
  · rw [b4, a4, List.append_assoc]
  · intro e he
    rcases List.mem_append.mp he with h | h
    · exact a5 e h
    · exact b5 e h

theorem only_socket_setSocket (cnt : Nat) (st : tcpState) (s : tcpSocket) :
    only_socket cnt st (setSocket st cnt s) :=
  ⟨fun i hi => setSocket_ne st cnt i s hi, rfl, rfl, [], by simp [setSocket], by simp⟩

theorem only_socket_packetBuf (cnt : Nat) (st : tcpState) (pb : Mem) :
    only_socket cnt st { st with packetBuf := pb } :=
  ⟨fun _ _ => rfl, rfl, rfl, [], by simp, by simp⟩

theorem only_socket_tcp_send (cnt : Nat) (st : tcpState) (flags len : Nat) :
    only_socket cnt st (tcp_send st cnt flags len) := by
  refine ⟨fun i hi => tcp_send_sockets st cnt i flags len hi, rfl, rfl, _, rfl, ?_⟩
  intro e he
  simp only [List.mem_singleton] at he
  rw [he]

theorem fifo_size_eq (f : fifo) (h : fifo_wf f) : fifo_size f = f.size := by
  obtain ⟨_, _, h3⟩ := h
  unfold fifo_size
  omega

theorem fifo_length_lt (f : fifo) (h : fifo_wf f) : fifo_length f < 32768 := by
  have := fifo_length_le f h
  obtain ⟨_, _, h3⟩ := h
  omega

theorem toU16_toI16_of_lt (u : Nat) (h : u < 65536) : toU16 (toI16 u) = u := by
  rw [toU16_toI16, Nat.mod_eq_of_lt h]

/-- The body of the loop of `tcp_sustain` returns for every socket whose fifos are usable,
and touches nothing but that socket, the packet buffer and the output. -/
theorem tcp_sustain_socket_frame (st : tcpState) (cnt : Nat)
    (hwf : (st.sockets cnt).state = TCPSOCKETSTATE_ESTABLISHED → socket_wf (st.sockets cnt)) :
    ∃ st1, tcp_sustain_socket st cnt = some st1 ∧ only_socket cnt st st1 := by
  unfold tcp_sustain_socket
  simp only []
  generalize hs : (if (st.sockets cnt).ackState ≠ 0 then
      ({ st.sockets cnt with ackState := (st.sockets cnt).ackState - 1 } : tcpSocket)
    else st.sockets cnt) = s
  have hstate : s.state = (st.sockets cnt).state := by rw [← hs]; split <;> rfl
  have hstrm : s.strm = (st.sockets cnt).strm := by rw [← hs]; split <;> rfl
  have hfs : s.fsBuf = (st.sockets cnt).fsBuf := by rw [← hs]; split <;> rfl
  have h0 := only_socket_setSocket cnt st s
  by_cases c1 : s.state = TCPSOCKETSTATE_SYN_SENT
  · rw [if_pos c1]
    by_cases c2 : s.ackState = 0
    · rw [if_pos c2]
      by_cases c3 : s.retryCounter ≠ 0
      · rw [if_pos c3]
        exact ⟨_, rfl, only_socket_trans _ _ _ _ h0 (only_socket_trans _ _ _ _
          (only_socket_tcp_send cnt _ _ _) (only_socket_setSocket cnt _ _))⟩
      · rw [if_neg c3]
        exact ⟨_, rfl, only_socket_trans _ _ _ _ h0 (only_socket_setSocket cnt _ _)⟩
    · rw [if_neg c2]
      exact ⟨_, rfl, h0⟩
  · rw [if_neg c1]
    by_cases c4 : s.state = TCPSOCKETSTATE_ESTABLISHED
    · rw [if_pos c4]
      obtain ⟨w1, w2⟩ := hwf (hstate ▸ c4)
      rw [← hstrm] at w1
      rw [← hfs] at w2
      by_cases c5 : fifo_size s.fsBuf ≠ 0 ∧ fifo_length s.fsBuf ≠ 0 ∧ s.ackState = 0
      · rw [if_pos c5]
        by_cases c6 : s.retryCounter ≠ 0
        · rw [if_pos c6]
          have hw := w2 c5.1
          obtain ⟨fs1, pb1, d1, _⟩ := tcp_drain_ok
            (min (toU16 (toI16 (fifo_length s.fsBuf))) payloadBufLen) 0 s.fsBuf st.packetBuf hw
            (by rw [toU16_toI16_of_lt _ (by have := fifo_length_lt _ hw; omega)]
                exact Nat.min_le_left _ _)
          rw [setSocket_packetBuf, d1]
          exact ⟨_, rfl, only_socket_trans _ _ _ _ h0 (only_socket_trans _ _ _ _
            (only_socket_trans _ _ _ _ (only_socket_setSocket cnt _ _)
              (only_socket_packetBuf cnt _ pb1))
            (only_socket_trans _ _ _ _ (only_socket_tcp_send cnt _ _ _)
              (only_socket_setSocket cnt _ _)))⟩
        · rw [if_neg c6]
          exact ⟨_, rfl, only_socket_trans _ _ _ _ h0 (only_socket_setSocket cnt _ _)⟩
      · rw [if_neg c5]
        by_cases c7 : fifo_length s.strm.out ≠ 0
        · rw [if_pos c7]
          obtain ⟨out1, fs1, pb1, d1, _⟩ := tcp_fill_ok
            (min (fifo_length s.strm.out) payloadBufLen) 0 s.strm.out s.fsBuf st.packetBuf w1
            (Nat.min_le_left _ _) w2
          rw [setSocket_packetBuf, d1]
          exact ⟨_, rfl, only_socket_trans _ _ _ _ h0 (only_socket_trans _ _ _ _
            (only_socket_trans _ _ _ _ (only_socket_setSocket cnt _ _)
              (only_socket_packetBuf cnt _ pb1))
            (only_socket_trans _ _ _ _ (only_socket_tcp_send cnt _ _ _)
              (only_socket_setSocket cnt _ _)))⟩
        · rw [if_neg c7]
          exact ⟨_, rfl, h0⟩
    · rw [if_neg c4]
      exact ⟨_, rfl, h0⟩

theorem fifo_contents_of_length_zero (f : fifo) (h : fifo_length f = 0) :
    fifo_contents f = [] := by
  simp [fifo_contents, h]

/-- The new-data branch of `tcp_sustain` for one socket: with the holding fifo empty and
`n` bytes (`1 <= n <= payloadBufLen`) in the send fifo, one segment ACK|PSH is handed to
`ip_send` with the sequence number before the pass and the `n` bytes as payload. -/
theorem tcp_sustain_socket_new_data (st : tcpState) (j n : Nat)
    (hstate : (st.sockets j).state = TCPSOCKETSTATE_ESTABLISHED)
    (hwfo : fifo_wf (st.sockets j).strm.out)
    (hwfs : fifo_size (st.sockets j).fsBuf ≠ 0 → fifo_wf (st.sockets j).fsBuf)
    (hfs0 : fifo_length (st.sockets j).fsBuf = 0)
    (hcap : fifo_size (st.sockets j).fsBuf ≠ 0 → n ≤ (st.sockets j).fsBuf.size - 1)
    (hn : fifo_length (st.sockets j).strm.out = n) (hn1 : 1 ≤ n) (hn2 : n ≤ payloadBufLen)
    (hseq : isBytes4 (st.sockets j).seqNum) :
    ∃ st1 c, tcp_sustain_socket st j = some st1 ∧ st1.sent = st.sent ++ [c] ∧ c.sock = j ∧
      c.flags = TCPFLAGS_ACK ||| TCPFLAGS_PSH ∧ c.seqField = (st.sockets j).seqNum ∧
      c.payload = fifo_contents (st.sockets j).strm.out ∧
      (st1.sockets j).state = TCPSOCKETSTATE_ESTABLISHED ∧
      fifo_length (st1.sockets j).strm.out = 0 ∧
      (fifo_size (st.sockets j).fsBuf ≠ 0 →
        fifo_contents (st1.sockets j).fsBuf = fifo_contents (st.sockets j).strm.out ∧
        fifo_wf (st1.sockets j).fsBuf ∧ (st1.sockets j).fsBuf.size = (st.sockets j).fsBuf.size) ∧
      (fifo_size (st.sockets j).fsBuf = 0 → (st1.sockets j).fsBuf = (st.sockets j).fsBuf) ∧
      (st1.sockets j).seqNum = increaseNum (st.sockets j).seqNum (toI16 n) ∧
      be32 (st1.sockets j).seqNum = (be32 (st.sockets j).seqNum + n) % 4294967296 ∧
      (st1.sockets j).ackState = TCP_RETRY_INTERVAL ∧
      (st1.sockets j).retryCounter = TCP_TOTAL_RETRIES ∧
      fifo_wf (st1.sockets j).strm.out ∧
      (st1.sockets j).strm.out.size = (st.sockets j).strm.out.size ∧
      (st1.sockets j).ackNum = (st.sockets j).ackNum := by
  have hpl : payloadBufLen = 188 := rfl
  unfold tcp_sustain_socket
  simp only []
  generalize hs : (if (st.sockets j).ackState ≠ 0 then
      ({ st.sockets j with ackState := (st.sockets j).ackState - 1 } : tcpSocket)
    else st.sockets j) = s
  have e1 : s.state = (st.sockets j).state := by rw [← hs]; split <;> rfl
  have e2 : s.strm = (st.sockets j).strm := by rw [← hs]; split <;> rfl
  have e3 : s.fsBuf = (st.sockets j).fsBuf := by rw [← hs]; split <;> rfl
  have e4 : s.seqNum = (st.sockets j).seqNum := by rw [← hs]; split <;> rfl
  have e5 : s.ackNum = (st.sockets j).ackNum := by rw [← hs]; split <;> rfl
  rw [← e1] at hstate
  rw [← e2] at hwfo hn
  rw [← e3] at hwfs hfs0 hcap
  rw [← e4] at hseq
  rw [← e2, ← e3, ← e4, ← e5]
  have c1 : ¬ s.state = TCPSOCKETSTATE_SYN_SENT := by rw [hstate]; decide
  have c5 : ¬ (fifo_size s.fsBuf ≠ 0 ∧ fifo_length s.fsBuf ≠ 0 ∧ s.ackState = 0) :=
    fun h => h.2.1 hfs0
  have c7 : fifo_length s.strm.out ≠ 0 := by omega
  have hmin : min (fifo_length s.strm.out) payloadBufLen = n := by
    rw [hn]; exact Nat.min_eq_left hn2
  rw [if_neg c1, if_pos hstate, if_neg c5, if_pos c7, hmin]
  obtain ⟨out1, fs1, pb1, d1, d2, d3, d4, d5, _, d7, d8, d9, d10, d11⟩ :=
    tcp_fill_ok n 0 s.strm.out s.fsBuf st.packetBuf hwfo (by omega) hwfs
  rw [setSocket_packetBuf, d1]
  simp only []
  obtain ⟨c, hc1, hc2, _, hc3, hc4, _, hc6⟩ := tcp_send_sent
    { setSocket (setSocket st j s) j { s with strm := { s.strm with out := out1 }, fsBuf := fs1 }
      with packetBuf := pb1 }
    j (TCPFLAGS_ACK ||| TCPFLAGS_PSH) n (by omega)
  have htake : (fifo_contents s.strm.out).take n = fifo_contents s.strm.out := by
    apply List.take_of_length_le
    rw [fifo_contents_length, hn]
  refine ⟨_, c, rfl, ?_, hc2, ?_, ?_, ?_, ?_, ?_, ?_, ?_, ?_, ?_, ?_, ?_, ?_, ?_, ?_⟩
  · rw [setSocket_sent, hc1]; rfl
  · rw [hc3]; decide
  · rw [hc4]
    simp only [setSocket_same]
    exact isBytes4_take4 _ hseq
  · rw [hc6, ← htake, ← d7, List.range_eq_range']
  · simp [setSocket_same, increaseSeqNum, tcp_send_socket, hstate]
  · simp only [setSocket_same, increaseSeqNum, tcp_send_socket]
    rw [d5]; omega
  · intro hz
    obtain ⟨g1, _⟩ := d11 hz (by rw [hfs0]; have := hcap hz; omega)
    simp only [setSocket_same, increaseSeqNum, tcp_send_socket]
    rw [g1, fifo_contents_of_length_zero _ hfs0, htake]
    exact ⟨by simp, d10 hz, d8⟩
  · intro hz
    simp only [setSocket_same, increaseSeqNum, tcp_send_socket]
    exact d9 hz
  · simp only [setSocket_same, increaseSeqNum, tcp_send_socket]
  · simp only [setSocket_same, increaseSeqNum, tcp_send_socket]
    exact be32_increaseNum _ _ hseq (by omega)
  · simp [setSocket_same]
  · simp [setSocket_same]
  · simp only [setSocket_same, increaseSeqNum, tcp_send_socket]
    exact d2
  · simp only [setSocket_same, increaseSeqNum, tcp_send_socket]
    exact d3
  · simp only [setSocket_same, increaseSeqNum, tcp_send_socket]

theorem tcp_sustain_loop_append :
    ∀ (a b cnt : Nat) (st : tcpState),
      tcp_sustain_loop (a + b) cnt st
        = (tcp_sustain_loop a cnt st).bind (tcp_sustain_loop b (cnt + a)) := by
  intro a
  induction a with
  | zero => intro b cnt st; simp [tcp_sustain_loop]
  | succ a ih =>
    intro b cnt st
    have e : a + 1 + b = (a + b) + 1 := by omega
    rw [e, tcp_sustain_loop, tcp_sustain_loop]
    cases h : tcp_sustain_socket st cnt with
    | none => rfl
    | some st1 =>
      simp only []
      rw [ih b (cnt + 1) st1]
      have e2 : cnt + 1 + a = cnt + (a + 1) := by omega
      rw [e2]

/-- The loop of `tcp_sustain` over a range of sockets that does not contain `j`: it
returns, leaves the socket `j` and the sockets outside the range as they were, and hands
nothing to `ip_send` for `j`. -/
theorem tcp_sustain_loop_others (j : Nat) :
    ∀ (n cnt : Nat) (st : tcpState),
      (∀ i, cnt ≤ i → i < cnt + n → (st.sockets i).state = TCPSOCKETSTATE_ESTABLISHED →
        socket_wf (st.sockets i)) →
      (j < cnt ∨ cnt + n ≤ j) →
      ∃ st1 new, tcp_sustain_loop n cnt st = some st1 ∧
        (∀ i, (i < cnt ∨ cnt + n ≤ i) → st1.sockets i = st.sockets i) ∧
        st1.sustainer_running = st.sustainer_running ∧ st1.localIP = st.localIP ∧
        st1.sent = st.sent ++ new ∧ ∀ e ∈ new, e.sock ≠ j := by
  intro n
  induction n with
  | zero =>
    intro cnt st _ _
    exact ⟨st, [], rfl, fun _ _ => rfl, rfl, rfl, by simp, by simp⟩
  | succ n ih =>
    intro cnt st hwf hj
    obtain ⟨st1, h1, f1, f2, f3, new1, f4, f5⟩ :=
      tcp_sustain_socket_frame st cnt (hwf cnt (Nat.le_refl _) (by omega))
    obtain ⟨st2, new2, g1, g2, g3, g4, g5, g6⟩ := ih (cnt + 1) st1
      (fun i hi1 hi2 hst => by
        rw [f1 i (by omega)] at hst ⊢
        exact hwf i (by omega) (by omega) hst)
      (by omega)
    refine ⟨st2, new1 ++ new2, ?_, ?_, g3.trans f2, g4.trans f3, ?_, ?_⟩
    · rw [tcp_sustain_loop, h1]
      exact g1
    · intro i hi
      rw [g2 i (by omega), f1 i (by omega)]
    · rw [g5, f4, List.append_assoc]
    · intro e he
      rcases List.mem_append.mp he with h | h
      · rw [f5 e h]; omega
      · exact g6 e h

theorem filter_sock_none (l : List ipSendCall) (j : Nat) (h : ∀ e ∈ l, e.sock ≠ j) :
    l.filter (fun e => decide (e.sock = j)) = [] := by
  rw [List.filter_eq_nil_iff]
  intro e he
  simpa using h e he

/-- One pass of `tcp_sustain` seen from the socket `j`: the sockets before `j` are served
first and leave `j` alone, then the body of the loop runs for `j`, then the sockets after
`j` are served; what the pass hands to `ip_send` for `j` is what the body for `j` does. -/
theorem tcp_sustain_pass (st : tcpState) (j : Nat) (hj : j < MAX_TCP_SOCKETS)
    (hrun : st.sustainer_running = 0)
    (hwf : ∀ i, i < MAX_TCP_SOCKETS →
      (st.sockets i).state = TCPSOCKETSTATE_ESTABLISHED → socket_wf (st.sockets i)) :
    ∃ stA pre, stA.sockets j = st.sockets j ∧ stA.sent = st.sent ++ pre ∧
      (∀ e ∈ pre, e.sock ≠ j) ∧
      ∀ stB, tcp_sustain_socket stA j = some stB →
        ∃ st1 post, tcp_sustain st = some st1 ∧ st1.sockets j = stB.sockets j ∧
          st1.sent = stB.sent ++ post ∧ (∀ e ∈ post, e.sock ≠ j) ∧
          st1.sustainer_running = 0 := by
  have hM : MAX_TCP_SOCKETS = 4 := rfl
  obtain ⟨stA, pre, a1, a2, _, _, a5, a6⟩ := tcp_sustain_loop_others j j 0
    { st with sustainer_running := 1 }
    (fun i _ hi hst => hwf i (by omega) hst) (Or.inr (by omega))
  have hAj : stA.sockets j = st.sockets j := a2 j (Or.inr (by omega))
  refine ⟨stA, pre, hAj, a5, a6, ?_⟩
  intro stB hB
  obtain ⟨x, hx1, hx2⟩ := tcp_sustain_socket_frame stA j (fun hst => by
    rw [hAj] at hst ⊢
    exact hwf j hj hst)
  rw [hB] at hx1
  cases hx1
  obtain ⟨b1, _, _, _⟩ := hx2
  obtain ⟨st2, post, c1, c2, _, _, c5, c6⟩ := tcp_sustain_loop_others j
    (MAX_TCP_SOCKETS - 1 - j) (j + 1) stB
    (fun i hi1 hi2 hst => by
      rw [b1 i (by omega), a2 i (Or.inr (by omega))] at hst ⊢
      exact hwf i (by omega) hst)
    (Or.inl (by omega))
  refine ⟨{ st2 with sustainer_running := 0 }, post, ?_, c2 j (Or.inl (by omega)), c5, c6, rfl⟩
  unfold tcp_sustain
  rw [if_neg (by rw [hrun]; decide)]
  have e : MAX_TCP_SOCKETS = j + (1 + (MAX_TCP_SOCKETS - 1 - j)) := by omega
  rw [e, tcp_sustain_loop_append, a1]
  simp only [Option.bind, Nat.zero_add]
  rw [tcp_sustain_loop_append]
  simp only [tcp_sustain_loop, hB, Option.bind]
  rw [c1]

/-- C8: first transmission of new data.  For an ESTABLISHED socket with the holding fifo
empty and `n` bytes (`1 <= n <= payloadBufLen`) in the send fifo, one pass of
`tcp_sustain` emits for that socket exactly one segment, ACK|PSH, with the sequence
number before the pass and the `n` bytes in fifo order; afterwards the send fifo is
empty, the holding fifo (when it has a size) holds the same bytes, the sequence number is
advanced by `n`, `ackState = TCP_RETRY_INTERVAL = 1000` and `retryCounter = 2`. -/
theorem first_transmission (st : tcpState) (j n : Nat) (hj : j < MAX_TCP_SOCKETS)
    (hrun : st.sustainer_running = 0)
    (hwf : ∀ i, i < MAX_TCP_SOCKETS →
      (st.sockets i).state = TCPSOCKETSTATE_ESTABLISHED → socket_wf (st.sockets i))
    (hstate : (st.sockets j).state = TCPSOCKETSTATE_ESTABLISHED)
    (hfs0 : fifo_length (st.sockets j).fsBuf = 0)
    (hres : (st.sockets j).fsBuf.size = 0 ∨
      (st.sockets j).fsBuf.size = (st.sockets j).strm.out.size)
    (hn : fifo_length (st.sockets j).strm.out = n) (hn1 : 1 ≤ n) (hn2 : n ≤ payloadBufLen)
    (hseq : isBytes4 (st.sockets j).seqNum) :
    ∃ st1 new c, tcp_sustain st = some st1 ∧ st1.sent = st.sent ++ new ∧
      new.filter (fun e => decide (e.sock = j)) = [c] ∧
      c.flags = TCPFLAGS_ACK ||| TCPFLAGS_PSH ∧ c.seqField = (st.sockets j).seqNum ∧
      c.payload = fifo_contents (st.sockets j).strm.out ∧ c.payload.length = n ∧
      fifo_length (st1.sockets j).strm.out = 0 ∧
      ((st.sockets j).fsBuf.size ≠ 0 →
        fifo_contents (st1.sockets j).fsBuf = fifo_contents (st.sockets j).strm.out) ∧
      be32 (st1.sockets j).seqNum = (be32 (st.sockets j).seqNum + n) % 4294967296 ∧
      (st1.sockets j).ackState = TCP_RETRY_INTERVAL ∧ TCP_RETRY_INTERVAL = 1000 ∧
      (st1.sockets j).retryCounter = TCP_TOTAL_RETRIES ∧ TCP_TOTAL_RETRIES = 2 := by
  obtain ⟨hwo, hws⟩ := hwf j hj hstate
  obtain ⟨stA, pre, a1, a2, a3, a4⟩ := tcp_sustain_pass st j hj hrun hwf
  have hsz : fifo_size (st.sockets j).fsBuf = (st.sockets j).fsBuf.size := by
    have h3 := hwo.2.2
    unfold fifo_size
    rcases hres with h | h <;> rw [h] <;> omega
  have hcap : fifo_size (st.sockets j).fsBuf ≠ 0 → n ≤ (st.sockets j).fsBuf.size - 1 := by
    intro hz
    have h1 := fifo_length_le _ hwo
    rw [hsz] at hz
    rcases hres with h | h
    · exact absurd h hz
    · rw [h]; omega
  rw [← a1] at hstate hwo hws hfs0 hcap hn hseq hsz
  obtain ⟨stB, c, b1, b2, b3, b4, b5, b6, _, b8, b9, _, _, b12, b13, b14, _⟩ :=
    tcp_sustain_socket_new_data stA j n hstate hwo hws hfs0 hcap hn hn1 hn2 hseq
  obtain ⟨st1, post, d1, d2, d3, d4, _⟩ := a4 stB b1
  refine ⟨st1, pre ++ [c] ++ post, c, d1, ?_, ?_, b4, ?_, ?_, ?_, ?_, ?_, ?_, ?_, rfl, ?_, rfl⟩
  · rw [d3, b2, a2]; simp
  · rw [List.filter_append, List.filter_append, filter_sock_none _ _ a3,
      filter_sock_none _ _ d4]
    simp [b3]
  · rw [b5, a1]
  · rw [b6, a1]
  · rw [b6, fifo_contents_length, hn]
  · rw [d2]; exact b8
  · intro hz
    rw [d2, ← a1]
    refine (b9 ?_).1
    rw [hsz, a1]
    exact hz
  · rw [d2, b12, a1]
  · rw [d2]; exact b13
  · rw [d2]; exact b14

/-! ### tcp.c: the passes of `tcp_sustain` after a transmission -/

theorem setSocket_self (st : tcpState) (j : Nat) : setSocket st j (st.sockets j) = st := by
  cases st
  simp [setSocket]

theorem setSocket_setSocket (st : tcpState) (j : Nat) (s1 s2 : tcpSocket) :
    setSocket (setSocket st j s1) j s2 = setSocket st j s2 := by
  cases st
  simp [setSocket]

theorem tcp_sustain_socket_idle (st : tcpState) (i : Nat) (h : socket_idle (st.sockets i)) :
    tcp_sustain_socket st i = some st := by
  obtain ⟨h1, h2, h3⟩ := h
  unfold tcp_sustain_socket
  simp only [h3, ne_eq, not_true_eq_false, if_false, setSocket_self, h1, h2]

theorem tcp_sustain_loop_idle :
    ∀ (n cnt : Nat) (st : tcpState),
      (∀ i, cnt ≤ i → i < cnt + n → socket_idle (st.sockets i)) →
      tcp_sustain_loop n cnt st = some st := by
  intro n
  induction n with
  | zero => intro cnt st _; rfl
  | succ n ih =>
    intro cnt st h
    rw [tcp_sustain_loop, tcp_sustain_socket_idle st cnt (h cnt (Nat.le_refl _) (by omega))]
    exact ih (cnt + 1) st (fun i h1 h2 => h i (by omega) (by omega))

/-- One pass of `tcp_sustain` over a table in which every socket but `j` is idle is the
body of the loop for `j`, between setting and clearing the re-entrancy flag. -/
theorem tcp_sustain_alone (st stB : tcpState) (j : Nat) (hj : j < MAX_TCP_SOCKETS)
    (hrun : st.sustainer_running = 0)
    (hidle : ∀ i, i < MAX_TCP_SOCKETS → i ≠ j → socket_idle (st.sockets i))
    (hB : tcp_sustain_socket { st with sustainer_running := 1 } j = some stB)
    (hframe : ∀ i, i ≠ j → stB.sockets i = st.sockets i) :
    tcp_sustain st = some { stB with sustainer_running := 0 } := by
  have hM : MAX_TCP_SOCKETS = 4 := rfl
  unfold tcp_sustain
  rw [if_neg (by rw [hrun]; decide)]
  have e : MAX_TCP_SOCKETS = j + (1 + (MAX_TCP_SOCKETS - 1 - j)) := by omega
  rw [e, tcp_sustain_loop_append,
    tcp_sustain_loop_idle j 0 { st with sustainer_running := 1 }
      (fun i _ hi => hidle i (by omega) (by omega))]
  simp only [Option.bind, Nat.zero_add]
  rw [tcp_sustain_loop_append]
  simp only [tcp_sustain_loop, hB, Option.bind]
  rw [tcp_sustain_loop_idle _ _ stB (fun i h1 h2 => by
    rw [hframe i (by omega)]
    exact hidle i (by omega) (by omega))]

theorem tcp_sustain_socket_wait (st : tcpState) (j : Nat)
    (hstate : (st.sockets j).state = TCPSOCKETSTATE_ESTABLISHED)
    (ha : 2 ≤ (st.sockets j).ackState)
    (hout : fifo_length (st.sockets j).strm.out = 0) :
    tcp_sustain_socket st j
      = some (setSocket st j { st.sockets j with ackState := (st.sockets j).ackState - 1 }) := by
  unfold tcp_sustain_socket
  have h1 : (st.sockets j).ackState ≠ 0 := by omega
  have h2 : ¬ (st.sockets j).state = TCPSOCKETSTATE_SYN_SENT := by rw [hstate]; decide
  have h3 : ¬ ((st.sockets j).ackState - 1 = 0) := by omega
  have hne : TCPSOCKETSTATE_ESTABLISHED ≠ TCPSOCKETSTATE_SYN_SENT := by decide
  simp only [h1, ne_eq, not_false_eq_true, if_true, h2, if_false, hstate, h3, and_false, hout,
    not_true_eq_false, hne]

theorem tcp_sustain_socket_quiet (st : tcpState) (j : Nat)
    (hstate : (st.sockets j).state = TCPSOCKETSTATE_ESTABLISHED)
    (ha : (st.sockets j).ackState = 0)
    (hfs : fifo_length (st.sockets j).fsBuf = 0)
    (hout : fifo_length (st.sockets j).strm.out = 0) :
    tcp_sustain_socket st j = some st := by
  unfold tcp_sustain_socket
  have h2 : ¬ (st.sockets j).state = TCPSOCKETSTATE_SYN_SENT := by rw [hstate]; decide
  have hne : TCPSOCKETSTATE_ESTABLISHED ≠ TCPSOCKETSTATE_SYN_SENT := by decide
  simp only [ha, ne_eq, not_true_eq_false, if_false, h2, hstate, if_true, hfs, false_and,
    and_false, hout, setSocket_self, hne]

/-- The retransmission branch of `tcp_sustain` for one socket: the countdown reaches 0 in
this pass, the holding fifo holds at most `payloadBufLen` bytes and retries remain.  The
bytes are read out of the holding fifo and sent as ACK|PSH under the socket's present
sequence number; the holding fifo is empty afterwards. -/
theorem tcp_sustain_socket_retransmit (st : tcpState) (j : Nat)
    (hstate : (st.sockets j).state = TCPSOCKETSTATE_ESTABLISHED)
    (ha : (st.sockets j).ackState = 1)
    (hwfs : fifo_wf (st.sockets j).fsBuf)
    (hl1 : 1 ≤ fifo_length (st.sockets j).fsBuf)
    (hl2 : fifo_length (st.sockets j).fsBuf ≤ payloadBufLen)
    (hr : (st.sockets j).retryCounter ≠ 0) :
    ∃ st1 c, tcp_sustain_socket st j = some st1 ∧ st1.sent = st.sent ++ [c] ∧ c.sock = j ∧
      c.flags = TCPFLAGS_ACK ||| TCPFLAGS_PSH ∧ c.seqField = take4 (st.sockets j).seqNum ∧
      c.payload = fifo_contents (st.sockets j).fsBuf ∧
      (∀ i, i ≠ j → st1.sockets i = st.sockets i) ∧
      st1.sustainer_running = st.sustainer_running ∧
      (st1.sockets j).state = TCPSOCKETSTATE_ESTABLISHED ∧
      (st1.sockets j).ackState = 0 ∧
      (st1.sockets j).retryCounter = (st.sockets j).retryCounter - 1 ∧
      fifo_length (st1.sockets j).fsBuf = 0 ∧
      (st1.sockets j).strm.out = (st.sockets j).strm.out ∧
      (st1.sockets j).seqNum = (st.sockets j).seqNum ∧
      fifo_wf (st1.sockets j).fsBuf := by
  have hpl : payloadBufLen = 188 := rfl
  have hsz : fifo_size (st.sockets j).fsBuf ≠ 0 := by
    rw [fifo_size_eq _ hwfs]
    have := hwfs.1
    omega
  have hlt := fifo_length_lt _ hwfs
  unfold tcp_sustain_socket
  simp only []
  generalize hs : (if (st.sockets j).ackState ≠ 0 then
      ({ st.sockets j with ackState := (st.sockets j).ackState - 1 } : tcpSocket)
    else st.sockets j) = s
  have e0 : s.ackState = 0 := by
    rw [← hs, if_pos (by omega)]
    show (st.sockets j).ackState - 1 = 0
    omega
  have e1 : s.state = (st.sockets j).state := by rw [← hs]; split <;> rfl
  have e2 : s.strm = (st.sockets j).strm := by rw [← hs]; split <;> rfl
  have e3 : s.fsBuf = (st.sockets j).fsBuf := by rw [← hs]; split <;> rfl
  have e4 : s.seqNum = (st.sockets j).seqNum := by rw [← hs]; split <;> rfl
  have e5 : s.retryCounter = (st.sockets j).retryCounter := by rw [← hs]; split <;> rfl
  rw [← e1] at hstate
  rw [← e3] at hwfs hl1 hl2 hsz hlt
  rw [← e5] at hr
  rw [← e2, ← e3, ← e4, ← e5]
  have c1 : ¬ s.state = TCPSOCKETSTATE_SYN_SENT := by rw [hstate]; decide
  have c5 : fifo_size s.fsBuf ≠ 0 ∧ fifo_length s.fsBuf ≠ 0 ∧ s.ackState = 0 :=
    ⟨hsz, by omega, e0⟩
  have hmin : min (toU16 (toI16 (fifo_length s.fsBuf))) payloadBufLen = fifo_length s.fsBuf := by
    rw [toU16_toI16_of_lt _ (by omega)]
    exact Nat.min_eq_left hl2
  rw [if_neg c1, if_pos hstate, if_pos c5, if_pos hr, hmin]
  obtain ⟨fs1, pb1, d1, d2, _, _, d5, _, d7⟩ := tcp_drain_ok (fifo_length s.fsBuf) 0
    s.fsBuf st.packetBuf hwfs (Nat.le_refl _)
  rw [setSocket_packetBuf, d1]
  simp only []
  obtain ⟨c, hc1, hc2, _, hc3, hc4, _, hc6⟩ := tcp_send_sent
    { setSocket (setSocket st j s) j { s with fsBuf := fs1 } with packetBuf := pb1 }
    j (TCPFLAGS_ACK ||| TCPFLAGS_PSH) (fifo_length s.fsBuf) (by omega)
  refine ⟨_, c, rfl, ?_, hc2, ?_, ?_, ?_, ?_, ?_, ?_, ?_, ?_, ?_, ?_, ?_, ?_⟩
  · rw [setSocket_sent, hc1]; rfl
  · rw [hc3]; decide
  · rw [hc4]
    simp only [setSocket_same]
  · rw [hc6, ← List.take_of_length_le (Nat.le_of_eq (fifo_contents_length s.fsBuf)), ← d7,
      List.range_eq_range']
  · intro i hi
    rw [setSocket_ne _ _ _ _ hi, tcp_send_sockets _ _ _ _ _ hi]
    show (setSocket (setSocket st j _) j _).sockets i = _
    rw [setSocket_ne _ _ _ _ hi, setSocket_ne _ _ _ _ hi]
  · rfl
  · simp [setSocket_same, tcp_send_socket, hstate]
  · simp [setSocket_same, tcp_send_socket, e0]
  · simp [setSocket_same, tcp_send_socket]
  · simp only [setSocket_same, tcp_send_socket]
    rw [d5]; omega
  · simp [setSocket_same, tcp_send_socket]
  · simp [setSocket_same, tcp_send_socket]
  · simp only [setSocket_same, tcp_send_socket]
    exact d2

theorem tcp_sustain_n_add :
    ∀ (a b : Nat) (st : tcpState),
      tcp_sustain_n (a + b) st = (tcp_sustain_n a st).bind (tcp_sustain_n b) := by
  intro a
  induction a with
  | zero => intro b st; simp [tcp_sustain_n]
  | succ a ih =>
    intro b st
    have e : a + 1 + b = (a + b) + 1 := by omega
    rw [e, tcp_sustain_n, tcp_sustain_n]
    cases h : tcp_sustain st with
    | none => rfl
    | some st1 => exact ih b st1

theorem wait_pass (j a r : Nat) (seq bs : List Nat) (sent : List ipSendCall) (st : tcpState)
    (hj : j < MAX_TCP_SOCKETS) (h : awaiting_ack j (a + 2) r seq bs sent st) :
    ∃ st1, tcp_sustain st = some st1 ∧ awaiting_ack j (a + 1) r seq bs sent st1 := by
  obtain ⟨h1, h2, h3, h4, h5, h6, h7, h8, h9, h10⟩ := h
  have hB := tcp_sustain_socket_wait { st with sustainer_running := 1 } j h3
    (by show 2 ≤ (st.sockets j).ackState; omega) h6
  have hT := tcp_sustain_alone st _ j hj h1 h2 hB (fun i hi => setSocket_ne _ _ _ _ hi)
  refine ⟨_, hT, rfl, ?_, ?_, ?_, ?_, ?_, ?_, ?_, ?_, ?_⟩
  · intro i hi hne
    show socket_idle ((setSocket _ j _).sockets i)
    rw [setSocket_ne _ _ _ _ hne]
    exact h2 i hi hne
  · show ((setSocket _ j _).sockets j).state = _
    rw [setSocket_same]; exact h3
  · show ((setSocket _ j _).sockets j).ackState = _
    rw [setSocket_same]
    show (st.sockets j).ackState - 1 = a + 1
    omega
  · show ((setSocket _ j _).sockets j).retryCounter = _
    rw [setSocket_same]; exact h5
  · show fifo_length ((setSocket _ j _).sockets j).strm.out = _
    rw [setSocket_same]; exact h6
  · show fifo_wf ((setSocket _ j _).sockets j).fsBuf
    rw [setSocket_same]; exact h7
  · show fifo_contents ((setSocket _ j _).sockets j).fsBuf = _
    rw [setSocket_same]; exact h8
  · show ((setSocket _ j _).sockets j).seqNum = _
    rw [setSocket_same]; exact h9
  · exact h10

theorem wait_passes (j r : Nat) (seq bs : List Nat) (sent : List ipSendCall)
    (hj : j < MAX_TCP_SOCKETS) :
    ∀ (k a : Nat) (st : tcpState), awaiting_ack j (a + 1 + k) r seq bs sent st →
      ∃ st1, tcp_sustain_n k st = some st1 ∧ awaiting_ack j (a + 1) r seq bs sent st1 := by
  intro k
  induction k with
  | zero => intro a st h; exact ⟨st, rfl, h⟩
  | succ k ih =>
    intro a st h
    have e : a + 1 + (k + 1) = (a + k) + 2 := by omega
    rw [e] at h
    obtain ⟨st1, g1, g2⟩ := wait_pass j (a + k) r seq bs sent st hj h
    have e2 : a + k + 1 = a + 1 + k := by omega
    rw [e2] at g2
    obtain ⟨st2, g3, g4⟩ := ih a st1 g2
    exact ⟨st2, by rw [tcp_sustain_n, g1]; exact g3, g4⟩

theorem retransmit_pass (j r : Nat) (seq bs : List Nat) (sent : List ipSendCall)
    (st : tcpState) (hj : j < MAX_TCP_SOCKETS) (h : awaiting_ack j 1 r seq bs sent st)
    (hr : r ≠ 0) (hb1 : 1 ≤ bs.length) (hb2 : bs.length ≤ payloadBufLen)
    (hseq : isBytes4 seq) :
    ∃ st1 c, tcp_sustain st = some st1 ∧ c.sock = j ∧
      c.flags = TCPFLAGS_ACK ||| TCPFLAGS_PSH ∧ c.seqField = seq ∧ c.payload = bs ∧
      awaiting_ack j 0 (r - 1) seq [] (sent ++ [c]) st1 := by
  obtain ⟨h1, h2, h3, h4, h5, h6, h7, h8, h9, h10⟩ := h
  have hlen : fifo_length (st.sockets j).fsBuf = bs.length := by
    rw [← fifo_contents_length, h8]
  obtain ⟨stB, c, b1, b2, b3, b4, b5, b6, b7, b8, b9, b10, b11, b12, b13, b14, b15⟩ :=
    tcp_sustain_socket_retransmit { st with sustainer_running := 1 } j h3 h4 h7
      (by rw [hlen]; exact hb1) (by rw [hlen]; exact hb2) (by rw [h5]; exact hr)
  have hT := tcp_sustain_alone st stB j hj h1 h2 b1 b7
  refine ⟨_, c, hT, b3, b4, ?_, ?_, rfl, ?_, b9, b10, ?_, ?_, ?_, ?_, ?_, ?_⟩
  · rw [b5]
    show take4 (st.sockets j).seqNum = seq
    rw [h9]
    exact isBytes4_take4 _ hseq
  · rw [b6]; exact h8
  · intro i hi hne
    show socket_idle (stB.sockets i)
    rw [b7 i hne]
    exact h2 i hi hne
  · show (stB.sockets j).retryCounter = r - 1
    rw [b11]
    show (st.sockets j).retryCounter - 1 = r - 1
    rw [h5]
  · show fifo_length (stB.sockets j).strm.out = 0
    rw [b13]; exact h6
  · exact b15
  · exact fifo_contents_of_length_zero _ b12
  · show (stB.sockets j).seqNum = seq
    rw [b14]; exact h9
  · show stB.sent = sent ++ [c]
    rw [b2]
    show st.sent ++ [c] = sent ++ [c]
    rw [h10]

theorem quiet_pass (j r : Nat) (seq : List Nat) (sent : List ipSendCall) (st : tcpState)
    (hj : j < MAX_TCP_SOCKETS) (h : awaiting_ack j 0 r seq [] sent st) :
    tcp_sustain st = some st := by
  obtain ⟨h1, h2, h3, h4, _, h6, _, h8, _, _⟩ := h
  have hlen : fifo_length (st.sockets j).fsBuf = 0 := by
    rw [← fifo_contents_length, h8]; rfl
  have hB := tcp_sustain_socket_quiet { st with sustainer_running := 1 } j h3 h4 hlen h6
  have hT := tcp_sustain_alone st _ j hj h1 h2 hB (fun _ _ => rfl)
  rw [hT]
  cases st
  simp only [] at h1
  simp [h1]

theorem quiet_passes (j r : Nat) (seq : List Nat) (sent : List ipSendCall) (st : tcpState)
    (hj : j < MAX_TCP_SOCKETS) (h : awaiting_ack j 0 r seq [] sent st) :
    ∀ k, tcp_sustain_n k st = some st := by
  intro k
  induction k with
  | zero => rfl
  | succ k ih => rw [tcp_sustain_n, quiet_pass j r seq sent st hj h]; exact ih

theorem first_pass (st : tcpState) (j n : Nat) (hj : j < MAX_TCP_SOCKETS)
    (hrun : st.sustainer_running = 0)
    (hidle : ∀ i, i < MAX_TCP_SOCKETS → i ≠ j → socket_idle (st.sockets i))
    (hstate : (st.sockets j).state = TCPSOCKETSTATE_ESTABLISHED)
    (hwfo : fifo_wf (st.sockets j).strm.out)
    (hwfs : fifo_wf (st.sockets j).fsBuf)
    (hfs0 : fifo_length (st.sockets j).fsBuf = 0)
    (hres : (st.sockets j).fsBuf.size = (st.sockets j).strm.out.size)
    (hn : fifo_length (st.sockets j).strm.out = n) (hn1 : 1 ≤ n) (hn2 : n ≤ payloadBufLen)
    (hseq : isBytes4 (st.sockets j).seqNum) :
    ∃ st1 c, tcp_sustain st = some st1 ∧ c.sock = j ∧
      c.flags = TCPFLAGS_ACK ||| TCPFLAGS_PSH ∧ c.seqField = (st.sockets j).seqNum ∧
      c.payload = fifo_contents (st.sockets j).strm.out ∧
      awaiting_ack j TCP_RETRY_INTERVAL TCP_TOTAL_RETRIES
        (increaseNum (st.sockets j).seqNum (toI16 n)) (fifo_contents (st.sockets j).strm.out)
        (st.sent ++ [c]) st1 := by
  have hsz : fifo_size (st.sockets j).fsBuf ≠ 0 := by
    rw [fifo_size_eq _ hwfs]
    have := hwfs.1
    omega
  have hcap : fifo_size (st.sockets j).fsBuf ≠ 0 → n ≤ (st.sockets j).fsBuf.size - 1 := by
    intro _
    have := fifo_length_le _ hwfo
    rw [hres]; omega
  obtain ⟨stB, c, b1, b2, b3, b4, b5, b6, b7, b8, b9, _, b11, _, b13, b14, _⟩ :=
    tcp_sustain_socket_new_data { st with sustainer_running := 1 } j n hstate hwfo
      (fun _ => hwfs) hfs0 hcap hn hn1 hn2 hseq
  obtain ⟨x, hx1, hx2, _⟩ := tcp_sustain_socket_frame { st with sustainer_running := 1 } j
    (fun _ => ⟨hwfo, fun _ => hwfs⟩)
  rw [b1] at hx1
  cases hx1
  have hT := tcp_sustain_alone st stB j hj hrun hidle b1 hx2
  obtain ⟨g1, g2, _⟩ := b9 hsz
  refine ⟨_, c, hT, b3, b4, b5, b6, rfl, ?_, b7, b13, b14, b8, g2, g1, b11, b2⟩
  intro i hi hne
  show socket_idle (stB.sockets i)
  rw [hx2 i hne]
  exact hidle i hi hne

/-- The passes of `tcp_sustain` after the application has written `n` bytes, with no
acknowledgement and nothing more written: the first pass transmits, the 1000th pass after
it retransmits the same bytes under the sequence number already advanced by `n`, and from
then on no pass does anything: the holding fifo was emptied by the retransmission. -/
theorem retransmission_trace (st : tcpState) (j n : Nat) (hj : j < MAX_TCP_SOCKETS)
    (hrun : st.sustainer_running = 0)
    (hidle : ∀ i, i < MAX_TCP_SOCKETS → i ≠ j → socket_idle (st.sockets i))
    (hstate : (st.sockets j).state = TCPSOCKETSTATE_ESTABLISHED)
    (hwfo : fifo_wf (st.sockets j).strm.out)
    (hwfs : fifo_wf (st.sockets j).fsBuf)
    (hfs0 : fifo_length (st.sockets j).fsBuf = 0)
    (hres : (st.sockets j).fsBuf.size = (st.sockets j).strm.out.size)
    (hn : fifo_length (st.sockets j).strm.out = n) (hn1 : 1 ≤ n) (hn2 : n ≤ payloadBufLen)
    (hseq : isBytes4 (st.sockets j).seqNum) :
    ∃ st1 c1 c2, (∀ k, tcp_sustain_n (1001 + k) st = some st1) ∧
      (∃ stW, tcp_sustain_n 1000 st = some stW ∧ stW.sent = st.sent ++ [c1]) ∧
      st1.sent = st.sent ++ [c1, c2] ∧
      c1.flags = TCPFLAGS_ACK ||| TCPFLAGS_PSH ∧ c1.seqField = (st.sockets j).seqNum ∧
      c1.payload = fifo_contents (st.sockets j).strm.out ∧
      c2.flags = TCPFLAGS_ACK ||| TCPFLAGS_PSH ∧
      c2.seqField = increaseNum (st.sockets j).seqNum (toI16 n) ∧
      c2.payload = fifo_contents (st.sockets j).strm.out ∧
      (st1.sockets j).state = TCPSOCKETSTATE_ESTABLISHED ∧
      (st1.sockets j).retryCounter = 1 ∧ (st1.sockets j).ackState = 0 ∧
      fifo_length (st1.sockets j).fsBuf = 0 := by
  obtain ⟨stA, c1, a1, _, a3, a4, a5, a6⟩ :=
    first_pass st j n hj hrun hidle hstate hwfo hwfs hfs0 hres hn hn1 hn2 hseq
  have hlen : (fifo_contents (st.sockets j).strm.out).length = n := by
    rw [fifo_contents_length, hn]
  obtain ⟨stW, w1, w2⟩ := wait_passes j TCP_TOTAL_RETRIES _ _ _ hj 999 0 stA a6
  obtain ⟨stR, c2, r1, _, r3, r4, r5, r6⟩ := retransmit_pass j TCP_TOTAL_RETRIES _ _ _ stW hj w2
    (by decide) (by rw [hlen]; exact hn1) (by rw [hlen]; exact hn2)
    (isBytes4_increaseNum _ _)
  have hq := quiet_passes j _ _ _ stR hj r6
  obtain ⟨_, _, q3, q4, q5, _, _, q8, _, q10⟩ := r6
  refine ⟨stR, c1, c2, ?_, ⟨stW, ?_, w2.2.2.2.2.2.2.2.2.2⟩, ?_, a3, a4, a5, r3, r4, r5, q3, q5, q4, ?_⟩
  · intro k
    have e : 1001 + k = 1 + (999 + (1 + k)) := by omega
    rw [e, tcp_sustain_n_add 1, tcp_sustain_n, a1]
    simp only [tcp_sustain_n, Option.bind]
    rw [tcp_sustain_n_add 999, w1]
    simp only [Option.bind]
    rw [tcp_sustain_n_add 1, tcp_sustain_n, r1]
    simp only [tcp_sustain_n, Option.bind]
    exact hq k
  · have h1 : tcp_sustain_n 1 st = some stA := by
      rw [tcp_sustain_n, a1]; rfl
    have h2 := tcp_sustain_n_add 1 999 st
    rw [h1] at h2
    exact h2.trans w1
  · rw [q10]; simp
  · rw [← fifo_contents_length, q8]; rfl

/-- The witness of `first_transmission` (scenario 6 of the specification): the application
has written the 10 bytes 1..10 on an ESTABLISHED socket with sequence number 1. -/
theorem first_transmission_witness :
    ∃ st1 new c, tcp_sustain (tableOf sendingSocket (socket0 16 16 16)) = some st1 ∧
      st1.sent = new ∧ new.filter (fun e => decide (e.sock = 0)) = [c] ∧
      c.flags = 0x18 ∧ c.seqField = [0, 0, 0, 1] ∧
      c.payload = [1, 2, 3, 4, 5, 6, 7, 8, 9, 10] ∧
      fifo_length (st1.sockets 0).strm.out = 0 ∧
      fifo_contents (st1.sockets 0).fsBuf = [1, 2, 3, 4, 5, 6, 7, 8, 9, 10] ∧
      be32 (st1.sockets 0).seqNum = 11 ∧
      (st1.sockets 0).ackState = 1000 ∧ (st1.sockets 0).retryCounter = 2 := by
  obtain ⟨st1, new, c, h1, h2, h3, h4, h5, h6, _, h8, h9, h10, h11, _, h13, _⟩ :=
    first_transmission (tableOf sendingSocket (socket0 16 16 16)) 0 10 (by decide) (by decide)
      (by decide) (by decide) (by decide) (by decide) (by decide) (by decide) (by decide)
      (by decide)
  refine ⟨st1, new, c, h1, ?_, h3, ?_, ?_, ?_, h8, ?_, ?_, h11, h13⟩
  · rw [h2]; rfl
  · rw [h4]; decide
  · rw [h5]; decide
  · rw [h6]; decide
  · rw [h9 (by decide)]; decide
  · rw [h10]; decide

/-- C9 at its failing input (scenario 6 of the specification): 10 bytes are written on an
ESTABLISHED socket with sequence number 1 and 1001 passes of `tcp_sustain` follow with no
acknowledgement.  Two segments ACK|PSH with the same 10 bytes are emitted, the second in
the 1000th pass after the first; the first carries sequence number 1, the retransmission
carries 11, the number already advanced by the 10 bytes. -/
theorem retransmission_sequence_number :
    ∃ st0 st1 c1 c2,
      tcp_sustain_n 1000 (tableOf sendingSocket (socket0 16 16 16)) = some st0 ∧
      st0.sent = [c1] ∧
      tcp_sustain_n 1001 (tableOf sendingSocket (socket0 16 16 16)) = some st1 ∧
      st1.sent = [c1, c2] ∧
      c1.flags = 0x18 ∧ c1.seqField = [0, 0, 0, 1] ∧
      c1.payload = [1, 2, 3, 4, 5, 6, 7, 8, 9, 10] ∧
      c2.flags = 0x18 ∧ c2.payload = [1, 2, 3, 4, 5, 6, 7, 8, 9, 10] ∧
      c2.seqField = [0, 0, 0, 11] := by
  obtain ⟨st1, c1, c2, h1, ⟨st0, g1, g2⟩, h2, h3, h4, h5, h6, h7, h8, _⟩ :=
    retransmission_trace (tableOf sendingSocket (socket0 16 16 16)) 0 10 (by decide) (by decide)
      (by decide) (by decide) (by decide) (by decide) (by decide) (by decide) (by decide)
      (by decide) (by decide) (by decide)
  refine ⟨st0, st1, c1, c2, g1, ?_, h1 0, ?_, ?_, ?_, ?_, ?_, ?_, ?_⟩
  · rw [g2]; rfl
  · rw [h2]; rfl
  · rw [h3]; decide
  · rw [h4]; decide
  · rw [h5]; decide
  · rw [h6]; decide
  · rw [h8]; decide
  · rw [h7]; decide

/-- C10 at its failing input (scenario 6 of the specification): after the first
retransmission, however many further passes of `tcp_sustain` run without an
acknowledgement, the two segments already emitted stay the only ones (no second
retransmission), the socket stays ESTABLISHED (never UNKNOWN) and one retry stays unused:
the retransmission emptied the holding fifo. -/
theorem no_second_retransmission :
    ∃ st1 c1 c2, ∀ k,
      tcp_sustain_n (1001 + k) (tableOf sendingSocket (socket0 16 16 16)) = some st1 ∧
      st1.sent = [c1, c2] ∧
      (st1.sockets 0).state = TCPSOCKETSTATE_ESTABLISHED ∧
      (st1.sockets 0).state ≠ TCPSOCKETSTATE_UNKNOWN ∧
      (st1.sockets 0).retryCounter = 1 ∧ fifo_length (st1.sockets 0).fsBuf = 0 := by
  obtain ⟨st1, c1, c2, h1, _, h2, _, _, _, _, _, _, h9, h10, _, h12⟩ :=
    retransmission_trace (tableOf sendingSocket (socket0 16 16 16)) 0 10 (by decide) (by decide)
      (by decide) (by decide) (by decide) (by decide) (by decide) (by decide) (by decide)
      (by decide) (by decide) (by decide)
  refine ⟨st1, c1, c2, fun k => ⟨h1 k, ?_, h9, ?_, h10, h12⟩⟩
  · rw [h2]; rfl
  · rw [h9]; decide

/-! ### tcp.c: `tcp_reserveSocket` -/

theorem tcp_findUnused_spec (sockets : Nat → tcpSocket) :
    ∀ (n i : Nat), i ≤ tcp_findUnused sockets n i ∧ tcp_findUnused sockets n i ≤ i + n ∧
      (∀ k, i ≤ k → k < tcp_findUnused sockets n i →
        (sockets k).state ≠ TCPSOCKETSTATE_UNUSED) ∧
      (tcp_findUnused sockets n i < i + n →
        (sockets (tcp_findUnused sockets n i)).state = TCPSOCKETSTATE_UNUSED) := by
  intro n
  induction n with
  | zero =>
    intro i
    simp only [tcp_findUnused]
    exact ⟨Nat.le_refl _, Nat.le_refl _, fun k h1 h2 => by omega, fun h => by omega⟩
  | succ n ih =>
    intro i
    rw [tcp_findUnused]
    by_cases h : (sockets i).state = TCPSOCKETSTATE_UNUSED
    · rw [if_pos h]
      exact ⟨Nat.le_refl _, by omega, fun k h1 h2 => by omega, fun _ => h⟩
    · rw [if_neg h]
      obtain ⟨h1, h2, h3, h4⟩ := ih (i + 1)
      refine ⟨by omega, by omega, ?_, fun hx => h4 (by omega)⟩
      intro k hk1 hk2
      by_cases e : k = i
      · rw [e]; exact h
      · exact h3 k (by omega) hk2

/-- C19: `tcp_reserveSocket` returns a null handle exactly when no socket of the table is
UNUSED; otherwise it returns the lowest-index UNUSED socket, which is then not UNUSED, has
zeroed sequence and ack numbers and three empty fifos (receive and send fifo of the given
sizes, holding fifo of the send size, or of size 0 without a holding buffer), and every
other socket is unchanged.  After `tcp_initialise` four reservations succeed, on the
sockets 0, 1, 2, 3, and the fifth returns null. -/
theorem reserve_socket :
    (∀ (st : tcpState) (inBuf outBuf : Mem) (fsBuf : Option Mem) (inBufSize outBufSize : Nat),
      ((tcp_reserveSocket st inBuf outBuf fsBuf inBufSize outBufSize).1 = none ↔
        ∀ i, i < MAX_TCP_SOCKETS → (st.sockets i).state ≠ TCPSOCKETSTATE_UNUSED) ∧
      (∀ i, (tcp_reserveSocket st inBuf outBuf fsBuf inBufSize outBufSize).1 = some i →
        i < MAX_TCP_SOCKETS ∧ (st.sockets i).state = TCPSOCKETSTATE_UNUSED ∧
        (∀ k, k < i → (st.sockets k).state ≠ TCPSOCKETSTATE_UNUSED) ∧
        ((tcp_reserveSocket st inBuf outBuf fsBuf inBufSize outBufSize).2.sockets i).state
          ≠ TCPSOCKETSTATE_UNUSED ∧
        ((tcp_reserveSocket st inBuf outBuf fsBuf inBufSize outBufSize).2.sockets i).seqNum
          = [0, 0, 0, 0] ∧
        ((tcp_reserveSocket st inBuf outBuf fsBuf inBufSize outBufSize).2.sockets i).ackNum
          = [0, 0, 0, 0] ∧
        ((tcp_reserveSocket st inBuf outBuf fsBuf inBufSize outBufSize).2.sockets i).strm.in_
          = fifo_initialize inBufSize inBuf ∧
        ((tcp_reserveSocket st inBuf outBuf fsBuf inBufSize outBufSize).2.sockets i).strm.out
          = fifo_initialize outBufSize outBuf ∧
        ((tcp_reserveSocket st inBuf outBuf fsBuf inBufSize outBufSize).2.sockets i).fsBuf.size
          = (if fsBuf.isSome then outBufSize else 0) ∧
        fifo_length
          ((tcp_reserveSocket st inBuf outBuf fsBuf inBufSize outBufSize).2.sockets i).strm.in_
          = 0 ∧
        fifo_length
          ((tcp_reserveSocket st inBuf outBuf fsBuf inBufSize outBufSize).2.sockets i).strm.out
          = 0 ∧
        fifo_length
          ((tcp_reserveSocket st inBuf outBuf fsBuf inBufSize outBufSize).2.sockets i).fsBuf
          = 0 ∧
        ∀ k, k ≠ i →
          (tcp_reserveSocket st inBuf outBuf fsBuf inBufSize outBufSize).2.sockets k
            = st.sockets k) ∧
      ((tcp_reserveSocket st inBuf outBuf fsBuf inBufSize outBufSize).1 = none →
        (tcp_reserveSocket st inBuf outBuf fsBuf inBufSize outBufSize).2.sockets = st.sockets)) ∧
    (∀ (st : tcpState) (a0 a1 a2 a3 a4 : reserveArgs),
      (tcp_reserveSockets (tcp_initialise st) [a0, a1, a2, a3, a4]).1
        = [some 0, some 1, some 2, some 3, none]) := by
  constructor
  · intro st inBuf outBuf fsBuf inBufSize outBufSize
    obtain ⟨_, f2, f3, f4⟩ := tcp_findUnused_spec st.sockets MAX_TCP_SOCKETS 0
    rw [Nat.zero_add] at f2 f4
    unfold tcp_reserveSocket
    simp only []
    by_cases hfull : tcp_findUnused st.sockets MAX_TCP_SOCKETS 0 ≥ MAX_TCP_SOCKETS
    · rw [if_pos hfull]
      refine ⟨⟨fun _ i hi => f3 i (Nat.zero_le _) (by omega), fun _ => rfl⟩, ?_, fun _ => rfl⟩
      intro i hi
      simp at hi
    · rw [if_neg hfull]
      have hlt : tcp_findUnused st.sockets MAX_TCP_SOCKETS 0 < MAX_TCP_SOCKETS := by omega
      refine ⟨⟨fun h => by simp at h, fun h => absurd (f4 hlt) (h _ hlt)⟩, ?_,
        fun h => by simp at h⟩
      intro i hi
      simp only [Option.some.injEq] at hi
      subst hi
      refine ⟨hlt, f4 hlt, fun k hk => f3 k (Nat.zero_le _) hk, ?_, ?_, ?_, ?_, ?_, ?_, ?_, ?_,
        ?_, ?_⟩
      · simp only [setSocket_same]; decide
      · simp only [setSocket_same]
      · simp only [setSocket_same]
      · simp only [setSocket_same]
      · simp only [setSocket_same]
      · simp only [setSocket_same]; rfl
      · simp only [setSocket_same]; exact fifo_length_init _ _
      · simp only [setSocket_same]; exact fifo_length_init _ _
      · simp only [setSocket_same]; exact fifo_length_init _ _
      · intro k hk
        exact setSocket_ne _ _ _ _ hk
  · intro st a0 a1 a2 a3 a4
    simp [tcp_reserveSockets, tcp_reserveSocket, tcp_findUnused, tcp_initialise, setSocket,
      Function.update_apply, MAX_TCP_SOCKETS, TCPSOCKETSTATE_UNUSED, TCPSOCKETSTATE_UNKNOWN]

/-- The witness of `reserve_socket`: in a table whose sockets 0 and 1 are in use the
reservation returns the socket 2. -/
theorem reserve_socket_witness :
    2 < MAX_TCP_SOCKETS ∧
    ((tcp_reserveSocket (tableOf listenSocket (establishedSocket [0, 0, 0, 1] [0, 0, 0, 1]))
        (fun _ => 0) (fun _ => 0) none 32 64).2.sockets 2).strm.out
      = fifo_initialize 64 (fun _ => 0) ∧
    ((tcp_reserveSocket (tableOf listenSocket (establishedSocket [0, 0, 0, 1] [0, 0, 0, 1]))
        (fun _ => 0) (fun _ => 0) none 32 64).2.sockets 2).fsBuf.size = 0 :=
  have h := (reserve_socket.1 (tableOf listenSocket (establishedSocket [0, 0, 0, 1] [0, 0, 0, 1]))
    (fun _ => 0) (fun _ => 0) none 32 64).2.1 2 (by decide)
  ⟨h.1, h.2.2.2.2.2.2.2.1, h.2.2.2.2.2.2.2.2.1⟩

/-! ### tcp.c: `tcp_putchar` -/

/-- C17, as the code has it: on a socket that is not ESTABLISHED `tcp_putchar` returns 0
and leaves the state, the send fifo with it, unchanged; 0 is also what it returns after
enqueuing a byte on an ESTABLISHED socket. -/
theorem write_not_established :
    (∀ (st : tcpState) (c stream : Nat),
      (st.sockets stream).state ≠ TCPSOCKETSTATE_ESTABLISHED →
      tcp_putchar st c stream = some (0, st)) ∧
    (∀ (st : tcpState) (c stream : Nat), stream < MAX_TCP_SOCKETS →
      (st.sockets stream).state = TCPSOCKETSTATE_ESTABLISHED →
      fifo_wf (st.sockets stream).strm.out →
      fifo_length (st.sockets stream).strm.out < (st.sockets stream).strm.out.size - 1 →
      ∃ st1, tcp_putchar st c stream = some (0, st1) ∧
        fifo_contents (st1.sockets stream).strm.out
          = fifo_contents (st.sockets stream).strm.out ++ [c]) := by
  constructor
  · intro st c stream hs
    unfold tcp_putchar
    by_cases h : stream ≥ MAX_TCP_SOCKETS
    · rw [if_pos h]
    · rw [if_neg h, if_pos hs]
  · intro st c stream hlt hs hwf hroom
    unfold tcp_putchar
    rw [if_neg (by omega), if_neg (by simpa using hs), fifo_putc_ok _ c hwf hroom]
    refine ⟨_, rfl, ?_⟩
    simp only [setSocket_same]
    exact fifo_contents_put _ c hwf hroom

/-- The witness of `write_not_established`: a write on a listening socket, and a write on
an ESTABLISHED socket with room in its send fifo. -/
theorem write_not_established_witness :
    tcp_putchar (tableOf listenSocket (socket0 16 16 16)) 65 0
      = some (0, tableOf listenSocket (socket0 16 16 16)) ∧
    ∃ st1, tcp_putchar (tableOf sendingSocket (socket0 16 16 16)) 65 0 = some (0, st1) ∧
      fifo_contents (st1.sockets 0).strm.out
        = fifo_contents ((tableOf sendingSocket (socket0 16 16 16)).sockets 0).strm.out ++ [65] :=
  ⟨write_not_established.1 (tableOf listenSocket (socket0 16 16 16)) 65 0 (by decide),
   write_not_established.2 (tableOf sendingSocket (socket0 16 16 16)) 65 0 (by decide)
     (by decide) (by decide) (by decide)⟩

/-- C17 as stated fails: the value `tcp_putchar` returns on a socket that is not
ESTABLISHED (here a listening one) is 0, the value it returns after enqueuing a byte on an
ESTABLISHED socket. -/
theorem write_not_established_counterexample :
    (tcp_putchar (tableOf listenSocket (socket0 16 16 16)) 65 0).map Prod.fst = some 0 ∧
    (tcp_putchar (tableOf sendingSocket (socket0 16 16 16)) 65 0).map Prod.fst = some 0 ∧
    (tcp_putchar (tableOf sendingSocket (socket0 16 16 16)) 65 0).map
        (fun r => fifo_contents (r.2.sockets 0).strm.out)
      = some [1, 2, 3, 4, 5, 6, 7, 8, 9, 10, 65] := by
  decide

/-! ### tcp.c: the advertised window -/

theorem tcp_windowSize_lt (s : tcpSocket) : tcp_windowSize s < 65536 := by
  unfold tcp_windowSize
  simp only []
  split <;> omega

theorem tcp_buildHeader_window (pb : Mem) (ip : List Nat) (socket : tcpSocket)
    (flags len : Nat) :
    tcp_buildHeader pb ip socket flags len 26 = (tcp_windowSize socket >>> 8) % 256 ∧
    tcp_buildHeader pb ip socket flags len 27 = tcp_windowSize socket &&& 0xFF := by
  constructor <;> simp [tcp_buildHeader]

/-- The window field of the segment `tcp_send` hands to `ip_send`, and the value it
stores in the socket. -/
theorem tcp_send_window (st : tcpState) (cnt flags len : Nat) (hlen : len + 20 < 65536) :
    ∃ c, (tcp_send st cnt flags len).sent = st.sent ++ [c] ∧ c.sock = cnt ∧
      c.flags = flags % 256 ∧ c.window = tcp_windowSize (st.sockets cnt) ∧
      ((tcp_send st cnt flags len).sockets cnt).lastWindowSize
        = tcp_windowSize (st.sockets cnt) := by
  obtain ⟨h26, h27⟩ := tcp_buildHeader_window st.packetBuf st.localIP (st.sockets cnt) flags len
  have hw := tcp_windowSize_lt (st.sockets cnt)
  refine ⟨_, rfl, rfl, ?_, ?_, ?_⟩
  · simp only [ipSendCall.flags, Nat.mod_eq_of_lt hlen]
    rw [List.getD_eq_getElem?_getD, List.getElem?_map, List.getElem?_range (by omega)]
    simp [Function.update_apply, tcp_buildHeader_flags]
  · simp only [ipSendCall.window, Nat.mod_eq_of_lt hlen]
    rw [List.getD_eq_getElem?_getD, List.getD_eq_getElem?_getD, List.getElem?_map,
      List.getElem?_map, List.getElem?_range (by omega), List.getElem?_range (by omega)]
    simp only [Option.map_some', Option.getD_some, Function.update_apply]
    rw [if_neg (by decide), if_neg (by decide), if_neg (by decide), if_neg (by decide)]
    rw [h26, h27, shiftRight_eight, and_255]
    omega
  · simp [tcp_send]

/-- C13: the window invariant.  For every socket and every call of `tcp_send`, the window
written into the segment is the value stored as `lastWindowSize`, and it is 0 or at least
half the size of the send fifo, hence at least half its capacity `size - 1`. -/
theorem window_invariant (st : tcpState) (cnt flags len : Nat) (hlen : len + 20 < 65536)
    (hsz : (st.sockets cnt).strm.out.size ≤ 32767) :
    ∃ c, (tcp_send st cnt flags len).sent = st.sent ++ [c] ∧
      c.window = ((tcp_send st cnt flags len).sockets cnt).lastWindowSize ∧
      (c.window = 0 ∨
        (2 * c.window ≥ (st.sockets cnt).strm.out.size ∧
         2 * c.window ≥ (st.sockets cnt).strm.out.size - 1)) := by
  obtain ⟨c, h1, _, _, h4, h5⟩ := tcp_send_window st cnt flags len hlen
  refine ⟨c, h1, by rw [h4, h5], ?_⟩
  rw [h4]
  unfold tcp_windowSize fifo_size
  simp only []
  split
  · exact Or.inl rfl
  · right
    omega

/-- The witness of `window_invariant`: an ACK sent on the socket of scenario 6, receive and
send fifo of size 16, advertises 16. -/
theorem window_invariant_witness :
    ∃ c, (tcp_send (tableOf sendingSocket (socket0 16 16 16)) 0 TCPFLAGS_ACK 0).sent
        = (tableOf sendingSocket (socket0 16 16 16)).sent ++ [c] ∧
      c.window
        = ((tcp_send (tableOf sendingSocket (socket0 16 16 16)) 0 TCPFLAGS_ACK 0).sockets 0).lastWindowSize ∧
      (c.window = 0 ∨
        (2 * c.window ≥ ((tableOf sendingSocket (socket0 16 16 16)).sockets 0).strm.out.size ∧
         2 * c.window
           ≥ ((tableOf sendingSocket (socket0 16 16 16)).sockets 0).strm.out.size - 1)) :=
  window_invariant (tableOf sendingSocket (socket0 16 16 16)) 0 TCPFLAGS_ACK 0 (by decide)
    (by decide)

theorem tcp_windowSize_eq (s : tcpSocket) (hwf : fifo_wf s.strm.in_)
    (hsz : s.strm.out.size ≤ 32767) :
    tcp_windowSize s
      = if 2 * (s.strm.in_.size - fifo_length s.strm.in_) < s.strm.out.size then 0
        else s.strm.in_.size - fifo_length s.strm.in_ := by
  have h1 := fifo_length_le _ hwf
  obtain ⟨_, _, h3⟩ := hwf
  unfold tcp_windowSize fifo_size
  simp only []
  have e : (s.strm.in_.size % 65536 + 65536 - fifo_length s.strm.in_) % 65536
      = s.strm.in_.size - fifo_length s.strm.in_ := by omega
  rw [e, Nat.mod_eq_of_lt (by omega)]

/-- C12, as the code has it: the window field of every segment built by `tcp_send` is the
size of the receive fifo minus its occupancy, which is one more than `(size - 1) -
fifo_length(in)`, the number of bytes the fifo can still accept; unless that value is
below half the size of the send fifo, in which case it is 0.  The SYN|ACK answering a SYN
on a listening socket with an empty receive fifo at least half as large as the send fifo
advertises the size of the receive fifo. -/
theorem advertised_window :
    (∀ (st : tcpState) (cnt flags len : Nat), len + 20 < 65536 →
      fifo_wf (st.sockets cnt).strm.in_ → (st.sockets cnt).strm.out.size ≤ 32767 →
      ∃ c, (tcp_send st cnt flags len).sent = st.sent ++ [c] ∧
        c.window
          = (if 2 * ((st.sockets cnt).strm.in_.size - fifo_length (st.sockets cnt).strm.in_)
                < (st.sockets cnt).strm.out.size then 0
             else (st.sockets cnt).strm.in_.size - fifo_length (st.sockets cnt).strm.in_) ∧
        (st.sockets cnt).strm.in_.size - fifo_length (st.sockets cnt).strm.in_
          = ((st.sockets cnt).strm.in_.size - 1) - fifo_length (st.sockets cnt).strm.in_ + 1) ∧
    (∀ (st : tcpState) (pkt : Mem) (j : Nat), j < MAX_TCP_SOCKETS →
      (st.sockets j).state = TCPSOCKETSTATE_LISTEN →
      (st.sockets j).localPort = pktLocalPort pkt →
      (∀ i, i < j → ¬ captures (st.sockets i) pkt) →
      pktCodeBits pkt &&& TCPFLAGS_SYN ≠ 0 →
      fifo_wf (st.sockets j).strm.in_ → fifo_length (st.sockets j).strm.in_ = 0 →
      (st.sockets j).strm.out.size ≤ 32767 →
      (st.sockets j).strm.out.size ≤ 2 * (st.sockets j).strm.in_.size →
      ∃ st1 c, tcp_handle st pkt = some st1 ∧ st1.sent = st.sent ++ [c] ∧
        c.flags = TCPFLAGS_SYN ||| TCPFLAGS_ACK ∧
        c.window = (st.sockets j).strm.in_.size ∧
        (st.sockets j).strm.in_.size = ((st.sockets j).strm.in_.size - 1) + 1) := by
  constructor
  · intro st cnt flags len hlen hwf hsz
    obtain ⟨c, h1, _, _, h4, _⟩ := tcp_send_window st cnt flags len hlen
    refine ⟨c, h1, ?_, ?_⟩
    · rw [h4, tcp_windowSize_eq _ hwf hsz]
    · have h1 := fifo_length_le _ hwf
      have h2 := hwf.1
      omega
  · intro st pkt j hj hstate hport hfirst hsyn hwf hempty hsz hhalf
    have hne : ¬ ((st.sockets j).state = TCPSOCKETSTATE_SYN_SENT ∧
        (st.sockets j).localPort = pktLocalPort pkt) := by
      rw [hstate]; intro h; exact absurd h.1 (by decide)
    rw [tcp_handle_first pkt st j hj hfirst, tcp_handle_loop]
    simp only []
    rw [if_neg hne, if_pos ⟨hstate, hport⟩, if_pos hsyn]
    obtain ⟨c, hc1, _, hc3, hc4, _⟩ := tcp_send_window
      (setSocket st j (increaseAckNum
        { ({ ({ st.sockets j with remotePort := pktRemotePort pkt } : tcpSocket) with
              destIP := pktSourceIP pkt } : tcpSocket) with ackNum := pktSeqNum pkt }
        (toI16 (1 + dataCount pkt))))
      j (TCPFLAGS_SYN ||| TCPFLAGS_ACK) 0 (by decide)
    refine ⟨_, c, rfl, ?_, ?_, ?_, ?_⟩
    · rw [setSocket_sent, hc1, setSocket_sent]
    · rw [hc3]; decide
    · rw [hc4, setSocket_same]
      have e := tcp_windowSize_eq (increaseAckNum
        { ({ ({ st.sockets j with remotePort := pktRemotePort pkt } : tcpSocket) with
              destIP := pktSourceIP pkt } : tcpSocket) with ackNum := pktSeqNum pkt }
        (toI16 (1 + dataCount pkt))) hwf hsz
      rw [e]
      show (if 2 * ((st.sockets j).strm.in_.size - fifo_length (st.sockets j).strm.in_)
          < (st.sockets j).strm.out.size then 0
        else (st.sockets j).strm.in_.size - fifo_length (st.sockets j).strm.in_) = _
      rw [hempty, if_neg (by omega)]
      rfl
    · have h2 := hwf.1
      omega

/-- The witness of `advertised_window`: the SYN|ACK that answers a SYN on the listening
socket of scenario 4, receive and send fifo of size 16, advertises 16. -/
theorem advertised_window_witness :
    ∃ st1 c, tcp_handle (tableOf listenSocket (socket0 16 16 16))
        (ipTcpPacket 1024 80 [0, 0, 0, 0] [0, 0, 0, 0] 0x02 []) = some st1 ∧
      st1.sent = (tableOf listenSocket (socket0 16 16 16)).sent ++ [c] ∧
      c.flags = TCPFLAGS_SYN ||| TCPFLAGS_ACK ∧
      c.window = ((tableOf listenSocket (socket0 16 16 16)).sockets 0).strm.in_.size ∧
      ((tableOf listenSocket (socket0 16 16 16)).sockets 0).strm.in_.size
        = (((tableOf listenSocket (socket0 16 16 16)).sockets 0).strm.in_.size - 1) + 1 :=
  advertised_window.2 (tableOf listenSocket (socket0 16 16 16))
    (ipTcpPacket 1024 80 [0, 0, 0, 0] [0, 0, 0, 0] 0x02 []) 0 (by decide) (by decide)
    (by decide) (fun i h => absurd h (Nat.not_lt_zero i)) (by decide) (by decide) (by decide)
    (by decide) (by decide)

/-- C12 as stated fails: the SYN|ACK answering a SYN on the freshly set up listening socket
of scenario 4 advertises 16, the size of the receive fifo, while the fifo can accept
`(size - 1) - fifo_length(in) = 15` bytes and never holds more. -/
theorem advertised_window_counterexample :
    (tcp_handle (tableOf listenSocket (socket0 16 16 16))
        (ipTcpPacket 1024 80 [0, 0, 0, 0] [0, 0, 0, 0] 0x02 [])).map
      (fun st1 => st1.sent.map (fun c => (c.flags, c.window))) = some [(0x12, 16)] ∧
    (listenSocket.strm.in_.size - 1) - fifo_length listenSocket.strm.in_ = 15 ∧
    ¬ (2 * ((listenSocket.strm.in_.size - 1) - fifo_length listenSocket.strm.in_)
        < listenSocket.strm.out.size - 1) := by
  decide

/-! ### tcp.c: the ESTABLISHED block of `tcp_handle` -/

theorem emitted_refl (j : Nat) (st : tcpState) : emitted j st st [] :=
  ⟨[], by simp, rfl, by simp⟩

theorem emitted_trans (j : Nat) (a b c : tcpState) (f1 f2 : List Nat)
    (h1 : emitted j a b f1) (h2 : emitted j b c f2) : emitted j a c (f1 ++ f2) := by
  obtain ⟨n1, a1, a2, a3⟩ := h1
  obtain ⟨n2, b1, b2, b3⟩ := h2
  refine ⟨n1 ++ n2, by rw [b1, a1, List.append_assoc], by rw [List.map_append, a2, b2], ?_⟩
  intro x hx
  rcases List.mem_append.mp hx with h | h
  · exact a3 x h
  · exact b3 x h

theorem emitted_setSocket (j : Nat) (st : tcpState) (s : tcpSocket) :
    emitted j st (setSocket st j s) [] :=
  ⟨[], by simp [setSocket], rfl, by simp⟩

theorem emitted_tcp_send (j : Nat) (st : tcpState) (flags : Nat) (hf : flags < 256) :
    emitted j st (tcp_send st j flags 0) [flags] := by
  obtain ⟨c, h1, h2, _, h3, _, _, h6⟩ := tcp_send_sent st j flags 0 (by decide)
  refine ⟨[c], h1, ?_, ?_⟩
  · simp [h3, Nat.mod_eq_of_lt hf]
  · intro x hx
    simp only [List.mem_singleton] at hx
    rw [hx]
    exact ⟨h2, by rw [h6]; rfl⟩

theorem emitted_step_set (j : Nat) (a b : tcpState) (fl : List Nat) (s : tcpSocket)
    (h : emitted j a b fl) : emitted j a (setSocket b j s) fl := by
  have := emitted_trans j a b _ fl [] h (emitted_setSocket j b s)
  rwa [List.append_nil] at this

theorem emitted_step_send (j : Nat) (a b : tcpState) (fl : List Nat) (flags : Nat)
    (h : emitted j a b fl) (hf : flags < 256) :
    emitted j a (tcp_send b j flags 0) (fl ++ [flags]) :=
  emitted_trans j a b _ fl [flags] h (emitted_tcp_send j b flags hf)

theorem emitted_step_first (j : Nat) (a b : tcpState) (flags : Nat)
    (h : emitted j a b []) (hf : flags < 256) :
    emitted j a (tcp_send b j flags 0) [flags] :=
  emitted_step_send j a b [] flags h hf

theorem ackChecked_strm (s : tcpSocket) (pkt : Mem) : (ackChecked s pkt).strm = s.strm := by
  unfold ackChecked
  split
  · split <;> rfl
  · rfl

theorem ackChecked_state (s : tcpSocket) (pkt : Mem) : (ackChecked s pkt).state = s.state := by
  unfold ackChecked
  split
  · split <;> rfl
  · rfl

/-- The ESTABLISHED block of `tcp_handle`, whatever the flags of the segment: it returns
(the receive fifo being usable when there is data), countdown, retries and holding fifo
are those left by the ACK check, the other sockets are untouched, and the segments
emitted are an ACK|FIN when the segment has FIN, followed by an ACK when it has SYN or
data. -/
theorem tcp_handle_established_spec (st : tcpState) (j : Nat) (pkt : Mem)
    (hwf : dataCount pkt ≠ 0 → fifo_wf (st.sockets j).strm.in_) :
    ∃ st1, tcp_handle_established st j pkt = some st1 ∧
      (st1.sockets j).ackState = (ackChecked (st.sockets j) pkt).ackState ∧
      (st1.sockets j).retryCounter = (ackChecked (st.sockets j) pkt).retryCounter ∧
      (st1.sockets j).fsBuf = (ackChecked (st.sockets j) pkt).fsBuf ∧
      (st1.sockets j).seqNum = (ackChecked (st.sockets j) pkt).seqNum ∧
      (st1.sockets j).strm.out = (st.sockets j).strm.out ∧
      (st1.sockets j).state
        = (if pktCodeBits pkt &&& TCPFLAGS_FIN ≠ 0 then TCPSOCKETSTATE_UNKNOWN
           else (st.sockets j).state) ∧
      (∀ i, i ≠ j → st1.sockets i = st.sockets i) ∧
      st1.sustainer_running = st.sustainer_running ∧
      emitted j st st1
        ((if pktCodeBits pkt &&& TCPFLAGS_FIN ≠ 0 then [TCPFLAGS_ACK ||| TCPFLAGS_FIN] else [])
          ++ (if pktCodeBits pkt &&& TCPFLAGS_SYN ≠ 0 ∨ dataCount pkt ≠ 0 then [TCPFLAGS_ACK]
              else [])) := by
  unfold tcp_handle_established
  simp only []
  have hs1 : (if pktCodeBits pkt &&& TCPFLAGS_ACK ≠ 0 then
      if take4 (st.sockets j).seqNum = pktAckNum pkt then
        ({ st.sockets j with ackState := 0, retryCounter := 0,
                             fsBuf := fifo_reset (st.sockets j).fsBuf } : tcpSocket)
      else st.sockets j
    else st.sockets j) = ackChecked (st.sockets j) pkt := rfl
  rw [hs1]
  have hstrm := ackChecked_strm (st.sockets j) pkt
  have hstate := ackChecked_state (st.sockets j) pkt
  generalize ackChecked (st.sockets j) pkt = s1 at hstrm hstate ⊢
  by_cases hn : dataCount pkt = 0
  · by_cases hsyn : pktCodeBits pkt &&& TCPFLAGS_SYN = 0 <;>
    by_cases hfin : pktCodeBits pkt &&& TCPFLAGS_FIN = 0
    all_goals
      simp only [hsyn, hfin, hn, ne_eq, not_true_eq_false, if_false, not_false_eq_true, if_true,
        or_self, or_false, or_true, false_or, true_or]
    all_goals
      refine ⟨_, rfl, ?_, ?_, ?_, ?_, ?_, ?_, ?_, ?_, ?_⟩
    all_goals
      first
        | (simp only [tcp_send_socket, setSocket_same, increaseAckNum, hstrm, hstate]; done)
        | (intro i hi; simp only [setSocket_ne _ _ _ _ hi, tcp_send_sockets _ _ _ _ _ hi]; done)
        | rfl
        | skip
    · exact emitted_step_set _ _ _ _ _ (emitted_refl _ _)
    · exact emitted_step_set _ _ _ _ _ (emitted_step_first _ _ _ _
        (emitted_step_set _ _ _ _ _ (emitted_step_set _ _ _ _ _ (emitted_refl _ _))) (by decide))
    · exact emitted_step_first _ _ _ _ (emitted_step_set _ _ _ _ _ (emitted_refl _ _)) (by decide)
    · exact emitted_step_send _ _ _ _ _ (emitted_step_set _ _ _ _ _ (emitted_step_first _ _ _ _
        (emitted_step_set _ _ _ _ _ (emitted_step_set _ _ _ _ _ (emitted_refl _ _))) (by decide)))
        (by decide)
  · have hwf1 := hwf hn
    obtain ⟨f1, hf1, _, _, _⟩ := tcp_copyData_ok (fun i => pkt (tcpOffset pkt + i))
      (tcpHeaderLen pkt) (dataCount pkt) 0 (st.sockets j).strm.in_ hwf1
    by_cases hsyn : pktCodeBits pkt &&& TCPFLAGS_SYN = 0 <;>
    by_cases hfin : pktCodeBits pkt &&& TCPFLAGS_FIN = 0
    all_goals
      simp only [hsyn, hfin, hn, ne_eq, not_true_eq_false, if_false, not_false_eq_true, if_true,
        or_self, or_false, or_true, false_or, true_or]
    all_goals
      simp only [increaseAckNum, hstrm, hf1]
    all_goals
      refine ⟨_, rfl, ?_, ?_, ?_, ?_, ?_, ?_, ?_, ?_, ?_⟩
    all_goals
      first
        | (simp only [tcp_send_socket, setSocket_same, increaseAckNum, hstrm, hstate]; done)
        | (intro i hi; simp only [setSocket_ne _ _ _ _ hi, tcp_send_sockets _ _ _ _ _ hi]; done)
        | rfl
        | skip
    · exact emitted_step_first _ _ _ _ (emitted_step_set _ _ _ _ _ (emitted_refl _ _)) (by decide)
    · exact emitted_step_send _ _ _ _ _ (emitted_step_set _ _ _ _ _ (emitted_step_first _ _ _ _
        (emitted_step_set _ _ _ _ _ (emitted_step_set _ _ _ _ _ (emitted_refl _ _))) (by decide)))
        (by decide)
    · exact emitted_step_first _ _ _ _ (emitted_step_set _ _ _ _ _ (emitted_refl _ _)) (by decide)
    · exact emitted_step_send _ _ _ _ _ (emitted_step_set _ _ _ _ _ (emitted_step_first _ _ _ _
        (emitted_step_set _ _ _ _ _ (emitted_step_set _ _ _ _ _ (emitted_refl _ _))) (by decide)))
        (by decide)

/-- When the first socket of the table that captures the segment is ESTABLISHED with the
segment's addresses, `tcp_handle` is the ESTABLISHED block run on that socket. -/
theorem tcp_handle_reaches (st : tcpState) (pkt : Mem) (j : Nat) (hj : j < MAX_TCP_SOCKETS)
    (hstate : (st.sockets j).state = TCPSOCKETSTATE_ESTABLISHED)
    (hip : take4 (st.sockets j).destIP = pktSourceIP pkt)
    (hlport : (st.sockets j).localPort = pktLocalPort pkt)
    (hrport : (st.sockets j).remotePort = pktRemotePort pkt)
    (hfirst : ∀ i, i < j → ¬ captures (st.sockets i) pkt) :
    tcp_handle st pkt = tcp_handle_established st j pkt := by
  have hne1 : ¬ ((st.sockets j).state = TCPSOCKETSTATE_SYN_SENT ∧
      (st.sockets j).localPort = pktLocalPort pkt) := by
    rw [hstate]; intro h; exact absurd h.1 (by decide)
  have hne2 : ¬ ((st.sockets j).state = TCPSOCKETSTATE_LISTEN ∧
      (st.sockets j).localPort = pktLocalPort pkt) := by
    rw [hstate]; intro h; exact absurd h.1 (by decide)
  rw [tcp_handle_first pkt st j hj hfirst, tcp_handle_loop]
  simp only []
  rw [if_neg hne1, if_neg hne2, if_pos ⟨hip, hlport, hrport⟩, if_pos hstate]

/-- A socket with no countdown, an empty holding fifo and an empty send fifo, ESTABLISHED or
closed by the peer, among idle sockets: no pass of `tcp_sustain` changes or emits
anything. -/
theorem settled_passes (st : tcpState) (j : Nat) (hj : j < MAX_TCP_SOCKETS)
    (hrun : st.sustainer_running = 0)
    (hidle : ∀ i, i < MAX_TCP_SOCKETS → i ≠ j → socket_idle (st.sockets i))
    (hs : (st.sockets j).state = TCPSOCKETSTATE_ESTABLISHED ∨
      (st.sockets j).state = TCPSOCKETSTATE_UNKNOWN)
    (ha : (st.sockets j).ackState = 0)
    (hfs : fifo_length (st.sockets j).fsBuf = 0)
    (hout : fifo_length (st.sockets j).strm.out = 0) :
    ∀ k, tcp_sustain_n k st = some st := by
  have hB : tcp_sustain_socket { st with sustainer_running := 1 } j
      = some { st with sustainer_running := 1 } := by
    rcases hs with hs | hs
    · exact tcp_sustain_socket_quiet { st with sustainer_running := 1 } j hs ha hfs hout
    · exact tcp_sustain_socket_idle { st with sustainer_running := 1 } j
        ⟨by show (st.sockets j).state ≠ _; rw [hs]; decide,
         by show (st.sockets j).state ≠ _; rw [hs]; decide, ha⟩
  have hT := tcp_sustain_alone st _ j hj hrun hidle hB (fun _ _ => rfl)
  have hpass : tcp_sustain st = some st := by
    rw [hT]
    cases st
    simp only [] at hrun
    simp [hrun]
  intro k
  induction k with
  | zero => rfl
  | succ k ih => rw [tcp_sustain_n, hpass]; exact ih

/-- C11, as the code has it: when the first socket of the table that the segment matches
is ESTABLISHED with the segment's addresses, `tcp_handle` returns, and if the segment has
the ACK flag and its acknowledgement number equals the socket's sequence number then
afterwards the countdown is 0, the retry counter is 0 and the holding fifo is empty, so
that (the send fifo being empty and the other sockets idle) no later pass of `tcp_sustain`
emits anything; if the ACK flag is missing or the numbers differ, countdown, retry counter
and holding fifo are as before. -/
theorem ack_clears_retransmission (st : tcpState) (pkt : Mem) (j : Nat)
    (hj : j < MAX_TCP_SOCKETS)
    (hstate : (st.sockets j).state = TCPSOCKETSTATE_ESTABLISHED)
    (hip : take4 (st.sockets j).destIP = pktSourceIP pkt)
    (hlport : (st.sockets j).localPort = pktLocalPort pkt)
    (hrport : (st.sockets j).remotePort = pktRemotePort pkt)
    (hfirst : ∀ i, i < j → ¬ captures (st.sockets i) pkt)
    (hwf : dataCount pkt ≠ 0 → fifo_wf (st.sockets j).strm.in_) :
    ∃ st1, tcp_handle st pkt = some st1 ∧
      (pktCodeBits pkt &&& TCPFLAGS_ACK ≠ 0 → take4 (st.sockets j).seqNum = pktAckNum pkt →
        (st1.sockets j).ackState = 0 ∧ (st1.sockets j).retryCounter = 0 ∧
        fifo_length (st1.sockets j).fsBuf = 0 ∧ fifo_contents (st1.sockets j).fsBuf = [] ∧
        (st.sustainer_running = 0 → fifo_length (st.sockets j).strm.out = 0 →
          (∀ i, i < MAX_TCP_SOCKETS → i ≠ j → socket_idle (st.sockets i)) →
          ∀ k, tcp_sustain_n k st1 = some st1)) ∧
      ((pktCodeBits pkt &&& TCPFLAGS_ACK = 0 ∨ take4 (st.sockets j).seqNum ≠ pktAckNum pkt) →
        (st1.sockets j).ackState = (st.sockets j).ackState ∧
        (st1.sockets j).retryCounter = (st.sockets j).retryCounter ∧
        (st1.sockets j).fsBuf = (st.sockets j).fsBuf) := by
  obtain ⟨st1, h1, h2, h3, h4, _, h6, h7, h8, h9, _⟩ := tcp_handle_established_spec st j pkt hwf
  refine ⟨st1, ?_, ?_, ?_⟩
  · rw [tcp_handle_reaches st pkt j hj hstate hip hlport hrport hfirst, h1]
  · intro hack heq
    have e : ackChecked (st.sockets j) pkt
        = { st.sockets j with ackState := 0, retryCounter := 0,
                              fsBuf := fifo_reset (st.sockets j).fsBuf } := by
      unfold ackChecked
      rw [if_pos hack, if_pos heq]
    rw [e] at h2 h3 h4
    have hlen : fifo_length (st1.sockets j).fsBuf = 0 := by
      rw [h4]; exact fifo_length_reset _
    refine ⟨h2, h3, hlen, fifo_contents_of_length_zero _ hlen, ?_⟩
    intro hrun hout hidle
    refine settled_passes st1 j hj (by rw [h9, hrun])
      (fun i hi hne => by rw [h8 i hne]; exact hidle i hi hne) ?_ h2 hlen (by rw [h6]; exact hout)
    rw [h7]
    split
    · right; rfl
    · left; exact hstate
  · intro hno
    have e : ackChecked (st.sockets j) pkt = st.sockets j := by
      unfold ackChecked
      rcases hno with h | h
      · rw [if_neg (by rw [h]; simp)]
      · by_cases ha : pktCodeBits pkt &&& TCPFLAGS_ACK ≠ 0
        · rw [if_pos ha, if_neg h]
        · rw [if_neg ha]
    rw [e] at h2 h3 h4
    exact ⟨h2, h3, h4⟩

/-- The witness of `ack_clears_retransmission`: the socket of scenario 6 after its first
transmission (10 bytes held, sequence number 11, countdown 500, 2 retries) receives the
ACK with acknowledgement number 11. -/
theorem ack_clears_retransmission_witness :
    ∃ st1, tcp_handle (tableOf unackedSocket (socket0 16 16 16))
        (ackPacket [0, 0, 0, 1] [0, 0, 0, 11]) = some st1 ∧
      (st1.sockets 0).ackState = 0 ∧ (st1.sockets 0).retryCounter = 0 ∧
      fifo_contents (st1.sockets 0).fsBuf = [] ∧
      ∀ k, tcp_sustain_n k st1 = some st1 := by
  obtain ⟨st1, h1, h2, _⟩ :=
    ack_clears_retransmission (tableOf unackedSocket (socket0 16 16 16))
      (ackPacket [0, 0, 0, 1] [0, 0, 0, 11]) 0 (by decide) (by decide) (by decide)
      (by decide) (by decide) (fun i h => absurd h (Nat.not_lt_zero i)) (by decide)
  obtain ⟨g1, g2, _, g4, g5⟩ := h2 (by decide) (by decide)
  exact ⟨st1, h1, g1, g2, g4, g5 (by decide) (by decide) (by decide)⟩

/-- C11 as stated fails for an ESTABLISHED socket that stands in the table behind a socket
listening on the same port: the matching ACK with the socket's sequence number is not
processed, countdown, retry counter and holding fifo stay as they were. -/
theorem ack_clears_retransmission_counterexample :
    (tcp_handle (tableOf listenSocket unackedSocket) (ackPacket [0, 0, 0, 1] [0, 0, 0, 11])).map
      (fun st1 => ((st1.sockets 1).ackState, (st1.sockets 1).retryCounter,
        fifo_contents (st1.sockets 1).fsBuf))
      = some (500, 2, [1, 2, 3, 4, 5, 6, 7, 8, 9, 10]) ∧
    unackedSocket.state = TCPSOCKETSTATE_ESTABLISHED ∧
    take4 unackedSocket.destIP = pktSourceIP (ackPacket [0, 0, 0, 1] [0, 0, 0, 11]) ∧
    unackedSocket.localPort = pktLocalPort (ackPacket [0, 0, 0, 1] [0, 0, 0, 11]) ∧
    unackedSocket.remotePort = pktRemotePort (ackPacket [0, 0, 0, 1] [0, 0, 0, 11]) ∧
    pktCodeBits (ackPacket [0, 0, 0, 1] [0, 0, 0, 11]) &&& TCPFLAGS_ACK ≠ 0 ∧
    take4 unackedSocket.seqNum = pktAckNum (ackPacket [0, 0, 0, 1] [0, 0, 0, 11]) := by
  decide

theorem emitted_none (j : Nat) (st st1 : tcpState) (h : emitted j st st1 []) :
    st1.sent = st.sent := by
  obtain ⟨new, h1, h2, _⟩ := h
  rw [h1, List.map_eq_nil_iff.mp h2, List.append_nil]

theorem emitted_one (j : Nat) (st st1 : tcpState) (a : Nat) (h : emitted j st st1 [a]) :
    ∃ c, st1.sent = st.sent ++ [c] ∧ c.sock = j ∧ c.flags = a ∧ c.payload = [] := by
  obtain ⟨new, h1, h2, h3⟩ := h
  match new, h2 with
  | [c], h2 =>
    simp only [List.map_cons, List.map_nil, List.cons.injEq, and_true] at h2
    exact ⟨c, h1, (h3 c (by simp)).1, h2, (h3 c (by simp)).2⟩

theorem emitted_two (j : Nat) (st st1 : tcpState) (a b : Nat)
    (h : emitted j st st1 [a, b]) :
    ∃ c1 c2, st1.sent = st.sent ++ [c1, c2] ∧ c1.flags = a ∧ c2.flags = b := by
  obtain ⟨new, h1, h2, _⟩ := h
  match new, h2 with
  | [c1, c2], h2 =>
    simp only [List.map_cons, List.map_nil, List.cons.injEq, and_true] at h2
    exact ⟨c1, c2, h1, h2.1, h2.2⟩

/-- C14, as the code has it: when the first socket of the table that the segment matches
is ESTABLISHED with the segment's addresses, `tcp_handle` returns and emits, for that
socket and without payload: exactly one segment, an ACK, for a segment without FIN that
carries data or a SYN; exactly one segment, an ACK|FIN, for a FIN without data or SYN;
none for a segment with neither; and two segments, an ACK|FIN followed by an ACK, for a
FIN that comes with data or a SYN. -/
theorem one_response (st : tcpState) (pkt : Mem) (j : Nat) (hj : j < MAX_TCP_SOCKETS)
    (hstate : (st.sockets j).state = TCPSOCKETSTATE_ESTABLISHED)
    (hip : take4 (st.sockets j).destIP = pktSourceIP pkt)
    (hlport : (st.sockets j).localPort = pktLocalPort pkt)
    (hrport : (st.sockets j).remotePort = pktRemotePort pkt)
    (hfirst : ∀ i, i < j → ¬ captures (st.sockets i) pkt)
    (hwf : dataCount pkt ≠ 0 → fifo_wf (st.sockets j).strm.in_) :
    ∃ st1, tcp_handle st pkt = some st1 ∧
      (pktCodeBits pkt &&& TCPFLAGS_FIN = 0 →
        (pktCodeBits pkt &&& TCPFLAGS_SYN ≠ 0 ∨ dataCount pkt ≠ 0) →
        ∃ c, st1.sent = st.sent ++ [c] ∧ c.sock = j ∧ c.flags = TCPFLAGS_ACK ∧
          c.payload = []) ∧
      (pktCodeBits pkt &&& TCPFLAGS_FIN ≠ 0 →
        pktCodeBits pkt &&& TCPFLAGS_SYN = 0 → dataCount pkt = 0 →
        ∃ c, st1.sent = st.sent ++ [c] ∧ c.sock = j ∧
          c.flags = TCPFLAGS_ACK ||| TCPFLAGS_FIN ∧ c.payload = []) ∧
      (pktCodeBits pkt &&& TCPFLAGS_FIN = 0 →
        pktCodeBits pkt &&& TCPFLAGS_SYN = 0 → dataCount pkt = 0 → st1.sent = st.sent) ∧
      (pktCodeBits pkt &&& TCPFLAGS_FIN ≠ 0 →
        (pktCodeBits pkt &&& TCPFLAGS_SYN ≠ 0 ∨ dataCount pkt ≠ 0) →
        ∃ c1 c2, st1.sent = st.sent ++ [c1, c2] ∧
          c1.flags = TCPFLAGS_ACK ||| TCPFLAGS_FIN ∧ c2.flags = TCPFLAGS_ACK) := by
  obtain ⟨st1, h1, _, _, _, _, _, _, _, _, hem⟩ := tcp_handle_established_spec st j pkt hwf
  refine ⟨st1, ?_, ?_, ?_, ?_, ?_⟩
  · rw [tcp_handle_reaches st pkt j hj hstate hip hlport hrport hfirst, h1]
  · intro hfin hreq
    rw [if_neg (by rw [hfin]; simp), if_pos hreq] at hem
    exact emitted_one j st st1 _ hem
  · intro hfin hsyn hn
    rw [if_pos hfin, if_neg (by rw [hsyn, hn]; simp)] at hem
    exact emitted_one j st st1 _ hem
  · intro hfin hsyn hn
    rw [if_neg (by rw [hfin]; simp), if_neg (by rw [hsyn, hn]; simp)] at hem
    exact emitted_none j st st1 hem
  · intro hfin hreq
    rw [if_pos hfin, if_pos hreq] at hem
    exact emitted_two j st st1 _ _ hem

/-- The witness of `one_response`: the peer's FIN without data on an ESTABLISHED socket is
answered by exactly one segment, an ACK|FIN. -/
theorem one_response_witness :
    ∃ st1 c, tcp_handle (tableOf (establishedSocket [0, 0, 0, 1] [0, 0, 0, 1]) (socket0 16 16 16))
        (finPacket [0, 0, 0, 1] [0, 0, 0, 1]) = some st1 ∧
      st1.sent = [c] ∧ c.sock = 0 ∧ c.flags = 0x11 ∧ c.payload = [] := by
  obtain ⟨st1, h1, _, h3, _, _⟩ :=
    one_response (tableOf (establishedSocket [0, 0, 0, 1] [0, 0, 0, 1]) (socket0 16 16 16))
      (finPacket [0, 0, 0, 1] [0, 0, 0, 1]) 0 (by decide) (by decide) (by decide)
      (by decide) (by decide) (fun i h => absurd h (Nat.not_lt_zero i)) (by decide)
  obtain ⟨c, g1, g2, g3, g4⟩ := h3 (by decide) (by decide) (by decide)
  exact ⟨st1, c, h1, g1, g2, g3, g4⟩

/-- C14 as stated fails in two ways.  A matching segment with FIN and 5 data bytes is
answered by two segments, an ACK|FIN and an ACK; and for an ESTABLISHED socket that stands
in the table behind a socket listening on the same port a matching data segment is
answered by none. -/
theorem one_response_counterexample :
    (tcp_handle (tableOf (establishedSocket [0, 0, 0, 1] [0, 0, 0, 1]) (socket0 16 16 16))
        finHelloPacket).map (fun st1 => st1.sent.map ipSendCall.flags) = some [0x11, 0x10] ∧
    (tcp_handle (tableOf listenSocket (establishedSocket [0, 0, 0, 1] [0, 0, 0, 1]))
        helloPacket).map (fun st1 => st1.sent.length) = some 0 ∧
    dataCount helloPacket = 5 := by
  decide

/-- The ESTABLISHED block of `tcp_handle` on a segment with `n > 0` data bytes and neither
SYN nor FIN: the ack number becomes the segment's sequence number plus `n`, and the payload
is appended to the receive fifo as far as there is room. -/
theorem tcp_handle_established_data (st : tcpState) (pkt : Mem) (j : Nat)
    (hbytes : ∀ i, pkt i < 256)
    (hn : dataCount pkt ≠ 0)
    (hsyn : pktCodeBits pkt &&& TCPFLAGS_SYN = 0)
    (hfin : pktCodeBits pkt &&& TCPFLAGS_FIN = 0)
    (hwf : fifo_wf (st.sockets j).strm.in_) :
    ∃ st1, tcp_handle_established st j pkt = some st1 ∧
      be32 (st1.sockets j).ackNum = (be32 (pktSeqNum pkt) + dataCount pkt) % 4294967296 ∧
      fifo_contents (st1.sockets j).strm.in_
        = fifo_contents (st.sockets j).strm.in_ ++
          (pktPayload pkt).take
            ((st.sockets j).strm.in_.size - 1 - fifo_length (st.sockets j).strm.in_) := by
  have hdc : dataCount pkt < 65536 := by
    unfold dataCount toU16; omega
  unfold tcp_handle_established
  simp only [hsyn, hfin, ne_eq, not_true_eq_false, if_false, hn, not_false_eq_true, if_true]
  generalize hs1 : (if ¬ pktCodeBits pkt &&& TCPFLAGS_ACK = 0 then
      if take4 (st.sockets j).seqNum = pktAckNum pkt then
        ({ st.sockets j with ackState := 0, retryCounter := 0,
                             fsBuf := fifo_reset (st.sockets j).fsBuf } : tcpSocket)
      else st.sockets j
    else st.sockets j) = s1
  have hin : s1.strm = (st.sockets j).strm := by
    rw [← hs1]; split
    · split <;> rfl
    · rfl
  obtain ⟨f1, hf1, _, _, hf4⟩ := tcp_copyData_ok (fun i => pkt (tcpOffset pkt + i))
    (tcpHeaderLen pkt) (dataCount pkt) 0 (st.sockets j).strm.in_ hwf
  rw [pktPayload_eq] at hf4
  simp only [increaseAckNum, hin, hf1]
  refine ⟨_, rfl, ?_, ?_⟩
  · simp only [tcp_send_socket, setSocket_same]
    exact be32_increaseNum _ _ (isBytes4_pktSeqNum pkt hbytes) hdc
  · simp only [tcp_send_socket, setSocket_same]
    exact hf4

/-- C15, as the code has it: when the first socket of the table that the segment matches
is ESTABLISHED with the segment's addresses, and the segment carries `n` data bytes, neither
SYN nor FIN, and the socket's ack number as its sequence number, and only `k < n` bytes fit
into the receive fifo, then after `tcp_handle` the first `k` bytes of the payload have been
appended to the receive fifo, the other `n - k` are lost, and the socket's ack number has
advanced by `n`, which is not its advance by `k`: the dropped bytes are acknowledged. -/
theorem dropped_bytes_acknowledged (st : tcpState) (pkt : Mem) (j k : Nat)
    (hj : j < MAX_TCP_SOCKETS)
    (hbytes : ∀ i, pkt i < 256)
    (hstate : (st.sockets j).state = TCPSOCKETSTATE_ESTABLISHED)
    (hip : take4 (st.sockets j).destIP = pktSourceIP pkt)
    (hlport : (st.sockets j).localPort = pktLocalPort pkt)
    (hrport : (st.sockets j).remotePort = pktRemotePort pkt)
    (hfirst : ∀ i, i < j → ¬ captures (st.sockets i) pkt)
    (hsyn : pktCodeBits pkt &&& TCPFLAGS_SYN = 0)
    (hfin : pktCodeBits pkt &&& TCPFLAGS_FIN = 0)
    (hseq : pktSeqNum pkt = (st.sockets j).ackNum)
    (hwf : fifo_wf (st.sockets j).strm.in_)
    (hk : (st.sockets j).strm.in_.size - 1 - fifo_length (st.sockets j).strm.in_ = k)
    (hlt : k < dataCount pkt) :
    ∃ st1, tcp_handle st pkt = some st1 ∧
      fifo_contents (st1.sockets j).strm.in_
        = fifo_contents (st.sockets j).strm.in_ ++ (pktPayload pkt).take k ∧
      ((pktPayload pkt).take k).length = k ∧
      be32 (st1.sockets j).ackNum
        = (be32 (st.sockets j).ackNum + dataCount pkt) % 4294967296 ∧
      be32 (st1.sockets j).ackNum ≠ (be32 (st.sockets j).ackNum + k) % 4294967296 := by
  have hdc : dataCount pkt < 65536 := by
    unfold dataCount toU16; omega
  obtain ⟨st1, h1, h2, h3⟩ :=
    tcp_handle_established_data st pkt j hbytes (by omega) hsyn hfin hwf
  rw [hk] at h3
  rw [hseq] at h2
  refine ⟨st1, ?_, h3, ?_, h2, ?_⟩
  · rw [tcp_handle_reaches st pkt j hj hstate hip hlport hrport hfirst, h1]
  · rw [List.length_take, pktPayload, List.length_map, List.length_range]
    omega
  · rw [h2]
    omega

/-- The witness of `dropped_bytes_acknowledged`: the segment "hello" in sequence on a socket
whose receive fifo has room for 3 bytes: "hel" is stored, the ack number goes from 1 to 6. -/
theorem dropped_bytes_acknowledged_witness :
    ∃ st1, tcp_handle (tableOf crowdedSocket (socket0 16 16 16)) helloPacket = some st1 ∧
      fifo_contents (st1.sockets 0).strm.in_
        = [1, 2, 3, 4, 5, 6, 7, 8, 9, 10, 11, 12, 104, 101, 108] ∧
      be32 (st1.sockets 0).ackNum = 6 := by
  obtain ⟨st1, h1, h2, _, h4, _⟩ :=
    dropped_bytes_acknowledged (tableOf crowdedSocket (socket0 16 16 16)) helloPacket 0 3
      (by decide) (by intro i; unfold helloPacket ipTcpPacket; exact memOfList_lt _ (by decide) i)
      (by decide) (by decide) (by decide) (by decide)
      (fun i h => absurd h (Nat.not_lt_zero i)) (by decide) (by decide) (by decide)
      (by decide) (by decide) (by decide)
  refine ⟨st1, h1, ?_, ?_⟩
  · rw [h2]; decide
  · rw [h4]; decide

/-- C15 as stated fails: of the 5 bytes "hello", in sequence, 3 fit into the receive fifo,
and the ack number advances from 1 to 6, by the 5 bytes of the segment, not to 4. -/
theorem dropped_bytes_acknowledged_counterexample :
    (tcp_handle (tableOf crowdedSocket (socket0 16 16 16)) helloPacket).map
      (fun st1 => (fifo_contents (st1.sockets 0).strm.in_, be32 (st1.sockets 0).ackNum))
      = some ([1, 2, 3, 4, 5, 6, 7, 8, 9, 10, 11, 12, 104, 101, 108], 6) ∧
    be32 crowdedSocket.ackNum = 1 ∧ pktSeqNum helloPacket = crowdedSocket.ackNum ∧
    crowdedSocket.strm.in_.size - 1 - fifo_length crowdedSocket.strm.in_ = 3 ∧
    dataCount helloPacket = 5 := by
  decide

/-- A socket in SYN_SENT or LISTEN on the segment's destination port that is the first of
the table to capture the segment ends the loop of `tcp_handle`: every other socket is left
as it was. -/
theorem tcp_handle_intercepted (st : tcpState) (pkt : Mem) (i : Nat)
    (hi : i < MAX_TCP_SOCKETS)
    (hfirst : ∀ m, m < i → ¬ captures (st.sockets m) pkt)
    (hs : (st.sockets i).state = TCPSOCKETSTATE_SYN_SENT ∨
      (st.sockets i).state = TCPSOCKETSTATE_LISTEN)
    (hport : (st.sockets i).localPort = pktLocalPort pkt) :
    ∃ st1, tcp_handle st pkt = some st1 ∧ ∀ j, j ≠ i → st1.sockets j = st.sockets j := by
  rw [tcp_handle_first pkt st i hi hfirst, tcp_handle_loop]
  simp only []
  rcases hs with hs | hs
  · rw [if_pos ⟨hs, hport⟩]
    split
    · refine ⟨_, rfl, ?_⟩
      intro j hj
      rw [setSocket_ne _ _ _ _ hj, tcp_send_sockets _ _ _ _ _ hj, setSocket_ne _ _ _ _ hj]
    · exact ⟨st, rfl, fun _ _ => rfl⟩
  · rw [if_neg (by rw [hs]; intro h; exact absurd h.1 (by decide)), if_pos ⟨hs, hport⟩]
    split
    · refine ⟨_, rfl, ?_⟩
      intro j hj
      rw [setSocket_ne _ _ _ _ hj, tcp_send_sockets _ _ _ _ _ hj, setSocket_ne _ _ _ _ hj]
    · exact ⟨st, rfl, fun _ _ => rfl⟩

/-- C18, as the code has it: for a socket `j` that is ESTABLISHED with the segment's
addresses, `tcp_handle` is the ESTABLISHED processing of the segment on socket `j` when no
earlier socket of the table captures the segment; when the first socket that captures it is
an earlier one in SYN_SENT or LISTEN on the same local port, `tcp_handle` returns with
socket `j` (ack number, receive fifo, retransmission state) exactly as it was. -/
theorem established_dispatch (st : tcpState) (pkt : Mem) (j : Nat) (hj : j < MAX_TCP_SOCKETS)
    (hstate : (st.sockets j).state = TCPSOCKETSTATE_ESTABLISHED)
    (hip : take4 (st.sockets j).destIP = pktSourceIP pkt)
    (hlport : (st.sockets j).localPort = pktLocalPort pkt)
    (hrport : (st.sockets j).remotePort = pktRemotePort pkt) :
    ((∀ i, i < j → ¬ captures (st.sockets i) pkt) →
      tcp_handle st pkt = tcp_handle_established st j pkt) ∧
    (∀ i, i < j → (∀ m, m < i → ¬ captures (st.sockets m) pkt) →
      ((st.sockets i).state = TCPSOCKETSTATE_SYN_SENT ∨
        (st.sockets i).state = TCPSOCKETSTATE_LISTEN) →
      (st.sockets i).localPort = (st.sockets j).localPort →
      ∃ st1, tcp_handle st pkt = some st1 ∧ st1.sockets j = st.sockets j) := by
  refine ⟨fun hfirst => tcp_handle_reaches st pkt j hj hstate hip hlport hrport hfirst, ?_⟩
  intro i hi hfirst hs hport
  obtain ⟨st1, h1, h2⟩ := tcp_handle_intercepted st pkt i (by omega) hfirst hs
    (by rw [hport, hlport])
  exact ⟨st1, h1, h2 j (by omega)⟩

/-- The witness of `established_dispatch`: an ESTABLISHED socket at index 1 behind an unused
socket gets the segment "hello" (ack number 6, the 5 bytes in its receive fifo); behind a
socket listening on the same port it is left as it was. -/
theorem established_dispatch_witness :
    (tcp_handle (tableOf (socket0 16 16 16) (establishedSocket [0, 0, 0, 1] [0, 0, 0, 1]))
        helloPacket
      = tcp_handle_established
          (tableOf (socket0 16 16 16) (establishedSocket [0, 0, 0, 1] [0, 0, 0, 1])) 1
          helloPacket) ∧
    (tcp_handle_established
        (tableOf (socket0 16 16 16) (establishedSocket [0, 0, 0, 1] [0, 0, 0, 1])) 1
        helloPacket).map
      (fun st1 => (be32 (st1.sockets 1).ackNum, fifo_contents (st1.sockets 1).strm.in_))
      = some (6, [104, 101, 108, 108, 111]) :=
  ⟨(established_dispatch
      (tableOf (socket0 16 16 16) (establishedSocket [0, 0, 0, 1] [0, 0, 0, 1])) helloPacket 1
      (by decide) (by decide) (by decide) (by decide) (by decide)).1 (by decide),
    by decide⟩

/-- C18 as stated fails: with a socket in LISTEN, or in SYN_SENT, on port 80 at index 0,
the segment "hello" that matches the ESTABLISHED socket at index 1 leaves that socket's ack
number at 1 and its receive fifo empty, and nothing is emitted. -/
theorem established_dispatch_counterexample :
    (tcp_handle (tableOf listenSocket (establishedSocket [0, 0, 0, 1] [0, 0, 0, 1]))
        helloPacket).map
      (fun st1 => (be32 (st1.sockets 1).ackNum, fifo_contents (st1.sockets 1).strm.in_,
        st1.sent.length))
      = some (1, [], 0) ∧
    (tcp_handle (tableOf synSentSocket (establishedSocket [0, 0, 0, 1] [0, 0, 0, 1]))
        helloPacket).map
      (fun st1 => (be32 (st1.sockets 1).ackNum, fifo_contents (st1.sockets 1).strm.in_,
        st1.sent.length))
      = some (1, [], 0) ∧
    (establishedSocket [0, 0, 0, 1] [0, 0, 0, 1]).state = TCPSOCKETSTATE_ESTABLISHED ∧
    take4 (establishedSocket [0, 0, 0, 1] [0, 0, 0, 1]).destIP = pktSourceIP helloPacket ∧
    (establishedSocket [0, 0, 0, 1] [0, 0, 0, 1]).localPort = pktLocalPort helloPacket ∧
    (establishedSocket [0, 0, 0, 1] [0, 0, 0, 1]).remotePort = pktRemotePort helloPacket := by
  decide

/-! ### tcp.c: `tcp_sustain` and the holding fifo -/

/-- The new-data branch of `tcp_sustain` for one socket whose holding fifo has a size: it is
taken when the holding fifo is empty or the countdown is still running after its decrement;
the `n` bytes of the send fifo are emitted in one segment and appended to the holding
fifo. -/
theorem tcp_sustain_socket_send (st : tcpState) (j n : Nat)
    (hstate : (st.sockets j).state = TCPSOCKETSTATE_ESTABLISHED)
    (hwfo : fifo_wf (st.sockets j).strm.out)
    (hwfs : fifo_wf (st.sockets j).fsBuf)
    (hg : fifo_length (st.sockets j).fsBuf = 0 ∨ 2 ≤ (st.sockets j).ackState)
    (hcap : fifo_length (st.sockets j).fsBuf + n ≤ (st.sockets j).fsBuf.size - 1)
    (hn : fifo_length (st.sockets j).strm.out = n) (hn1 : 1 ≤ n) (hn2 : n ≤ payloadBufLen) :
    ∃ st1 c, tcp_sustain_socket st j = some st1 ∧ st1.sent = st.sent ++ [c] ∧ c.sock = j ∧
      c.flags = TCPFLAGS_ACK ||| TCPFLAGS_PSH ∧
      c.payload = fifo_contents (st.sockets j).strm.out ∧
      fifo_length (st1.sockets j).strm.out = 0 ∧
      fifo_contents (st1.sockets j).fsBuf
        = fifo_contents (st.sockets j).fsBuf ++ fifo_contents (st.sockets j).strm.out := by
  have hpl : payloadBufLen = 188 := rfl
  have hsz : fifo_size (st.sockets j).fsBuf ≠ 0 := by
    rw [fifo_size_eq _ hwfs]
    have := hwfs.1
    omega
  unfold tcp_sustain_socket
  simp only []
  generalize hs : (if (st.sockets j).ackState ≠ 0 then
      ({ st.sockets j with ackState := (st.sockets j).ackState - 1 } : tcpSocket)
    else st.sockets j) = s
  have e0 : 2 ≤ (st.sockets j).ackState → s.ackState ≠ 0 := by
    intro h
    rw [← hs, if_pos (by omega)]
    show (st.sockets j).ackState - 1 ≠ 0
    omega
  have e1 : s.state = (st.sockets j).state := by rw [← hs]; split <;> rfl
  have e2 : s.strm = (st.sockets j).strm := by rw [← hs]; split <;> rfl
  have e3 : s.fsBuf = (st.sockets j).fsBuf := by rw [← hs]; split <;> rfl
  rw [← e1] at hstate
  rw [← e2] at hwfo hn
  rw [← e3] at hwfs hcap hsz hg
  rw [← e2, ← e3]
  have c1 : ¬ s.state = TCPSOCKETSTATE_SYN_SENT := by rw [hstate]; decide
  have c5 : ¬ (fifo_size s.fsBuf ≠ 0 ∧ fifo_length s.fsBuf ≠ 0 ∧ s.ackState = 0) := by
    intro h
    rcases hg with hg | hg
    · exact h.2.1 hg
    · exact e0 hg h.2.2
  have c7 : fifo_length s.strm.out ≠ 0 := by omega
  have hmin : min (fifo_length s.strm.out) payloadBufLen = n := by
    rw [hn]; exact Nat.min_eq_left hn2
  rw [if_neg c1, if_pos hstate, if_neg c5, if_pos c7, hmin]
  obtain ⟨out1, fs1, pb1, d1, _, _, _, d5, _, d7, _, _, _, d11⟩ :=
    tcp_fill_ok n 0 s.strm.out s.fsBuf st.packetBuf hwfo (by omega) (fun _ => hwfs)
  rw [setSocket_packetBuf, d1]
  simp only []
  obtain ⟨c, hc1, hc2, _, hc3, _, _, hc6⟩ := tcp_send_sent
    { setSocket (setSocket st j s) j { s with strm := { s.strm with out := out1 }, fsBuf := fs1 }
      with packetBuf := pb1 }
    j (TCPFLAGS_ACK ||| TCPFLAGS_PSH) n (by omega)
  have htake : (fifo_contents s.strm.out).take n = fifo_contents s.strm.out := by
    apply List.take_of_length_le
    rw [fifo_contents_length, hn]
  refine ⟨_, c, rfl, ?_, hc2, ?_, ?_, ?_, ?_⟩
  · rw [setSocket_sent, hc1]; rfl
  · rw [hc3]; decide
  · rw [hc6, ← htake, ← d7, List.range_eq_range']
  · simp only [setSocket_same, increaseSeqNum, tcp_send_socket]
    rw [d5]; omega
  · obtain ⟨g1, _⟩ := d11 hsz hcap
    simp only [setSocket_same, increaseSeqNum, tcp_send_socket]
    rw [g1, htake]

/-- The pass of `tcp_sustain` over one socket whose holding fifo is non-empty and whose
countdown has expired (it is 0 after its decrement): the send fifo is not touched, and what
is emitted, if anything, carries bytes of the holding fifo. -/
theorem tcp_sustain_socket_due (st : tcpState) (j : Nat)
    (hstate : (st.sockets j).state = TCPSOCKETSTATE_ESTABLISHED)
    (hwfs : fifo_wf (st.sockets j).fsBuf)
    (hl : fifo_length (st.sockets j).fsBuf ≠ 0)
    (ha : (st.sockets j).ackState ≤ 1) :
    ∃ st1 new, tcp_sustain_socket st j = some st1 ∧
      (st1.sockets j).strm.out = (st.sockets j).strm.out ∧
      st1.sent = st.sent ++ new ∧
      ∀ c ∈ new, c.sock = j ∧
        c.payload = (fifo_contents (st.sockets j).fsBuf).take payloadBufLen := by
  have hpl : payloadBufLen = 188 := rfl
  have hsz : fifo_size (st.sockets j).fsBuf ≠ 0 := by
    rw [fifo_size_eq _ hwfs]
    have := hwfs.1
    omega
  have hlt := fifo_length_lt _ hwfs
  unfold tcp_sustain_socket
  simp only []
  generalize hs : (if (st.sockets j).ackState ≠ 0 then
      ({ st.sockets j with ackState := (st.sockets j).ackState - 1 } : tcpSocket)
    else st.sockets j) = s
  have e0 : s.ackState = 0 := by
    rw [← hs]
    split
    · show (st.sockets j).ackState - 1 = 0
      omega
    · omega
  have e1 : s.state = (st.sockets j).state := by rw [← hs]; split <;> rfl
  have e2 : s.strm = (st.sockets j).strm := by rw [← hs]; split <;> rfl
  have e3 : s.fsBuf = (st.sockets j).fsBuf := by rw [← hs]; split <;> rfl
  rw [← e1] at hstate
  rw [← e3] at hwfs hl hsz hlt
  rw [← e2, ← e3]
  have c1 : ¬ s.state = TCPSOCKETSTATE_SYN_SENT := by rw [hstate]; decide
  have c5 : fifo_size s.fsBuf ≠ 0 ∧ fifo_length s.fsBuf ≠ 0 ∧ s.ackState = 0 :=
    ⟨hsz, hl, e0⟩
  rw [if_neg c1, if_pos hstate, if_pos c5]
  by_cases hr : s.retryCounter ≠ 0
  · rw [if_pos hr, toU16_toI16_of_lt _ (by omega)]
    have hle : min (fifo_length s.fsBuf) payloadBufLen ≤ fifo_length s.fsBuf :=
      Nat.min_le_left _ _
    obtain ⟨fs1, pb1, d1, _, _, _, _, _, d7⟩ :=
      tcp_drain_ok (min (fifo_length s.fsBuf) payloadBufLen) 0 s.fsBuf st.packetBuf hwfs hle
    rw [setSocket_packetBuf, d1]
    simp only []
    obtain ⟨c, hc1, hc2, _, _, _, _, hc6⟩ := tcp_send_sent
      { setSocket (setSocket st j s) j { s with fsBuf := fs1 } with packetBuf := pb1 }
      j (TCPFLAGS_ACK ||| TCPFLAGS_PSH) (min (fifo_length s.fsBuf) payloadBufLen)
      (by rw [hpl]; omega)
    refine ⟨_, [c], rfl, ?_, ?_, ?_⟩
    · simp [setSocket_same, tcp_send_socket]
    · rw [setSocket_sent, hc1]; rfl
    · intro x hx
      simp only [List.mem_singleton] at hx
      rw [hx]
      refine ⟨hc2, ?_⟩
      rw [hc6, List.range_eq_range', d7]
      by_cases h : fifo_length s.fsBuf ≤ payloadBufLen
      · rw [Nat.min_eq_left h,
          List.take_of_length_le (Nat.le_of_eq (fifo_contents_length s.fsBuf)),
          List.take_of_length_le (by rw [fifo_contents_length]; exact h)]
      · rw [Nat.min_eq_right (by omega)]
  · rw [if_neg hr]
    refine ⟨_, [], rfl, ?_, ?_, ?_⟩
    · simp [setSocket_same]
    · simp [setSocket_sent]
    · simp

/-- C16, as the code has it: for an ESTABLISHED socket `j` with a usable holding fifo, in a
pass of `tcp_sustain` that runs over a table of usable sockets:
when the holding fifo is non-empty and the countdown has expired (it is at most 1 before the
pass), no new byte is transmitted: the send fifo is as before, and a segment emitted for the
socket carries bytes of the holding fifo;
when the holding fifo is empty, or non-empty with the countdown still running (at least 2
before the pass), and the send fifo holds `n` bytes that fit into a segment and into the
room of the holding fifo, exactly one segment is emitted for the socket, carrying those `n`
new bytes, and they are appended to the holding fifo, whose content afterwards is that
segment's payload when it was empty before. -/
theorem holding_fifo_window (st : tcpState) (j n : Nat) (hj : j < MAX_TCP_SOCKETS)
    (hrun : st.sustainer_running = 0)
    (hwf : ∀ i, i < MAX_TCP_SOCKETS →
      (st.sockets i).state = TCPSOCKETSTATE_ESTABLISHED → socket_wf (st.sockets i))
    (hstate : (st.sockets j).state = TCPSOCKETSTATE_ESTABLISHED)
    (hwfs : fifo_wf (st.sockets j).fsBuf) :
    (fifo_length (st.sockets j).fsBuf ≠ 0 → (st.sockets j).ackState ≤ 1 →
      ∃ st1 new, tcp_sustain st = some st1 ∧ st1.sent = st.sent ++ new ∧
        (st1.sockets j).strm.out = (st.sockets j).strm.out ∧
        ∀ c ∈ new, c.sock = j →
          c.payload = (fifo_contents (st.sockets j).fsBuf).take payloadBufLen) ∧
    ((fifo_length (st.sockets j).fsBuf = 0 ∨ 2 ≤ (st.sockets j).ackState) →
      fifo_length (st.sockets j).strm.out = n → 1 ≤ n → n ≤ payloadBufLen →
      fifo_length (st.sockets j).fsBuf + n ≤ (st.sockets j).fsBuf.size - 1 →
      ∃ st1 new c, tcp_sustain st = some st1 ∧ st1.sent = st.sent ++ new ∧
        new.filter (fun e => decide (e.sock = j)) = [c] ∧
        c.flags = TCPFLAGS_ACK ||| TCPFLAGS_PSH ∧
        c.payload = fifo_contents (st.sockets j).strm.out ∧ c.payload.length = n ∧
        fifo_length (st1.sockets j).strm.out = 0 ∧
        fifo_contents (st1.sockets j).fsBuf
          = fifo_contents (st.sockets j).fsBuf ++ c.payload ∧
        (fifo_length (st.sockets j).fsBuf = 0 →
          fifo_contents (st1.sockets j).fsBuf = c.payload)) := by
  obtain ⟨hwo, _⟩ := hwf j hj hstate
  obtain ⟨stA, pre, a1, a2, a3, a4⟩ := tcp_sustain_pass st j hj hrun hwf
  rw [← a1] at hstate hwo hwfs
  constructor
  · intro hl ha
    rw [← a1] at hl ha
    obtain ⟨stB, mid, b1, b2, b3, b4⟩ := tcp_sustain_socket_due stA j hstate hwfs hl ha
    obtain ⟨st1, post, d1, d2, d3, d4, _⟩ := a4 stB b1
    refine ⟨st1, pre ++ mid ++ post, d1, ?_, ?_, ?_⟩
    · rw [d3, b3, a2]; simp
    · rw [d2, b2, a1]
    · intro c hc hcj
      rw [List.mem_append, List.mem_append] at hc
      rcases hc with (hc | hc) | hc
      · exact absurd hcj (a3 c hc)
      · rw [← a1]; exact (b4 c hc).2
      · exact absurd hcj (d4 c hc)
  · intro hg hn hn1 hn2 hcap
    rw [← a1] at hg hn hcap
    obtain ⟨stB, c, b1, b2, b3, b4, b5, b6, b7⟩ :=
      tcp_sustain_socket_send stA j n hstate hwo hwfs hg hcap hn hn1 hn2
    obtain ⟨st1, post, d1, d2, d3, d4, _⟩ := a4 stB b1
    have hcat : fifo_contents (st1.sockets j).fsBuf
        = fifo_contents (st.sockets j).fsBuf ++ c.payload := by
      rw [d2, b7, b5, a1]
    refine ⟨st1, pre ++ [c] ++ post, c, d1, ?_, ?_, b4, ?_, ?_, ?_, hcat, ?_⟩
    · rw [d3, b2, a2]; simp
    · rw [List.filter_append, List.filter_append, filter_sock_none _ _ a3,
        filter_sock_none _ _ d4]
      simp [b3]
    · rw [b5, a1]
    · rw [b5, fifo_contents_length, hn]
    · rw [d2]; exact b6
    · intro h0
      rw [hcat, fifo_contents_of_length_zero _ h0, List.nil_append]

/-- The witness of `holding_fifo_window`: the socket of scenario 6 still holds its first 10
bytes unacknowledged (countdown 500) when the application has written 2 more bytes; the
pass emits one segment with the bytes 11, 12 and the holding fifo then has all 12 bytes. -/
theorem holding_fifo_window_witness :
    ∃ st1 c, tcp_sustain (tableOf pipelinedSocket (socket0 16 16 16)) = some st1 ∧
      st1.sent.filter (fun e => decide (e.sock = 0)) = [c] ∧ c.payload = [11, 12] ∧
      fifo_contents (st1.sockets 0).fsBuf = [1, 2, 3, 4, 5, 6, 7, 8, 9, 10, 11, 12] := by
  obtain ⟨st1, new, c, h1, h2, h3, _, h5, _, _, h8, _⟩ :=
    (holding_fifo_window (tableOf pipelinedSocket (socket0 16 16 16)) 0 2 (by decide)
      (by decide) (by decide) (by decide) (by decide)).2
      (by decide) (by decide) (by decide) (by decide) (by decide)
  have e5 : c.payload = [11, 12] := by rw [h5]; decide
  refine ⟨st1, c, h1, ?_, e5, ?_⟩
  · rw [h2]; exact h3
  · rw [h8, e5]; decide

/-- C16 as stated fails: with 10 transmitted bytes still unacknowledged in the holding fifo
(countdown 500) and 2 new bytes in the send fifo, the pass of `tcp_sustain` transmits the 2
new bytes, and afterwards the non-empty holding fifo has 12 bytes, which is not the payload
of the last data segment sent. -/
theorem holding_fifo_window_counterexample :
    (tcp_sustain (tableOf pipelinedSocket (socket0 16 16 16))).map
      (fun st1 => (st1.sent.map ipSendCall.payload, fifo_contents (st1.sockets 0).fsBuf,
        fifo_contents (st1.sockets 0).strm.out))
      = some ([[11, 12]], [1, 2, 3, 4, 5, 6, 7, 8, 9, 10, 11, 12], []) ∧
    pipelinedSocket.state = TCPSOCKETSTATE_ESTABLISHED ∧
    fifo_size pipelinedSocket.fsBuf = 16 ∧
    fifo_contents pipelinedSocket.fsBuf = [1, 2, 3, 4, 5, 6, 7, 8, 9, 10] := by
  decide

/-! ### ip.c: `arp_handle` -/

/-- C20: for every ARP packet with OPER = 1, `arp_handle` leaves the ARP table as it is;
when the target IP is the local IP it calls `ne2k_send` exactly once, with type 0x0806, the
requester's hardware address as destination and the 28 bytes HTYPE 1, PTYPE 0x0800, HLEN 6,
PLEN 4, OPER 2, local MAC, local IP, requester's hardware address, requester's IP, which
gives the frame destination, local MAC, 08 06, those 28 bytes and 18 bytes of padding; when
the target IP is not the local IP it emits nothing. -/
theorem arp_request_reply (st : ipState) (pkt : Mem)
    (hoper : pkt 20 = 0 ∧ pkt 21 = 1) :
    (arp_handle st pkt).arpTable = st.arpTable ∧
    (read4 pkt 38 = take4 st.localIP →
      ∃ c, (arp_handle st pkt).frames = st.frames ++ [c] ∧
        c.type = 0x0806 ∧ c.net_addr = read6 pkt 22 ∧ c.length = 28 ∧ c.msg.length = 28 ∧
        c.msg = [0, 1, 0x08, 0x00, 6, 4, 0, 2] ++ take6 st.localMAC ++ take4 st.localIP
          ++ read6 pkt 22 ++ read4 pkt 28 ∧
        ne2k_frame (arp_handle st pkt).localMAC c
          = read6 pkt 22 ++ take6 st.localMAC ++ [0x08, 0x06] ++ c.msg
            ++ List.replicate 18 0) ∧
    (read4 pkt 38 ≠ take4 st.localIP → (arp_handle st pkt).frames = st.frames) := by
  obtain ⟨h0, h1⟩ := hoper
  have hno : ¬ (pkt 21 = 2) := by rw [h1]; decide
  refine ⟨?_, ?_, ?_⟩
  · unfold arp_handle
    simp only [h0, h1, true_and]
    rw [if_neg (by simp)]
    split <;> rfl
  · intro hip
    unfold arp_handle
    simp only [h0, h1, true_and]
    rw [if_neg (by simp), if_pos hip]
    refine ⟨_, rfl, rfl, ?_, rfl, ?_, rfl, ?_⟩
    · simp [take6, take4, read6, read4]
    · simp [take6, take4, read6, read4]
    · have e : (PACKETTYPE_ARP >>> 8) % 256 = 0x08 ∧ (PACKETTYPE_ARP &&& 0xFF) % 256 = 0x06 := by
        decide
      simp [ne2k_frame, take6, take4, read6, read4, e.1, e.2, List.range, List.range.loop]
  · intro hip
    unfold arp_handle
    simp only [h0, h1, true_and]
    rw [if_neg (by simp), if_neg hip]

/-- The witness of `arp_request_reply` (scenario 1 of the specification): the request from
192.168.2.1 / AA:BB:CC:DD:EE:FF for 192.168.2.156 is answered by one frame to
AA:BB:CC:DD:EE:FF with EtherType 0x0806, OPER 2, sender 4E:45:58:54:4F:4E / 192.168.2.156,
target AA:BB:CC:DD:EE:FF / 192.168.2.1. -/
theorem arp_request_reply_witness :
    ∃ c, (arp_handle ipState0 (arpRequest [192, 168, 2, 156])).frames = [c] ∧
      ne2k_frame ipState0.localMAC c
        = [0xAA, 0xBB, 0xCC, 0xDD, 0xEE, 0xFF, 0x4E, 0x45, 0x58, 0x54, 0x4F, 0x4E, 0x08, 0x06,
           0, 1, 0x08, 0x00, 6, 4, 0, 2, 0x4E, 0x45, 0x58, 0x54, 0x4F, 0x4E, 192, 168, 2, 156,
           0xAA, 0xBB, 0xCC, 0xDD, 0xEE, 0xFF, 192, 168, 2, 1]
          ++ List.replicate 18 0 ∧
      (arp_handle ipState0 (arpRequest [192, 168, 2, 156])).arpTable = ipState0.arpTable ∧
      (arp_handle ipState0 (arpRequest [192, 168, 2, 7])).frames = [] := by
  obtain ⟨h1, h2, _⟩ :=
    arp_request_reply ipState0 (arpRequest [192, 168, 2, 156]) (by decide)
  obtain ⟨c, g1, _, _, _, _, g6, g7⟩ := h2 (by decide)
  refine ⟨c, g1, ?_, h1, ?_⟩
  · have e : (arp_handle ipState0 (arpRequest [192, 168, 2, 156])).localMAC
        = ipState0.localMAC := by decide
    rw [← e, g7, g6]
    decide
  · exact (arp_request_reply ipState0 (arpRequest [192, 168, 2, 7]) (by decide)).2.2
      (by decide)

theorem arp_findEntry_spec (t : Nat → addrCL) (ip : List Nat) :
    ∀ (n cnt : Nat),
      cnt ≤ arp_findEntry t ip n cnt ∧ arp_findEntry t ip n cnt ≤ cnt + n ∧
      (∀ k, cnt ≤ k → k < arp_findEntry t ip n cnt → ip ≠ take4 (t k).IP) ∧
      (arp_findEntry t ip n cnt < cnt + n → ip = take4 (t (arp_findEntry t ip n cnt)).IP) := by
  intro n
  induction n with
  | zero => intro cnt; simp [arp_findEntry]; intro k h1 h2; omega
  | succ n ih =>
    intro cnt
    rw [arp_findEntry]
    by_cases h : ip ≠ take4 (t cnt).IP
    · rw [if_pos h]
      obtain ⟨h1, h2, h3, h4⟩ := ih (cnt + 1)
      refine ⟨by omega, by omega, ?_, fun hx => h4 (by omega)⟩
      intro k hk1 hk2
      by_cases e : k = cnt
      · rw [e]; exact h
      · exact h3 k (by omega) hk2
    · rw [if_neg h]
      refine ⟨Nat.le_refl _, by omega, fun k h1 h2 => by omega, fun _ => not_not.mp h⟩

/-- The index `arp_findEntry` returns, from what is known of the table: the first entry
with the address when there is one. -/
theorem arp_findEntry_first (t : Nat → addrCL) (ip : List Nat) (n j : Nat) (hj : j < n)
    (hip : ip = take4 (t j).IP) (hfirst : ∀ k, k < j → ip ≠ take4 (t k).IP) :
    arp_findEntry t ip n 0 = j := by
  obtain ⟨_, _, h3, h4⟩ := arp_findEntry_spec t ip n 0
  by_cases h : arp_findEntry t ip n 0 < j
  · exact absurd (h4 (by omega)) (hfirst _ h)
  · by_cases h5 : j < arp_findEntry t ip n 0
    · exact absurd hip (h3 j (Nat.zero_le _) h5)
    · omega

theorem arp_findEntry_none (t : Nat → addrCL) (ip : List Nat) (n : Nat)
    (hno : ∀ k, k < n → ip ≠ take4 (t k).IP) :
    arp_findEntry t ip n 0 = n := by
  obtain ⟨_, h2, _, h4⟩ := arp_findEntry_spec t ip n 0
  by_cases h : arp_findEntry t ip n 0 < n
  · exact absurd (h4 (by omega)) (hno _ h)
  · omega

/-- C21, as the code has it: for an ARP reply (OPER = 2) addressed to the local IP and MAC,
`arp_handle` emits nothing and looks at the first entry of the table whose IP equals the
reply's sender IP.  When that entry is not ENABLED (WAITING in particular) its MAC becomes
the sender's hardware address and its state ENABLED, its IP and lifetime and all other
entries stay as they are; when that entry is ENABLED, or no entry has the sender's IP, the
table is unchanged. -/
theorem arp_reply (st : ipState) (pkt : Mem)
    (hoper : pkt 20 = 0 ∧ pkt 21 = 2)
    (hip : read4 pkt 38 = take4 st.localIP)
    (hmac : read6 pkt 32 = take6 st.localMAC) :
    (arp_handle st pkt).frames = st.frames ∧
    (∀ j, j < MAX_ARP_ENTRIES → read4 pkt 28 = take4 (st.arpTable j).IP →
      (∀ k, k < j → read4 pkt 28 ≠ take4 (st.arpTable k).IP) →
      ((st.arpTable j).state ≠ ARPSTATE_ENABLED →
        (arp_handle st pkt).arpTable j
            = { (st.arpTable j) with MAC := read6 pkt 22, state := ARPSTATE_ENABLED } ∧
        ∀ i, i ≠ j → (arp_handle st pkt).arpTable i = st.arpTable i) ∧
      ((st.arpTable j).state = ARPSTATE_ENABLED →
        (arp_handle st pkt).arpTable = st.arpTable)) ∧
    ((∀ k, k < MAX_ARP_ENTRIES → read4 pkt 28 ≠ take4 (st.arpTable k).IP) →
      (arp_handle st pkt).arpTable = st.arpTable) := by
  obtain ⟨h0, h1⟩ := hoper
  have hreq : ¬ (pkt 20 = 0 ∧ pkt 21 = 1 ∧ read4 pkt 38 = take4 st.localIP) := by
    rw [h1]; simp
  have hrep : pkt 20 = 0 ∧ pkt 21 = 2 ∧ read4 pkt 38 = take4 st.localIP ∧
      read6 pkt 32 = take6 st.localMAC := ⟨h0, h1, hip, hmac⟩
  refine ⟨?_, ?_, ?_⟩
  · unfold arp_handle
    simp only []
    rw [if_neg hreq, if_pos hrep]
    split <;> rfl
  · intro j hj hjip hfirst
    have hc := arp_findEntry_first st.arpTable (read4 pkt 28) MAX_ARP_ENTRIES j hj hjip hfirst
    constructor
    · intro hs
      unfold arp_handle
      simp only []
      rw [if_neg hreq, if_pos hrep, hc, if_pos ⟨hj, hs⟩]
      exact ⟨by simp, fun i hi => by simp [Function.update_noteq hi]⟩
    · intro hs
      unfold arp_handle
      simp only []
      rw [if_neg hreq, if_pos hrep, hc, if_neg (fun h => h.2 hs)]
  · intro hno
    have hc := arp_findEntry_none st.arpTable (read4 pkt 28) MAX_ARP_ENTRIES hno
    unfold arp_handle
    simp only []
    rw [if_neg hreq, if_pos hrep, hc, if_neg (fun h => Nat.lt_irrefl _ h.1)]

/-- The witness of `arp_reply`: with the entry 0 WAITING for 192.168.2.1, the reply of
192.168.2.1 / AA:BB:CC:DD:EE:FF makes it ENABLED with that hardware address. -/
theorem arp_reply_witness :
    (arp_handle (ipStateOf [arpEntry ARPSTATE_WAITING [192, 168, 2, 1] [0, 0, 0, 0, 0, 0]])
        arpReply).arpTable 0
      = arpEntry ARPSTATE_ENABLED [192, 168, 2, 1] [0xAA, 0xBB, 0xCC, 0xDD, 0xEE, 0xFF] :=
  ((arp_reply (ipStateOf [arpEntry ARPSTATE_WAITING [192, 168, 2, 1] [0, 0, 0, 0, 0, 0]])
      arpReply (by decide) (by decide) (by decide)).2.1 0 (by decide) (by decide)
      (fun k h => absurd h (Nat.not_lt_zero k))).1 (by decide) |>.1.trans (by decide)

/-- C21 as stated fails in both directions.  A reply of 192.168.2.1 changes the table when
no entry is WAITING: the DISABLED entry 0 that still holds this IP becomes ENABLED.  And it
changes nothing when the entry 1 is WAITING with this IP but stands behind the ENABLED
entry 0 with the same IP. -/
theorem arp_reply_counterexample :
    arpEntries (arp_handle
        (ipStateOf [arpEntry ARPSTATE_DISABLED [192, 168, 2, 1] [1, 2, 3, 4, 5, 6]]) arpReply)
      ≠ arpEntries (ipStateOf [arpEntry ARPSTATE_DISABLED [192, 168, 2, 1] [1, 2, 3, 4, 5, 6]]) ∧
    (∀ i, i < MAX_ARP_ENTRIES →
      ((ipStateOf [arpEntry ARPSTATE_DISABLED [192, 168, 2, 1] [1, 2, 3, 4, 5, 6]]).arpTable
        i).state ≠ ARPSTATE_WAITING) ∧
    arpEntries (arp_handle
        (ipStateOf [arpEntry ARPSTATE_ENABLED [192, 168, 2, 1] [1, 2, 3, 4, 5, 6],
                    arpEntry ARPSTATE_WAITING [192, 168, 2, 1] [0, 0, 0, 0, 0, 0]]) arpReply)
      = arpEntries
        (ipStateOf [arpEntry ARPSTATE_ENABLED [192, 168, 2, 1] [1, 2, 3, 4, 5, 6],
                    arpEntry ARPSTATE_WAITING [192, 168, 2, 1] [0, 0, 0, 0, 0, 0]]) ∧
    read4 arpReply 38 = take4 ipState0.localIP ∧ read6 arpReply 32 = take6 ipState0.localMAC ∧
    arpReply 20 = 0 ∧ arpReply 21 = 2 := by
  decide

/-! ### ip.c: `ip_send` -/

theorem getD_take4 (l : List Nat) (i : Nat) (hi : i < 4) : (take4 l).getD i 0 = l.getD i 0 := by
  have h : i = 0 ∨ i = 1 ∨ i = 2 ∨ i = 3 := by omega
  rcases h with h | h | h | h <;> rw [h] <;> rfl

/-- The test of `ip_send` for the gateway is the negation of the specification's test for
the local network. -/
theorem ip_useGW_iff (st : ipState) (ip : List Nat) :
    ip_useGW st.netmask (take4 ip) (take4 st.localIP) ↔ ¬ onSubnet st ip := by
  unfold ip_useGW onSubnet
  rw [getD_take4 ip 0 (by decide), getD_take4 ip 1 (by decide), getD_take4 ip 2 (by decide),
    getD_take4 ip 3 (by decide), getD_take4 st.localIP 0 (by decide),
    getD_take4 st.localIP 1 (by decide), getD_take4 st.localIP 2 (by decide),
    getD_take4 st.localIP 3 (by decide)]
  simp only [Nat.land_comm (st.netmask.getD _ 0)]
  constructor
  · intro h hall
    rcases h with h | h | h | h
    · exact h (hall 0 (by decide))
    · exact h (hall 1 (by decide))
    · exact h (hall 2 (by decide))
    · exact h (hall 3 (by decide))
  · intro h
    by_contra hn
    simp only [not_or, not_not] at hn
    apply h
    intro i hi
    have hc : i = 0 ∨ i = 1 ∨ i = 2 ∨ i = 3 := by omega
    rcases hc with hc | hc | hc | hc <;> rw [hc]
    · exact hn.1
    · exact hn.2.1
    · exact hn.2.2.1
    · exact hn.2.2.2

theorem arp_findEnabled_spec (t : Nat → addrCL) (ip : List Nat) :
    ∀ (n cnt : Nat),
      cnt ≤ arp_findEnabled t ip n cnt ∧ arp_findEnabled t ip n cnt ≤ cnt + n ∧
      (∀ k, cnt ≤ k → k < arp_findEnabled t ip n cnt →
        ip ≠ take4 (t k).IP ∨ (t k).state ≠ ARPSTATE_ENABLED) ∧
      (arp_findEnabled t ip n cnt < cnt + n →
        ip = take4 (t (arp_findEnabled t ip n cnt)).IP ∧
        (t (arp_findEnabled t ip n cnt)).state = ARPSTATE_ENABLED) := by
  intro n
  induction n with
  | zero => intro cnt; simp [arp_findEnabled]; intro k h1 h2; omega
  | succ n ih =>
    intro cnt
    rw [arp_findEnabled]
    by_cases h : ip ≠ take4 (t cnt).IP ∨ (t cnt).state ≠ ARPSTATE_ENABLED
    · rw [if_pos h]
      obtain ⟨h1, h2, h3, h4⟩ := ih (cnt + 1)
      refine ⟨by omega, by omega, ?_, fun hx => h4 (by omega)⟩
      intro k hk1 hk2
      by_cases e : k = cnt
      · rw [e]; exact h
      · exact h3 k (by omega) hk2
    · rw [if_neg h]
      simp only [not_or, not_not] at h
      exact ⟨Nat.le_refl _, by omega, fun k h1 h2 => by omega, fun _ => h⟩

/-- The unique entry that holds the next hop and is ENABLED is the entry both search loops
of `ip_send` end with. -/
theorem ip_lookup_unique (st : ipState) (ip : List Nat) (j : Nat) (hj : j < MAX_ARP_ENTRIES)
    (hip : take4 (st.arpTable j).IP = nextHop st ip)
    (huniq : ∀ k, k < MAX_ARP_ENTRIES → k ≠ j → take4 (st.arpTable k).IP ≠ nextHop st ip)
    (hen : (st.arpTable j).state = ARPSTATE_ENABLED) :
    ip_lookup st ip = j := by
  unfold ip_lookup
  unfold nextHop at hip huniq
  by_cases hgw : ip_useGW st.netmask (take4 ip) (take4 st.localIP)
  · rw [if_pos hgw]
    rw [if_neg ((ip_useGW_iff st ip).mp hgw)] at hip huniq
    exact arp_findEntry_first _ _ _ j hj hip.symm
      (fun k hk h => huniq k (by omega) (by omega) h.symm)
  · rw [if_neg hgw]
    have hon : onSubnet st ip := by
      by_contra h
      exact hgw ((ip_useGW_iff st ip).mpr h)
    rw [if_pos hon] at hip huniq
    obtain ⟨_, h2, h3, h4⟩ := arp_findEnabled_spec st.arpTable (take4 ip) MAX_ARP_ENTRIES 0
    by_cases h : arp_findEnabled st.arpTable (take4 ip) MAX_ARP_ENTRIES 0 < j
    · exact absurd (h4 (by omega)).1.symm (huniq _ (by omega) (by omega))
    · by_cases h5 : j < arp_findEnabled st.arpTable (take4 ip) MAX_ARP_ENTRIES 0
      · rcases h3 j (Nat.zero_le _) h5 with h6 | h6
        · exact absurd hip.symm h6
        · exact absurd hen h6
      · omega

/-- The path of `ip_send` on which the search loop finds an entry: the lifetime of that entry
is set and the datagram goes to its MAC address. -/
theorem ip_send_found (wait : ipState → ipState) (st : ipState) (ip : List Nat)
    (protocol : Nat) (message : Mem) (msgLen : Nat) (hlen : msgLen + 20 ≤ ipBufSize)
    (hb : take4 ip ≠ broadcastIP) (hc : ip_lookup st ip < MAX_ARP_ENTRIES) :
    ip_send wait st ip protocol message msgLen
      = some (ip_transmit st (ip_lookup st ip) (ip_buffer st ip protocol message msgLen)
          msgLen) := by
  have h160 : ipBufSize = 160 := rfl
  unfold ip_send
  rw [if_neg (by omega), if_neg (by omega)]
  simp only []
  rw [if_pos (fun h => hb h.symm), if_neg (by omega)]

/-- The broadcast path of `ip_send`. -/
theorem ip_send_broadcast (wait : ipState → ipState) (st : ipState) (ip : List Nat)
    (protocol : Nat) (message : Mem) (msgLen : Nat) (hlen : msgLen + 20 ≤ ipBufSize)
    (hb : take4 ip = broadcastIP) :
    ip_send wait st ip protocol message msgLen
      = some { st with frames := st.frames ++
          [{ net_addr := take6 broadcastMAC,
             msg := ip_buffer st ip protocol message msgLen,
             length := (msgLen + 20) % 65536, type := PACKETTYPE_IP, intstatus := 0 }] } := by
  have h160 : ipBufSize = 160 := rfl
  unfold ip_send
  rw [if_neg (by omega), if_neg (by omega)]
  simp only []
  rw [if_neg (fun h => h hb.symm)]

/-- C22: egress routing.  For a datagram that passes the size check of `ip_send` and a
destination other than 255.255.255.255 such that exactly one ARP entry holds the next hop
(the destination when it is on the local network, the gateway otherwise) and that entry is
ENABLED, `ip_send` adds exactly one call of `ne2k_send`, of type 0x0800 to that entry's MAC
address, and sets that entry's lifetime to 600, leaving the rest of the table as it is.  For
the destination 255.255.255.255 the one frame goes to FF:FF:FF:FF:FF:FF and the table is
unchanged. -/
theorem egress_routing (wait : ipState → ipState) (st : ipState) (ip : List Nat)
    (protocol : Nat) (message : Mem) (msgLen : Nat) (hlen : msgLen + 20 ≤ ipBufSize) :
    (take4 ip ≠ broadcastIP →
      ∀ j, j < MAX_ARP_ENTRIES → take4 (st.arpTable j).IP = nextHop st ip →
        (∀ k, k < MAX_ARP_ENTRIES → k ≠ j → take4 (st.arpTable k).IP ≠ nextHop st ip) →
        (st.arpTable j).state = ARPSTATE_ENABLED →
        ∃ st1 c, ip_send wait st ip protocol message msgLen = some st1 ∧
          st1.frames = st.frames ++ [c] ∧ c.type = 0x0800 ∧
          c.net_addr = take6 (st.arpTable j).MAC ∧
          (ne2k_frame st.localMAC c).take 14
            = take6 (st.arpTable j).MAC ++ take6 st.localMAC ++ [0x08, 0x00] ∧
          st1.arpTable j = { (st.arpTable j) with lifeTime := 600 } ∧
          ∀ i, i ≠ j → st1.arpTable i = st.arpTable i) ∧
    (take4 ip = broadcastIP →
      ∃ st1 c, ip_send wait st ip protocol message msgLen = some st1 ∧
        st1.frames = st.frames ++ [c] ∧ c.type = 0x0800 ∧
        c.net_addr = [0xFF, 0xFF, 0xFF, 0xFF, 0xFF, 0xFF] ∧
        (ne2k_frame st.localMAC c).take 14
          = [0xFF, 0xFF, 0xFF, 0xFF, 0xFF, 0xFF] ++ take6 st.localMAC ++ [0x08, 0x00] ∧
        st1.arpTable = st.arpTable) := by
  have e : (PACKETTYPE_IP >>> 8) % 256 = 0x08 ∧ (PACKETTYPE_IP &&& 0xFF) % 256 = 0x00 := by
    decide
  constructor
  · intro hb j hj hip huniq hen
    have hl := ip_lookup_unique st ip j hj hip huniq hen
    have hs := ip_send_found wait st ip protocol message msgLen hlen hb (by rw [hl]; exact hj)
    rw [hl] at hs
    refine ⟨_, _, hs, rfl, rfl, rfl, ?_, ?_, ?_⟩
    · simp [ne2k_frame, take6, e.1, e.2]
    · simp [ip_transmit]
    · intro i hi
      simp [ip_transmit, Function.update_noteq hi]
  · intro hb
    refine ⟨_, _, ip_send_broadcast wait st ip protocol message msgLen hlen hb, rfl, rfl, rfl,
      ?_, rfl⟩
    simp [ne2k_frame, take6, broadcastMAC, e.1, e.2]

/-- The witness of `egress_routing`: with the gateway 192.168.2.1 and the host 192.168.2.50
in the table, a datagram of 8 bytes for 192.168.2.50 goes to the host's MAC address, one
for 8.8.8.8 to the gateway's, and in both cases the entry used gets the lifetime 600. -/
theorem egress_routing_witness :
    (∃ st1 c, ip_send noAnswer ipStateKnown [192, 168, 2, 50] 17 (fun _ => 0) 8 = some st1 ∧
      st1.frames = [c] ∧ c.type = 0x0800 ∧ c.net_addr = [2, 0, 0, 0, 0, 0x50] ∧
      (st1.arpTable 1).lifeTime = 600) ∧
    (∃ st1 c, ip_send noAnswer ipStateKnown [8, 8, 8, 8] 17 (fun _ => 0) 8 = some st1 ∧
      st1.frames = [c] ∧ c.type = 0x0800 ∧ c.net_addr = [0xAA, 0xBB, 0xCC, 0xDD, 0xEE, 0xFF] ∧
      (st1.arpTable 0).lifeTime = 600) := by
  constructor
  · obtain ⟨st1, c, h1, h2, h3, h4, _, h6, _⟩ :=
      (egress_routing noAnswer ipStateKnown [192, 168, 2, 50] 17 (fun _ => 0) 8 (by decide)).1
        (by decide) 1 (by decide) (by decide) (by decide) (by decide)
    exact ⟨st1, c, h1, h2, h3, h4, by rw [h6]⟩
  · obtain ⟨st1, c, h1, h2, h3, h4, _, h6, _⟩ :=
      (egress_routing noAnswer ipStateKnown [8, 8, 8, 8] 17 (fun _ => 0) 8 (by decide)).1
        (by decide) 0 (by decide) (by decide) (by decide) (by decide)
    exact ⟨st1, c, h1, h2, h3, h4, by rw [h6]⟩

theorem bytes_set (l : List Nat) (j x : Nat) (hl : ∀ b ∈ l, b < 256) (hx : x < 256) :
    ∀ b ∈ l.set j x, b < 256 := by
  intro b hmem
  rcases List.mem_or_eq_of_mem_set hmem with h | h
  · exact hl b h
  · exact h ▸ hx

/-- A checksum stored in a zeroed two-byte field at an even offset makes the checksum of the
whole sequence 0: the computation of `ip_send` and of `icmp_handle`. -/
theorem checksum_field_verifies (s0 : List Nat) (k : Nat) (hb0 : ∀ b ∈ s0, b < 256)
    (hk : k % 2 = 0) (hk1 : k + 1 < s0.length)
    (hg0 : s0.getD k 0 = 0) (hg1 : s0.getD (k + 1) 0 = 0) :
    ip_calculateChecksum
      (memOfList ((s0.set k ((ip_calculateChecksum (memOfList s0) s0.length >>> 8) % 256)).set
        (k + 1) ((ip_calculateChecksum (memOfList s0) s0.length &&& 0xFF) % 256)))
      s0.length = 0 := by
  rw [checksum_total s0 hb0]
  generalize hc : 65535 - onesNorm (weightedSum s0 0) = c
  have hc1 : c ≤ 65535 := by omega
  rw [shiftRight_eight, and_255, Nat.mod_mod]
  have e1 : c / 256 % 256 = c / 256 := Nat.mod_eq_of_lt (by omega)
  rw [e1]
  have hb1 : ∀ b ∈ (s0.set k (c / 256)).set (k + 1) (c % 256), b < 256 :=
    bytes_set _ _ _ (bytes_set _ _ _ hb0 (by omega)) (by omega)
  have hlen : ((s0.set k (c / 256)).set (k + 1) (c % 256)).length = s0.length := by simp
  rw [← hlen, checksum_total _ hb1]
  have hw : weightedSum ((s0.set k (c / 256)).set (k + 1) (c % 256)) 0
      = weightedSum s0 0 + c := by
    have h1 := weightedSum_set s0 0 k (c / 256) (by omega)
    have h2 := weightedSum_set (s0.set k (c / 256)) 0 (k + 1) (c % 256) (by simp; omega)
    have hg1n : (s0.set k (c / 256)).getD (k + 1) 0 = 0 := by
      rw [getD_set_ne _ _ _ _ (by omega), hg1]
    rw [hg1n] at h2
    rw [hg0] at h1
    simp only [byteWeight, Nat.zero_add] at h1 h2
    have hk2 : (k + 1) % 2 ≠ 0 := by omega
    simp only [hk, hk2, ne_eq, not_true_eq_false, not_false_eq_true, if_true, if_false] at h1 h2
    omega
  rw [hw, ← hc, onesNorm_round_trip]

/-- When `ip_send` reaches a call of `ne2k_send`, the frame it adds last is of type 0x0800
and carries the buffer `ipBuf`, `msgLen + 20` bytes. -/
theorem ip_send_transmits (wait : ipState → ipState) (st : ipState) (ip : List Nat)
    (protocol : Nat) (message : Mem) (msgLen : Nat) (ht : ip_transmits wait st ip msgLen) :
    ∃ st1 pre c, ip_send wait st ip protocol message msgLen = some st1 ∧
      st1.frames = pre ++ [c] ∧ c.type = PACKETTYPE_IP ∧ c.length = msgLen + 20 ∧
      c.msg = ip_buffer st ip protocol message msgLen := by
  have h160 : ipBufSize = 160 := rfl
  obtain ⟨hlen, hcase⟩ := ht
  have hmod : (msgLen + 20) % 65536 = msgLen + 20 := Nat.mod_eq_of_lt (by omega)
  by_cases hb : take4 ip = broadcastIP
  · rw [ip_send_broadcast wait st ip protocol message msgLen hlen hb]
    exact ⟨_, _, _, rfl, rfl, rfl, hmod, rfl⟩
  · by_cases hc : ip_lookup st ip < MAX_ARP_ENTRIES
    · rw [ip_send_found wait st ip protocol message msgLen hlen hb hc]
      exact ⟨_, _, _, rfl, rfl, rfl, hmod, rfl⟩
    · rcases hcase with h | h | h
      · exact absurd h hb
      · exact absurd h hc
      · unfold ip_send
        rw [if_neg (by omega), if_neg (by omega)]
        simp only []
        rw [if_pos (fun hx => hb hx.symm), if_pos (by omega), if_pos h.1,
          if_neg (fun hx => hx h.2)]
        exact ⟨_, _, _, rfl, rfl, rfl, hmod, rfl⟩

theorem ip_calculateChecksum_le (p : List Nat) (hb : ∀ b ∈ p, b < 256) :
    ip_calculateChecksum (memOfList p) p.length ≤ 65535 := by
  rw [checksum_total p hb]
  omega

theorem ip_header0_bytes (localIP ip : List Nat) (protocol msgLen : Nat)
    (hloc : ∀ b ∈ take4 localIP, b < 256) (hdst : ∀ b ∈ take4 ip, b < 256)
    (hp : protocol < 256) :
    ∀ b ∈ ip_header0 localIP ip protocol msgLen, b < 256 := by
  intro b hb
  unfold ip_header0 at hb
  rw [List.mem_append, List.mem_append] at hb
  rcases hb with (hb | hb) | hb
  · simp only [List.mem_cons, List.mem_singleton, List.not_mem_nil, or_false] at hb
    rcases hb with h | h | h | h | h | h | h | h | h | h | h | h <;> rw [h] <;> omega
  · exact hloc b hb
  · exact hdst b hb

/-- The header `ip_send` builds verifies: the checksum over its 20 bytes is 0. -/
theorem ip_header_verifies (localIP ip : List Nat) (protocol msgLen : Nat)
    (hloc : ∀ b ∈ take4 localIP, b < 256) (hdst : ∀ b ∈ take4 ip, b < 256)
    (hp : protocol < 256) :
    ip_calculateChecksum (memOfList (ip_header localIP ip protocol msgLen)) 20 = 0 := by
  have hl : (ip_header0 localIP ip protocol msgLen).length = 20 := by
    simp [ip_header0, take4]
  have h := checksum_field_verifies (ip_header0 localIP ip protocol msgLen) 10
    (ip_header0_bytes localIP ip protocol msgLen hloc hdst hp) (by decide) (by rw [hl]; decide)
    (by simp [ip_header0]) (by simp [ip_header0])
  rw [hl] at h
  exact h

/-- The header `ip_send` builds, byte by byte. -/
theorem ip_header_eq (localIP ip : List Nat) (protocol msgLen : Nat)
    (hlen : msgLen + 20 < 65536) :
    ip_header localIP ip protocol msgLen
      = [0x45, 0x00, (msgLen + 20) / 256, (msgLen + 20) % 256, 0x04, 0x00, 0x40, 0x00, 0x80,
         protocol,
         (ip_calculateChecksum (memOfList (ip_header0 localIP ip protocol msgLen)) 20 >>> 8)
           % 256,
         (ip_calculateChecksum (memOfList (ip_header0 localIP ip protocol msgLen)) 20 &&& 0xFF)
           % 256]
        ++ take4 localIP ++ take4 ip := by
  have e0 : (0x05 ||| (20 <<< 4)) % 256 = 0x45 := by decide
  have e1 : (((msgLen + 20) % 65536) >>> 8) % 256 = (msgLen + 20) / 256 := by
    rw [Nat.mod_eq_of_lt hlen, shiftRight_eight]
    exact Nat.mod_eq_of_lt (by omega)
  have e2 : ((msgLen + 20) % 65536 &&& 0xFF) % 256 = (msgLen + 20) % 256 := by
    rw [Nat.mod_eq_of_lt hlen, and_255, Nat.mod_mod]
  unfold ip_header
  simp only []
  generalize ip_calculateChecksum (memOfList (ip_header0 localIP ip protocol msgLen)) 20 = c
  unfold ip_header0
  rw [e0, e1, e2]
  rfl

/-- C25: IPv4 header assembly.  Whenever `ip_send` transmits (the datagram passes the size
check and a destination MAC address is found), the message of the frame it adds has
`msgLen + 20` bytes: the header 45 00 hi lo 04 00 40 00 80 protocol c_hi c_lo, the local
address, the destination address, then the payload unchanged; `hi`, `lo` are the bytes of
`msgLen + 20`, `c` is the checksum over the header with a zero checksum field, and the
checksum over the 20 bytes of the header as sent is 0. -/
theorem header_assembly (wait : ipState → ipState) (st : ipState) (ip : List Nat)
    (protocol : Nat) (message : Mem) (msgLen : Nat)
    (hloc : ∀ b ∈ take4 st.localIP, b < 256) (hdst : ∀ b ∈ take4 ip, b < 256)
    (hp : protocol < 256) (ht : ip_transmits wait st ip msgLen) :
    ∃ st1 pre f c, ip_send wait st ip protocol message msgLen = some st1 ∧
      st1.frames = pre ++ [f] ∧ f.type = 0x0800 ∧ f.length = msgLen + 20 ∧
      f.msg.length = msgLen + 20 ∧
      c = ip_calculateChecksum (memOfList
        ([0x45, 0x00, (msgLen + 20) / 256, (msgLen + 20) % 256, 0x04, 0x00, 0x40, 0x00, 0x80,
          protocol, 0x00, 0x00] ++ take4 st.localIP ++ take4 ip)) 20 ∧
      f.msg = [0x45, 0x00, (msgLen + 20) / 256, (msgLen + 20) % 256, 0x04, 0x00, 0x40, 0x00,
          0x80, protocol, c / 256, c % 256] ++ take4 st.localIP ++ take4 ip
        ++ (List.range msgLen).map message ∧
      ip_calculateChecksum (memOfList (f.msg.take 20)) 20 = 0 := by
  have h160 : ipBufSize = 160 := rfl
  have hlen : msgLen + 20 < 65536 := by have := ht.1; omega
  obtain ⟨st1, pre, f, h1, h2, h3, h4, h5⟩ :=
    ip_send_transmits wait st ip protocol message msgLen ht
  have hl0 : (ip_header0 st.localIP ip protocol msgLen).length = 20 := by
    simp [ip_header0, take4]
  have hc := ip_calculateChecksum_le _ (ip_header0_bytes st.localIP ip protocol msgLen hloc hdst hp)
  rw [hl0] at hc
  have e0 : ip_header0 st.localIP ip protocol msgLen
      = [0x45, 0x00, (msgLen + 20) / 256, (msgLen + 20) % 256, 0x04, 0x00, 0x40, 0x00, 0x80,
          protocol, 0x00, 0x00] ++ take4 st.localIP ++ take4 ip := by
    have e0 : (0x05 ||| (20 <<< 4)) % 256 = 0x45 := by decide
    have e1 : (((msgLen + 20) % 65536) >>> 8) % 256 = (msgLen + 20) / 256 := by
      rw [Nat.mod_eq_of_lt hlen, shiftRight_eight]
      exact Nat.mod_eq_of_lt (by omega)
    have e2 : ((msgLen + 20) % 65536 &&& 0xFF) % 256 = (msgLen + 20) % 256 := by
      rw [Nat.mod_eq_of_lt hlen, and_255, Nat.mod_mod]
    unfold ip_header0
    rw [e0, e1, e2]
  have hhl : (ip_header st.localIP ip protocol msgLen).length = 20 := by
    rw [ip_header_eq _ _ _ _ hlen]
    simp [take4]
  refine ⟨st1, pre, f, _, h1, h2, h3, h4, ?_, rfl, ?_, ?_⟩
  · rw [h5]
    simp [ip_buffer, hhl]
    omega
  · rw [h5, ip_buffer, ip_header_eq _ _ _ _ hlen, ← e0, shiftRight_eight, and_255,
      Nat.mod_mod, Nat.mod_eq_of_lt (a := _ / 256) (by omega)]
  · rw [h5, ip_buffer, List.take_left' hhl]
    exact ip_header_verifies st.localIP ip protocol msgLen hloc hdst hp

/-- The witness of `header_assembly`: a UDP datagram of 8 zero bytes from 192.168.2.156 to
192.168.2.50, a host of the ARP table. -/
theorem header_assembly_witness :
    ∃ st1 f, ip_send noAnswer ipStateKnown [192, 168, 2, 50] 17 (fun _ => 0) 8 = some st1 ∧
      st1.frames = [f] ∧
      f.msg = [0x45, 0x00, 0x00, 0x1C, 0x04, 0x00, 0x40, 0x00, 0x80, 0x11, 0x70, 0xB2,
          192, 168, 2, 156, 192, 168, 2, 50, 0, 0, 0, 0, 0, 0, 0, 0] ∧
      ip_calculateChecksum (memOfList (f.msg.take 20)) 20 = 0 := by
  obtain ⟨st1, pre, f, c, h1, h2, _, _, _, h6, h7, h8⟩ :=
    header_assembly noAnswer ipStateKnown [192, 168, 2, 50] 17 (fun _ => 0) 8 (by decide)
      (by decide) (by decide) (by decide)
  have hc : c = 0x70B2 := by rw [h6]; decide
  have hf : (ip_send noAnswer ipStateKnown [192, 168, 2, 50] 17 (fun _ => 0) 8).map
      (fun s => s.frames.length) = some 1 := by decide
  rw [h1] at hf
  simp only [Option.map_some', Option.some.injEq, h2, List.length_append, List.length_singleton]
    at hf
  have hpre : pre = [] := List.length_eq_zero.mp (by omega)
  refine ⟨st1, f, h1, by rw [h2, hpre]; rfl, ?_, h8⟩
  rw [h7, hc]
  decide

/-- C23 at its failing input.  Starting from `ip_initialise`, a first datagram for the
host 8.8.8.8 outside the local network makes `ip_send` send an ARP query for the gateway,
which nobody answers: the entry 0 stays WAITING with the gateway's IP and a zero MAC
address.  For the next datagram to 8.8.8.8 the search loop for the gateway finds that entry
by its IP alone, and `ip_send` emits the IPv4 frame to 00:00:00:00:00:00, the MAC of the
WAITING entry, which is still WAITING afterwards. -/
theorem waiting_entry_routed :
    (ip_send noAnswer ipStart [8, 8, 8, 8] 17 (fun _ => 0) 8).map
      (fun st1 => (st1.frames.map (fun f => (f.type, f.net_addr)), (st1.arpTable 0).state,
        (st1.arpTable 0).IP, (st1.arpTable 0).MAC))
      = some ([(0x0806, [0xFF, 0xFF, 0xFF, 0xFF, 0xFF, 0xFF])], ARPSTATE_WAITING,
          [192, 168, 2, 1], [0, 0, 0, 0, 0, 0]) ∧
    ((ip_send noAnswer ipStart [8, 8, 8, 8] 17 (fun _ => 0) 8).bind
      (fun st1 => ip_send noAnswer st1 [8, 8, 8, 8] 17 (fun _ => 0) 8)).map
      (fun st2 => (st2.frames.map (fun f => (f.type, f.net_addr)), (st2.arpTable 0).state))
      = some ([(0x0806, [0xFF, 0xFF, 0xFF, 0xFF, 0xFF, 0xFF]), (0x0800, [0, 0, 0, 0, 0, 0])],
          ARPSTATE_WAITING) := by
  decide

/-- The search loop of `ip_send` for the gateway ends with the first entry that holds the
gateway's IP address, whatever the state of that entry. -/
theorem ip_lookup_gateway (st : ipState) (ip : List Nat) (j : Nat) (hj : j < MAX_ARP_ENTRIES)
    (hgw : ip_useGW st.netmask (take4 ip) (take4 st.localIP))
    (hip : take4 st.gatewayIP = take4 (st.arpTable j).IP)
    (hfirst : ∀ k, k < j → take4 st.gatewayIP ≠ take4 (st.arpTable k).IP) :
    ip_lookup st ip = j := by
  unfold ip_lookup
  rw [if_pos hgw]
  exact arp_findEntry_first _ _ _ j hj hip hfirst

/-- C24 at its failing input.  Starting from `ip_initialise`, a datagram for the host
192.168.2.1 of the local network makes `ip_send` send an ARP query that is not answered in
time: the entry 0 is WAITING with lifetime 0.  When the answer arrives afterwards,
`packet_receive` makes the entry ENABLED and leaves its lifetime at 0; the next timer tick
decrements the lifetime to 65535 and the entry stays ENABLED. -/
theorem enabled_with_zero_lifetime :
    (ip_send noAnswer ipStart [192, 168, 2, 1] 17 (fun _ => 0) 8).map
      (fun st1 => ((st1.arpTable 0).state, (st1.arpTable 0).IP, (st1.arpTable 0).lifeTime))
      = some (ARPSTATE_WAITING, [192, 168, 2, 1], 0) ∧
    ((ip_send noAnswer ipStart [192, 168, 2, 1] 17 (fun _ => 0) 8).bind
      (fun st1 => packet_receive noAnswer (stackOf st1) arpReply)).map
      (fun r => ((r.1.ip.arpTable 0).state, (r.1.ip.arpTable 0).MAC,
        (r.1.ip.arpTable 0).lifeTime))
      = some (ARPSTATE_ENABLED, [0xAA, 0xBB, 0xCC, 0xDD, 0xEE, 0xFF], 0) ∧
    ((ip_send noAnswer ipStart [192, 168, 2, 1] 17 (fun _ => 0) 8).bind
      (fun st1 => packet_receive noAnswer (stackOf st1) arpReply)).map
      (fun r => (((arp_tick r.1.ip).arpTable 0).state, ((arp_tick r.1.ip).arpTable 0).lifeTime))
      = some (ARPSTATE_ENABLED, 65535) := by
  decide

/-- C26, as the code has it: with the next hop present as the one ENABLED ARP entry that
holds it, `ip_send` transmits the datagram (one frame of type 0x0800) when the payload
length + 20 is at most 160, the size of its local buffer, and does nothing at all when it
is larger: no frame, no ARP query, the table unchanged.  The limit is not
`IP_TX_BUF_SIZE`. -/
theorem size_limit (wait : ipState → ipState) (st : ipState) (ip : List Nat)
    (protocol : Nat) (message : Mem) (msgLen j : Nat) (hlen : msgLen + 20 < 65536)
    (hb : take4 ip ≠ broadcastIP) (hj : j < MAX_ARP_ENTRIES)
    (hip : take4 (st.arpTable j).IP = nextHop st ip)
    (huniq : ∀ k, k < MAX_ARP_ENTRIES → k ≠ j → take4 (st.arpTable k).IP ≠ nextHop st ip)
    (hen : (st.arpTable j).state = ARPSTATE_ENABLED) :
    (msgLen + 20 ≤ 160 →
      ∃ st1 f, ip_send wait st ip protocol message msgLen = some st1 ∧
        st1.frames = st.frames ++ [f] ∧ f.type = 0x0800 ∧ f.length = msgLen + 20) ∧
    (160 < msgLen + 20 → ip_send wait st ip protocol message msgLen = some st) ∧
    ipBufSize = 160 ∧ IP_TX_BUF_SIZE = 256 := by
  have h160 : ipBufSize = 160 := rfl
  refine ⟨?_, ?_, rfl, rfl⟩
  · intro h
    have hl := ip_lookup_unique st ip j hj hip huniq hen
    have hs := ip_send_found wait st ip protocol message msgLen (by omega) hb
      (by rw [hl]; exact hj)
    exact ⟨_, _, hs, rfl, rfl, Nat.mod_eq_of_lt hlen⟩
  · intro h
    unfold ip_send
    rw [if_pos (by rw [Nat.mod_eq_of_lt hlen]; omega)]

/-- C26 at its failing input: a datagram of 200 bytes (220 with the header, within
`IP_TX_BUF_SIZE`) for the host 192.168.2.50, which is ENABLED in the ARP table, is dropped:
`ip_send` leaves the state as it is and no frame is emitted; one of 140 bytes is sent. -/
theorem size_limit_witness :
    200 + 20 ≤ IP_TX_BUF_SIZE ∧
    ip_send noAnswer ipStateKnown [192, 168, 2, 50] 17 (fun _ => 0) 200 = some ipStateKnown ∧
    ipStateKnown.frames = [] ∧
    ∃ st1 f, ip_send noAnswer ipStateKnown [192, 168, 2, 50] 17 (fun _ => 0) 140 = some st1 ∧
      st1.frames = [f] ∧ f.length = 160 :=
  ⟨by decide,
   (size_limit noAnswer ipStateKnown [192, 168, 2, 50] 17 (fun _ => 0) 200 1 (by decide)
      (by decide) (by decide) (by decide) (by decide) (by decide)).2.1 (by decide),
   rfl,
   by
    obtain ⟨st1, f, h1, h2, _, h4⟩ :=
      (size_limit noAnswer ipStateKnown [192, 168, 2, 50] 17 (fun _ => 0) 140 1 (by decide)
        (by decide) (by decide) (by decide) (by decide) (by decide)).1 (by decide)
    exact ⟨st1, f, h1, h2, h4⟩⟩

/-! ### ip.c: `ip_handle` -/

/-- A datagram the fragment test of `ip_handle` rejects changes nothing. -/
theorem ip_handle_dropped (wait : ipState → ipState) (st : stackState) (pkt : Mem)
    (h : ip_fragmentDropped pkt) : ip_handle wait st pkt = some (st, pkt) := by
  unfold ip_handle
  rw [if_pos h]

set_option maxRecDepth 8192 in
/-- The fragment test of `ip_handle` on bytes: it rejects the datagram exactly when the
field is not zero and its first byte is below 0x40, so it lets pass 0x0000 and every value
with one of the two top bits. -/
theorem ip_fragmentDropped_iff (pkt : Mem) (h0 : pkt 20 < 256) :
    ip_fragmentDropped pkt ↔ (pkt 20 ≠ 0 ∨ pkt 21 ≠ 0) ∧ pkt 20 < 0x40 := by
  have hall : ∀ x, x < 256 → (x &&& 0xC0 = 0 ↔ x < 0x40) := by decide
  unfold ip_fragmentDropped
  rw [hall _ h0]

/-- C27 at its failing input: the echo request of scenario 2 with the flags/fragment-offset
field 0x6000 (DF and MF both set) is not dropped: `ip_handle` enters the sender in the ARP
table and answers with an echo reply.  With the field 0x2000 (MF alone) or 0x0001 (offset
1) the same datagram is dropped, with 0x0000 and 0x4000 it is answered. -/
theorem fragment_filter :
    ¬ ip_fragmentDropped (echoRequest 0x60 0x00) ∧
    (ip_handle noAnswer (stackOf ipStart) (echoRequest 0x60 0x00)).map
      (fun r => ((r.1.ip.arpTable 0).state, (r.1.ip.arpTable 0).IP))
      = some (ARPSTATE_ENABLED, [192, 168, 2, 50]) ∧
    (ip_handle noAnswer (stackOf ipStart) (echoRequest 0x60 0x00)).map
      (fun r => r.1.ip.frames.map (fun f => (f.type, f.net_addr)))
      = some [(0x0800, [2, 0, 0, 0, 0, 0x50])] ∧
    (ip_handle noAnswer (stackOf ipStart) (echoRequest 0x60 0x00)).map
      (fun r => r.1.ip.frames.map (fun f => (f.msg.getD 9 0, f.msg.getD 20 0)))
      = some [(1, 0)] ∧
    ((ipStart.arpTable 0).state, ipStart.frames) = (ARPSTATE_DISABLED, []) ∧
    ip_fragmentDropped (echoRequest 0x20 0x00) ∧ ip_fragmentDropped (echoRequest 0x00 0x01) ∧
    (ip_handle noAnswer (stackOf ipStart) (echoRequest 0x00 0x00)).map
      (fun r => r.1.ip.frames.length) = some 1 ∧
    (ip_handle noAnswer (stackOf ipStart) (echoRequest 0x40 0x00)).map
      (fun r => r.1.ip.frames.length) = some 1 := by
  decide

/-- C28: header checksum validation.  For a datagram that passes the fragment test: when
the received header checksum differs from `ip_calculateChecksum` over the header with its
checksum field zeroed, `ip_handle` returns with the UDP and TCP socket tables unchanged and
no frame emitted; when the two are equal and the sender could be entered in the ARP table,
`ip_handle` is `icmp_handle` for protocol 1, `udp_handle` for protocol 17, `tcp_handle`
(whose calls of `ip_send` are then run) for protocol 6, each on the datagram with the
checksum field zeroed, and for any other protocol nothing more happens. -/
theorem checksum_validation (wait : ipState → ipState) (st : stackState) (pkt : Mem)
    (hfrag : ¬ ip_fragmentDropped pkt) :
    (ip_originalChecksum pkt ≠ ip_headerChecksum pkt →
      ∃ r, ip_handle wait st pkt = some r ∧ r.1.tcp = st.tcp ∧ r.1.udp = st.udp ∧
        r.1.ip.frames = st.ip.frames) ∧
    (ip_originalChecksum pkt = ip_headerChecksum pkt →
      ip_learnIndex st.ip.arpTable (read4 pkt 26) < MAX_ARP_ENTRIES →
      (pkt 23 = 1 →
        ip_handle wait st pkt
          = (icmp_handle wait (ip_learned st pkt).ip (ip_datagram pkt)).map
              (fun r => ({ ip_learned st pkt with ip := r.1 },
                fun i => if i < 14 then ip_zeroChecksum pkt i else r.2 (i - 14)))) ∧
      (pkt 23 = 17 →
        ip_handle wait st pkt
          = some ({ ip_learned st pkt with udp := udp_handle st.udp (ip_datagram pkt) },
              ip_zeroChecksum pkt)) ∧
      (pkt 23 = 6 →
        ip_handle wait st pkt
          = (tcp_handle st.tcp (ip_datagram pkt)).bind (fun tcp1 =>
              (ip_send_calls wait (ip_learned st pkt).ip
                (tcp1.sent.drop st.tcp.sent.length)).map
                (fun ip2 => ({ ip_learned st pkt with ip := ip2, tcp := tcp1 },
                  ip_zeroChecksum pkt)))) ∧
      (pkt 23 ≠ 1 → pkt 23 ≠ 17 → pkt 23 ≠ 6 →
        ip_handle wait st pkt = some (ip_learned st pkt, ip_zeroChecksum pkt))) := by
  have h23 : ip_zeroChecksum pkt 23 = pkt 23 := by
    simp [ip_zeroChecksum, Function.update_apply]
  constructor
  · intro hne
    unfold ip_handle
    rw [if_neg hfrag]
    simp only []
    by_cases hcnt : ip_learnIndex st.ip.arpTable (read4 pkt 26) < MAX_ARP_ENTRIES
    · rw [if_pos hcnt, if_pos hne]
      exact ⟨_, rfl, rfl, rfl, rfl⟩
    · rw [if_neg hcnt]
      exact ⟨_, rfl, rfl, rfl, rfl⟩
  · intro heq hcnt
    have hpre : ip_handle wait st pkt
        = (if ip_zeroChecksum pkt 23 = IPPACKETTYPE_ICMP then
            (icmp_handle wait (ip_learned st pkt).ip (ip_datagram pkt)).map
              (fun r => ({ ip_learned st pkt with ip := r.1 },
                fun i => if i < 14 then ip_zeroChecksum pkt i else r.2 (i - 14)))
          else if ip_zeroChecksum pkt 23 = IPPACKETTYPE_UDP then
            some ({ ip_learned st pkt with udp := udp_handle st.udp (ip_datagram pkt) },
              ip_zeroChecksum pkt)
          else if ip_zeroChecksum pkt 23 = IPPACKETTYPE_TCP then
            match tcp_handle (ip_learned st pkt).tcp (ip_datagram pkt) with
            | none => none
            | some tcp1 =>
              (ip_send_calls wait (ip_learned st pkt).ip
                (tcp1.sent.drop (ip_learned st pkt).tcp.sent.length)).map
                (fun ip2 => ({ ip_learned st pkt with ip := ip2, tcp := tcp1 },
                  ip_zeroChecksum pkt))
          else some (ip_learned st pkt, ip_zeroChecksum pkt)) := by
      unfold ip_handle
      rw [if_neg hfrag]
      simp only []
      rw [if_pos hcnt, if_neg (fun h => h heq)]
      rfl
    rw [h23] at hpre
    refine ⟨?_, ?_, ?_, ?_⟩
    · intro h
      rw [hpre, if_pos (show pkt 23 = IPPACKETTYPE_ICMP from h)]
    · intro h
      rw [hpre, if_neg (show ¬ pkt 23 = IPPACKETTYPE_ICMP by rw [h]; decide),
        if_pos (show pkt 23 = IPPACKETTYPE_UDP from h)]
    · intro h
      rw [hpre, if_neg (show ¬ pkt 23 = IPPACKETTYPE_ICMP by rw [h]; decide),
        if_neg (show ¬ pkt 23 = IPPACKETTYPE_UDP by rw [h]; decide),
        if_pos (show pkt 23 = IPPACKETTYPE_TCP from h)]
      have e : (ip_learned st pkt).tcp = st.tcp := rfl
      rw [e]
      cases tcp_handle st.tcp (ip_datagram pkt) <;> rfl
    · intro h1 h2 h3
      rw [hpre, if_neg (show ¬ pkt 23 = IPPACKETTYPE_ICMP from h1),
        if_neg (show ¬ pkt 23 = IPPACKETTYPE_UDP from h2),
        if_neg (show ¬ pkt 23 = IPPACKETTYPE_TCP from h3)]

/-- The witness of `checksum_validation`: the echo request of scenario 2 is passed to
`icmp_handle`; with its header checksum overwritten it emits nothing and leaves the socket
tables alone. -/
theorem checksum_validation_witness :
    ip_handle noAnswer (stackOf ipStart) (echoRequest 0x40 0x00)
      = (icmp_handle noAnswer (ip_learned (stackOf ipStart) (echoRequest 0x40 0x00)).ip
          (ip_datagram (echoRequest 0x40 0x00))).map
          (fun r => ({ ip_learned (stackOf ipStart) (echoRequest 0x40 0x00) with ip := r.1 },
            fun i => if i < 14 then ip_zeroChecksum (echoRequest 0x40 0x00) i
              else r.2 (i - 14))) ∧
    ∃ r, ip_handle noAnswer (stackOf ipStart) badChecksumRequest = some r ∧
      r.1.ip.frames = [] :=
  ⟨((checksum_validation noAnswer (stackOf ipStart) (echoRequest 0x40 0x00) (by decide)).2
      (by decide) (by decide)).1 (by decide),
   by
    obtain ⟨r, h1, _, _, h4⟩ :=
      (checksum_validation noAnswer (stackOf ipStart) badChecksumRequest (by decide)).1
        (by decide)
    exact ⟨r, h1, h4⟩⟩

/-! ### icmp.c -/

theorem ip_calculateChecksum_loop_congr (p q : Mem) :
    ∀ (n cnt s : Nat), (∀ i, cnt ≤ i → i < cnt + n → p i = q i) →
      ip_calculateChecksum_loop p n cnt s = ip_calculateChecksum_loop q n cnt s := by
  intro n
  induction n with
  | zero => intro cnt s _; rfl
  | succ n ih =>
    intro cnt s h
    rw [ip_calculateChecksum_loop, ip_calculateChecksum_loop, h cnt (Nat.le_refl _) (by omega)]
    exact ih (cnt + 1) _ (fun i h1 h2 => h i (by omega) (by omega))

/-- The checksum over a region of memory is the checksum over the list of its bytes. -/
theorem ip_calculateChecksum_region (p : Mem) (len : Nat) :
    ip_calculateChecksum p len
      = ip_calculateChecksum (memOfList ((List.range len).map p)) ((List.range len).map p).length := by
  rw [List.length_map, List.length_range]
  unfold ip_calculateChecksum
  apply ip_calculateChecksum_loop_congr
  intro i _ hi
  simp only [memOfList, List.getD_eq_getElem?_getD]
  rw [List.getElem?_map, List.getElem?_range (by omega)]
  rfl

/-- The buffer `icmp_handle` leaves, with its intermediate values named. -/
theorem icmp_reply_eq (localIP : List Nat) (pkt : Mem) (hl L c : Nat) (p3 : Mem)
    (hhl : tcpOffset pkt = hl) (hLL : icmpPacketLen pkt = L)
    (hp3 : Function.update (Function.update (Function.update pkt hl 0) (hl + 2) 0) (hl + 3) 0
      = p3)
    (hc : ip_calculateChecksum (fun i => p3 (hl + i)) L = c) :
    icmp_reply localIP pkt
      = memcpy (memcpy
          (Function.update (Function.update p3 (hl + 2) ((c >>> 8) % 256)) (hl + 3)
            ((c &&& 0xFF) % 256)) 16
          (read4 (Function.update (Function.update p3 (hl + 2) ((c >>> 8) % 256)) (hl + 3)
            ((c &&& 0xFF) % 256)) 12) 4) 12 localIP 4 := by
  subst hhl hLL hp3 hc
  rfl

/-- The ICMP message in the buffer `icmp_handle` leaves, for a header of at least 20 bytes
and a message of at least 4: type 0, the bytes other than type and checksum as received,
a checksum over the message that verifies; and the destination field of the IP header
holds the source address of the request. -/
theorem icmp_reply_spec (localIP : List Nat) (pkt : Mem) (hbytes : ∀ i, pkt i < 256)
    (hIHL : 20 ≤ tcpOffset pkt) (hL : 4 ≤ icmpPacketLen pkt) :
    icmp_reply localIP pkt (tcpOffset pkt) = 0 ∧
    (∀ i, i ≠ 0 → i ≠ 2 → i ≠ 3 →
      icmp_reply localIP pkt (tcpOffset pkt + i) = pkt (tcpOffset pkt + i)) ∧
    read4 (icmp_reply localIP pkt) 16 = read4 pkt 12 ∧
    ip_calculateChecksum (fun i => icmp_reply localIP pkt (tcpOffset pkt + i))
      (icmpPacketLen pkt) = 0 := by
  have hform := icmp_reply_eq localIP pkt _ _ _ _ rfl rfl rfl rfl
  generalize tcpOffset pkt = hl at hIHL hform ⊢
  generalize icmpPacketLen pkt = L at hL hform ⊢
  generalize hp3 : Function.update (Function.update (Function.update pkt hl 0) (hl + 2) 0)
    (hl + 3) 0 = p3 at hform
  generalize hc : ip_calculateChecksum (fun i => p3 (hl + i)) L = c at hform
  have hrep : ∀ i, 20 ≤ i → icmp_reply localIP pkt i
      = Function.update (Function.update p3 (hl + 2) ((c >>> 8) % 256)) (hl + 3)
          ((c &&& 0xFF) % 256) i := by
    intro i hi
    rw [hform]
    simp only [memcpy]
    rw [if_neg (by omega), if_neg (by omega)]
  have hp3b : ∀ i, p3 i < 256 := by
    intro i
    rw [← hp3]
    simp only [Function.update_apply]
    split
    · decide
    · split
      · decide
      · split
        · decide
        · exact hbytes i
  have h12 : ∀ k, k < 4 →
      Function.update (Function.update p3 (hl + 2) ((c >>> 8) % 256)) (hl + 3)
        ((c &&& 0xFF) % 256) (12 + k) = pkt (12 + k) := by
    intro k hk
    rw [Function.update_noteq (by omega), Function.update_noteq (by omega), ← hp3,
      Function.update_noteq (by omega), Function.update_noteq (by omega),
      Function.update_noteq (by omega)]
  refine ⟨?_, ?_, ?_, ?_⟩
  · rw [hrep _ (by omega), Function.update_noteq (by omega), Function.update_noteq (by omega),
      ← hp3, Function.update_noteq (by omega), Function.update_noteq (by omega),
      Function.update_same]
  · intro i h0 h2 h3
    rw [hrep _ (by omega), Function.update_noteq (by omega), Function.update_noteq (by omega),
      ← hp3, Function.update_noteq (by omega), Function.update_noteq (by omega),
      Function.update_noteq (by omega)]
  · have e0 := h12 0 (by decide)
    have e1 := h12 1 (by decide)
    have e2 := h12 2 (by decide)
    have e3 := h12 3 (by decide)
    rw [hform]
    simp only [read4, memcpy]
    simp only [show ¬ (12 ≤ 16 ∧ 16 < 12 + 4) from by omega,
      show ¬ (12 ≤ 16 + 1 ∧ 16 + 1 < 12 + 4) from by omega,
      show ¬ (12 ≤ 16 + 2 ∧ 16 + 2 < 12 + 4) from by omega,
      show ¬ (12 ≤ 16 + 3 ∧ 16 + 3 < 12 + 4) from by omega,
      show (16 ≤ 16 ∧ 16 < 16 + 4) from by omega,
      show (16 ≤ 16 + 1 ∧ 16 + 1 < 16 + 4) from by omega,
      show (16 ≤ 16 + 2 ∧ 16 + 2 < 16 + 4) from by omega,
      show (16 ≤ 16 + 3 ∧ 16 + 3 < 16 + 4) from by omega, if_true, if_false]
    simp only [Nat.add_zero] at e0
    simp [e0, e1, e2, e3]
  · -- the list of the message bytes before the checksum is stored
    generalize hs0 : (List.range L).map (fun i => p3 (hl + i)) = s0
    have hs0l : s0.length = L := by rw [← hs0]; simp
    have hs0b : ∀ b ∈ s0, b < 256 := by
      intro b hb
      rw [← hs0] at hb
      obtain ⟨i, _, hi⟩ := List.mem_map.mp hb
      rw [← hi]
      exact hp3b _
    have hg : ∀ k, k < L → s0.getD k 0 = p3 (hl + k) := by
      intro k hk
      rw [← hs0, List.getD_eq_getElem?_getD, List.getElem?_map, List.getElem?_range hk]
      rfl
    have hc0 : ip_calculateChecksum (memOfList s0) s0.length = c := by
      rw [← hc]
      rw [ip_calculateChecksum_region (fun i => p3 (hl + i)) L, hs0]
    have l2 : 2 < s0.length := by omega
    have l3 : 3 < s0.length := by omega
    have hg0 : s0.getD 2 0 = 0 := by
      rw [hg 2 (by omega), ← hp3]
      simp [Function.update_apply]
    have hg1 : s0.getD (2 + 1) 0 = 0 := by
      show s0.getD 3 0 = 0
      rw [hg 3 (by omega), ← hp3]
      simp [Function.update_apply]
    have hv := checksum_field_verifies s0 2 hs0b (by decide) (by omega) hg0 hg1
    rw [hc0, hs0l] at hv
    rw [← hv]
    unfold ip_calculateChecksum
    apply ip_calculateChecksum_loop_congr
    intro i _ hi
    simp only [Nat.zero_add] at hi
    rw [hrep _ (by omega)]
    simp only [memOfList, List.getD_eq_getElem?_getD, List.getElem?_set, Function.update_apply]
    by_cases h3 : i = 3
    · subst h3
      simp [l3]
    · by_cases h2 : i = 2
      · subst h2
        simp [l2]
      · rw [if_neg (by omega), if_neg (by omega), if_neg (by omega), if_neg (by omega)]
        rw [← List.getD_eq_getElem?_getD, hg i hi]

/-- C29: ICMP echo.  For a message of any other type `icmp_handle` emits nothing and leaves
state and buffer as they are.  For a datagram of bytes with a header of at least 20 bytes
that carries a message of type 8 and length `L >= 4`, `icmp_handle` is one call of
`ip_send`, to the source address of the request with protocol 1, of the `L` bytes of the
message as rewritten in the buffer: type 0, code, identifier, sequence number and payload
as received, with a checksum such that `ip_calculateChecksum` over the `L` bytes is 0.  When
`ip_send` transmits (`L + 20` within its buffer, MAC address found), the frame carries
those `L` bytes after a header of protocol 1 to the request's source address whose
checksum verifies. -/
theorem echo_reply (wait : ipState → ipState) (st : ipState) (pkt : Mem) :
    (pkt (tcpOffset pkt) ≠ 8 → icmp_handle wait st pkt = some (st, pkt)) ∧
    (pkt (tcpOffset pkt) = 8 → (∀ i, pkt i < 256) → 20 ≤ tcpOffset pkt →
      4 ≤ icmpPacketLen pkt → (∀ b ∈ take4 st.localIP, b < 256) →
      icmp_handle wait st pkt
        = (ip_send wait st (read4 pkt 12) 1
            (fun i => icmp_reply st.localIP pkt (tcpOffset pkt + i)) (icmpPacketLen pkt)).map
            (fun st1 => (st1, icmp_reply st.localIP pkt)) ∧
      icmp_reply st.localIP pkt (tcpOffset pkt) = 0 ∧
      icmp_reply st.localIP pkt (tcpOffset pkt + 1) = pkt (tcpOffset pkt + 1) ∧
      (∀ i, 4 ≤ i → icmp_reply st.localIP pkt (tcpOffset pkt + i) = pkt (tcpOffset pkt + i)) ∧
      ip_calculateChecksum (fun i => icmp_reply st.localIP pkt (tcpOffset pkt + i))
        (icmpPacketLen pkt) = 0 ∧
      (ip_transmits wait st (read4 pkt 12) (icmpPacketLen pkt) →
        ∃ st1 pre f, icmp_handle wait st pkt = some (st1, icmp_reply st.localIP pkt) ∧
          st1.frames = pre ++ [f] ∧ f.type = 0x0800 ∧
          f.msg.length = icmpPacketLen pkt + 20 ∧
          f.msg.drop 20 = (List.range (icmpPacketLen pkt)).map
            (fun i => icmp_reply st.localIP pkt (tcpOffset pkt + i)) ∧
          f.msg.getD 9 0 = 1 ∧ (f.msg.take 20).drop 16 = read4 pkt 12 ∧
          ip_calculateChecksum (memOfList (f.msg.take 20)) 20 = 0)) := by
  constructor
  · intro h
    unfold icmp_handle
    rw [if_neg (show ¬ pkt (tcpOffset pkt) = ICMPPACKET_ECHO_REQUEST from h)]
  · intro h hbytes hIHL hL hloc
    obtain ⟨r1, r2, r3, r4⟩ := icmp_reply_spec st.localIP pkt hbytes hIHL hL
    have hmain : icmp_handle wait st pkt
        = (ip_send wait st (read4 pkt 12) 1
            (fun i => icmp_reply st.localIP pkt (tcpOffset pkt + i)) (icmpPacketLen pkt)).map
            (fun st1 => (st1, icmp_reply st.localIP pkt)) := by
      unfold icmp_handle
      rw [if_pos (show pkt (tcpOffset pkt) = ICMPPACKET_ECHO_REQUEST from h)]
      simp only []
      rw [r3]
      rfl
    refine ⟨hmain, r1, r2 1 (by decide) (by decide) (by decide),
      fun i hi => r2 i (by omega) (by omega) (by omega), r4, ?_⟩
    intro ht
    have h160 : ipBufSize = 160 := rfl
    have hlen : icmpPacketLen pkt + 20 < 65536 := by have := ht.1; omega
    have hdst : ∀ b ∈ take4 (read4 pkt 12), b < 256 := by
      intro b hb
      simp only [take4, read4, List.getD_cons_zero, List.getD_cons_succ, List.mem_cons,
        List.mem_singleton, List.not_mem_nil, or_false] at hb
      rcases hb with hb | hb | hb | hb <;> rw [hb] <;> exact hbytes _
    obtain ⟨st1, pre, f, h1, h2, h3, _, h5⟩ := ip_send_transmits wait st (read4 pkt 12) 1
      (fun i => icmp_reply st.localIP pkt (tcpOffset pkt + i)) (icmpPacketLen pkt) ht
    have hhl : (ip_header st.localIP (read4 pkt 12) 1 (icmpPacketLen pkt)).length = 20 := by
      rw [ip_header_eq _ _ _ _ hlen]
      simp [take4]
    refine ⟨st1, pre, f, by rw [hmain, h1]; rfl, h2, h3, ?_, ?_, ?_, ?_, ?_⟩
    · rw [h5]
      simp [ip_buffer, hhl]
      omega
    · rw [h5, ip_buffer, List.drop_left' hhl]
    · rw [h5, ip_buffer, ip_header_eq _ _ _ _ hlen]
      rfl
    · rw [h5, ip_buffer, List.take_left' hhl, ip_header_eq _ _ _ _ hlen]
      simp [take4, read4]
    · rw [h5, ip_buffer, List.take_left' hhl]
      exact ip_header_verifies st.localIP (read4 pkt 12) 1 (icmpPacketLen pkt) hloc hdst
        (by decide)

set_option maxRecDepth 16384 in
/-- The witness of `echo_reply` (scenario 2 of the specification): the echo request with
identifier 0x1234, sequence number 1 and the 32 payload bytes 1..32 from 192.168.2.50,
a host of the ARP table, is answered by one frame whose ICMP message has type 0, the
checksum 0xECB9 and the same identifier, sequence number and payload, under a header
whose checksum verifies. -/
theorem echo_reply_witness :
    ∃ st1 f, icmp_handle noAnswer ipStateKnown echoDatagram
        = some (st1, icmp_reply ipStateKnown.localIP echoDatagram) ∧
      st1.frames = [f] ∧
      f.msg.drop 20 = [0, 0, 0xEC, 0xB9, 0x12, 0x34, 0, 1] ++ (List.range 32).map (fun i => i + 1) ∧
      (f.msg.take 20).drop 16 = [192, 168, 2, 50] ∧
      ip_calculateChecksum (memOfList (f.msg.take 20)) 20 = 0 := by
  obtain ⟨_, _, _, _, _, h6⟩ :=
    (echo_reply noAnswer ipStateKnown echoDatagram).2 (by decide)
      (fun i => memOfList_lt _ (by decide) (14 + i)) (by decide) (by decide) (by decide)
  obtain ⟨st1, pre, f, h1, h2, _, _, h5, _, h7, h8⟩ := h6 (by decide)
  have hf : (icmp_handle noAnswer ipStateKnown echoDatagram).map
      (fun r => r.1.frames.length) = some 1 := by decide
  rw [h1] at hf
  simp only [Option.map_some', Option.some.injEq, h2, List.length_append, List.length_singleton]
    at hf
  have hpre : pre = [] := List.length_eq_zero.mp (by omega)
  refine ⟨st1, f, h1, by rw [h2, hpre]; rfl, ?_, ?_, h8⟩
  · rw [h5]; decide
  · rw [h7]; decide

/-! ### udp.c -/

theorem udp_handle_loop_spec (pkt : Mem) :
    ∀ (n i : Nat) (sockets : Nat → udpSocket) (k : Nat),
      udp_handle_loop pkt n i sockets k
        = if i ≤ k ∧ k < i + n then udp_handle_socket (sockets k) pkt else sockets k := by
  intro n
  induction n with
  | zero =>
    intro i sockets k
    rw [udp_handle_loop, if_neg (by omega)]
  | succ n ih =>
    intro i sockets k
    rw [udp_handle_loop, ih]
    by_cases hk : k = i
    · rw [hk, if_neg (by omega), if_pos (by omega), Function.update_same]
    · rw [Function.update_noteq hk]
      by_cases h : i + 1 ≤ k ∧ k < i + 1 + n
      · rw [if_pos h, if_pos (by omega)]
      · rw [if_neg h, if_neg (by omega)]

/-- C30, as the code has it: `udp_handle` visits every socket of the table.  Each socket
that is WAITING, has the datagram's destination port as local port and a capacity larger
than the payload length `udp_len - 8` becomes ESTABLISHED with `dLen = udp_len - 8`,
`sourceIP` the datagram's source address and the payload at the start of its buffer; every
other socket is unchanged. -/
theorem udp_delivery (sockets : Nat → udpSocket) (pkt : Mem) (i : Nat) :
    (i < MAX_UDP_SOCKETS → (sockets i).state = SOCKETSTATE_WAITING →
      (sockets i).localPort = udpDestPort pkt → udpDataLen pkt < (sockets i).dMaxLen →
      (udp_handle sockets pkt i).state = SOCKETSTATE_ESTABLISHED ∧
      (udp_handle sockets pkt i).dLen = udpDataLen pkt ∧
      (udp_handle sockets pkt i).sourceIP = read4 pkt 12 ∧
      (∀ k, k < udpDataLen pkt →
        (udp_handle sockets pkt i).dbuf k = pkt (tcpOffset pkt + 8 + k)) ∧
      (∀ k, udpDataLen pkt ≤ k → (udp_handle sockets pkt i).dbuf k = (sockets i).dbuf k) ∧
      (udp_handle sockets pkt i).localPort = (sockets i).localPort ∧
      (udp_handle sockets pkt i).dMaxLen = (sockets i).dMaxLen) ∧
    (¬ (i < MAX_UDP_SOCKETS ∧ (sockets i).state = SOCKETSTATE_WAITING ∧
        (sockets i).localPort = udpDestPort pkt ∧ udpDataLen pkt < (sockets i).dMaxLen) →
      udp_handle sockets pkt i = sockets i) := by
  unfold udp_handle
  rw [udp_handle_loop_spec]
  constructor
  · intro hi hs hp hr
    rw [if_pos (by omega)]
    unfold udp_handle_socket
    rw [if_pos ⟨hs, hp⟩, if_pos hr]
    refine ⟨rfl, rfl, rfl, ?_, ?_, rfl, rfl⟩
    · intro k hk
      simp only []
      rw [if_pos hk]
    · intro k hk
      simp only []
      rw [if_neg (by omega)]
  · intro h
    by_cases hi : 0 ≤ i ∧ i < 0 + MAX_UDP_SOCKETS
    · rw [if_pos hi]
      unfold udp_handle_socket
      by_cases h1 : (sockets i).state = SOCKETSTATE_WAITING ∧
          (sockets i).localPort = udpDestPort pkt
      · rw [if_pos h1, if_neg (fun hr => h ⟨by omega, h1.1, h1.2, hr⟩)]
      · rw [if_neg h1]
    · rw [if_neg hi]

/-- The witness of `udp_delivery`: a datagram of 4 bytes for port 68 is delivered to the
socket waiting on port 68 with a buffer of 16 bytes. -/
theorem udp_delivery_witness :
    (udp_handle (udpTableOf [udpWaiting 68 16]) (udpDatagram 67 68 [1, 2, 3, 4]) 0).state
      = SOCKETSTATE_ESTABLISHED ∧
    (udp_handle (udpTableOf [udpWaiting 68 16]) (udpDatagram 67 68 [1, 2, 3, 4]) 0).dLen = 4 ∧
    (udp_handle (udpTableOf [udpWaiting 68 16]) (udpDatagram 67 68 [1, 2, 3, 4]) 0).sourceIP
      = [192, 168, 2, 50] := by
  obtain ⟨h1, h2, h3, _⟩ :=
    (udp_delivery (udpTableOf [udpWaiting 68 16]) (udpDatagram 67 68 [1, 2, 3, 4]) 0).1
      (by decide) (by decide) (by decide) (by decide)
  exact ⟨h1, h2.trans (by decide), h3.trans (by decide)⟩

/-- C30 as stated fails: with two sockets waiting on port 68, a datagram for port 68 is
delivered to both, not to the first only. -/
theorem udp_delivery_counterexample :
    (List.range 3).map (fun i =>
      ((udp_handle (udpTableOf [udpWaiting 68 16, udpWaiting 68 16])
          (udpDatagram 67 68 [1, 2, 3, 4]) i).state,
       (udp_handle (udpTableOf [udpWaiting 68 16, udpWaiting 68 16])
          (udpDatagram 67 68 [1, 2, 3, 4]) i).dLen,
       bytesAt (udp_handle (udpTableOf [udpWaiting 68 16, udpWaiting 68 16])
          (udpDatagram 67 68 [1, 2, 3, 4]) i).dbuf 4))
      = [(SOCKETSTATE_ESTABLISHED, 4, [1, 2, 3, 4]), (SOCKETSTATE_ESTABLISHED, 4, [1, 2, 3, 4]),
         (SOCKETSTATE_UNUSED, 0, [0, 0, 0, 0])] ∧
    (udpTableOf [udpWaiting 68 16, udpWaiting 68 16] 1).state = SOCKETSTATE_WAITING := by
  decide

/-! ### fifo.c: the index invariant -/

theorem fifo_length_mod (f : fifo) (h : fifo_wf f) :
    (fifo_length f : Int) = ((f.writePtr : Int) - (f.readPtr : Int)) % (f.size : Int) := by
  rw [fifo_length_wf f h]
  obtain ⟨h1, h2, h3⟩ := h
  split
  · rw [Int.emod_eq_of_lt (by omega) (by omega)]
    omega
  · rw [← Int.add_emod_self, Int.emod_eq_of_lt (by omega) (by omega)]
    omega

/-- C35: the index invariant of the fifo.  `fifo_wf` says that `readPtr` and `writePtr` lie
below `size` (a value of type `int`).  It holds after `fifo_initialize` with a size of at
least 1 and after `fifo_reset` of a fifo of such a size, and `fifo_putc` and `fifo_getc` on
a non-empty fifo return and preserve it.  Under it `fifo_length` is `(writePtr - readPtr)
mod size` and at most `size - 1`; a `fifo_putc` that returns 0 increases it by exactly 1
and leaves the write index different from the read index, one that does not return 0
leaves the fifo as it is, and a `fifo_getc` decreases it by exactly 1. -/
theorem fifo_index_invariant :
    (∀ (s : Nat) (buf : Mem), 1 ≤ s → s ≤ 32767 → fifo_wf ( fifo_initialize s buf)) ∧
    (∀ (f : fifo), 1 ≤ f.size → f.size ≤ 32767 → fifo_wf (fifo_reset f)) ∧
    (∀ (f : fifo), fifo_wf f →
      (fifo_length f : Int) = ((f.writePtr : Int) - (f.readPtr : Int)) % (f.size : Int) ∧
      fifo_length f ≤ f.size - 1) ∧
    (∀ (f : fifo) (c : Nat), fifo_wf f →
      ∃ r f1, fifo_putc f c = some (r, f1) ∧ fifo_wf f1 ∧
        (r = 0 → fifo_length f1 = fifo_length f + 1 ∧ f1.writePtr ≠ f1.readPtr) ∧
        (r ≠ 0 → f1 = f)) ∧
    (∀ (f : fifo), fifo_wf f → f.writePtr ≠ f.readPtr →
      ∃ c f1, fifo_getc f = some (c, f1) ∧ fifo_wf f1 ∧
        fifo_length f1 + 1 = fifo_length f) := by
  refine ⟨fifo_wf_init, ?_, ?_, ?_, ?_⟩
  · intro f h1 h2
    unfold fifo_wf fifo_reset
    simp only []
    omega
  · intro f h
    exact ⟨fifo_length_mod f h, fifo_length_le f h⟩
  · intro f c h
    by_cases hroom : fifo_length f < f.size - 1
    · refine ⟨_, _, fifo_putc_ok f c h hroom, fifo_wf_put f c h, ?_, by simp⟩
      intro _
      refine ⟨fifo_length_put f c h hroom, ?_⟩
      intro e
      have hl := fifo_length_put f c h hroom
      have h0 := (fifo_nonempty_iff _ (fifo_wf_put f c h)).not.mp (fun hne => hne e)
      omega
    · exact ⟨_, _, fifo_putc_full f c h hroom, h, by simp, by simp⟩
  · intro f h hne
    exact ⟨_, _, fifo_getc_ok f h hne, fifo_wf_get f h, (fifo_length_get f h hne).symm⟩

/-- The witness of `fifo_index_invariant`: a fifo of size 4 holding one byte takes a second
one, and its length goes from 1 to 2. -/
theorem fifo_index_invariant_witness :
    ∃ r f1, fifo_putc (fifoOf 4 [7]) 9 = some (r, f1) ∧ fifo_wf f1 ∧
      (r = 0 → fifo_length f1 = fifo_length (fifoOf 4 [7]) + 1 ∧ f1.writePtr ≠ f1.readPtr) ∧
      (r ≠ 0 → f1 = fifoOf 4 [7]) :=
  fifo_index_invariant.2.2.2.1 (fifoOf 4 [7]) 9 (by decide)

/-! ### udp.c: capacity and life cycle of a socket -/

theorem udpDataLen_eq (pkt : Mem) (h4 : pkt (tcpOffset pkt + 4) < 256)
    (h5 : pkt (tcpOffset pkt + 5) < 256) (hlen : 8 ≤ udpLen pkt) :
    udpDataLen pkt = udpLen pkt - 8 := by
  unfold udpDataLen udpLen toU16 at *
  rw [shiftLeft_eight_or _ _ h5] at hlen ⊢
  omega

theorem udp_handle_at (sockets : Nat → udpSocket) (pkt : Mem) (i : Nat)
    (hi : i < MAX_UDP_SOCKETS) :
    udp_handle sockets pkt i = udp_handle_socket (sockets i) pkt := by
  unfold udp_handle
  rw [udp_handle_loop_spec, if_pos (by omega)]

/-- C31, as the code has it: the room test of `udp_handle` is strict.  A socket WAITING on
the destination port of a datagram with `udp_len >= 8` accepts it (becomes ESTABLISHED with
the payload, its length and the source address stored) if and only if the payload length
`udp_len - 8` is less than the capacity `dMaxLen`; otherwise, so also with a payload of
exactly `dMaxLen` bytes, the socket and its buffer are unchanged. -/
theorem udp_capacity_check (sockets : Nat → udpSocket) (pkt : Mem) (i : Nat)
    (hi : i < MAX_UDP_SOCKETS) (hs : (sockets i).state = SOCKETSTATE_WAITING)
    (hp : (sockets i).localPort = udpDestPort pkt)
    (h4 : pkt (tcpOffset pkt + 4) < 256) (h5 : pkt (tcpOffset pkt + 5) < 256)
    (hlen : 8 ≤ udpLen pkt) :
    ((udp_handle sockets pkt i).state = SOCKETSTATE_ESTABLISHED
      ↔ udpLen pkt - 8 < (sockets i).dMaxLen) ∧
    (udpLen pkt - 8 < (sockets i).dMaxLen →
      (udp_handle sockets pkt i).dLen = udpLen pkt - 8 ∧
      (udp_handle sockets pkt i).sourceIP = read4 pkt 12 ∧
      (∀ k, k < udpLen pkt - 8 →
        (udp_handle sockets pkt i).dbuf k = pkt (tcpOffset pkt + 8 + k)) ∧
      (∀ k, udpLen pkt - 8 ≤ k → (udp_handle sockets pkt i).dbuf k = (sockets i).dbuf k)) ∧
    (¬ udpLen pkt - 8 < (sockets i).dMaxLen → udp_handle sockets pkt i = sockets i) := by
  rw [udp_handle_at sockets pkt i hi]
  have hd := udpDataLen_eq pkt h4 h5 hlen
  unfold udp_handle_socket
  rw [if_pos ⟨hs, hp⟩, hd]
  by_cases hr : udpLen pkt - 8 < (sockets i).dMaxLen
  · rw [if_pos hr]
    refine ⟨⟨fun _ => hr, fun _ => rfl⟩, fun _ => ⟨rfl, rfl, ?_, ?_⟩, fun h => absurd hr h⟩
    · intro k hk
      simp only []
      rw [if_pos hk]
    · intro k hk
      simp only []
      rw [if_neg (by omega)]
  · rw [if_neg hr]
    refine ⟨⟨fun h => ?_, fun h => absurd h hr⟩, fun h => absurd h hr, fun _ => rfl⟩
    rw [hs] at h
    exact absurd h (by decide)

/-- The witness of `udp_capacity_check`: a socket waiting on port 68 with capacity 4 takes
a datagram with a payload of 3 bytes. -/
theorem udp_capacity_check_witness :
    (udp_handle (udpTableOf [udpWaiting 68 4]) (udpDatagram 67 68 [1, 2, 3]) 0).state
      = SOCKETSTATE_ESTABLISHED ∧
    (udp_handle (udpTableOf [udpWaiting 68 4]) (udpDatagram 67 68 [1, 2, 3]) 0).dLen = 3 := by
  have h := udp_capacity_check (udpTableOf [udpWaiting 68 4]) (udpDatagram 67 68 [1, 2, 3]) 0
    (by decide) (by decide) (by decide) (by decide) (by decide) (by decide)
  exact ⟨h.1.mpr (by decide), ((h.2.1 (by decide)).1).trans (by decide)⟩

/-- C31 as stated fails: a datagram for port 68 whose payload has exactly the 4 bytes of
the capacity of the socket waiting on port 68 is not accepted; the socket stays WAITING
with `dLen` 0 and its buffer untouched. -/
theorem udp_capacity_check_counterexample :
    (udpTableOf [udpWaiting 68 4] 0).state = SOCKETSTATE_WAITING ∧
    (udpTableOf [udpWaiting 68 4] 0).localPort = udpDestPort (udpDatagram 67 68 [1, 2, 3, 4]) ∧
    (udpTableOf [udpWaiting 68 4] 0).dMaxLen = 4 ∧
    udpLen (udpDatagram 67 68 [1, 2, 3, 4]) = 12 ∧
    (udp_handle (udpTableOf [udpWaiting 68 4]) (udpDatagram 67 68 [1, 2, 3, 4]) 0).state
      = SOCKETSTATE_WAITING ∧
    (udp_handle (udpTableOf [udpWaiting 68 4]) (udpDatagram 67 68 [1, 2, 3, 4]) 0).dLen = 0 ∧
    bytesAt (udp_handle (udpTableOf [udpWaiting 68 4]) (udpDatagram 67 68 [1, 2, 3, 4]) 0).dbuf 4
      = [0, 0, 0, 0] := by
  decide

theorem udp_findUnused_spec (sockets : Nat → udpSocket) :
    ∀ (n i : Nat),
      i ≤ udp_findUnused sockets n i ∧ udp_findUnused sockets n i ≤ i + n ∧
      (udp_findUnused sockets n i < i + n →
        (sockets (udp_findUnused sockets n i)).state = SOCKETSTATE_UNUSED) ∧
      (∀ k, i ≤ k → k < udp_findUnused sockets n i → (sockets k).state ≠ SOCKETSTATE_UNUSED) := by
  intro n
  induction n with
  | zero =>
    intro i
    simp only [udp_findUnused]
    exact ⟨by omega, by omega, fun h => absurd h (by omega), fun k h1 h2 => absurd h2 (by omega)⟩
  | succ n ih =>
    intro i
    rw [udp_findUnused]
    by_cases h : (sockets i).state ≠ SOCKETSTATE_UNUSED
    · rw [if_pos h]
      obtain ⟨a, b, c, d⟩ := ih (i + 1)
      refine ⟨by omega, by omega, fun hlt => c (by omega), ?_⟩
      intro k h1 h2
      by_cases hk : k = i
      · rw [hk]; exact h
      · exact d k (by omega) h2
    · rw [if_neg h]
      exact ⟨by omega, by omega, fun _ => not_not.mp h, fun k h1 h2 => absurd h2 (by omega)⟩

/-- C32: a received datagram is kept until the socket is re-registered.  `udp_handle`
leaves an ESTABLISHED socket as it is, whatever the datagram.  `udp_reregister` makes an
ESTABLISHED socket WAITING, its other fields and the other sockets unchanged, so that a
matching datagram that has room is stored at the start of the buffer again, and it changes
nothing for a socket in any other state.  `udp_disconnect` makes the socket UNUSED and
leaves the other sockets alone; a following `udp_register` then returns a socket, which is
this one when no socket before it is UNUSED, WAITING with the port, buffer and capacity
given. -/
theorem udp_socket_lifecycle (sockets : Nat → udpSocket) (i : Nat) :
    (∀ pkt, (sockets i).state = SOCKETSTATE_ESTABLISHED → udp_handle sockets pkt i = sockets i) ∧
    ((sockets i).state = SOCKETSTATE_ESTABLISHED →
      udp_reregister sockets i i = { sockets i with state := SOCKETSTATE_WAITING } ∧
      (∀ j, j ≠ i → udp_reregister sockets i j = sockets j) ∧
      (∀ pkt, i < MAX_UDP_SOCKETS → (sockets i).localPort = udpDestPort pkt →
        udpDataLen pkt < (sockets i).dMaxLen →
        (udp_handle (udp_reregister sockets i) pkt i).state = SOCKETSTATE_ESTABLISHED ∧
        (udp_handle (udp_reregister sockets i) pkt i).dLen = udpDataLen pkt ∧
        (udp_handle (udp_reregister sockets i) pkt i).sourceIP = read4 pkt 12 ∧
        ∀ k, k < udpDataLen pkt →
          (udp_handle (udp_reregister sockets i) pkt i).dbuf k = pkt (tcpOffset pkt + 8 + k))) ∧
    ((sockets i).state ≠ SOCKETSTATE_ESTABLISHED → udp_reregister sockets i = sockets) ∧
    (udp_disconnect sockets i i).state = SOCKETSTATE_UNUSED ∧
    (∀ j, j ≠ i → udp_disconnect sockets i j = sockets j) ∧
    (∀ port dbuf dMaxLen, i < MAX_UDP_SOCKETS →
      ∃ j, j ≤ i ∧ (udp_register (udp_disconnect sockets i) port dbuf dMaxLen).1 = some j ∧
        ((∀ k, k < i → (sockets k).state ≠ SOCKETSTATE_UNUSED) → j = i) ∧
        ((udp_register (udp_disconnect sockets i) port dbuf dMaxLen).2 j).state
          = SOCKETSTATE_WAITING ∧
        ((udp_register (udp_disconnect sockets i) port dbuf dMaxLen).2 j).localPort = port ∧
        ((udp_register (udp_disconnect sockets i) port dbuf dMaxLen).2 j).dbuf = dbuf ∧
        ((udp_register (udp_disconnect sockets i) port dbuf dMaxLen).2 j).dMaxLen = dMaxLen) := by
  refine ⟨?_, ?_, ?_, ?_, ?_, ?_⟩
  · intro pkt hs
    unfold udp_handle
    rw [udp_handle_loop_spec]
    by_cases hi : 0 ≤ i ∧ i < 0 + MAX_UDP_SOCKETS
    · rw [if_pos hi]
      unfold udp_handle_socket
      rw [if_neg (fun h => absurd (hs.symm.trans h.1) (by decide))]
    · rw [if_neg hi]
  · intro hs
    have hre : udp_reregister sockets i
        = Function.update sockets i { sockets i with state := SOCKETSTATE_WAITING } := by
      unfold udp_reregister
      rw [if_pos hs]
    refine ⟨?_, ?_, ?_⟩
    · rw [hre, Function.update_same]
    · intro j hj
      rw [hre, Function.update_noteq hj]
    · intro pkt hi hp hr
      rw [udp_handle_at _ pkt i hi, hre, Function.update_same]
      unfold udp_handle_socket
      rw [if_pos ⟨rfl, hp⟩, if_pos hr]
      refine ⟨rfl, rfl, rfl, ?_⟩
      intro k hk
      simp only []
      rw [if_pos hk]
  · intro hs
    unfold udp_reregister
    rw [if_neg hs]
  · unfold udp_disconnect
    rw [Function.update_same]
  · intro j hj
    unfold udp_disconnect
    rw [Function.update_noteq hj]
  · intro port dbuf dMaxLen hi
    obtain ⟨_, hb, hc, hd⟩ := udp_findUnused_spec (udp_disconnect sockets i) MAX_UDP_SOCKETS 0
    have hun : (udp_disconnect sockets i i).state = SOCKETSTATE_UNUSED := by
      unfold udp_disconnect
      rw [Function.update_same]
    have hle : udp_findUnused (udp_disconnect sockets i) MAX_UDP_SOCKETS 0 ≤ i := by
      by_contra hgt
      exact hd i (by omega) (by omega) hun
    have hlt : udp_findUnused (udp_disconnect sockets i) MAX_UDP_SOCKETS 0 < MAX_UDP_SOCKETS := by
      omega
    have hreg : udp_register (udp_disconnect sockets i) port dbuf dMaxLen
        = (some (udp_findUnused (udp_disconnect sockets i) MAX_UDP_SOCKETS 0),
           Function.update (udp_disconnect sockets i)
             (udp_findUnused (udp_disconnect sockets i) MAX_UDP_SOCKETS 0)
             { udp_disconnect sockets i
                 (udp_findUnused (udp_disconnect sockets i) MAX_UDP_SOCKETS 0) with
               state := SOCKETSTATE_WAITING, localPort := port, dbuf := dbuf,
               dMaxLen := dMaxLen }) := by
      unfold udp_register
      simp only []
      rw [if_pos hlt]
    refine ⟨_, hle, by rw [hreg], ?_, ?_, ?_, ?_, ?_⟩
    · intro hall
      by_contra hne
      have hk : udp_findUnused (udp_disconnect sockets i) MAX_UDP_SOCKETS 0 < i := by omega
      have h1 := hc (by omega)
      have hdis : ∀ k, k ≠ i → udp_disconnect sockets i k = sockets k := by
        intro k hk
        unfold udp_disconnect
        rw [Function.update_noteq hk]
      rw [hdis _ (by omega)] at h1
      exact hall _ hk h1
    all_goals rw [hreg]; simp only []; rw [Function.update_same]

/-- The witness of `udp_socket_lifecycle`: a socket that holds a datagram is not touched by
a second datagram for its port. -/
theorem udp_socket_lifecycle_witness :
    udp_handle (udpTableOf [udpHolding]) (udpDatagram 67 68 [1, 2, 3, 4]) 0
      = udpTableOf [udpHolding] 0 :=
  (udp_socket_lifecycle (udpTableOf [udpHolding]) 0).1 (udpDatagram 67 68 [1, 2, 3, 4])
    (by decide)

/-! ### tcp.c: the layout of a segment -/

theorem map_update_set (f : Nat → Nat) (n k x : Nat) :
    (List.range n).map (Function.update f k x) = ((List.range n).map f).set k x := by
  apply List.ext_getElem
  · simp
  · intro i h1 h2
    simp only [List.getElem_map, List.getElem_range, List.getElem_set, Function.update_apply]
    by_cases h : k = i
    · rw [if_pos h, if_pos h.symm]
    · rw [if_neg h, if_neg (fun e => h e.symm)]

theorem map_range_add (f : Nat → Nat) (a b : Nat) :
    (List.range (a + b)).map f = (List.range a).map f ++ (List.range b).map (fun i => f (a + i)) := by
  rw [List.range_add, List.map_append, List.map_map]
  rfl

/-- The first 32 bytes of the packet buffer as `tcp_send` builds them before the checksum is
computed: the pseudo header and the TCP header with a zero checksum field. -/
theorem tcp_buildHeader_bytes (pb : Mem) (ip : List Nat) (socket : tcpSocket) (flags len : Nat) :
    (List.range 32).map (tcp_buildHeader pb ip socket flags len)
      = take4 ip ++ take4 socket.destIP
        ++ [0, 6, (((len + 20) % 65536) >>> 8) % 256, ((len + 20) % 65536) &&& 0xFF]
        ++ [(socket.localPort >>> 8) % 256, socket.localPort &&& 0xFF,
            (socket.remotePort >>> 8) % 256, socket.remotePort &&& 0xFF]
        ++ take4 socket.seqNum ++ take4 socket.ackNum
        ++ [0x50, flags % 256, (tcp_windowSize socket >>> 8) % 256,
            tcp_windowSize socket &&& 0xFF, 0, 0, 0, 0] := by
  simp [List.range, List.range.loop, tcp_buildHeader, memcpy, Function.update_apply, take4,
    IPPACKETTYPE_TCP]

theorem tcp_buildHeader_checksum_field (pb : Mem) (ip : List Nat) (socket : tcpSocket)
    (flags len : Nat) :
    tcp_buildHeader pb ip socket flags len 28 = 0 ∧
    tcp_buildHeader pb ip socket flags len 29 = 0 := by
  simp [tcp_buildHeader, memcpy, Function.update_apply]

/-- The packet buffer after `tcp_send`, as a list: the 32 bytes of pseudo header and header,
the checksum stored, and the payload. -/
theorem tcp_send_buffer (st : tcpState) (cnt flags len : Nat) (hlen : len + 32 < 65536) :
    (List.range (32 + len)).map (tcp_send st cnt flags len).packetBuf
      = (((List.range (32 + len)).map
            (tcp_buildHeader st.packetBuf st.localIP (st.sockets cnt) flags len)).set 28
          ((ip_calculateChecksum
            (tcp_buildHeader st.packetBuf st.localIP (st.sockets cnt) flags len) (len + 32)
              >>> 8) % 256)).set 29
          (ip_calculateChecksum
            (tcp_buildHeader st.packetBuf st.localIP (st.sockets cnt) flags len) (len + 32)
              &&& 0xFF) := by
  have h : (len + 12 + 20) % 65536 = len + 32 := by omega
  unfold tcp_send
  simp only [h]
  rw [map_update_set, map_update_set]

theorem tcp_send_message (st : tcpState) (cnt flags len : Nat) (hlen : len + 32 < 65536) :
    ∃ c, (tcp_send st cnt flags len).sent = st.sent ++ [c] ∧
      c.ip = (st.sockets cnt).destIP ∧ c.protocol = IPPACKETTYPE_TCP ∧ c.msgLen = len + 20 ∧
      c.message = ((List.range (32 + len)).map (tcp_send st cnt flags len).packetBuf).drop 12 := by
  have h : (len + 20) % 65536 = len + 20 := by omega
  have e : 32 + len = (len + 20) + 12 := by omega
  refine ⟨_, rfl, rfl, rfl, ?_, ?_⟩
  · exact h
  · rw [e, map_range_drop]
    simp only [h]
    rfl

theorem isBytes4_cases (l : List Nat) (h : isBytes4 l) :
    ∃ a b c d, l = [a, b, c, d] ∧ a < 256 ∧ b < 256 ∧ c < 256 ∧ d < 256 := by
  obtain ⟨hl, hb⟩ := h
  match l, hl, hb with
  | [a, b, c, d], _, hb =>
    exact ⟨a, b, c, d, rfl, hb a (by simp), hb b (by simp), hb c (by simp), hb d (by simp)⟩

/-- C34: the layout and the checksum of a TCP segment.  For a payload of `len` bytes with
`len + 32 <= TCP_TX_BUF_SIZE`, `tcp_send` hands to `ip_send` one message of `len + 20`
bytes for the socket's remote address with protocol 6: local port, remote port, the
socket's 4 sequence bytes, its 4 acknowledgement bytes, the data-offset byte 0x50, the
flags, the window, the checksum `ck`, urgent 0, then the `len` payload bytes found at
offset 32 of the packet buffer.  `ck` is the checksum over the pseudo header (local
address, remote address, 0, 6, `len + 20`), the header with a zero checksum field and the
payload; the checksum over the pseudo header followed by the segment as sent is 0. -/
theorem segment_layout (st : tcpState) (cnt flags len : Nat)
    (hlen : len + 32 ≤ TCP_TX_BUF_SIZE)
    (hloc : isBytes4 st.localIP) (hdst : isBytes4 (st.sockets cnt).destIP)
    (hseq : isBytes4 (st.sockets cnt).seqNum) (hack : isBytes4 (st.sockets cnt).ackNum)
    (hlp : (st.sockets cnt).localPort < 65536) (hrp : (st.sockets cnt).remotePort < 65536)
    (hf : flags < 256) (hpay : ∀ i, i < len → st.packetBuf (32 + i) < 256) :
    ∃ c ck, (tcp_send st cnt flags len).sent = st.sent ++ [c] ∧
      c.ip = (st.sockets cnt).destIP ∧ c.protocol = IPPACKETTYPE_TCP ∧
      c.msgLen = len + 20 ∧ c.message.length = len + 20 ∧ ck < 65536 ∧
      c.message
        = [(st.sockets cnt).localPort / 256, (st.sockets cnt).localPort % 256,
           (st.sockets cnt).remotePort / 256, (st.sockets cnt).remotePort % 256]
          ++ (st.sockets cnt).seqNum ++ (st.sockets cnt).ackNum
          ++ [0x50, flags, tcp_windowSize (st.sockets cnt) / 256,
              tcp_windowSize (st.sockets cnt) % 256, ck / 256, ck % 256, 0, 0]
          ++ (List.range len).map (fun i => st.packetBuf (32 + i)) ∧
      ck = ip_calculateChecksum (memOfList (st.localIP ++ (st.sockets cnt).destIP
          ++ [0, 6, (len + 20) / 256, (len + 20) % 256]
          ++ [(st.sockets cnt).localPort / 256, (st.sockets cnt).localPort % 256,
              (st.sockets cnt).remotePort / 256, (st.sockets cnt).remotePort % 256]
          ++ (st.sockets cnt).seqNum ++ (st.sockets cnt).ackNum
          ++ [0x50, flags, tcp_windowSize (st.sockets cnt) / 256,
              tcp_windowSize (st.sockets cnt) % 256, 0, 0, 0, 0]
          ++ (List.range len).map (fun i => st.packetBuf (32 + i)))) (len + 32) ∧
      ip_calculateChecksum (memOfList (st.localIP ++ (st.sockets cnt).destIP
          ++ [0, 6, (len + 20) / 256, (len + 20) % 256] ++ c.message)) (len + 32) = 0 := by
  have hT : TCP_TX_BUF_SIZE = 220 := rfl
  obtain ⟨c, hsent, hip, hproto, hml, hmsg⟩ := tcp_send_message st cnt flags len (by omega)
  have hbuf := tcp_send_buffer st cnt flags len (by omega)
  have hH := tcp_buildHeader_bytes st.packetBuf st.localIP (st.sockets cnt) flags len
  obtain ⟨g28, g29⟩ :=
    tcp_buildHeader_checksum_field st.packetBuf st.localIP (st.sockets cnt) flags len
  have hpl : ∀ i, tcp_buildHeader st.packetBuf st.localIP (st.sockets cnt) flags len (32 + i)
      = st.packetBuf (32 + i) :=
    fun i => tcp_buildHeader_payload _ _ _ _ _ _ (by omega)
  have hw := tcp_windowSize_lt (st.sockets cnt)
  generalize tcp_windowSize (st.sockets cnt) = w at *
  generalize tcp_buildHeader st.packetBuf st.localIP (st.sockets cnt) flags len = pb0 at *
  obtain ⟨l0, l1, l2, l3, hL, hl0, hl1, hl2, hl3⟩ := isBytes4_cases _ hloc
  obtain ⟨d0, d1, d2, d3, hD, hd0, hd1, hd2, hd3⟩ := isBytes4_cases _ hdst
  obtain ⟨q0, q1, q2, q3, hS, hq0, hq1, hq2, hq3⟩ := isBytes4_cases _ hseq
  obtain ⟨a0, a1, a2, a3, hA, ha0, ha1, ha2, ha3⟩ := isBytes4_cases _ hack
  rw [hL, hD, hS, hA] at hH
  rw [hL, hD, hS, hA]
  generalize (st.sockets cnt).localPort = lp at *
  generalize (st.sockets cnt).remotePort = rp at *
  have h20 : len + 20 < 65536 := by omega
  have e1 : (((len + 20) % 65536) >>> 8) % 256 = (len + 20) / 256 := by
    rw [Nat.mod_eq_of_lt h20, shiftRight_eight]
    exact Nat.mod_eq_of_lt (by omega)
  have e2 : ((len + 20) % 65536) &&& 0xFF = (len + 20) % 256 := by
    rw [Nat.mod_eq_of_lt h20, and_255]
  have e3 : (lp >>> 8) % 256 = lp / 256 := by
    rw [shiftRight_eight]; exact Nat.mod_eq_of_lt (by omega)
  have e4 : (rp >>> 8) % 256 = rp / 256 := by
    rw [shiftRight_eight]; exact Nat.mod_eq_of_lt (by omega)
  have e5 : (w >>> 8) % 256 = w / 256 := by
    rw [shiftRight_eight]; exact Nat.mod_eq_of_lt (by omega)
  rw [e1, e2, e3, e4, e5, and_255, and_255, and_255, Nat.mod_eq_of_lt hf] at hH
  simp only [take4, List.getD_cons_zero, List.getD_cons_succ, List.cons_append, List.nil_append]
    at hH
  have hs0 : (List.range (32 + len)).map pb0
      = [l0, l1, l2, l3, d0, d1, d2, d3, 0, 6, (len + 20) / 256, (len + 20) % 256,
         lp / 256, lp % 256, rp / 256, rp % 256, q0, q1, q2, q3, a0, a1, a2, a3,
         0x50, flags, w / 256, w % 256, 0, 0, 0, 0]
        ++ (List.range len).map (fun i => st.packetBuf (32 + i)) := by
    rw [map_range_add, hH]
    congr 1
    exact List.map_congr_left (fun i _ => hpl i)
  have hb0 : ∀ b ∈ (List.range (32 + len)).map pb0, b < 256 := by
    intro b hb
    rw [hs0, List.mem_append] at hb
    rcases hb with hb | hb
    · simp only [List.mem_cons, List.mem_singleton, List.not_mem_nil, or_false] at hb
      rcases hb with h | h | h | h | h | h | h | h | h | h | h | h | h | h | h | h | h | h | h
        | h | h | h | h | h | h | h | h | h | h | h | h | h <;> rw [h] <;> omega
    · obtain ⟨i, hi, rfl⟩ := List.mem_map.mp hb
      exact hpay i (List.mem_range.mp hi)
  have hlen0 : ((List.range (32 + len)).map pb0).length = 32 + len := by simp
  have hreg := ip_calculateChecksum_region pb0 (32 + len)
  have hcle := ip_calculateChecksum_le _ hb0
  have hver := checksum_field_verifies _ 28 hb0 (by decide) (by rw [hlen0]; omega)
    (by rw [List.getD_eq_getElem?_getD, List.getElem?_map, List.getElem?_range (by omega)]
        simpa using g28)
    (by rw [List.getD_eq_getElem?_getD, List.getElem?_map, List.getElem?_range (by omega)]
        simpa using g29)
  have hckdef := hreg
  rw [hlen0, hs0] at hckdef
  rw [← hreg] at hver hcle
  rw [hlen0] at hver
  have e32 : len + 32 = 32 + len := by omega
  rw [e32] at hbuf ⊢
  generalize ip_calculateChecksum pb0 (32 + len) = ck at *
  have e6 : (ck >>> 8) % 256 = ck / 256 := by
    rw [shiftRight_eight]; exact Nat.mod_eq_of_lt (by omega)
  rw [e6, and_255] at hbuf
  rw [e6, and_255, Nat.mod_mod] at hver
  rw [← hbuf] at hver
  rw [hs0] at hbuf
  simp only [List.cons_append, List.nil_append, List.set_cons_succ, List.set_cons_zero] at hbuf
  rw [hbuf] at hmsg hver
  simp only [List.drop_succ_cons, List.drop_zero] at hmsg
  refine ⟨c, ck, hsent, hip.trans hD, hproto, hml, ?_, by omega, ?_, ?_, ?_⟩
  · rw [hmsg]; simp
  · rw [hmsg]; rfl
  · simp only [List.cons_append, List.nil_append]
    exact hckdef
  · rw [hmsg]
    simp only [List.cons_append, List.nil_append]
    exact hver

/-- The witness of `segment_layout`: the bare ACK of an ESTABLISHED socket (port 80, peer
192.168.2.50 port 1024, sequence and acknowledgement number 1) has 20 bytes, and the
checksum over pseudo header and segment is 0. -/
theorem segment_layout_witness :
    ∃ c, (tcp_send (tableOf (establishedSocket [0, 0, 0, 1] [0, 0, 0, 1]) (socket0 16 16 16))
        0 0x10 0).sent = [c] ∧ c.msgLen = 20 ∧
      c.message.take 16 = [0, 80, 4, 0, 0, 0, 0, 1, 0, 0, 0, 1, 0x50, 0x10, 0, 16] ∧
      ip_calculateChecksum (memOfList ([192, 168, 2, 156] ++ [192, 168, 2, 50]
        ++ [0, 6, 0, 20] ++ c.message)) 32 = 0 := by
  obtain ⟨c, ck, h1, _, _, h4, _, _, h7, _, h9⟩ :=
    segment_layout (tableOf (establishedSocket [0, 0, 0, 1] [0, 0, 0, 1]) (socket0 16 16 16))
      0 0x10 0 (by decide) (by decide) (by decide) (by decide) (by decide) (by decide)
      (by decide) (by decide) (fun i h => absurd h (Nat.not_lt_zero i))
  refine ⟨c, h1, h4, ?_, h9⟩
  rw [h7]
  rfl

/-! ### tcp.c and ip.c: the size of a data segment -/

/-- The new-data branch of `tcp_sustain` for one socket, seen from `ip_send`: the call made
is for the socket's remote address with protocol 6 and a message of `n + 20` bytes. -/
theorem tcp_sustain_socket_new_data_call (st : tcpState) (j n : Nat)
    (hstate : (st.sockets j).state = TCPSOCKETSTATE_ESTABLISHED)
    (hwfo : fifo_wf (st.sockets j).strm.out)
    (hwfs : fifo_size (st.sockets j).fsBuf ≠ 0 → fifo_wf (st.sockets j).fsBuf)
    (hfs0 : fifo_length (st.sockets j).fsBuf = 0)
    (hn : fifo_length (st.sockets j).strm.out = n) (hn1 : 1 ≤ n) (hn2 : n ≤ payloadBufLen) :
    ∃ st1 c, tcp_sustain_socket st j = some st1 ∧ st1.sent = st.sent ++ [c] ∧
      c.msgLen = n + 20 ∧ c.ip = (st.sockets j).destIP ∧ c.protocol = IPPACKETTYPE_TCP := by
  have hpl : payloadBufLen = 188 := rfl
  unfold tcp_sustain_socket
  simp only []
  generalize hs : (if (st.sockets j).ackState ≠ 0 then
      ({ st.sockets j with ackState := (st.sockets j).ackState - 1 } : tcpSocket)
    else st.sockets j) = s
  have e1 : s.state = (st.sockets j).state := by rw [← hs]; split <;> rfl
  have e2 : s.strm = (st.sockets j).strm := by rw [← hs]; split <;> rfl
  have e3 : s.fsBuf = (st.sockets j).fsBuf := by rw [← hs]; split <;> rfl
  have e4 : s.destIP = (st.sockets j).destIP := by rw [← hs]; split <;> rfl
  rw [← e1] at hstate
  rw [← e2] at hwfo hn
  rw [← e3] at hwfs hfs0
  rw [← e4]
  have c1 : ¬ s.state = TCPSOCKETSTATE_SYN_SENT := by rw [hstate]; decide
  have c5 : ¬ (fifo_size s.fsBuf ≠ 0 ∧ fifo_length s.fsBuf ≠ 0 ∧ s.ackState = 0) :=
    fun h => h.2.1 hfs0
  have c7 : fifo_length s.strm.out ≠ 0 := by omega
  have hmin : min (fifo_length s.strm.out) payloadBufLen = n := by
    rw [hn]; exact Nat.min_eq_left hn2
  rw [if_neg c1, if_pos hstate, if_neg c5, if_pos c7, hmin]
  obtain ⟨out1, fs1, pb1, d1, _⟩ :=
    tcp_fill_ok n 0 s.strm.out s.fsBuf st.packetBuf hwfo (by omega) hwfs
  rw [setSocket_packetBuf, d1]
  simp only []
  obtain ⟨c, hc1, hc2, hc3, hc4, _⟩ := tcp_send_message
    { setSocket (setSocket st j s) j { s with strm := { s.strm with out := out1 }, fsBuf := fs1 }
      with packetBuf := pb1 }
    j (TCPFLAGS_ACK ||| TCPFLAGS_PSH) n (by omega)
  refine ⟨_, c, rfl, ?_, hc4, ?_, hc3⟩
  · rw [setSocket_sent, hc1]; rfl
  · rw [hc2]
    simp [setSocket_same]

/-- C36, as the code has it: the payload capacity of tcp.c is larger than what `ip_send`
accepts.  `payloadBufLen` is `TCP_TX_BUF_SIZE - 32 = 188`.  A pass of `tcp_sustain` over
an ESTABLISHED socket with `n` bytes to send (`1 <= n <= 188`, nothing held back) hands one
segment of `n + 20` bytes to `ip_send`, leaves the send fifo empty and advances the
sequence number by `n`.  The segment passes the size check of `ip_send` exactly when
`n <= 120`; for `120 < n` the call of `ip_send` returns at once, whatever the state of
ip.c, and nothing is transmitted. -/
theorem payload_capacity (wait : ipState → ipState) (ipst : ipState) (st : tcpState)
    (j n : Nat) (hj : j < MAX_TCP_SOCKETS)
    (hrun : st.sustainer_running = 0)
    (hwf : ∀ i, i < MAX_TCP_SOCKETS →
      (st.sockets i).state = TCPSOCKETSTATE_ESTABLISHED → socket_wf (st.sockets i))
    (hstate : (st.sockets j).state = TCPSOCKETSTATE_ESTABLISHED)
    (hfs0 : fifo_length (st.sockets j).fsBuf = 0)
    (hres : (st.sockets j).fsBuf.size = 0 ∨
      (st.sockets j).fsBuf.size = (st.sockets j).strm.out.size)
    (hn : fifo_length (st.sockets j).strm.out = n) (hn1 : 1 ≤ n) (hn2 : n ≤ payloadBufLen)
    (hseq : isBytes4 (st.sockets j).seqNum) :
    payloadBufLen = TCP_TX_BUF_SIZE - 32 ∧ payloadBufLen = 188 ∧
    ∃ st1 new c, tcp_sustain st = some st1 ∧ st1.sent = st.sent ++ new ∧
      new.filter (fun e => decide (e.sock = j)) = [c] ∧
      c.msgLen = n + 20 ∧ c.payload = fifo_contents (st.sockets j).strm.out ∧
      fifo_length (st1.sockets j).strm.out = 0 ∧
      be32 (st1.sockets j).seqNum = (be32 (st.sockets j).seqNum + n) % 4294967296 ∧
      (c.msgLen + 20 ≤ ipBufSize ↔ n ≤ 120) ∧
      (120 < n →
        ip_send wait ipst c.ip c.protocol (memOfList c.message) c.msgLen = some ipst) := by
  refine ⟨rfl, rfl, ?_⟩
  have hpl : payloadBufLen = 188 := rfl
  obtain ⟨hwo, hws⟩ := hwf j hj hstate
  obtain ⟨stA, pre, a1, a2, a3, a4⟩ := tcp_sustain_pass st j hj hrun hwf
  have hsz : fifo_size (st.sockets j).fsBuf = (st.sockets j).fsBuf.size := by
    have h3 := hwo.2.2
    unfold fifo_size
    rcases hres with h | h <;> rw [h] <;> omega
  have hcap : fifo_size (st.sockets j).fsBuf ≠ 0 → n ≤ (st.sockets j).fsBuf.size - 1 := by
    intro hz
    have h1 := fifo_length_le _ hwo
    rw [hsz] at hz
    rcases hres with h | h
    · exact absurd h hz
    · rw [h]; omega
  rw [← a1] at hstate hwo hws hfs0 hcap hn hseq
  obtain ⟨stB, c, b1, b2, b3, _, _, b6, _, b8, _, _, _, b12, _⟩ :=
    tcp_sustain_socket_new_data stA j n hstate hwo hws hfs0 hcap hn hn1 hn2 hseq
  obtain ⟨stB2, c2, e1, e2, e3, _, _⟩ :=
    tcp_sustain_socket_new_data_call stA j n hstate hwo hws hfs0 hn hn1 hn2
  have hst : stB2 = stB := Option.some.inj (e1.symm.trans b1)
  rw [hst, b2] at e2
  have hc : c2 = c := by
    have := List.append_cancel_left e2
    simpa using this.symm
  rw [hc] at e3
  obtain ⟨st1, post, d1, d2, d3, d4, _⟩ := a4 stB b1
  refine ⟨st1, pre ++ [c] ++ post, c, d1, ?_, ?_, e3, ?_, ?_, ?_, ?_, ?_⟩
  · rw [d3, b2, a2]; simp
  · rw [List.filter_append, List.filter_append, filter_sock_none _ _ a3,
      filter_sock_none _ _ d4]
    simp [b3]
  · rw [b6, a1]
  · rw [d2]; exact b8
  · rw [d2, b12, a1]
  · rw [e3]
    have : ipBufSize = 160 := rfl
    omega
  · intro hgt
    unfold ip_send
    rw [e3, if_pos (by
      have : ipBufSize = 160 := rfl
      omega)]

set_option maxRecDepth 16384 in
/-- The witness of `payload_capacity`: with 150 bytes written to a socket whose fifos have
size 256, one pass of `tcp_sustain` empties the send fifo, moves the sequence number from 1
to 151 and hands a segment of 170 bytes to `ip_send`, which drops it although the peer
192.168.2.50 is in the ARP table: no frame is added. -/
theorem payload_capacity_witness :
    ∃ st1 c, tcp_sustain (tableOf bulkSocket (socket0 16 16 16)) = some st1 ∧
      st1.sent.filter (fun e => decide (e.sock = 0)) = [c] ∧ c.msgLen = 170 ∧
      fifo_length (st1.sockets 0).strm.out = 0 ∧ be32 (st1.sockets 0).seqNum = 151 ∧
      ip_send noAnswer ipStateKnown c.ip c.protocol (memOfList c.message) c.msgLen
        = some ipStateKnown := by
  obtain ⟨_, _, st1, new, c, h1, h2, h3, h4, _, h6, h7, _, h9⟩ :=
    payload_capacity noAnswer ipStateKnown (tableOf bulkSocket (socket0 16 16 16)) 0 150
      (by decide) (by decide) (by decide) (by decide) (by decide) (by decide) (by decide)
      (by decide) (by decide) (by decide)
  refine ⟨st1, c, h1, ?_, h4, h6, h7, h9 (by decide)⟩
  rw [h2]
  exact h3

/-! ### tcp.c: a data segment handled twice -/

/-- The ESTABLISHED block of `tcp_handle` on a segment with data and neither SYN nor FIN,
seen from the socket: the ack number is the segment's sequence number plus the data count,
the payload is appended to the receive fifo as far as there is room, and state, addresses
and the other sockets are as before. -/
theorem tcp_handle_established_data_socket (st : tcpState) (pkt : Mem) (j : Nat)
    (hn : dataCount pkt ≠ 0)
    (hsyn : pktCodeBits pkt &&& TCPFLAGS_SYN = 0)
    (hfin : pktCodeBits pkt &&& TCPFLAGS_FIN = 0)
    (hwf : fifo_wf (st.sockets j).strm.in_) :
    ∃ st1, tcp_handle_established st j pkt = some st1 ∧
      (st1.sockets j).ackNum = increaseNum (pktSeqNum pkt) (toI16 (dataCount pkt)) ∧
      fifo_contents (st1.sockets j).strm.in_
        = fifo_contents (st.sockets j).strm.in_ ++
          (pktPayload pkt).take
            ((st.sockets j).strm.in_.size - 1 - fifo_length (st.sockets j).strm.in_) ∧
      fifo_wf (st1.sockets j).strm.in_ ∧
      (st1.sockets j).strm.in_.size = (st.sockets j).strm.in_.size ∧
      (st1.sockets j).state = (st.sockets j).state ∧
      (st1.sockets j).destIP = (st.sockets j).destIP ∧
      (st1.sockets j).localPort = (st.sockets j).localPort ∧
      (st1.sockets j).remotePort = (st.sockets j).remotePort ∧
      (∀ i, i ≠ j → st1.sockets i = st.sockets i) := by
  unfold tcp_handle_established
  simp only [hsyn, hfin, ne_eq, not_true_eq_false, if_false, hn, not_false_eq_true, if_true]
  generalize hs1 : (if ¬ pktCodeBits pkt &&& TCPFLAGS_ACK = 0 then
      if take4 (st.sockets j).seqNum = pktAckNum pkt then
        ({ st.sockets j with ackState := 0, retryCounter := 0,
                             fsBuf := fifo_reset (st.sockets j).fsBuf } : tcpSocket)
      else st.sockets j
    else st.sockets j) = s1
  have hin : s1.strm = (st.sockets j).strm := by
    rw [← hs1]; split
    · split <;> rfl
    · rfl
  have h1 : s1.state = (st.sockets j).state := by
    rw [← hs1]; split
    · split <;> rfl
    · rfl
  have h2 : s1.destIP = (st.sockets j).destIP := by
    rw [← hs1]; split
    · split <;> rfl
    · rfl
  have h3 : s1.localPort = (st.sockets j).localPort := by
    rw [← hs1]; split
    · split <;> rfl
    · rfl
  have h4 : s1.remotePort = (st.sockets j).remotePort := by
    rw [← hs1]; split
    · split <;> rfl
    · rfl
  obtain ⟨f1, hf1, hf2, hf3, hf4⟩ := tcp_copyData_ok (fun i => pkt (tcpOffset pkt + i))
    (tcpHeaderLen pkt) (dataCount pkt) 0 (st.sockets j).strm.in_ hwf
  rw [pktPayload_eq] at hf4
  simp only [increaseAckNum, hin, hf1]
  refine ⟨_, rfl, ?_, ?_, ?_, ?_, ?_, ?_, ?_, ?_, ?_⟩
  · simp only [tcp_send_socket, setSocket_same]
  · simp only [tcp_send_socket, setSocket_same]
    exact hf4
  · simp only [tcp_send_socket, setSocket_same]
    exact hf2
  · simp only [tcp_send_socket, setSocket_same]
    exact hf3
  · simp only [tcp_send_socket, setSocket_same]
    exact h1
  · simp only [tcp_send_socket, setSocket_same]
    exact h2
  · simp only [tcp_send_socket, setSocket_same]
    exact h3
  · simp only [tcp_send_socket, setSocket_same]
    exact h4
  · intro i hi
    rw [tcp_send_sockets _ _ _ _ _ hi, setSocket_ne _ _ _ _ hi]

/-- C37, as the code has it: `tcp_handle` does not compare the sequence number of a segment
with the socket's ack number, so a data segment handled twice is stored twice.  When the
first socket of the table that the segment matches is ESTABLISHED with the segment's
addresses and the segment carries `n > 0` data bytes that fit into the receive fifo, and
neither SYN nor FIN (its sequence number is any), the first `tcp_handle` appends the
payload and sets the ack number to the segment's sequence number plus `n`; a second
`tcp_handle` of the same segment leaves the ack number at that value and appends the
payload once more, as far as the room left goes. -/
theorem duplicate_segment (st : tcpState) (pkt : Mem) (j : Nat) (hj : j < MAX_TCP_SOCKETS)
    (hbytes : ∀ i, pkt i < 256)
    (hstate : (st.sockets j).state = TCPSOCKETSTATE_ESTABLISHED)
    (hip : take4 (st.sockets j).destIP = pktSourceIP pkt)
    (hlport : (st.sockets j).localPort = pktLocalPort pkt)
    (hrport : (st.sockets j).remotePort = pktRemotePort pkt)
    (hfirst : ∀ i, i < j → ¬ captures (st.sockets i) pkt)
    (hsyn : pktCodeBits pkt &&& TCPFLAGS_SYN = 0)
    (hfin : pktCodeBits pkt &&& TCPFLAGS_FIN = 0)
    (hn : dataCount pkt ≠ 0)
    (hwf : fifo_wf (st.sockets j).strm.in_)
    (hfit : fifo_length (st.sockets j).strm.in_ + dataCount pkt
      ≤ (st.sockets j).strm.in_.size - 1) :
    ∃ st1 st2, tcp_handle st pkt = some st1 ∧ tcp_handle st1 pkt = some st2 ∧
      fifo_contents (st1.sockets j).strm.in_
        = fifo_contents (st.sockets j).strm.in_ ++ pktPayload pkt ∧
      be32 (st1.sockets j).ackNum = (be32 (pktSeqNum pkt) + dataCount pkt) % 4294967296 ∧
      (st2.sockets j).ackNum = (st1.sockets j).ackNum ∧
      fifo_contents (st2.sockets j).strm.in_
        = fifo_contents (st.sockets j).strm.in_ ++ pktPayload pkt ++
          (pktPayload pkt).take
            ((st.sockets j).strm.in_.size - 1 - fifo_length (st.sockets j).strm.in_
              - dataCount pkt) := by
  have hdc : dataCount pkt < 65536 := by
    unfold dataCount toU16; omega
  have hplen : (pktPayload pkt).length = dataCount pkt := by
    rw [pktPayload, List.length_map, List.length_range]
  obtain ⟨st1, a1, a2, a3, a4, a5, a6, a7, a8, a9, a10⟩ :=
    tcp_handle_established_data_socket st pkt j hn hsyn hfin hwf
  rw [List.take_of_length_le (by rw [hplen]; omega)] at a3
  have hfirst1 : ∀ i, i < j → ¬ captures (st1.sockets i) pkt := by
    intro i hi
    rw [a10 i (by omega)]
    exact hfirst i hi
  obtain ⟨st2, b1, b2, b3, _⟩ :=
    tcp_handle_established_data_socket st1 pkt j hn hsyn hfin a4
  have hl1 : fifo_length (st1.sockets j).strm.in_
      = fifo_length (st.sockets j).strm.in_ + dataCount pkt := by
    rw [← fifo_contents_length, a3, List.length_append, fifo_contents_length, hplen]
  refine ⟨st1, st2, ?_, ?_, a3, ?_, ?_, ?_⟩
  · rw [tcp_handle_reaches st pkt j hj hstate hip hlport hrport hfirst, a1]
  · rw [tcp_handle_reaches st1 pkt j hj (a6.trans hstate) (by rw [a7]; exact hip)
      (a8.trans hlport) (a9.trans hrport) hfirst1, b1]
  · rw [a2]
    exact be32_increaseNum _ _ (isBytes4_pktSeqNum pkt hbytes) hdc
  · rw [b2, a2]
  · rw [b3, a3, a5, hl1]
    congr 2
    omega

/-- The witness of `duplicate_segment`: the segment "hello" handled twice by a socket with
an empty receive fifo of size 16. -/
theorem duplicate_segment_witness :
    ∃ st1 st2,
      tcp_handle (tableOf (establishedSocket [0, 0, 0, 1] [0, 0, 0, 1]) (socket0 16 16 16))
        helloPacket = some st1 ∧
      tcp_handle st1 helloPacket = some st2 ∧
      (st2.sockets 0).ackNum = (st1.sockets 0).ackNum ∧
      fifo_contents (st2.sockets 0).strm.in_
        = [104, 101, 108, 108, 111, 104, 101, 108, 108, 111] := by
  obtain ⟨st1, st2, h1, h2, _, _, h5, h6⟩ :=
    duplicate_segment (tableOf (establishedSocket [0, 0, 0, 1] [0, 0, 0, 1]) (socket0 16 16 16))
      helloPacket 0 (by decide) (memOfList_lt _ (by decide)) (by decide) (by decide)
      (by decide) (by decide) (fun i h => absurd h (Nat.not_lt_zero i)) (by decide)
      (by decide) (by decide) (by decide) (by decide)
  exact ⟨st1, st2, h1, h2, h5, h6.trans (by decide)⟩

/-- C37 as stated fails: the segment "hello" with sequence number 1 handled twice by an
ESTABLISHED socket with ack number 1 and an empty receive fifo of size 16.  After the first
handling the fifo holds "hello" and the ack number is 6; the second handling, of a segment
whose sequence number 1 is not that ack number, leaves "hellohello" in the fifo. -/
theorem duplicate_segment_counterexample :
    (tcp_handle (tableOf (establishedSocket [0, 0, 0, 1] [0, 0, 0, 1]) (socket0 16 16 16))
        helloPacket).map
      (fun st1 => (fifo_contents (st1.sockets 0).strm.in_, (st1.sockets 0).ackNum))
      = some ([104, 101, 108, 108, 111], [0, 0, 0, 6]) ∧
    pktSeqNum helloPacket = [0, 0, 0, 1] ∧
    ((tcp_handle (tableOf (establishedSocket [0, 0, 0, 1] [0, 0, 0, 1]) (socket0 16 16 16))
        helloPacket).bind (fun st1 => tcp_handle st1 helloPacket)).map
      (fun st2 => (fifo_contents (st2.sockets 0).strm.in_, (st2.sockets 0).ackNum))
      = some ([104, 101, 108, 108, 111, 104, 101, 108, 108, 111], [0, 0, 0, 6]) := by
  decide

/-! ### tcp.c: `tcp_connect` and the retransmission of the SYN -/

/-- A segment without payload as `tcp_send` hands it to `ip_send`: flags, sequence bytes
and port bytes. -/
theorem tcp_send_syn (st : tcpState) (cnt flags : Nat) (hf : flags < 256) :
    ∃ c, (tcp_send st cnt flags 0).sent = st.sent ++ [c] ∧ c.sock = cnt ∧ c.flags = flags ∧
      c.seqField = take4 (st.sockets cnt).seqNum ∧ c.payload = [] ∧
      c.ports = [((st.sockets cnt).localPort >>> 8) % 256, (st.sockets cnt).localPort &&& 0xFF,
                 ((st.sockets cnt).remotePort >>> 8) % 256,
                 (st.sockets cnt).remotePort &&& 0xFF] := by
  obtain ⟨c, h1, h2, _, h4, h5, _, h7⟩ := tcp_send_sent st cnt flags 0 (by omega)
  obtain ⟨c2, g1, _, _, _, g5⟩ := tcp_send_message st cnt flags 0 (by omega)
  have hc : c2 = c := by
    have := List.append_cancel_left (g1.symm.trans h1)
    simpa using this
  rw [hc] at g5
  refine ⟨c, h1, h2, by rw [h4, Nat.mod_eq_of_lt hf], h5, by simpa using h7, ?_⟩
  unfold ipSendCall.ports
  rw [g5, tcp_send_buffer st cnt flags 0 (by omega)]
  have hH := tcp_buildHeader_bytes st.packetBuf st.localIP (st.sockets cnt) flags 0
  generalize tcp_buildHeader st.packetBuf st.localIP (st.sockets cnt) flags 0 = pb0 at *
  rw [show 32 + 0 = 32 from rfl, hH]
  simp [take4]

theorem syn_wait_pass (j a r : Nat) (seq : List Nat) (p : Nat × Nat) (sent : List ipSendCall)
    (st : tcpState) (hj : j < MAX_TCP_SOCKETS) (h : awaiting_synack j (a + 2) r seq p sent st) :
    ∃ st1, tcp_sustain st = some st1 ∧ awaiting_synack j (a + 1) r seq p sent st1 := by
  obtain ⟨h1, h2, h3, h4, h5, h6, h7, h8, h9⟩ := h
  have hB : tcp_sustain_socket { st with sustainer_running := 1 } j
      = some (setSocket { st with sustainer_running := 1 } j
          { st.sockets j with ackState := (st.sockets j).ackState - 1 }) := by
    unfold tcp_sustain_socket
    have c1 : (st.sockets j).ackState ≠ 0 := by omega
    have c3 : ¬ ((st.sockets j).ackState - 1 = 0) := by omega
    simp only [c1, ne_eq, not_false_eq_true, if_true, h3, c3, if_false]
  have hT := tcp_sustain_alone st _ j hj h1 h2 hB (fun i hi => setSocket_ne _ _ _ _ hi)
  refine ⟨_, hT, rfl, ?_, ?_, ?_, ?_, ?_, ?_, ?_, ?_⟩
  · intro i hi hne
    show socket_idle ((setSocket _ j _).sockets i)
    rw [setSocket_ne _ _ _ _ hne]
    exact h2 i hi hne
  · show ((setSocket _ j _).sockets j).state = _
    rw [setSocket_same]; exact h3
  · show ((setSocket _ j _).sockets j).ackState = _
    rw [setSocket_same]
    show (st.sockets j).ackState - 1 = a + 1
    omega
  · show ((setSocket _ j _).sockets j).retryCounter = _
    rw [setSocket_same]; exact h5
  · show ((setSocket _ j _).sockets j).seqNum = _
    rw [setSocket_same]; exact h6
  · exact h7
  · show ((setSocket _ j _).sockets j).localPort = _
    rw [setSocket_same]; exact h8
  · show ((setSocket _ j _).sockets j).remotePort = _
    rw [setSocket_same]; exact h9

theorem syn_wait_passes (j r : Nat) (seq : List Nat) (p : Nat × Nat) (sent : List ipSendCall)
    (hj : j < MAX_TCP_SOCKETS) :
    ∀ (k a : Nat) (st : tcpState), awaiting_synack j (a + 1 + k) r seq p sent st →
      ∃ st1, tcp_sustain_n k st = some st1 ∧ awaiting_synack j (a + 1) r seq p sent st1 := by
  intro k
  induction k with
  | zero => intro a st h; exact ⟨st, rfl, h⟩
  | succ k ih =>
    intro a st h
    have e : a + 1 + (k + 1) = (a + k) + 2 := by omega
    rw [e] at h
    obtain ⟨st1, g1, g2⟩ := syn_wait_pass j (a + k) r seq p sent st hj h
    have e2 : a + k + 1 = a + 1 + k := by omega
    rw [e2] at g2
    obtain ⟨st2, g3, g4⟩ := ih a st1 g2
    exact ⟨st2, by rw [tcp_sustain_n, g1]; exact g3, g4⟩

/-- The body of the loop of `tcp_sustain` for a socket in SYN_SENT whose countdown ends in
this pass with a retry left: the SYN is sent again, with the sequence bytes the socket has
now, and the countdown starts again. -/
theorem tcp_sustain_socket_syn_due (st : tcpState) (j : Nat)
    (h3 : (st.sockets j).state = TCPSOCKETSTATE_SYN_SENT)
    (h4 : (st.sockets j).ackState = 1) (h5 : (st.sockets j).retryCounter ≠ 0) :
    ∃ stB c, tcp_sustain_socket st j = some stB ∧ stB.sent = st.sent ++ [c] ∧
      (∀ i, i ≠ j → stB.sockets i = st.sockets i) ∧
      stB.sustainer_running = st.sustainer_running ∧
      (stB.sockets j).state = TCPSOCKETSTATE_SYN_SENT ∧
      (stB.sockets j).ackState = TCP_RETRY_INTERVAL ∧
      (stB.sockets j).retryCounter = (st.sockets j).retryCounter - 1 ∧
      (stB.sockets j).seqNum = (st.sockets j).seqNum ∧
      (stB.sockets j).localPort = (st.sockets j).localPort ∧
      (stB.sockets j).remotePort = (st.sockets j).remotePort ∧
      c.sock = j ∧ c.flags = TCPFLAGS_SYN ∧ c.seqField = take4 (st.sockets j).seqNum ∧
      c.payload = [] ∧
      c.ports = [((st.sockets j).localPort >>> 8) % 256, (st.sockets j).localPort &&& 0xFF,
                 ((st.sockets j).remotePort >>> 8) % 256,
                 (st.sockets j).remotePort &&& 0xFF] := by
  unfold tcp_sustain_socket
  simp only []
  generalize hs : (if (st.sockets j).ackState ≠ 0 then
      ({ st.sockets j with ackState := (st.sockets j).ackState - 1 } : tcpSocket)
    else st.sockets j) = s
  have e1 : s.state = TCPSOCKETSTATE_SYN_SENT := by rw [← hs]; split <;> exact h3
  have e2 : s.ackState = 0 := by
    rw [← hs, if_pos (by omega)]
    show (st.sockets j).ackState - 1 = 0
    omega
  have e3 : s.retryCounter = (st.sockets j).retryCounter := by rw [← hs]; split <;> rfl
  have e4 : s.seqNum = (st.sockets j).seqNum := by rw [← hs]; split <;> rfl
  have e5 : s.localPort = (st.sockets j).localPort := by rw [← hs]; split <;> rfl
  have e6 : s.remotePort = (st.sockets j).remotePort := by rw [← hs]; split <;> rfl
  obtain ⟨c, g1, g2, g3, g4, g5, g6⟩ := tcp_send_syn (setSocket st j s) j TCPFLAGS_SYN
    (by decide)
  rw [setSocket_same] at g4 g6
  rw [setSocket_sent] at g1
  rw [if_pos e1, if_pos e2, if_pos (by rw [e3]; exact h5)]
  refine ⟨_, c, rfl, ?_, ?_, rfl, ?_, ?_, ?_, ?_, ?_, ?_, g2, g3, by rw [g4, e4], g5,
    by rw [g6, e5, e6]⟩
  · rw [setSocket_sent, g1]
  · intro i hi
    rw [setSocket_ne _ _ _ _ hi, tcp_send_sockets _ _ _ _ _ hi, setSocket_ne _ _ _ _ hi]
  · rw [setSocket_same]
    simp only [tcp_send_socket, setSocket_same]
    exact e1
  · rw [setSocket_same]
  · rw [setSocket_same]
    simp only [tcp_send_socket, setSocket_same]
    rw [e3]
  · rw [setSocket_same]
    simp only [tcp_send_socket, setSocket_same]
    exact e4
  · rw [setSocket_same]
    simp only [tcp_send_socket, setSocket_same]
    exact e5
  · rw [setSocket_same]
    simp only [tcp_send_socket, setSocket_same]
    exact e6

/-- The pass of `tcp_sustain` in which the countdown of a socket in SYN_SENT ends with a
retry left: the SYN is sent again, with the sequence bytes the socket has now. -/
theorem syn_retransmit_pass (j r : Nat) (seq : List Nat) (p : Nat × Nat)
    (sent : List ipSendCall) (st : tcpState) (hj : j < MAX_TCP_SOCKETS)
    (h : awaiting_synack j 1 (r + 1) seq p sent st) :
    ∃ st1 c, tcp_sustain st = some st1 ∧
      awaiting_synack j TCP_RETRY_INTERVAL r seq p (sent ++ [c]) st1 ∧
      c.sock = j ∧ c.flags = TCPFLAGS_SYN ∧ c.seqField = take4 seq ∧ c.payload = [] ∧
      c.ports = [(p.1 >>> 8) % 256, p.1 &&& 0xFF, (p.2 >>> 8) % 256, p.2 &&& 0xFF] := by
  obtain ⟨h1, h2, h3, h4, h5, h6, h7, h8, h9⟩ := h
  obtain ⟨stB, c, b1, b2, b3, _, b5, b6, b7, b8, b9, b10, b11, b12, b13, b14, b15⟩ :=
    tcp_sustain_socket_syn_due { st with sustainer_running := 1 } j h3 h4
      (by show (st.sockets j).retryCounter ≠ 0; omega)
  have hT := tcp_sustain_alone st stB j hj h1 h2 b1 b3
  refine ⟨_, c, hT, ⟨rfl, ?_, b5, b6, ?_, b8.trans h6, ?_, b9.trans h8, b10.trans h9⟩,
    b11, b12, ?_, b14, ?_⟩
  · intro i hi hne
    show socket_idle (stB.sockets i)
    rw [b3 i hne]
    exact h2 i hi hne
  · show (stB.sockets j).retryCounter = r
    rw [b7]
    show (st.sockets j).retryCounter - 1 = r
    omega
  · show stB.sent = sent ++ [c]
    rw [b2]
    show st.sent ++ [c] = sent ++ [c]
    rw [h7]
  · rw [b13]
    show take4 (st.sockets j).seqNum = take4 seq
    rw [h6]
  · rw [b15]
    show [((st.sockets j).localPort >>> 8) % 256, (st.sockets j).localPort &&& 0xFF,
      ((st.sockets j).remotePort >>> 8) % 256, (st.sockets j).remotePort &&& 0xFF] = _
    rw [h8, h9]

/-- What `tcp_connect` does: the socket is in SYN_SENT with the countdown and the retries
set, one SYN carrying the socket's sequence bytes has been handed to `ip_send`, and the
sequence number has been advanced by 1 afterwards. -/
theorem tcp_connect_spec (st : tcpState) (j : Nat) (hrun : st.sustainer_running = 0)
    (hidle : ∀ i, i < MAX_TCP_SOCKETS → i ≠ j → socket_idle (st.sockets i)) :
    ∃ c, awaiting_synack j TCP_RETRY_INTERVAL TCP_TOTAL_RETRIES
        (increaseNum (st.sockets j).seqNum 1)
        ((st.sockets j).localPort, (st.sockets j).remotePort) (st.sent ++ [c])
        (tcp_connect st j) ∧
      c.sock = j ∧ c.flags = TCPFLAGS_SYN ∧ c.seqField = take4 (st.sockets j).seqNum ∧
      c.payload = [] ∧
      c.ports = [((st.sockets j).localPort >>> 8) % 256, (st.sockets j).localPort &&& 0xFF,
                 ((st.sockets j).remotePort >>> 8) % 256,
                 (st.sockets j).remotePort &&& 0xFF] := by
  obtain ⟨c, g1, g2, g3, g4, g5, g6⟩ := tcp_send_syn
    (setSocket st j { st.sockets j with state := TCPSOCKETSTATE_SYN_SENT,
                                        ackState := TCP_RETRY_INTERVAL,
                                        retryCounter := TCP_TOTAL_RETRIES })
    j TCPFLAGS_SYN (by decide)
  rw [setSocket_same] at g4 g6
  rw [setSocket_sent] at g1
  refine ⟨c, ⟨hrun, ?_, ?_, ?_, ?_, ?_, ?_, ?_, ?_⟩, g2, g3, g4, g5, g6⟩
  · intro i hi hne
    unfold tcp_connect
    simp only []
    rw [setSocket_ne _ _ _ _ hne, tcp_send_sockets _ _ _ _ _ hne, setSocket_ne _ _ _ _ hne]
    exact hidle i hi hne
  all_goals unfold tcp_connect
  all_goals simp only [setSocket_same, setSocket_sent, increaseSeqNum, tcp_send_socket, g1]

/-- C38, as the code has it: the SYN sent again does not carry the sequence number of the
first one.  `tcp_connect` hands a SYN with the socket's sequence number to `ip_send` and
then advances that number by 1.  With no reply and the other sockets idle, the next 999
passes of `tcp_sustain` send nothing, and the 1000th sends the SYN again: same ports, but
the sequence number field is that of the first SYN plus 1. -/
theorem syn_retransmission (st : tcpState) (j : Nat) (hj : j < MAX_TCP_SOCKETS)
    (hrun : st.sustainer_running = 0)
    (hidle : ∀ i, i < MAX_TCP_SOCKETS → i ≠ j → socket_idle (st.sockets i))
    (hseq : isBytes4 (st.sockets j).seqNum) :
    ∃ c0 c1 st1 st2, (tcp_connect st j).sent = st.sent ++ [c0] ∧
      tcp_sustain_n 999 (tcp_connect st j) = some st1 ∧ st1.sent = st.sent ++ [c0] ∧
      tcp_sustain st1 = some st2 ∧ st2.sent = st.sent ++ [c0, c1] ∧
      (st2.sockets j).state = TCPSOCKETSTATE_SYN_SENT ∧
      c0.flags = TCPFLAGS_SYN ∧ c1.flags = TCPFLAGS_SYN ∧ c0.payload = [] ∧ c1.payload = [] ∧
      c1.ports = c0.ports ∧
      c0.seqField = (st.sockets j).seqNum ∧
      be32 c1.seqField = (be32 c0.seqField + 1) % 4294967296 ∧
      c1.seqField ≠ c0.seqField := by
  obtain ⟨c0, a1, _, a3, a4, a5, a6⟩ := tcp_connect_spec st j hrun hidle
  obtain ⟨st1, b1, b2⟩ := syn_wait_passes j TCP_TOTAL_RETRIES
    (increaseNum (st.sockets j).seqNum 1) ((st.sockets j).localPort, (st.sockets j).remotePort)
    (st.sent ++ [c0]) hj 999 0 (tcp_connect st j) a1
  obtain ⟨st2, c1, d1, d2, _, d4, d5, d6, d7⟩ := syn_retransmit_pass j 1
    (increaseNum (st.sockets j).seqNum 1) ((st.sockets j).localPort, (st.sockets j).remotePort)
    (st.sent ++ [c0]) st1 hj b2
  have e1 : (1 : Int) = toI16 1 := by decide
  have hs0 : c0.seqField = (st.sockets j).seqNum := by rw [a4, isBytes4_take4 _ hseq]
  have hs1 : be32 c1.seqField = (be32 c0.seqField + 1) % 4294967296 := by
    rw [d5, isBytes4_take4 _ (isBytes4_increaseNum _ _), hs0, e1]
    exact be32_increaseNum _ 1 hseq (by decide)
  refine ⟨c0, c1, st1, st2, a1.2.2.2.2.2.2.1, b1, b2.2.2.2.2.2.2.1, d1, ?_, d2.2.2.1, a3, d4,
    a5, d6, by rw [d7, a6], hs0, hs1, ?_⟩
  · rw [d2.2.2.2.2.2.2.1]
    simp
  · intro e
    rw [e] at hs1
    omega

/-- The witness of `syn_retransmission`: a freshly reserved socket with sequence number 0
connects from port 1025 to 192.168.2.50 port 80; the SYN of `tcp_connect` carries the
sequence number 0, the SYN sent by the 1000th pass of `tcp_sustain` carries 1. -/
theorem syn_retransmission_witness :
    ∃ c0 c1 st1 st2,
      tcp_sustain_n 999 (tcp_connect (tableOf connectingSocket (socket0 16 16 16)) 0)
        = some st1 ∧
      tcp_sustain st1 = some st2 ∧ st2.sent = [c0, c1] ∧
      c0.flags = TCPFLAGS_SYN ∧ c1.flags = TCPFLAGS_SYN ∧
      c0.seqField = [0, 0, 0, 0] ∧ be32 c1.seqField = 1 := by
  obtain ⟨c0, c1, st1, st2, _, h2, _, h4, h5, _, h7, h8, _, _, _, h12, h13, _⟩ :=
    syn_retransmission (tableOf connectingSocket (socket0 16 16 16)) 0 (by decide) (by decide)
      (by decide) (by decide)
  refine ⟨c0, c1, st1, st2, h2, h4, h5, h7, h8, h12, ?_⟩
  rw [h13, h12]
  decide

/-! ### tcp.c: `tcp_getchar` -/

theorem toI16_of_lt (u : Nat) (h : u < 32768) : toI16 u = (u : Int) := by
  unfold toI16
  rw [if_pos (by omega), Nat.mod_eq_of_lt (by omega)]

/-- A bare ACK as `tcp_send` hands it to `ip_send`: flags, no payload, the window, and the
socket afterwards. -/
theorem tcp_send_ack (st : tcpState) (cnt : Nat) :
    ∃ c, (tcp_send st cnt TCPFLAGS_ACK 0).sent = st.sent ++ [c] ∧ c.sock = cnt ∧
      c.flags = TCPFLAGS_ACK ∧ c.payload = [] ∧ c.window = tcp_windowSize (st.sockets cnt) := by
  obtain ⟨c, h1, h2, _, h4, _, _, h7⟩ := tcp_send_sent st cnt TCPFLAGS_ACK 0 (by omega)
  obtain ⟨c2, g1, _, _, g4, _⟩ := tcp_send_window st cnt TCPFLAGS_ACK 0 (by omega)
  have hc : c2 = c := by
    have := List.append_cancel_left (g1.symm.trans h1)
    simpa using this
  rw [hc] at g4
  exact ⟨c, h1, h2, h4.trans (by decide), by simpa using h7, g4⟩

/-- C33, as the code has it: the test of `tcp_getchar` for re-opening the window is on the
occupancy of the receive fifo.  A read on an ESTABLISHED socket with a non-empty receive
fifo returns the byte at its head.  When the last advertised window was 0 and the
occupancy `len` before the read is below half the size of the receive fifo (`2 * len <
fifo_size(in)`), exactly one segment is handed to `ip_send` before the byte is taken: an
ACK without payload whose window is the one `tcp_send` computes with the byte still in the
fifo, non-zero when that value `size - len` is not below half the size of the send fifo.
In every other case, so when the last advertised window was not 0, the read emits nothing. -/
theorem window_reopening (st : tcpState) (j : Nat) (hj : j < MAX_TCP_SOCKETS)
    (hstate : (st.sockets j).state = TCPSOCKETSTATE_ESTABLISHED)
    (hwf : fifo_wf (st.sockets j).strm.in_)
    (hne : fifo_length (st.sockets j).strm.in_ ≠ 0) :
    ∃ (b : Nat) (st1 : tcpState), tcp_getchar st j = some ((b : Int), st1) ∧
      fifo_contents (st.sockets j).strm.in_ = b :: fifo_contents (st1.sockets j).strm.in_ ∧
      (((st.sockets j).lastWindowSize = 0 ∧
          2 * fifo_length (st.sockets j).strm.in_ < fifo_size (st.sockets j).strm.in_) →
        ∃ seg, st1.sent = st.sent ++ [seg] ∧ seg.sock = j ∧ seg.flags = TCPFLAGS_ACK ∧
          seg.payload = [] ∧ seg.window = tcp_windowSize (st.sockets j) ∧
          (st1.sockets j).lastWindowSize = tcp_windowSize (st.sockets j) ∧
          (¬ 2 * ((st.sockets j).strm.in_.size - fifo_length (st.sockets j).strm.in_)
              < fifo_size (st.sockets j).strm.out →
            seg.window = (st.sockets j).strm.in_.size - fifo_length (st.sockets j).strm.in_ ∧
            seg.window ≠ 0)) ∧
      (¬ ((st.sockets j).lastWindowSize = 0 ∧
          2 * fifo_length (st.sockets j).strm.in_ < fifo_size (st.sockets j).strm.in_) →
        st1.sent = st.sent ∧ (st1.sockets j).lastWindowSize = (st.sockets j).lastWindowSize) := by
  have hlt := fifo_length_lt _ hwf
  have hle := fifo_length_le _ hwf
  have hnp := (fifo_nonempty_iff _ hwf).mpr (by omega)
  have hsz := hwf.2.2
  unfold tcp_getchar
  rw [if_neg (by omega), if_neg (by rw [hstate]; decide), toI16_of_lt _ hlt]
  simp only []
  rw [if_pos (by omega)]
  by_cases hc : (st.sockets j).lastWindowSize = 0 ∧
      2 * fifo_length (st.sockets j).strm.in_ < fifo_size (st.sockets j).strm.in_
  · have hc2 : (st.sockets j).lastWindowSize = 0 ∧
        2 * (fifo_length (st.sockets j).strm.in_ : Int)
          < (fifo_size (st.sockets j).strm.in_ : Int) := ⟨hc.1, by omega⟩
    rw [if_pos hc2]
    obtain ⟨seg, g1, g2, g3, g4, g5⟩ := tcp_send_ack st j
    have hin : ((tcp_send st j TCPFLAGS_ACK 0).sockets j).strm = (st.sockets j).strm := by
      rw [tcp_send_socket]
    rw [hin, fifo_getc_ok _ hwf hnp]
    refine ⟨_, _, rfl, ?_, fun _ => ⟨seg, ?_, g2, g3, g4, g5, ?_, ?_⟩, fun h => absurd hc h⟩
    · rw [setSocket_same]
      exact fifo_contents_get _ hwf hnp
    · rw [setSocket_sent, g1]
    · rw [setSocket_same]
      simp only [tcp_send_socket]
    · intro hthr
      have hw : tcp_windowSize (st.sockets j)
          = (st.sockets j).strm.in_.size - fifo_length (st.sockets j).strm.in_ := by
        unfold tcp_windowSize
        simp only []
        have e : ((st.sockets j).strm.in_.size % 65536 + 65536
              - fifo_length (st.sockets j).strm.in_) % 65536
            = (st.sockets j).strm.in_.size - fifo_length (st.sockets j).strm.in_ := by omega
        rw [e, if_neg hthr]
      rw [g5, hw]
      exact ⟨rfl, by omega⟩
  · have hc2 : ¬ ((st.sockets j).lastWindowSize = 0 ∧
        2 * (fifo_length (st.sockets j).strm.in_ : Int)
          < (fifo_size (st.sockets j).strm.in_ : Int)) := fun h => hc ⟨h.1, by omega⟩
    rw [if_neg hc2, fifo_getc_ok _ hwf hnp]
    refine ⟨_, _, rfl, ?_, fun h => absurd h hc, fun _ => ⟨rfl, ?_⟩⟩
    · rw [setSocket_same]
      exact fifo_contents_get _ hwf hnp
    · rw [setSocket_same]

/-- The witness of `window_reopening`: with 7 of 16 bytes held and the last advertised
window 0, a read returns the first byte and hands one ACK with the window 9 to `ip_send`. -/
theorem window_reopening_witness :
    ∃ (b : Nat) (st1 : tcpState) (seg : ipSendCall),
      tcp_getchar (tableOf (closedWindowSocket [1, 2, 3, 4, 5, 6, 7]) (socket0 16 16 16)) 0
        = some ((b : Int), st1) ∧ b = 1 ∧
      st1.sent = [seg] ∧ seg.flags = TCPFLAGS_ACK ∧ seg.payload = [] ∧ seg.window = 9 := by
  obtain ⟨b, st1, h1, h2, h3, _⟩ :=
    window_reopening (tableOf (closedWindowSocket [1, 2, 3, 4, 5, 6, 7]) (socket0 16 16 16)) 0
      (by decide) (by decide) (by decide) (by decide)
  obtain ⟨seg, g1, _, g3, g4, _, _, g7⟩ := h3 (by decide)
  have hb : b = 1 := by
    have e : fifo_contents
        ((tableOf (closedWindowSocket [1, 2, 3, 4, 5, 6, 7]) (socket0 16 16 16)).sockets
          0).strm.in_ = [1, 2, 3, 4, 5, 6, 7] := by decide
    rw [e] at h2
    exact (List.cons.inj h2).1.symm
  exact ⟨b, st1, seg, h1, hb, g1, g3, g4, (g7 (by decide)).1.trans (by decide)⟩

/-- C33 as stated fails: with 8 of 16 bytes held, the last advertised window 0 and a send
fifo of size 16, the window `tcp_send` would compute is 8, not below its threshold, yet a
read emits no segment and leaves the last advertised window 0. -/
theorem window_reopening_counterexample :
    ((tableOf (closedWindowSocket [1, 2, 3, 4, 5, 6, 7, 8]) (socket0 16 16 16)).sockets
      0).lastWindowSize = 0 ∧
    tcp_windowSize ((tableOf (closedWindowSocket [1, 2, 3, 4, 5, 6, 7, 8])
      (socket0 16 16 16)).sockets 0) = 8 ∧
    (tcp_getchar (tableOf (closedWindowSocket [1, 2, 3, 4, 5, 6, 7, 8]) (socket0 16 16 16))
        0).map (fun r => (r.1, r.2.sent.length, (r.2.sockets 0).lastWindowSize))
      = some (1, 0, 0) := by
  decide

/-! ### tcp.c: a socket without retransmit buffer -/

theorem holding_disabled_reset (f : fifo) (s : tcpSocket) (h : holding_disabled s)
    (hf : f = s.fsBuf ∨ f = fifo_reset s.fsBuf) :
    f.size = 0 ∧ f.readPtr = 0 ∧ f.writePtr = 0 := by
  rcases hf with e | e
  · rw [e]; exact h
  · rw [e]; exact ⟨h.1, rfl, rfl⟩

/-- The body of the loop of `tcp_sustain` for a socket whose holding fifo has size 0: it
returns, the holding fifo is untouched, an ESTABLISHED socket stays ESTABLISHED, and with
an empty send fifo nothing is handed to `ip_send`. -/
theorem tcp_sustain_socket_disabled (st : tcpState) (j : Nat)
    (hdis : fifo_size (st.sockets j).fsBuf = 0)
    (hwf : (st.sockets j).state = TCPSOCKETSTATE_ESTABLISHED →
      fifo_wf (st.sockets j).strm.out) :
    ∃ stB, tcp_sustain_socket st j = some stB ∧
      (stB.sockets j).fsBuf = (st.sockets j).fsBuf ∧
      ((st.sockets j).state = TCPSOCKETSTATE_ESTABLISHED →
        (stB.sockets j).state = TCPSOCKETSTATE_ESTABLISHED ∧
        (fifo_length (st.sockets j).strm.out = 0 → stB.sent = st.sent)) := by
  unfold tcp_sustain_socket
  simp only []
  generalize hs : (if (st.sockets j).ackState ≠ 0 then
      ({ st.sockets j with ackState := (st.sockets j).ackState - 1 } : tcpSocket)
    else st.sockets j) = s
  have hstate : s.state = (st.sockets j).state := by rw [← hs]; split <;> rfl
  have hstrm : s.strm = (st.sockets j).strm := by rw [← hs]; split <;> rfl
  have hfs : s.fsBuf = (st.sockets j).fsBuf := by rw [← hs]; split <;> rfl
  rw [← hstate, ← hstrm, ← hfs]
  rw [← hfs] at hdis
  rw [← hstate, ← hstrm] at hwf
  by_cases c1 : s.state = TCPSOCKETSTATE_SYN_SENT
  · have hne : ¬ s.state = TCPSOCKETSTATE_ESTABLISHED := by rw [c1]; decide
    rw [if_pos c1]
    by_cases c2 : s.ackState = 0
    · rw [if_pos c2]
      by_cases c3 : s.retryCounter ≠ 0
      · rw [if_pos c3]
        refine ⟨_, rfl, ?_, fun h => absurd h hne⟩
        rw [setSocket_same]
        simp only [tcp_send_socket, setSocket_same]
      · rw [if_neg c3]
        refine ⟨_, rfl, ?_, fun h => absurd h hne⟩
        rw [setSocket_same]
    · rw [if_neg c2]
      refine ⟨_, rfl, ?_, fun h => absurd h hne⟩
      rw [setSocket_same]
  · rw [if_neg c1]
    by_cases c4 : s.state = TCPSOCKETSTATE_ESTABLISHED
    · rw [if_pos c4]
      have c5 : ¬ (fifo_size s.fsBuf ≠ 0 ∧ fifo_length s.fsBuf ≠ 0 ∧ s.ackState = 0) :=
        fun h => h.1 hdis
      rw [if_neg c5]
      by_cases c7 : fifo_length s.strm.out ≠ 0
      · rw [if_pos c7]
        obtain ⟨out1, fs1, pb1, d1, _, _, _, _, _, _, _, d9, _⟩ :=
          tcp_fill_ok (min (fifo_length s.strm.out) payloadBufLen) 0 s.strm.out s.fsBuf
            st.packetBuf (hwf c4) (Nat.min_le_left _ _) (fun h => absurd hdis h)
        rw [setSocket_packetBuf, d1]
        simp only []
        refine ⟨_, rfl, ?_, fun _ => ⟨?_, fun h => absurd h c7⟩⟩
        · rw [setSocket_same]
          simp only [increaseSeqNum, tcp_send_socket, setSocket_same]
          exact d9 hdis
        · rw [setSocket_same]
          simp only [increaseSeqNum, tcp_send_socket, setSocket_same]
          exact c4
      · rw [if_neg c7]
        refine ⟨_, rfl, ?_, fun _ => ⟨?_, fun _ => rfl⟩⟩
        · rw [setSocket_same]
        · rw [setSocket_same]
          exact c4
    · rw [if_neg c4]
      refine ⟨_, rfl, ?_, fun h => absurd h c4⟩
      rw [setSocket_same]

theorem ackChecked_fsBuf (s : tcpSocket) (pkt : Mem) :
    (ackChecked s pkt).fsBuf = s.fsBuf ∨ (ackChecked s pkt).fsBuf = fifo_reset s.fsBuf := by
  unfold ackChecked
  split
  · split
    · exact Or.inr rfl
    · exact Or.inl rfl
  · exact Or.inl rfl

/-- The loop of `tcp_handle` returns when the receive fifos of the ESTABLISHED sockets are
usable, and all it does to a holding fifo is `fifo_reset`. -/
theorem tcp_handle_loop_holding (pkt : Mem) :
    ∀ (n cnt : Nat) (st : tcpState),
      (∀ i, (st.sockets i).state = TCPSOCKETSTATE_ESTABLISHED → dataCount pkt ≠ 0 →
        fifo_wf (st.sockets i).strm.in_) →
      ∃ st1, tcp_handle_loop pkt n cnt st = some st1 ∧
        ∀ j, (st1.sockets j).fsBuf = (st.sockets j).fsBuf ∨
          (st1.sockets j).fsBuf = fifo_reset (st.sockets j).fsBuf := by
  intro n
  induction n with
  | zero => intro cnt st _; exact ⟨st, rfl, fun j => Or.inl rfl⟩
  | succ n ih =>
    intro cnt st hwf
    rw [tcp_handle_loop]
    simp only []
    by_cases c1 : (st.sockets cnt).state = TCPSOCKETSTATE_SYN_SENT ∧
        (st.sockets cnt).localPort = pktLocalPort pkt
    · rw [if_pos c1]
      by_cases c2 : pktCodeBits pkt &&& TCPFLAGS_SYN ≠ 0 ∧ pktCodeBits pkt &&& TCPFLAGS_ACK ≠ 0
      · rw [if_pos c2]
        refine ⟨_, rfl, ?_⟩
        intro j
        by_cases hj : j = cnt
        · subst hj
          right
          rw [setSocket_same]
          simp only [tcp_send_socket, setSocket_same, increaseAckNum]
        · left
          rw [setSocket_ne _ _ _ _ hj, tcp_send_sockets _ _ _ _ _ hj, setSocket_ne _ _ _ _ hj]
      · rw [if_neg c2]
        exact ⟨st, rfl, fun j => Or.inl rfl⟩
    · rw [if_neg c1]
      by_cases c3 : (st.sockets cnt).state = TCPSOCKETSTATE_LISTEN ∧
          (st.sockets cnt).localPort = pktLocalPort pkt
      · rw [if_pos c3]
        by_cases c2 : pktCodeBits pkt &&& TCPFLAGS_SYN ≠ 0
        · rw [if_pos c2]
          refine ⟨_, rfl, ?_⟩
          intro j
          by_cases hj : j = cnt
          · subst hj
            right
            rw [setSocket_same]
            simp only [tcp_send_socket, setSocket_same, increaseAckNum, increaseSeqNum]
          · left
            rw [setSocket_ne _ _ _ _ hj, tcp_send_sockets _ _ _ _ _ hj, setSocket_ne _ _ _ _ hj]
        · rw [if_neg c2]
          exact ⟨st, rfl, fun j => Or.inl rfl⟩
      · rw [if_neg c3]
        by_cases c4 : take4 (st.sockets cnt).destIP = pktSourceIP pkt ∧
            (st.sockets cnt).localPort = pktLocalPort pkt ∧
            (st.sockets cnt).remotePort = pktRemotePort pkt
        · rw [if_pos c4]
          by_cases c5 : (st.sockets cnt).state = TCPSOCKETSTATE_ESTABLISHED
          · rw [if_pos c5]
            obtain ⟨st1, h1, _, _, h4, _, _, _, h8, _⟩ :=
              tcp_handle_established_spec st cnt pkt (hwf cnt c5)
            refine ⟨st1, h1, ?_⟩
            intro j
            by_cases hj : j = cnt
            · subst hj
              rw [h4]
              exact ackChecked_fsBuf _ _
            · left
              rw [h8 j hj]
          · rw [if_neg c5]
            by_cases c6 : (st.sockets cnt).state = TCPSOCKETSTATE_FIN_WAIT_1 ∧
                pktCodeBits pkt &&& TCPFLAGS_FIN ≠ 0
            · rw [if_pos c6]
              refine ⟨_, rfl, ?_⟩
              intro j
              left
              by_cases hj : j = cnt
              · subst hj
                rw [setSocket_same]
                simp only [tcp_send_socket, setSocket_same, increaseAckNum]
              · rw [setSocket_ne _ _ _ _ hj, tcp_send_sockets _ _ _ _ _ hj,
                  setSocket_ne _ _ _ _ hj]
            · rw [if_neg c6]
              exact ih (cnt + 1) st hwf
        · rw [if_neg c4]
          exact ih (cnt + 1) st hwf

/-- C40: a socket without retransmit buffer is safe from the division by the size of its
holding fifo.  `tcp_reserveSocket` called with a null `fsBuf` leaves the holding fifo with
size 0 and both indices 0.  For a socket in that condition, a pass of `tcp_sustain` over
sockets with usable fifos returns (in the model a `fifo_putc` or `fifo_getc` on a fifo of
size 0 has no result, and the pass has none then), the holding fifo is as before, an
ESTABLISHED socket stays ESTABLISHED, and with an empty send fifo nothing is sent for it:
the retransmission branch is not entered.  `tcp_handle` returns on every packet, the
receive fifos being usable, and leaves the holding fifo in that condition. -/
theorem disabled_retransmission (st : tcpState) (j : Nat) (hj : j < MAX_TCP_SOCKETS)
    (hdis : holding_disabled (st.sockets j)) :
    (∀ (st0 : tcpState) (inBuf outBuf : Mem) (inBufSize outBufSize i : Nat),
      (tcp_reserveSocket st0 inBuf outBuf none inBufSize outBufSize).1 = some i →
      holding_disabled
        ((tcp_reserveSocket st0 inBuf outBuf none inBufSize outBufSize).2.sockets i)) ∧
    (st.sustainer_running = 0 →
      (∀ i, i < MAX_TCP_SOCKETS → (st.sockets i).state = TCPSOCKETSTATE_ESTABLISHED →
        socket_wf (st.sockets i)) →
      ∃ st1, tcp_sustain st = some st1 ∧ (st1.sockets j).fsBuf = (st.sockets j).fsBuf ∧
        holding_disabled (st1.sockets j) ∧
        ((st.sockets j).state = TCPSOCKETSTATE_ESTABLISHED →
          (st1.sockets j).state = TCPSOCKETSTATE_ESTABLISHED ∧
          (fifo_length (st.sockets j).strm.out = 0 →
            st1.sent.filter (fun e => decide (e.sock = j))
              = st.sent.filter (fun e => decide (e.sock = j))))) ∧
    (∀ pkt, (∀ i, (st.sockets i).state = TCPSOCKETSTATE_ESTABLISHED → dataCount pkt ≠ 0 →
        fifo_wf (st.sockets i).strm.in_) →
      ∃ st1, tcp_handle st pkt = some st1 ∧ holding_disabled (st1.sockets j)) := by
  refine ⟨?_, ?_, ?_⟩
  · intro st0 inBuf outBuf inBufSize outBufSize i hi
    unfold tcp_reserveSocket at hi ⊢
    simp only [] at hi ⊢
    by_cases hfull : tcp_findUnused st0.sockets MAX_TCP_SOCKETS 0 ≥ MAX_TCP_SOCKETS
    · rw [if_pos hfull] at hi
      exact absurd hi (by simp)
    · rw [if_neg hfull] at hi ⊢
      simp only [Option.some.injEq] at hi
      rw [← hi]
      simp only [setSocket_same]
      exact ⟨rfl, rfl, rfl⟩
  · intro hrun hwf
    obtain ⟨stA, pre, a1, a2, a3, a4⟩ := tcp_sustain_pass st j hj hrun hwf
    have hsz : fifo_size (stA.sockets j).fsBuf = 0 := by
      rw [a1]
      unfold fifo_size
      rw [hdis.1]
    obtain ⟨stB, b1, b2, b3⟩ := tcp_sustain_socket_disabled stA j hsz
      (fun h => by rw [a1] at h ⊢; exact (hwf j hj h).1)
    obtain ⟨st1, post, d1, d2, d3, d4, _⟩ := a4 stB b1
    refine ⟨st1, d1, ?_, ?_, ?_⟩
    · rw [d2, b2, a1]
    · rw [holding_disabled, d2, b2, a1]
      exact hdis
    · intro hs
      obtain ⟨e1, e2⟩ := b3 (by rw [a1]; exact hs)
      refine ⟨by rw [d2]; exact e1, ?_⟩
      intro hl
      rw [d3, e2 (by rw [a1]; exact hl), a2, List.filter_append, List.filter_append,
        filter_sock_none _ _ a3, filter_sock_none _ _ d4]
      simp
  · intro pkt hwf
    obtain ⟨st1, h1, h2⟩ := tcp_handle_loop_holding pkt MAX_TCP_SOCKETS 0 st hwf
    exact ⟨st1, h1, holding_disabled_reset _ _ hdis (h2 j)⟩

/-- The witness of `disabled_retransmission`: the socket of scenario 6 without retransmit
buffer; a pass of `tcp_sustain` and the handling of the segment "hello" both return and
leave the holding fifo with size 0 and empty. -/
theorem disabled_retransmission_witness :
    (∃ st1, tcp_sustain (tableOf unbufferedSocket (socket0 16 16 16)) = some st1 ∧
      holding_disabled (st1.sockets 0)) ∧
    (∃ st1, tcp_handle (tableOf unbufferedSocket (socket0 16 16 16)) helloPacket = some st1 ∧
      holding_disabled (st1.sockets 0)) := by
  have h := disabled_retransmission (tableOf unbufferedSocket (socket0 16 16 16)) 0
    (by decide) (by decide)
  obtain ⟨st1, a1, _, a3, _⟩ := h.2.1 (by decide) (by decide)
  obtain ⟨st2, b1, b2⟩ := h.2.2 helloPacket (fun i _ _ => by
    by_cases h0 : i = 0
    · rw [h0]; decide
    · by_cases h1 : i = 1
      · rw [h1]; decide
      · have e : (tableOf unbufferedSocket (socket0 16 16 16)).sockets i = socket0 16 16 16 := by
          simp [tableOf, h0, h1]
        rw [e]; decide)
  exact ⟨⟨st1, a1, a3⟩, ⟨st2, b1, b2⟩⟩

/-! ### ip.c: an ARP entry in WAITING state -/

theorem arp_findFree_spec (t : Nat → addrCL) :
    ∀ (n cnt : Nat), arp_findFree t n cnt < cnt + n →
      (t (arp_findFree t n cnt)).state = ARPSTATE_DISABLED := by
  intro n
  induction n with
  | zero => intro cnt h; simp [arp_findFree] at h
  | succ n ih =>
    intro cnt h
    rw [arp_findFree] at h ⊢
    by_cases c : (t cnt).state ≠ ARPSTATE_DISABLED
    · rw [if_pos c] at h ⊢
      exact ih (cnt + 1) (by omega)
    · rw [if_neg c]
      exact not_not.mp c

theorem arp_tick_loop_keeps :
    ∀ (n k : Nat) (t : Nat → addrCL) (i : Nat), (t i).state ≠ ARPSTATE_ENABLED →
      arp_tick_loop n k t i = t i := by
  intro n
  induction n with
  | zero => intro k t i _; rfl
  | succ n ih =>
    intro k t i h
    rw [arp_tick_loop]
    simp only []
    by_cases c : (t k).state = ARPSTATE_ENABLED
    · rw [if_pos c]
      have hne : i ≠ k := fun e => h (e ▸ c)
      rw [ih (k + 1) _ i (by rw [Function.update_noteq hne]; exact h),
        Function.update_noteq hne]
    · rw [if_neg c]
      exact ih (k + 1) t i h

theorem arp_tick_keeps (st : ipState) (i : Nat) (h : (st.arpTable i).state ≠ ARPSTATE_ENABLED) :
    (arp_tick st).arpTable i = st.arpTable i := by
  simp only [arp_tick]
  exact arp_tick_loop_keeps MAX_ARP_ENTRIES 0 st.arpTable i h

theorem arp_ticks_keep (i : Nat) :
    ∀ (n : Nat) (st : ipState), (st.arpTable i).state ≠ ARPSTATE_ENABLED →
      (Nat.iterate arp_tick n st).arpTable i = st.arpTable i := by
  intro n
  induction n with
  | zero => intro st _; rfl
  | succ n ih =>
    intro st h
    rw [Function.iterate_succ_apply, ih (arp_tick st) (by rw [arp_tick_keeps st i h]; exact h),
      arp_tick_keeps st i h]

theorem arp_sendquery_keeps (st : ipState) (ip : List Nat) (i : Nat)
    (h : (st.arpTable i).state ≠ ARPSTATE_DISABLED) :
    (arp_sendquery st ip).2.arpTable i = st.arpTable i ∧
    ((arp_sendquery st ip).1 < MAX_ARP_ENTRIES → (arp_sendquery st ip).1 ≠ i) := by
  unfold arp_sendquery
  simp only []
  by_cases c : arp_findFree st.arpTable MAX_ARP_ENTRIES 0 < MAX_ARP_ENTRIES
  · rw [if_pos c]
    have hd := arp_findFree_spec st.arpTable MAX_ARP_ENTRIES 0 (by omega)
    have hne : i ≠ arp_findFree st.arpTable MAX_ARP_ENTRIES 0 := fun e => h (e ▸ hd)
    exact ⟨Function.update_noteq hne _ _, fun _ e => hne e.symm⟩
  · rw [if_neg c]
    exact ⟨rfl, fun hlt => absurd hlt (by simp)⟩

/-- What `ip_send` does to an ARP entry in WAITING state, the interrupt handlers leaving it
alone during the wait: state and IP address stay. -/
theorem ip_send_waiting (wait : ipState → ipState) (i : Nat)
    (hwait : ∀ s, (s.arpTable i).state = ARPSTATE_WAITING →
      ((wait s).arpTable i).state = ARPSTATE_WAITING ∧
      ((wait s).arpTable i).IP = (s.arpTable i).IP)
    (st : ipState) (hw : (st.arpTable i).state = ARPSTATE_WAITING)
    (ip : List Nat) (protocol : Nat) (message : Mem) (msgLen : Nat) (st1 : ipState)
    (h : ip_send wait st ip protocol message msgLen = some st1) :
    (st1.arpTable i).state = ARPSTATE_WAITING ∧ (st1.arpTable i).IP = (st.arpTable i).IP := by
  have htr : ∀ (s : ipState) (cnt : Nat) (buf : List Nat) (n : Nat),
      ((ip_transmit s cnt buf n).arpTable i).state = (s.arpTable i).state ∧
      ((ip_transmit s cnt buf n).arpTable i).IP = (s.arpTable i).IP := by
    intro s cnt buf n
    unfold ip_transmit
    simp only []
    by_cases e : i = cnt
    · subst e
      rw [Function.update_same]
      exact ⟨rfl, rfl⟩
    · rw [Function.update_noteq e]
      exact ⟨rfl, rfl⟩
  have hnd : (st.arpTable i).state ≠ ARPSTATE_DISABLED := by rw [hw]; decide
  unfold ip_send at h
  by_cases c1 : (msgLen + 20) % 65536 > ipBufSize
  · rw [if_pos c1] at h
    rw [← Option.some.inj h]
    exact ⟨hw, rfl⟩
  · rw [if_neg c1] at h
    by_cases c2 : msgLen + 20 > ipBufSize
    · rw [if_pos c2] at h
      exact absurd h (by simp)
    · rw [if_neg c2] at h
      simp only [] at h
      by_cases c3 : broadcastIP ≠ take4 ip
      · rw [if_pos c3] at h
        by_cases c4 : ip_lookup st ip ≥ MAX_ARP_ENTRIES
        · rw [if_pos c4] at h
          obtain ⟨q1, q2⟩ := arp_sendquery_keeps st
            (if ip_useGW st.netmask (take4 ip) (take4 st.localIP) then st.gatewayIP
             else take4 ip) i hnd
          generalize arp_sendquery st
            (if ip_useGW st.netmask (take4 ip) (take4 st.localIP) then st.gatewayIP
             else take4 ip) = q at h q1 q2
          by_cases c5 : q.1 < MAX_ARP_ENTRIES
          · rw [if_pos c5] at h
            obtain ⟨w1, w2⟩ := hwait q.2 (by rw [q1]; exact hw)
            by_cases c6 : ((wait q.2).arpTable q.1).state ≠ ARPSTATE_ENABLED
            · rw [if_pos c6] at h
              rw [← Option.some.inj h]
              exact ⟨w1, by rw [w2, q1]⟩
            · rw [if_neg c6] at h
              rw [← Option.some.inj h]
              obtain ⟨t1, t2⟩ := htr (wait q.2) q.1
                (ip_buffer st ip protocol message msgLen) msgLen
              exact ⟨t1.trans w1, by rw [t2, w2, q1]⟩
          · rw [if_neg c5] at h
            rw [← Option.some.inj h, q1]
            exact ⟨hw, rfl⟩
        · rw [if_neg c4] at h
          rw [← Option.some.inj h]
          obtain ⟨t1, t2⟩ := htr st (ip_lookup st ip)
            (ip_buffer st ip protocol message msgLen) msgLen
          exact ⟨t1.trans hw, t2⟩
      · rw [if_neg c3] at h
        rw [← Option.some.inj h]
        exact ⟨hw, rfl⟩

theorem ip_send_calls_waiting (wait : ipState → ipState) (i : Nat)
    (hwait : ∀ s, (s.arpTable i).state = ARPSTATE_WAITING →
      ((wait s).arpTable i).state = ARPSTATE_WAITING ∧
      ((wait s).arpTable i).IP = (s.arpTable i).IP) :
    ∀ (calls : List ipSendCall) (st st1 : ipState),
      (st.arpTable i).state = ARPSTATE_WAITING → ip_send_calls wait st calls = some st1 →
      (st1.arpTable i).state = ARPSTATE_WAITING ∧ (st1.arpTable i).IP = (st.arpTable i).IP := by
  intro calls
  induction calls with
  | nil =>
    intro st st1 hw h
    rw [ip_send_calls] at h
    rw [← Option.some.inj h]
    exact ⟨hw, rfl⟩
  | cons c rest ih =>
    intro st st1 hw h
    rw [ip_send_calls] at h
    cases hs : ip_send wait st c.ip c.protocol (memOfList c.message) c.msgLen with
    | none => rw [hs] at h; exact absurd h (by simp)
    | some st2 =>
      rw [hs] at h
      obtain ⟨a1, a2⟩ := ip_send_waiting wait i hwait st hw _ _ _ _ st2 hs
      obtain ⟨b1, b2⟩ := ih st2 st1 a1 h
      exact ⟨b1, b2.trans a2⟩

theorem arp_handle_waiting (st : ipState) (i : Nat) (pkt : Mem)
    (hrel : ¬ (pkt 20 = 0 ∧ pkt 21 = 2 ∧ read4 pkt 38 = take4 st.localIP ∧
      read6 pkt 32 = take6 st.localMAC ∧ read4 pkt 28 = take4 (st.arpTable i).IP)) :
    (arp_handle st pkt).arpTable i = st.arpTable i := by
  unfold arp_handle
  simp only []
  generalize hs : (if pkt 20 = 0 ∧ pkt 21 = 1 ∧ read4 pkt 38 = take4 st.localIP then
      ({ st with frames := st.frames ++
          [{ net_addr := (([0, 1, 0x08, 0x00, 6, 4, 0, 2] ++ take6 st.localMAC ++ take4 st.localIP
                ++ read6 pkt 22 ++ read4 pkt 28).drop 18).take 6,
             msg := [0, 1, 0x08, 0x00, 6, 4, 0, 2] ++ take6 st.localMAC ++ take4 st.localIP
                ++ read6 pkt 22 ++ read4 pkt 28,
             length := 28, type := PACKETTYPE_ARP, intstatus := 0 }] } : ipState)
    else st) = s
  have e1 : s.arpTable = st.arpTable := by rw [← hs]; split <;> rfl
  have e2 : s.localIP = st.localIP := by rw [← hs]; split <;> rfl
  have e3 : s.localMAC = st.localMAC := by rw [← hs]; split <;> rfl
  by_cases c : pkt 20 = 0 ∧ pkt 21 = 2 ∧ read4 pkt 38 = take4 s.localIP ∧
      read6 pkt 32 = take6 s.localMAC
  · rw [if_pos c]
    by_cases c2 : arp_findEntry s.arpTable (read4 pkt 28) MAX_ARP_ENTRIES 0 < MAX_ARP_ENTRIES ∧
        (s.arpTable (arp_findEntry s.arpTable (read4 pkt 28) MAX_ARP_ENTRIES 0)).state
          ≠ ARPSTATE_ENABLED
    · rw [if_pos c2]
      have hne : i ≠ arp_findEntry s.arpTable (read4 pkt 28) MAX_ARP_ENTRIES 0 := by
        intro e
        obtain ⟨_, _, _, h4⟩ := arp_findEntry_spec s.arpTable (read4 pkt 28) MAX_ARP_ENTRIES 0
        have h5 := h4 (by omega)
        rw [← e, e1] at h5
        rw [e2, e3] at c
        exact hrel ⟨c.1, c.2.1, c.2.2.1, c.2.2.2, h5⟩
      simp only []
      rw [Function.update_noteq hne, e1]
    · rw [if_neg c2, e1]
  · rw [if_neg c, e1]

theorem ip_learnIndex_state (t : Nat → addrCL) (src : List Nat)
    (h : ip_learnIndex t src < MAX_ARP_ENTRIES) :
    (t (ip_learnIndex t src)).state = ARPSTATE_ENABLED ∨
    (t (ip_learnIndex t src)).state = ARPSTATE_DISABLED := by
  unfold ip_learnIndex at h ⊢
  simp only [] at h ⊢
  by_cases c : arp_findEntry t src MAX_ARP_ENTRIES 0 ≥ MAX_ARP_ENTRIES ∨
      (t (arp_findEntry t src MAX_ARP_ENTRIES 0)).state ≠ ARPSTATE_ENABLED
  · rw [if_pos c] at h ⊢
    exact Or.inr (arp_findFree_spec t MAX_ARP_ENTRIES 0 (by omega))
  · rw [if_neg c]
    simp only [not_or, not_not] at c
    exact Or.inl c.2

theorem icmp_handle_waiting (wait : ipState → ipState) (i : Nat)
    (hwait : ∀ s, (s.arpTable i).state = ARPSTATE_WAITING →
      ((wait s).arpTable i).state = ARPSTATE_WAITING ∧
      ((wait s).arpTable i).IP = (s.arpTable i).IP)
    (st : ipState) (hw : (st.arpTable i).state = ARPSTATE_WAITING) (p : Mem)
    (r : ipState × Mem) (h : icmp_handle wait st p = some r) :
    (r.1.arpTable i).state = ARPSTATE_WAITING ∧ (r.1.arpTable i).IP = (st.arpTable i).IP := by
  unfold icmp_handle at h
  by_cases c : p (tcpOffset p) = ICMPPACKET_ECHO_REQUEST
  · rw [if_pos c] at h
    simp only [] at h
    cases hs : ip_send wait st (read4 (icmp_reply st.localIP p) 16) IPPACKETTYPE_ICMP
        (fun i => icmp_reply st.localIP p (tcpOffset p + i)) (icmpPacketLen p) with
    | none => rw [hs] at h; exact absurd h (by simp)
    | some st1 =>
      rw [hs] at h
      simp only [Option.map_some', Option.some.injEq] at h
      rw [← h]
      exact ip_send_waiting wait i hwait st hw _ _ _ _ st1 hs
  · rw [if_neg c] at h
    rw [← Option.some.inj h]
    exact ⟨hw, rfl⟩

/-- What `ip_handle` does to an ARP entry in WAITING state: nothing to its state and IP
address, the sender of a datagram being entered in an ENABLED or a free entry only. -/
theorem ip_handle_waiting (wait : ipState → ipState) (i : Nat)
    (hwait : ∀ s, (s.arpTable i).state = ARPSTATE_WAITING →
      ((wait s).arpTable i).state = ARPSTATE_WAITING ∧
      ((wait s).arpTable i).IP = (s.arpTable i).IP)
    (st : stackState) (hw : (st.ip.arpTable i).state = ARPSTATE_WAITING) (pkt : Mem)
    (r : stackState × Mem) (h : ip_handle wait st pkt = some r) :
    (r.1.ip.arpTable i).state = ARPSTATE_WAITING ∧
    (r.1.ip.arpTable i).IP = (st.ip.arpTable i).IP := by
  unfold ip_handle at h
  by_cases c0 : ip_fragmentDropped pkt
  · rw [if_pos c0] at h
    rw [← Option.some.inj h]
    exact ⟨hw, rfl⟩
  · rw [if_neg c0] at h
    simp only [] at h
    by_cases c1 : ip_learnIndex st.ip.arpTable (read4 pkt 26) < MAX_ARP_ENTRIES
    · rw [if_pos c1] at h
      have hne : i ≠ ip_learnIndex st.ip.arpTable (read4 pkt 26) := by
        intro e
        rcases ip_learnIndex_state _ _ c1 with hx | hx
        · rw [← e, hw] at hx; exact absurd hx (by decide)
        · rw [← e, hw] at hx; exact absurd hx (by decide)
      have hL : (ip_learn st.ip pkt (ip_learnIndex st.ip.arpTable (read4 pkt 26))).arpTable i
          = st.ip.arpTable i := by
        unfold ip_learn
        simp only []
        rw [Function.update_noteq hne]
      generalize ip_learn st.ip pkt (ip_learnIndex st.ip.arpTable (read4 pkt 26)) = ipL at h hL
      have hwL : (ipL.arpTable i).state = ARPSTATE_WAITING := by rw [hL]; exact hw
      by_cases c2 : ip_originalChecksum pkt ≠ ip_headerChecksum pkt
      · rw [if_pos c2] at h
        rw [← Option.some.inj h]
        exact ⟨hwL, by rw [hL]⟩
      · rw [if_neg c2] at h
        by_cases c3 : ip_zeroChecksum pkt 23 = IPPACKETTYPE_ICMP
        · rw [if_pos c3] at h
          cases hs : icmp_handle wait ipL (fun i => ip_zeroChecksum pkt (14 + i)) with
          | none => rw [hs] at h; exact absurd h (by simp)
          | some r1 =>
            rw [hs] at h
            simp only [Option.map_some', Option.some.injEq] at h
            rw [← h]
            obtain ⟨a1, a2⟩ := icmp_handle_waiting wait i hwait ipL hwL _ r1 hs
            exact ⟨a1, by rw [← hL]; exact a2⟩
        · rw [if_neg c3] at h
          by_cases c4 : ip_zeroChecksum pkt 23 = IPPACKETTYPE_UDP
          · rw [if_pos c4] at h
            rw [← Option.some.inj h]
            exact ⟨hwL, by rw [← hL]⟩
          · rw [if_neg c4] at h
            by_cases c5 : ip_zeroChecksum pkt 23 = IPPACKETTYPE_TCP
            · rw [if_pos c5] at h
              cases ht : tcp_handle st.tcp (fun i => ip_zeroChecksum pkt (14 + i)) with
              | none => rw [ht] at h; exact absurd h (by simp)
              | some tcp1 =>
                rw [ht] at h
                simp only [] at h
                cases hs : ip_send_calls wait ipL (tcp1.sent.drop st.tcp.sent.length) with
                | none => rw [hs] at h; exact absurd h (by simp)
                | some ip2 =>
                  rw [hs] at h
                  simp only [Option.map_some', Option.some.injEq] at h
                  rw [← h]
                  obtain ⟨a1, a2⟩ := ip_send_calls_waiting wait i hwait _ ipL ip2 hwL hs
                  exact ⟨a1, by rw [← hL]; exact a2⟩
            · rw [if_neg c5] at h
              rw [← Option.some.inj h]
              exact ⟨hwL, by rw [← hL]⟩
    · rw [if_neg c1] at h
      rw [← Option.some.inj h]
      exact ⟨hw, rfl⟩

theorem ip_send_returns (wait : ipState → ipState) (st : ipState) (ip : List Nat)
    (protocol : Nat) (message : Mem) (msgLen : Nat) (h : msgLen + 20 < 65536) :
    ∃ st1, ip_send wait st ip protocol message msgLen = some st1 := by
  unfold ip_send
  rw [Nat.mod_eq_of_lt h]
  by_cases c1 : msgLen + 20 > ipBufSize
  · rw [if_pos c1]
    exact ⟨_, rfl⟩
  · rw [if_neg c1, if_neg c1]
    simp only []
    by_cases c3 : broadcastIP ≠ take4 ip
    · rw [if_pos c3]
      by_cases c4 : ip_lookup st ip ≥ MAX_ARP_ENTRIES
      · rw [if_pos c4]
        generalize arp_sendquery st
          (if ip_useGW st.netmask (take4 ip) (take4 st.localIP) then st.gatewayIP
           else take4 ip) = q
        by_cases c5 : q.1 < MAX_ARP_ENTRIES
        · rw [if_pos c5]
          by_cases c6 : ((wait q.2).arpTable q.1).state ≠ ARPSTATE_ENABLED
          · rw [if_pos c6]
            exact ⟨_, rfl⟩
          · rw [if_neg c6]
            exact ⟨_, rfl⟩
        · rw [if_neg c5]
          exact ⟨_, rfl⟩
      · rw [if_neg c4]
        exact ⟨_, rfl⟩
    · rw [if_neg c3]
      exact ⟨_, rfl⟩

/-- C39: an ARP entry in WAITING state is released only by a reply.  Its state and IP
address stay under every number of timer ticks, under every call of `ip_send` (which
returns, and allocates DISABLED entries only), and under `packet_receive` of every frame
that is not an ARP reply addressed to the local IP and MAC address with the entry's IP
address as sender; `wait` is what the interrupt handlers do to the table while `ip_send`
waits, taken to leave the entry alone. -/
theorem waiting_entry_kept (wait : ipState → ipState) (st : stackState) (i : Nat)
    (hw : (st.ip.arpTable i).state = ARPSTATE_WAITING)
    (hwait : ∀ s, (s.arpTable i).state = ARPSTATE_WAITING →
      ((wait s).arpTable i).state = ARPSTATE_WAITING ∧
      ((wait s).arpTable i).IP = (s.arpTable i).IP) :
    (∀ n, (Nat.iterate arp_tick n st.ip).arpTable i = st.ip.arpTable i) ∧
    (∀ (ip : List Nat) (protocol : Nat) (message : Mem) (msgLen : Nat),
      (msgLen + 20 < 65536 → ∃ st1, ip_send wait st.ip ip protocol message msgLen = some st1) ∧
      ∀ st1, ip_send wait st.ip ip protocol message msgLen = some st1 →
        (st1.arpTable i).state = ARPSTATE_WAITING ∧
        (st1.arpTable i).IP = (st.ip.arpTable i).IP) ∧
    (∀ (pkt : Mem) (r : stackState × Mem), ¬ arp_releases st.ip i pkt →
      packet_receive wait st pkt = some r →
      (r.1.ip.arpTable i).state = ARPSTATE_WAITING ∧
      (r.1.ip.arpTable i).IP = (st.ip.arpTable i).IP) := by
  refine ⟨?_, ?_, ?_⟩
  · intro n
    exact arp_ticks_keep i n st.ip (by rw [hw]; decide)
  · intro ip protocol message msgLen
    exact ⟨ip_send_returns wait st.ip ip protocol message msgLen,
      fun st1 h => ip_send_waiting wait i hwait st.ip hw ip protocol message msgLen st1 h⟩
  · intro pkt r hrel h
    unfold packet_receive at h
    simp only [] at h
    by_cases c1 : ((pkt 12 <<< 8) ||| (pkt 13 &&& 0xFF)) % 65536 = PACKETTYPE_ARP
    · rw [if_pos c1] at h
      rw [← Option.some.inj h]
      have hk := arp_handle_waiting st.ip i pkt
        (fun hx => hrel ⟨c1, hx.1, hx.2.1, hx.2.2.1, hx.2.2.2.1, hx.2.2.2.2⟩)
      simp only []
      rw [hk]
      exact ⟨hw, rfl⟩
    · rw [if_neg c1] at h
      by_cases c2 : ((pkt 12 <<< 8) ||| (pkt 13 &&& 0xFF)) % 65536 = PACKETTYPE_IP
      · rw [if_pos c2] at h
        exact ip_handle_waiting wait i hwait st hw pkt r h
      · rw [if_neg c2] at h
        rw [← Option.some.inj h]
        exact ⟨hw, rfl⟩

set_option maxRecDepth 16384 in
/-- The witness of `waiting_entry_kept`: the entry left WAITING for the gateway 192.168.2.1
is WAITING after 1000 timer ticks, and after the echo request of 192.168.2.50 has been
received and answered. -/
theorem waiting_entry_kept_witness :
    (Nat.iterate arp_tick 1000 ipStateWaiting).arpTable 0 = ipStateWaiting.arpTable 0 ∧
    (ipStateWaiting.arpTable 0).state = ARPSTATE_WAITING ∧
    (packet_receive noAnswer (stackOf ipStateWaiting) (echoRequest 0x40 0x00)).map
      (fun r => ((r.1.ip.arpTable 0).state, (r.1.ip.arpTable 0).IP, r.1.ip.frames.length))
      = some (ARPSTATE_WAITING, [192, 168, 2, 1], 1) := by
  have h := waiting_entry_kept noAnswer (stackOf ipStateWaiting) 0 (by decide)
    (fun s hs => ⟨hs, rfl⟩)
  refine ⟨h.1 1000, by decide, ?_⟩
  have hsome : ((packet_receive noAnswer (stackOf ipStateWaiting) (echoRequest 0x40 0x00)).map
      (fun r => r.1.ip.frames.length)) = some 1 := by decide
  cases hr : packet_receive noAnswer (stackOf ipStateWaiting) (echoRequest 0x40 0x00) with
  | none => rw [hr] at hsome; exact absurd hsome (by simp)
  | some r =>
    rw [hr] at hsome
    simp only [Option.map_some', Option.some.injEq] at hsome
    obtain ⟨a1, a2⟩ := h.2.2 (echoRequest 0x40 0x00) r (by decide) hr
    simp only [Option.map_some', Option.some.injEq, Prod.mk.injEq]
    exact ⟨a1, a2.trans (by decide), hsome⟩

end AvrNet
